import Mathlib

/-!
# DeliVerb: a shallow embedding of the DSP core

The C++ classes `Biquad`, `DelayLine`, `EnvelopeFollower`, `Ducker`, `Reverb`
and `DeliVerbDSP` are embedded as structures over an ordered field `α`
(`float` and `double` are read as exact numbers of `α`; the theorems about
`std::tanh` take `α = ℝ`).  Where the rounding of a machine operation decides a property,
the operation is rounded explicitly by `roundFloat` and `roundDouble`: the soft clip
(`DeliVerbDSP.softClipFloat`) and the read position of a delay line
(`DelayLine.readPosFloat`).  Member functions become pure functions that
return the new object, together with the value the C++ function returns.

* `size_t` values are natural numbers; `m_buffer.size() - 2` is taken
  modulo `2 ^ 64`.
* `static_cast<size_t>(x)` is `⌊x⌋₊`.
* The functions of `<cmath>` used on the control path (`sin`, `cos`, `exp`,
  `pow`, `sqrt`, the constant `M_PI`) are the fields of a `Libm α`;
  `std::tanh`, the only one used while rendering, is an explicit argument.
* C arrays of fixed size `n` are functions on `Fin n`.
-/

namespace DeliVerb

/-- The part of `<cmath>` that the coefficient computations call. -/
structure Libm (α : Type) where
  sin : α → α
  cos : α → α
  exp : α → α
  pow : α → α → α
  sqrt : α → α
  pi : α

/-- The loop `for (int i = 0; i < n; ++i) body(i)` over a state `σ`. -/
def forLoop {σ : Type} (n : Nat) (body : Fin n → σ → σ) (s : σ) : σ :=
  (List.finRange n).foldl (fun acc i => body i acc) s

section Embedding

variable {α : Type} [LinearOrderedField α] [FloorRing α]

/-! ## Biquad.h -/

/-- The enumeration `Biquad::Type`. -/
inductive BiquadType where
  | LowPass
  | HighPass
  | BandPass
  | Notch
  | Peak
  | LowShelf
  | HighShelf
  | AllPass
  deriving DecidableEq, Repr

/-- The class `Biquad`: sample rate, normalised coefficients, DF-II-T state. -/
structure Biquad (α : Type) where
  m_sampleRate : α
  m_b0 : α
  m_b1 : α
  m_b2 : α
  m_a1 : α
  m_a2 : α
  m_z1 : α
  m_z2 : α

/-- The default member initialisers of `Biquad`. -/
def Biquad.init : Biquad α :=
  { m_sampleRate := 44100, m_b0 := 1, m_b1 := 0, m_b2 := 0, m_a1 := 0, m_a2 := 0,
    m_z1 := 0, m_z2 := 0 }

/-- Member function `Biquad::setSampleRate`. -/
def Biquad.setSampleRate (b : Biquad α) (sampleRate : α) : Biquad α :=
  { b with m_sampleRate := sampleRate }

/-- The un-normalised cookbook coefficients `(b0, b1, b2, a0, a1, a2)` of the
`switch (type)` in `Biquad::setCoefficients`. -/
def Biquad.rawCoefficients (lm : Libm α) (type : BiquadType) (cosOmega alpha A : α) :
    α × α × α × α × α × α :=
  match type with
  | .LowPass =>
      ((1 - cosOmega) / 2, 1 - cosOmega, (1 - cosOmega) / 2,
        1 + alpha, -2 * cosOmega, 1 - alpha)
  | .HighPass =>
      ((1 + cosOmega) / 2, -(1 + cosOmega), (1 + cosOmega) / 2,
        1 + alpha, -2 * cosOmega, 1 - alpha)
  | .BandPass =>
      (alpha, 0, -alpha, 1 + alpha, -2 * cosOmega, 1 - alpha)
  | .Notch =>
      (1, -2 * cosOmega, 1, 1 + alpha, -2 * cosOmega, 1 - alpha)
  | .Peak =>
      (1 + alpha * A, -2 * cosOmega, 1 - alpha * A,
        1 + alpha / A, -2 * cosOmega, 1 - alpha / A)
  | .LowShelf =>
      let sqrtA := lm.sqrt A
      (A * ((A + 1) - (A - 1) * cosOmega + 2 * sqrtA * alpha),
        2 * A * ((A - 1) - (A + 1) * cosOmega),
        A * ((A + 1) - (A - 1) * cosOmega - 2 * sqrtA * alpha),
        (A + 1) + (A - 1) * cosOmega + 2 * sqrtA * alpha,
        -2 * ((A - 1) + (A + 1) * cosOmega),
        (A + 1) + (A - 1) * cosOmega - 2 * sqrtA * alpha)
  | .HighShelf =>
      let sqrtA := lm.sqrt A
      (A * ((A + 1) + (A - 1) * cosOmega + 2 * sqrtA * alpha),
        -2 * A * ((A - 1) + (A + 1) * cosOmega),
        A * ((A + 1) + (A - 1) * cosOmega - 2 * sqrtA * alpha),
        (A + 1) - (A - 1) * cosOmega + 2 * sqrtA * alpha,
        2 * ((A - 1) - (A + 1) * cosOmega),
        (A + 1) - (A - 1) * cosOmega - 2 * sqrtA * alpha)
  | .AllPass =>
      (1 - alpha, -2 * cosOmega, 1 + alpha, 1 + alpha, -2 * cosOmega, 1 - alpha)

/-- Member function `Biquad::setCoefficients(type, frequency, Q, gainDB)`. -/
def Biquad.setCoefficients (lm : Libm α) (b : Biquad α) (type : BiquadType)
    (frequency Q gainDB : α) : Biquad α :=
  if b.m_sampleRate ≤ 0 then b
  else
    let omega := 2 * lm.pi * frequency / b.m_sampleRate
    let sinOmega := lm.sin omega
    let cosOmega := lm.cos omega
    let alpha := sinOmega / (2 * Q)
    let A := lm.pow 10 (gainDB / 40)
    let c := Biquad.rawCoefficients lm type cosOmega alpha A
    { b with
      m_b0 := c.1 / c.2.2.2.1
      m_b1 := c.2.1 / c.2.2.2.1
      m_b2 := c.2.2.1 / c.2.2.2.1
      m_a1 := c.2.2.2.2.1 / c.2.2.2.1
      m_a2 := c.2.2.2.2.2 / c.2.2.2.1 }

/-- Member function `Biquad::process`: the new filter and the returned sample. -/
def Biquad.process (b : Biquad α) (input : α) : Biquad α × α :=
  let output := b.m_b0 * input + b.m_z1
  let z1 := b.m_b1 * input - b.m_a1 * output + b.m_z2
  let z2 := b.m_b2 * input - b.m_a2 * output
  ({ b with m_z1 := z1, m_z2 := z2 }, output)

/-- Member function `Biquad::reset`. -/
def Biquad.reset (b : Biquad α) : Biquad α :=
  { b with m_z1 := 0, m_z2 := 0 }

/-! ## DelayLine.h -/

/-- The class `DelayLine`: sample rate, `std::vector<float>` buffer, write index. -/
structure DelayLine (α : Type) where
  m_sampleRate : α
  m_buffer : List α
  m_writeIndex : Nat

/-- The default member initialisers of `DelayLine`. -/
def DelayLine.init : DelayLine α :=
  { m_sampleRate := 44100, m_buffer := [], m_writeIndex := 0 }

/-- The call `v.resize(n, x)` of `std::vector`: the first `n` elements are kept,
new elements are copies of `x`. -/
def vectorResize (v : List α) (n : Nat) (x : α) : List α :=
  v.take n ++ List.replicate (n - v.length) x

/-- The `size_t` expression `m_buffer.size() - 2`. -/
def sizeMinusTwo (size : Nat) : Nat :=
  (size + 2 ^ 64 - 2) % 2 ^ 64

/-- Member function `DelayLine::setSampleRate`. -/
def DelayLine.setSampleRate (d : DelayLine α) (sampleRate : α) : DelayLine α :=
  { d with m_sampleRate := sampleRate }

/-- Member function `DelayLine::setMaxDelayMs`. -/
def DelayLine.setMaxDelayMs (d : DelayLine α) (maxDelayMs : α) : DelayLine α :=
  let maxSamples := ⌊d.m_sampleRate * maxDelayMs / 1000⌋₊ + 4
  { d with m_buffer := vectorResize d.m_buffer maxSamples 0, m_writeIndex := 0 }

/-- Member function `DelayLine::write`. -/
def DelayLine.write (d : DelayLine α) (sample : α) : DelayLine α :=
  if d.m_buffer.isEmpty then d
  else
    let buffer := d.m_buffer.set d.m_writeIndex sample
    let writeIndex := d.m_writeIndex + 1
    { d with
      m_buffer := buffer
      m_writeIndex := if writeIndex ≥ buffer.length then 0 else writeIndex }

/-- The part of `DelayLine::read` and `DelayLine::readSamples` after the
conversion to samples: clamp, read position, linear interpolation, in exact arithmetic.
The read position as the `float` operations round it is `DelayLine.readPosFloat`. -/
def DelayLine.interpolate (d : DelayLine α) (delaySamples : α) : α :=
  let delaySamples := max 1 delaySamples
  let delaySamples := min delaySamples ((sizeMinusTwo d.m_buffer.length : Nat) : α)
  let readPos := (d.m_writeIndex : α) - delaySamples
  let readPos := if readPos < 0 then readPos + (d.m_buffer.length : α) else readPos
  let index0 := ⌊readPos⌋₊
  let index1 := if index0 + 1 ≥ d.m_buffer.length then 0 else index0 + 1
  let frac := readPos - (index0 : α)
  d.m_buffer.getD index0 0 * (1 - frac) + d.m_buffer.getD index1 0 * frac

/-- The local `readPos` of `DelayLine::read` and `DelayLine::readSamples` after the
wrap `if (readPos < 0.0f) readPos += size`, for a delay of `delaySamples` samples, in
exact arithmetic (`DelayLine.readPosFloat` is its value in `float` arithmetic). -/
def DelayLine.readPos (d : DelayLine α) (delaySamples : α) : α :=
  let delaySamples := max 1 delaySamples
  let delaySamples := min delaySamples ((sizeMinusTwo d.m_buffer.length : Nat) : α)
  let readPos := (d.m_writeIndex : α) - delaySamples
  if readPos < 0 then readPos + (d.m_buffer.length : α) else readPos

/-- The local `index0` of `DelayLine::read` and `DelayLine::readSamples`, in exact
arithmetic (`DelayLine.index0Float` is its value in `float` arithmetic). -/
def DelayLine.index0 (d : DelayLine α) (delaySamples : α) : Nat :=
  ⌊d.readPos delaySamples⌋₊

/-- The local `index1` of `DelayLine::read` and `DelayLine::readSamples`, in exact
arithmetic (`DelayLine.index1Float` is its value in `float` arithmetic). -/
def DelayLine.index1 (d : DelayLine α) (delaySamples : α) : Nat :=
  if d.index0 delaySamples + 1 ≥ d.m_buffer.length then 0 else d.index0 delaySamples + 1

/-- Member function `DelayLine::read(delayMs)`. -/
def DelayLine.read (d : DelayLine α) (delayMs : α) : α :=
  if d.m_buffer.isEmpty then 0
  else d.interpolate (delayMs * d.m_sampleRate / 1000)

/-- Member function `DelayLine::readSamples(delaySamples)`. -/
def DelayLine.readSamples (d : DelayLine α) (delaySamples : α) : α :=
  if d.m_buffer.isEmpty then 0
  else d.interpolate delaySamples

/-- Member function `DelayLine::reset`. -/
def DelayLine.reset (d : DelayLine α) : DelayLine α :=
  { d with m_buffer := List.replicate d.m_buffer.length 0, m_writeIndex := 0 }

/-! ## Ducker.h -/

/-- The class `EnvelopeFollower`. -/
structure EnvelopeFollower (α : Type) where
  m_sampleRate : α
  m_attackMs : α
  m_releaseMs : α
  m_attackCoeff : α
  m_releaseCoeff : α
  m_envelope : α

/-- The default member initialisers of `EnvelopeFollower`. -/
def EnvelopeFollower.init : EnvelopeFollower α :=
  { m_sampleRate := 44100, m_attackMs := 10, m_releaseMs := 100,
    m_attackCoeff := 0.99, m_releaseCoeff := 0.9999, m_envelope := 0 }

/-- Member function `EnvelopeFollower::updateCoefficients`. -/
def EnvelopeFollower.updateCoefficients (lm : Libm α) (e : EnvelopeFollower α) :
    EnvelopeFollower α :=
  if e.m_sampleRate ≤ 0 then e
  else
    { e with
      m_attackCoeff := lm.exp (-1 / (e.m_attackMs * 0.001 * e.m_sampleRate))
      m_releaseCoeff := lm.exp (-1 / (e.m_releaseMs * 0.001 * e.m_sampleRate)) }

/-- Member function `EnvelopeFollower::setSampleRate`. -/
def EnvelopeFollower.setSampleRate (lm : Libm α) (e : EnvelopeFollower α) (sampleRate : α) :
    EnvelopeFollower α :=
  EnvelopeFollower.updateCoefficients lm { e with m_sampleRate := sampleRate }

/-- Member function `EnvelopeFollower::setAttackMs`. -/
def EnvelopeFollower.setAttackMs (lm : Libm α) (e : EnvelopeFollower α) (attackMs : α) :
    EnvelopeFollower α :=
  EnvelopeFollower.updateCoefficients lm { e with m_attackMs := attackMs }

/-- Member function `EnvelopeFollower::setReleaseMs`. -/
def EnvelopeFollower.setReleaseMs (lm : Libm α) (e : EnvelopeFollower α) (releaseMs : α) :
    EnvelopeFollower α :=
  EnvelopeFollower.updateCoefficients lm { e with m_releaseMs := releaseMs }

/-- Member function `EnvelopeFollower::process`: the new follower and the returned envelope. -/
def EnvelopeFollower.process (e : EnvelopeFollower α) (input : α) : EnvelopeFollower α × α :=
  let absInput := |input|
  let envelope :=
    if absInput > e.m_envelope then
      e.m_attackCoeff * e.m_envelope + (1 - e.m_attackCoeff) * absInput
    else
      e.m_releaseCoeff * e.m_envelope + (1 - e.m_releaseCoeff) * absInput
  ({ e with m_envelope := envelope }, envelope)

/-- Member function `EnvelopeFollower::reset`. -/
def EnvelopeFollower.reset (e : EnvelopeFollower α) : EnvelopeFollower α :=
  { e with m_envelope := 0 }

/-- The class `Ducker`. -/
structure Ducker (α : Type) where
  m_sampleRate : α
  m_envelopeFollower : EnvelopeFollower α
  m_delayAmount : α
  m_reverbAmount : α
  m_behaviour : α

/-- The default member initialisers of `Ducker`. -/
def Ducker.init : Ducker α :=
  { m_sampleRate := 44100, m_envelopeFollower := EnvelopeFollower.init,
    m_delayAmount := 0, m_reverbAmount := 0, m_behaviour := 0.5 }

/-- Member function `Ducker::setSampleRate`. -/
def Ducker.setSampleRate (lm : Libm α) (d : Ducker α) (sampleRate : α) : Ducker α :=
  let f := d.m_envelopeFollower.setSampleRate lm sampleRate
  let f := f.setAttackMs lm 5
  let f := f.setReleaseMs lm 150
  { d with m_sampleRate := sampleRate, m_envelopeFollower := f }

/-- Member function `Ducker::setDelayAmount`. -/
def Ducker.setDelayAmount (d : Ducker α) (amount : α) : Ducker α :=
  { d with m_delayAmount := max 0 (min 1 amount) }

/-- Member function `Ducker::setReverbAmount`. -/
def Ducker.setReverbAmount (d : Ducker α) (amount : α) : Ducker α :=
  { d with m_reverbAmount := max 0 (min 1 amount) }

/-- Member function `Ducker::setBehaviour`. -/
def Ducker.setBehaviour (d : Ducker α) (behaviour : α) : Ducker α :=
  { d with m_behaviour := max 0 (min 1 behaviour) }

/-- Member function `Ducker::process`: the new ducker and the pair `(delayGain, reverbGain)`. -/
def Ducker.process (d : Ducker α) (inputL inputR : α) : Ducker α × α × α :=
  let r := d.m_envelopeFollower.process ((|inputL| + |inputR|) * 0.5)
  let envelope := r.2
  let normalizedEnv := min 1 (envelope * 4)
  let baseDucking := normalizedEnv
  let delayDuckFactor := 1 - d.m_behaviour
  let reverbDuckFactor := d.m_behaviour
  let delayDuck := baseDucking * delayDuckFactor * d.m_delayAmount
  let reverbDuck := baseDucking * reverbDuckFactor * d.m_reverbAmount
  let invEnv := 1 - normalizedEnv
  let delaySwell := invEnv * (1 - delayDuckFactor) * d.m_delayAmount * 0.3
  let reverbSwell := invEnv * (1 - reverbDuckFactor) * d.m_reverbAmount * 0.3
  let delayGain := max 0 (min 1 (1 - delayDuck + delaySwell))
  let reverbGain := max 0 (min 1 (1 - reverbDuck + reverbSwell))
  ({ d with m_envelopeFollower := r.1 }, delayGain, reverbGain)

/-- Member function `Ducker::reset`. -/
def Ducker.reset (d : Ducker α) : Ducker α :=
  { d with m_envelopeFollower := d.m_envelopeFollower.reset }

/-! ## Reverb.h -/

/-- The constant `Reverb::kNumAllpass`. -/
abbrev kNumAllpass : Nat := 4

/-- The constant `Reverb::kNumComb`. -/
abbrev kNumComb : Nat := 8

/-- The class `Reverb`. -/
structure Reverb (α : Type) where
  m_sampleRate : α
  m_size : α
  m_style : α
  m_lowCutFreq : α
  m_highCutFreq : α
  m_scoopAmount : α
  m_allpassDelays : Fin kNumAllpass → α
  m_allpassFeedback : α
  m_combDelays : Fin kNumComb → α
  m_combFeedback : α
  m_stereoSpread : α
  m_allpass : Fin kNumAllpass → DelayLine α
  m_combL : Fin kNumComb → DelayLine α
  m_combR : Fin kNumComb → DelayLine α
  m_combFilterL : Fin kNumComb → Biquad α
  m_combFilterR : Fin kNumComb → Biquad α
  m_preDelayL : DelayLine α
  m_preDelayR : DelayLine α
  m_inputLowCutL : Biquad α
  m_inputLowCutR : Biquad α
  m_inputHighCutL : Biquad α
  m_inputHighCutR : Biquad α
  m_inputScoopL : Biquad α
  m_inputScoopR : Biquad α

/-- The default member initialisers of `Reverb`.  The arrays `m_allpassDelays`
and `m_combDelays` have none in the source (their first values are
indeterminate until `updateParameters` runs); they start at `0` here. -/
def Reverb.init : Reverb α :=
  { m_sampleRate := 44100, m_size := 0.5, m_style := 0, m_lowCutFreq := 100,
    m_highCutFreq := 10000, m_scoopAmount := 0,
    m_allpassDelays := fun _ => 0, m_allpassFeedback := 0.5,
    m_combDelays := fun _ => 0, m_combFeedback := 0.8, m_stereoSpread := 1.03,
    m_allpass := fun _ => DelayLine.init,
    m_combL := fun _ => DelayLine.init, m_combR := fun _ => DelayLine.init,
    m_combFilterL := fun _ => Biquad.init, m_combFilterR := fun _ => Biquad.init,
    m_preDelayL := DelayLine.init, m_preDelayR := DelayLine.init,
    m_inputLowCutL := Biquad.init, m_inputLowCutR := Biquad.init,
    m_inputHighCutL := Biquad.init, m_inputHighCutR := Biquad.init,
    m_inputScoopL := Biquad.init, m_inputScoopR := Biquad.init }

/-- Member function `Reverb::updateFilters`. -/
def Reverb.updateFilters (lm : Libm α) (r : Reverb α) : Reverb α :=
  let scoopGain := r.m_scoopAmount * -12
  { r with
    m_inputLowCutL := r.m_inputLowCutL.setCoefficients lm .HighPass r.m_lowCutFreq 0.707 0
    m_inputLowCutR := r.m_inputLowCutR.setCoefficients lm .HighPass r.m_lowCutFreq 0.707 0
    m_inputHighCutL := r.m_inputHighCutL.setCoefficients lm .LowPass r.m_highCutFreq 0.707 0
    m_inputHighCutR := r.m_inputHighCutR.setCoefficients lm .LowPass r.m_highCutFreq 0.707 0
    m_inputScoopL := r.m_inputScoopL.setCoefficients lm .Peak 500 0.7 scoopGain
    m_inputScoopR := r.m_inputScoopR.setCoefficients lm .Peak 500 0.7 scoopGain }

/-- One pass of the loop over the comb damping filters in `Reverb::updateParameters`. -/
def Reverb.updateCombFilter (lm : Libm α) (dampingFreq : α) (i : Fin kNumComb)
    (r : Reverb α) : Reverb α :=
  { r with
    m_combFilterL := Function.update r.m_combFilterL i
      ((r.m_combFilterL i).setCoefficients lm .LowPass dampingFreq 0.707 0)
    m_combFilterR := Function.update r.m_combFilterR i
      ((r.m_combFilterR i).setCoefficients lm .LowPass dampingFreq 0.707 0) }

/-- Member function `Reverb::updateParameters`. -/
def Reverb.updateParameters (lm : Libm α) (r : Reverb α) : Reverb α :=
  let sizeScale := 0.5 + r.m_size * 1.5
  let r : Reverb α := { r with
    m_allpassDelays := ![4.77 * sizeScale, 5.93 * sizeScale, 7.11 * sizeScale,
      8.17 * sizeScale] }
  let r : Reverb α := { r with m_allpassFeedback := 0.5 + r.m_style * 0.25 }
  let r : Reverb α := { r with
    m_combDelays := ![25.31 * sizeScale, 26.93 * sizeScale, 28.97 * sizeScale,
      30.71 * sizeScale, 32.83 * sizeScale, 34.49 * sizeScale, 36.37 * sizeScale,
      38.89 * sizeScale] }
  let r : Reverb α := { r with m_combFeedback := 0.7 + r.m_size * 0.25 }
  let r : Reverb α := { r with m_combFeedback := min 0.98 r.m_combFeedback }
  let dampingFreq := 4000 + r.m_style * 8000
  let r := forLoop kNumComb (Reverb.updateCombFilter lm dampingFreq) r
  let r : Reverb α := { r with m_stereoSpread := 1.02 + r.m_style * 0.02 }
  Reverb.updateFilters lm r

/-- The first loop of `Reverb::setSampleRate` (allpass diffusers), one pass. -/
def Reverb.prepareAllpass (sampleRate : α) (i : Fin kNumAllpass) (r : Reverb α) : Reverb α :=
  { r with
    m_allpass := Function.update r.m_allpass i
      (((r.m_allpass i).setSampleRate sampleRate).setMaxDelayMs 100) }

/-- The second loop of `Reverb::setSampleRate` (comb lines and filters), one pass. -/
def Reverb.prepareComb (sampleRate : α) (i : Fin kNumComb) (r : Reverb α) : Reverb α :=
  { r with
    m_combL := Function.update r.m_combL i
      (((r.m_combL i).setSampleRate sampleRate).setMaxDelayMs 200)
    m_combR := Function.update r.m_combR i
      (((r.m_combR i).setSampleRate sampleRate).setMaxDelayMs 200)
    m_combFilterL := Function.update r.m_combFilterL i
      ((r.m_combFilterL i).setSampleRate sampleRate)
    m_combFilterR := Function.update r.m_combFilterR i
      ((r.m_combFilterR i).setSampleRate sampleRate) }

/-- Member function `Reverb::setSampleRate`. -/
def Reverb.setSampleRate (lm : Libm α) (r : Reverb α) (sampleRate : α) : Reverb α :=
  let r : Reverb α := { r with m_sampleRate := sampleRate }
  let r := forLoop kNumAllpass (Reverb.prepareAllpass sampleRate) r
  let r := forLoop kNumComb (Reverb.prepareComb sampleRate) r
  let r : Reverb α := { r with
    m_preDelayL := (r.m_preDelayL.setSampleRate sampleRate).setMaxDelayMs 100
    m_preDelayR := (r.m_preDelayR.setSampleRate sampleRate).setMaxDelayMs 100 }
  let r : Reverb α := { r with
    m_inputLowCutL := r.m_inputLowCutL.setSampleRate sampleRate
    m_inputLowCutR := r.m_inputLowCutR.setSampleRate sampleRate
    m_inputHighCutL := r.m_inputHighCutL.setSampleRate sampleRate
    m_inputHighCutR := r.m_inputHighCutR.setSampleRate sampleRate
    m_inputScoopL := r.m_inputScoopL.setSampleRate sampleRate
    m_inputScoopR := r.m_inputScoopR.setSampleRate sampleRate }
  Reverb.updateParameters lm r

/-- Member function `Reverb::setSize`. -/
def Reverb.setSize (lm : Libm α) (r : Reverb α) (size : α) : Reverb α :=
  Reverb.updateParameters lm { r with m_size := max 0 (min 1 size) }

/-- Member function `Reverb::setStyle`. -/
def Reverb.setStyle (lm : Libm α) (r : Reverb α) (style : α) : Reverb α :=
  Reverb.updateParameters lm { r with m_style := max 0 (min 1 style) }

/-- Member function `Reverb::setLowCut`. -/
def Reverb.setLowCut (lm : Libm α) (r : Reverb α) (freqHz : α) : Reverb α :=
  Reverb.updateFilters lm { r with m_lowCutFreq := max 20 (min 2000 freqHz) }

/-- Member function `Reverb::setHighCut`. -/
def Reverb.setHighCut (lm : Libm α) (r : Reverb α) (freqHz : α) : Reverb α :=
  Reverb.updateFilters lm { r with m_highCutFreq := max 1000 (min 20000 freqHz) }

/-- Member function `Reverb::setScoopAmount`. -/
def Reverb.setScoopAmount (lm : Libm α) (r : Reverb α) (amount : α) : Reverb α :=
  Reverb.updateFilters lm { r with m_scoopAmount := max 0 (min 1 amount) }

/-- Member function `Reverb::processAllpass`: the new delay line and the returned sample. -/
def Reverb.processAllpass (delay : DelayLine α) (input delayMs feedback : α) :
    DelayLine α × α :=
  let delayed := delay.read delayMs
  let output := -input + delayed
  (delay.write (input + delayed * feedback), output)

/-- One pass of the allpass loop of `Reverb::process`; the loop state is the
reverb with the locals `diffL`, `diffR`. -/
def Reverb.diffuse (i : Fin kNumAllpass) (st : Reverb α × α × α) : Reverb α × α × α :=
  let r := st.1
  let a := Reverb.processAllpass (r.m_allpass i) st.2.1 (r.m_allpassDelays i)
    r.m_allpassFeedback
  let r : Reverb α := { r with m_allpass := Function.update r.m_allpass i a.1 }
  let b := Reverb.processAllpass (r.m_allpass i) st.2.2 (r.m_allpassDelays i * 1.03)
    r.m_allpassFeedback
  let r : Reverb α := { r with m_allpass := Function.update r.m_allpass i b.1 }
  (r, a.2, b.2)

/-- One pass of the comb loop of `Reverb::process`; the loop state is the
reverb with the locals `combSumL`, `combSumR`. -/
def Reverb.comb (diffL diffR : α) (i : Fin kNumComb) (st : Reverb α × α × α) :
    Reverb α × α × α :=
  let r := st.1
  let combOutL := (r.m_combL i).read (r.m_combDelays i)
  let fL := (r.m_combFilterL i).process combOutL
  let combOutL := fL.2
  let r : Reverb α := { r with
    m_combFilterL := Function.update r.m_combFilterL i fL.1
    m_combL := Function.update r.m_combL i
      ((r.m_combL i).write (diffL + combOutL * r.m_combFeedback)) }
  let combSumL := st.2.1 + combOutL
  let combOutR := (r.m_combR i).read (r.m_combDelays i * r.m_stereoSpread)
  let fR := (r.m_combFilterR i).process combOutR
  let combOutR := fR.2
  let r : Reverb α := { r with
    m_combFilterR := Function.update r.m_combFilterR i fR.1
    m_combR := Function.update r.m_combR i
      ((r.m_combR i).write (diffR + combOutR * r.m_combFeedback)) }
  let combSumR := st.2.2 + combOutR
  (r, combSumL, combSumR)

/-- Member function `Reverb::process`: the new reverb and the pair `(outputL, outputR)`. -/
def Reverb.process (r : Reverb α) (inputL inputR : α) : Reverb α × α × α :=
  let lcL := r.m_inputLowCutL.process inputL
  let hcL := r.m_inputHighCutL.process lcL.2
  let scL := r.m_inputScoopL.process hcL.2
  let filteredL := scL.2
  let lcR := r.m_inputLowCutR.process inputR
  let hcR := r.m_inputHighCutR.process lcR.2
  let scR := r.m_inputScoopR.process hcR.2
  let filteredR := scR.2
  let r : Reverb α := { r with
    m_inputLowCutL := lcL.1, m_inputHighCutL := hcL.1, m_inputScoopL := scL.1
    m_inputLowCutR := lcR.1, m_inputHighCutR := hcR.1, m_inputScoopR := scR.1 }
  let preDelayMs := 5 + r.m_size * 40
  let r : Reverb α := { r with
    m_preDelayL := r.m_preDelayL.write filteredL
    m_preDelayR := r.m_preDelayR.write filteredR }
  let preL := r.m_preDelayL.read preDelayMs
  let preR := r.m_preDelayR.read (preDelayMs + 1.5)
  let st := forLoop kNumAllpass Reverb.diffuse (r, preL, preR)
  let diffL := st.2.1
  let diffR := st.2.2
  let st := forLoop kNumComb (Reverb.comb diffL diffR) (st.1, 0, 0)
  (st.1, st.2.1 * 0.25, st.2.2 * 0.25)

/-- One pass of the second loop of `Reverb::reset`. -/
def Reverb.resetComb (i : Fin kNumComb) (r : Reverb α) : Reverb α :=
  { r with
    m_combL := Function.update r.m_combL i (r.m_combL i).reset
    m_combR := Function.update r.m_combR i (r.m_combR i).reset
    m_combFilterL := Function.update r.m_combFilterL i (r.m_combFilterL i).reset
    m_combFilterR := Function.update r.m_combFilterR i (r.m_combFilterR i).reset }

/-- One pass of the first loop of `Reverb::reset`. -/
def Reverb.resetAllpass (i : Fin kNumAllpass) (r : Reverb α) : Reverb α :=
  { r with m_allpass := Function.update r.m_allpass i (r.m_allpass i).reset }

/-- Member function `Reverb::reset`. -/
def Reverb.reset (r : Reverb α) : Reverb α :=
  let r := forLoop kNumAllpass Reverb.resetAllpass r
  let r := forLoop kNumComb Reverb.resetComb r
  { r with
    m_preDelayL := r.m_preDelayL.reset
    m_preDelayR := r.m_preDelayR.reset
    m_inputLowCutL := r.m_inputLowCutL.reset
    m_inputLowCutR := r.m_inputLowCutR.reset
    m_inputHighCutL := r.m_inputHighCutL.reset
    m_inputHighCutR := r.m_inputHighCutR.reset
    m_inputScoopL := r.m_inputScoopL.reset
    m_inputScoopR := r.m_inputScoopR.reset }

/-! ## DeliVerbDSP.h -/

/-- The enumeration `DeliVerbDSP::ParamID`. -/
inductive ParamID where
  | kDelayTime
  | kDelayRepeat
  | kDelayMix
  | kReverbSize
  | kReverbStyle
  | kReverbMix
  | kDelayLowCut
  | kDelayHighCut
  | kReverbLowCut
  | kReverbHighCut
  | kDuckDelayAmount
  | kDuckReverbAmount
  | kDuckBehaviour
  | kAdvanced
  | kNumParams
  deriving DecidableEq, Repr

/-- The numeric value of an enumerator of `ParamID`. -/
def ParamID.toNat : ParamID → Nat
  | .kDelayTime => 0
  | .kDelayRepeat => 1
  | .kDelayMix => 2
  | .kReverbSize => 3
  | .kReverbStyle => 4
  | .kReverbMix => 5
  | .kDelayLowCut => 6
  | .kDelayHighCut => 7
  | .kReverbLowCut => 8
  | .kReverbHighCut => 9
  | .kDuckDelayAmount => 10
  | .kDuckReverbAmount => 11
  | .kDuckBehaviour => 12
  | .kAdvanced => 13
  | .kNumParams => 14

/-- The fourteen parameter ids, in the order of the enumeration. -/
def ParamID.all : List ParamID :=
  [.kDelayTime, .kDelayRepeat, .kDelayMix, .kReverbSize, .kReverbStyle, .kReverbMix,
    .kDelayLowCut, .kDelayHighCut, .kReverbLowCut, .kReverbHighCut,
    .kDuckDelayAmount, .kDuckReverbAmount, .kDuckBehaviour, .kAdvanced]

/-- The class `DeliVerbDSP`. -/
structure DeliVerbDSP (α : Type) where
  m_sampleRate : α
  m_delayTime : α
  m_delayRepeat : α
  m_delayMix : α
  m_reverbSize : α
  m_reverbStyle : α
  m_reverbMix : α
  m_delayLowCut : α
  m_delayHighCut : α
  m_reverbLowCut : α
  m_reverbHighCut : α
  m_duckDelayAmount : α
  m_duckReverbAmount : α
  m_duckBehaviour : α
  m_advanced : Bool
  m_delayL : DelayLine α
  m_delayR : DelayLine α
  m_reverb : Reverb α
  m_ducker : Ducker α
  m_delayLowCutL : Biquad α
  m_delayLowCutR : Biquad α
  m_delayHighCutL : Biquad α
  m_delayHighCutR : Biquad α
  m_delayFeedbackFilterL : Biquad α
  m_delayFeedbackFilterR : Biquad α

/-- Member function `DeliVerbDSP::setDefaultParameters`. -/
def DeliVerbDSP.setDefaultParameters (s : DeliVerbDSP α) : DeliVerbDSP α :=
  { s with
    m_delayTime := 300
    m_delayRepeat := 0.3
    m_delayMix := 0.3
    m_reverbSize := 0.5
    m_reverbStyle := 0
    m_reverbMix := 0.3
    m_delayLowCut := 80
    m_delayHighCut := 8000
    m_reverbLowCut := 100
    m_reverbHighCut := 10000
    m_duckDelayAmount := 0
    m_duckReverbAmount := 0
    m_duckBehaviour := 0.5
    m_advanced := false }

/-- The members of a `DeliVerbDSP` before the constructor body runs: the
components with their default initialisers; the fourteen parameters have
none and are written by the constructor body before any use. -/
def DeliVerbDSP.members : DeliVerbDSP α :=
  { m_sampleRate := 44100
    m_delayTime := 0, m_delayRepeat := 0, m_delayMix := 0
    m_reverbSize := 0, m_reverbStyle := 0, m_reverbMix := 0
    m_delayLowCut := 0, m_delayHighCut := 0, m_reverbLowCut := 0, m_reverbHighCut := 0
    m_duckDelayAmount := 0, m_duckReverbAmount := 0, m_duckBehaviour := 0
    m_advanced := false
    m_delayL := DelayLine.init, m_delayR := DelayLine.init
    m_reverb := Reverb.init, m_ducker := Ducker.init
    m_delayLowCutL := Biquad.init, m_delayLowCutR := Biquad.init
    m_delayHighCutL := Biquad.init, m_delayHighCutR := Biquad.init
    m_delayFeedbackFilterL := Biquad.init, m_delayFeedbackFilterR := Biquad.init }

/-- The constructor `DeliVerbDSP::DeliVerbDSP()`. -/
def DeliVerbDSP.init : DeliVerbDSP α :=
  DeliVerbDSP.setDefaultParameters DeliVerbDSP.members

/-- Member function `DeliVerbDSP::updateParameters`. -/
def DeliVerbDSP.updateParameters (lm : Libm α) (s : DeliVerbDSP α) : DeliVerbDSP α :=
  let s : DeliVerbDSP α := { s with m_reverb := s.m_reverb.setSize lm s.m_reverbSize }
  let s : DeliVerbDSP α := { s with m_reverb := s.m_reverb.setStyle lm s.m_reverbStyle }
  let s : DeliVerbDSP α := { s with m_reverb := s.m_reverb.setLowCut lm s.m_reverbLowCut }
  let s : DeliVerbDSP α := { s with m_reverb := s.m_reverb.setHighCut lm s.m_reverbHighCut }
  let s : DeliVerbDSP α := { s with
    m_delayLowCutL := s.m_delayLowCutL.setCoefficients lm .HighPass s.m_delayLowCut 0.707 0
    m_delayLowCutR := s.m_delayLowCutR.setCoefficients lm .HighPass s.m_delayLowCut 0.707 0
    m_delayHighCutL := s.m_delayHighCutL.setCoefficients lm .LowPass s.m_delayHighCut 0.707 0
    m_delayHighCutR :=
      s.m_delayHighCutR.setCoefficients lm .LowPass s.m_delayHighCut 0.707 0 }
  let d := s.m_ducker.setDelayAmount s.m_duckDelayAmount
  let d := d.setReverbAmount s.m_duckReverbAmount
  let d := d.setBehaviour s.m_duckBehaviour
  { s with m_ducker := d }

/-- Member function `DeliVerbDSP::setSampleRate`. -/
def DeliVerbDSP.setSampleRate (lm : Libm α) (s : DeliVerbDSP α) (sampleRate : α) :
    DeliVerbDSP α :=
  let s : DeliVerbDSP α := { s with m_sampleRate := sampleRate }
  let s : DeliVerbDSP α := { s with
    m_delayL := (s.m_delayL.setSampleRate sampleRate).setMaxDelayMs 2100
    m_delayR := (s.m_delayR.setSampleRate sampleRate).setMaxDelayMs 2100 }
  let s : DeliVerbDSP α := { s with m_reverb := s.m_reverb.setSampleRate lm sampleRate }
  let s : DeliVerbDSP α := { s with m_ducker := s.m_ducker.setSampleRate lm sampleRate }
  let s : DeliVerbDSP α := { s with
    m_delayLowCutL := s.m_delayLowCutL.setSampleRate sampleRate
    m_delayLowCutR := s.m_delayLowCutR.setSampleRate sampleRate
    m_delayHighCutL := s.m_delayHighCutL.setSampleRate sampleRate
    m_delayHighCutR := s.m_delayHighCutR.setSampleRate sampleRate }
  let s : DeliVerbDSP α := { s with
    m_delayFeedbackFilterL :=
      (s.m_delayFeedbackFilterL.setSampleRate sampleRate).setCoefficients lm
        .LowPass 12000 0.707 0
    m_delayFeedbackFilterR :=
      (s.m_delayFeedbackFilterR.setSampleRate sampleRate).setCoefficients lm
        .LowPass 12000 0.707 0 }
  DeliVerbDSP.updateParameters lm s

/-- The `switch (param)` of `DeliVerbDSP::setParameter`: the store into the member. -/
def DeliVerbDSP.storeParameter (s : DeliVerbDSP α) (param : ParamID) (value : α) :
    DeliVerbDSP α :=
  match param with
  | .kDelayTime => { s with m_delayTime := value }
  | .kDelayRepeat => { s with m_delayRepeat := value }
  | .kDelayMix => { s with m_delayMix := value }
  | .kReverbSize => { s with m_reverbSize := value }
  | .kReverbStyle => { s with m_reverbStyle := value }
  | .kReverbMix => { s with m_reverbMix := value }
  | .kDelayLowCut => { s with m_delayLowCut := value }
  | .kDelayHighCut => { s with m_delayHighCut := value }
  | .kReverbLowCut => { s with m_reverbLowCut := value }
  | .kReverbHighCut => { s with m_reverbHighCut := value }
  | .kDuckDelayAmount => { s with m_duckDelayAmount := value }
  | .kDuckReverbAmount => { s with m_duckReverbAmount := value }
  | .kDuckBehaviour => { s with m_duckBehaviour := value }
  | .kAdvanced => { s with m_advanced := decide (value > 0.5) }
  | .kNumParams => s

/-- Member function `DeliVerbDSP::setParameter`. -/
def DeliVerbDSP.setParameter (lm : Libm α) (s : DeliVerbDSP α) (param : ParamID)
    (value : α) : DeliVerbDSP α :=
  DeliVerbDSP.updateParameters lm (s.storeParameter param value)

/-- Member function `DeliVerbDSP::getParameter`. -/
def DeliVerbDSP.getParameter (s : DeliVerbDSP α) (param : ParamID) : α :=
  match param with
  | .kDelayTime => s.m_delayTime
  | .kDelayRepeat => s.m_delayRepeat
  | .kDelayMix => s.m_delayMix
  | .kReverbSize => s.m_reverbSize
  | .kReverbStyle => s.m_reverbStyle
  | .kReverbMix => s.m_reverbMix
  | .kDelayLowCut => s.m_delayLowCut
  | .kDelayHighCut => s.m_delayHighCut
  | .kReverbLowCut => s.m_reverbLowCut
  | .kReverbHighCut => s.m_reverbHighCut
  | .kDuckDelayAmount => s.m_duckDelayAmount
  | .kDuckReverbAmount => s.m_duckReverbAmount
  | .kDuckBehaviour => s.m_duckBehaviour
  | .kAdvanced => if s.m_advanced then 1 else 0
  | .kNumParams => 0

/-- The body of the loop of `DeliVerbDSP::processStereo` for one frame
`(dryL, dryR)`: the new processor and the pair `(outputL[i], outputR[i])`.  The last
statement, the soft clip, is `tanh (out * 0.9) / 0.9` in exact arithmetic for the given
function `tanh`; the same statement in `float` arithmetic is `DeliVerbDSP.softClipFloat`. -/
def DeliVerbDSP.processStereoFrame (tanh : α → α) (s : DeliVerbDSP α) (dryL dryR : α) :
    DeliVerbDSP α × α × α :=
  let g := s.m_ducker.process dryL dryR
  let s : DeliVerbDSP α := { s with m_ducker := g.1 }
  let delayGain := g.2.1
  let reverbGain := g.2.2
  let delayedL := s.m_delayL.read s.m_delayTime
  let delayedR := s.m_delayR.read (s.m_delayTime + 2)
  let lcL := s.m_delayLowCutL.process delayedL
  let hcL := s.m_delayHighCutL.process lcL.2
  let delayedL := hcL.2
  let lcR := s.m_delayLowCutR.process delayedR
  let hcR := s.m_delayHighCutR.process lcR.2
  let delayedR := hcR.2
  let delayWetL := delayedL * delayGain
  let delayWetR := delayedR * delayGain
  let fbL := s.m_delayFeedbackFilterL.process delayedL
  let fbR := s.m_delayFeedbackFilterR.process delayedR
  let feedbackL := fbL.2 * s.m_delayRepeat
  let feedbackR := fbR.2 * s.m_delayRepeat
  let s : DeliVerbDSP α := { s with
    m_delayLowCutL := lcL.1, m_delayHighCutL := hcL.1
    m_delayLowCutR := lcR.1, m_delayHighCutR := hcR.1
    m_delayFeedbackFilterL := fbL.1, m_delayFeedbackFilterR := fbR.1
    m_delayL := s.m_delayL.write (dryL + feedbackL)
    m_delayR := s.m_delayR.write (dryR + feedbackR) }
  let delayToReverb := (s.m_reverbStyle - 0.3) / 0.7 * 0.3
  let reverbInL := if s.m_reverbStyle > 0.3 then dryL + delayWetL * delayToReverb else dryL
  let reverbInR := if s.m_reverbStyle > 0.3 then dryR + delayWetR * delayToReverb else dryR
  let rv := s.m_reverb.process reverbInL reverbInR
  let s : DeliVerbDSP α := { s with m_reverb := rv.1 }
  let reverbWetL := rv.2.1 * reverbGain
  let reverbWetR := rv.2.2 * reverbGain
  let withDelayL := dryL + delayWetL * s.m_delayMix
  let withDelayR := dryR + delayWetR * s.m_delayMix
  let outL := withDelayL * (1 - s.m_reverbMix) + (withDelayL + reverbWetL) * s.m_reverbMix
  let outR := withDelayR * (1 - s.m_reverbMix) + (withDelayR + reverbWetR) * s.m_reverbMix
  (s, tanh (outL * 0.9) / 0.9, tanh (outR * 0.9) / 0.9)

/-- The body of the loop of `DeliVerbDSP::process` (mono input) for one sample `dry`. -/
def DeliVerbDSP.processFrame (tanh : α → α) (s : DeliVerbDSP α) (dry : α) :
    DeliVerbDSP α × α × α :=
  let g := s.m_ducker.process dry dry
  let s : DeliVerbDSP α := { s with m_ducker := g.1 }
  let delayGain := g.2.1
  let reverbGain := g.2.2
  let delayedL := s.m_delayL.read s.m_delayTime
  let delayedR := s.m_delayR.read (s.m_delayTime + 2)
  let lcL := s.m_delayLowCutL.process delayedL
  let hcL := s.m_delayHighCutL.process lcL.2
  let delayedL := hcL.2
  let lcR := s.m_delayLowCutR.process delayedR
  let hcR := s.m_delayHighCutR.process lcR.2
  let delayedR := hcR.2
  let delayWetL := delayedL * delayGain
  let delayWetR := delayedR * delayGain
  let fbL := s.m_delayFeedbackFilterL.process delayedL
  let fbR := s.m_delayFeedbackFilterR.process delayedR
  let feedbackL := fbL.2 * s.m_delayRepeat
  let feedbackR := fbR.2 * s.m_delayRepeat
  let s : DeliVerbDSP α := { s with
    m_delayLowCutL := lcL.1, m_delayHighCutL := hcL.1
    m_delayLowCutR := lcR.1, m_delayHighCutR := hcR.1
    m_delayFeedbackFilterL := fbL.1, m_delayFeedbackFilterR := fbR.1
    m_delayL := s.m_delayL.write (dry + feedbackL)
    m_delayR := s.m_delayR.write (dry + feedbackR) }
  let delayToReverb := (s.m_reverbStyle - 0.3) / 0.7 * 0.3
  let reverbInL := if s.m_reverbStyle > 0.3 then dry + delayWetL * delayToReverb else dry
  let reverbInR := if s.m_reverbStyle > 0.3 then dry + delayWetR * delayToReverb else dry
  let rv := s.m_reverb.process reverbInL reverbInR
  let s : DeliVerbDSP α := { s with m_reverb := rv.1 }
  let reverbWetL := rv.2.1 * reverbGain
  let reverbWetR := rv.2.2 * reverbGain
  let withDelayL := dry + delayWetL * s.m_delayMix
  let withDelayR := dry + delayWetR * s.m_delayMix
  let outL := withDelayL * (1 - s.m_reverbMix) + (withDelayL + reverbWetL) * s.m_reverbMix
  let outR := withDelayR * (1 - s.m_reverbMix) + (withDelayR + reverbWetR) * s.m_reverbMix
  (s, tanh (outL * 0.9) / 0.9, tanh (outR * 0.9) / 0.9)

/-- What a render call leaves behind: the processor and the two output blocks. -/
structure Rendered (α : Type) where
  dsp : DeliVerbDSP α
  outputL : List α
  outputR : List α

/-- Member function `DeliVerbDSP::processStereo(inputL, inputR, outputL, outputR, numSamples)`;
the input pointers are functions of the frame index, the output blocks are the
lists of the `numSamples` samples written. -/
def DeliVerbDSP.processStereo (tanh : α → α) (s : DeliVerbDSP α) (inputL inputR : Nat → α)
    (numSamples : Nat) : Rendered α :=
  (List.range numSamples).foldl
    (fun acc i =>
      let f := DeliVerbDSP.processStereoFrame tanh acc.dsp (inputL i) (inputR i)
      { dsp := f.1, outputL := acc.outputL ++ [f.2.1], outputR := acc.outputR ++ [f.2.2] })
    { dsp := s, outputL := [], outputR := [] }

/-- Member function `DeliVerbDSP::process(input, outputL, outputR, numSamples)`. -/
def DeliVerbDSP.process (tanh : α → α) (s : DeliVerbDSP α) (input : Nat → α)
    (numSamples : Nat) : Rendered α :=
  (List.range numSamples).foldl
    (fun acc i =>
      let f := DeliVerbDSP.processFrame tanh acc.dsp (input i)
      { dsp := f.1, outputL := acc.outputL ++ [f.2.1], outputR := acc.outputR ++ [f.2.2] })
    { dsp := s, outputL := [], outputR := [] }

/-- Member function `DeliVerbDSP::reset`. -/
def DeliVerbDSP.reset (s : DeliVerbDSP α) : DeliVerbDSP α :=
  { s with
    m_delayL := s.m_delayL.reset
    m_delayR := s.m_delayR.reset
    m_reverb := s.m_reverb.reset
    m_ducker := s.m_ducker.reset
    m_delayLowCutL := s.m_delayLowCutL.reset
    m_delayLowCutR := s.m_delayLowCutR.reset
    m_delayHighCutL := s.m_delayHighCutL.reset
    m_delayHighCutR := s.m_delayHighCutR.reset
    m_delayFeedbackFilterL := s.m_delayFeedbackFilterL.reset
    m_delayFeedbackFilterR := s.m_delayFeedbackFilterR.reset }

/-! ## AU/Parameters.h -/

/-- The values of `AudioUnitParameterUnit` that the parameter table uses. -/
inductive AudioUnitParameterUnit where
  | Milliseconds
  | Generic
  | Hertz
  | Boolean
  deriving DecidableEq, Repr

/-- The struct `ParameterInfo`. -/
structure ParameterInfo (α : Type) where
  identifier : String
  name : String
  minValue : α
  maxValue : α
  defaultValue : α
  unit : AudioUnitParameterUnit
  isAdvanced : Bool

/-- The table `kParameterInfos`. -/
def kParameterInfos : List (ParameterInfo α) :=
  [ ⟨"delayTime", "Delay Time", 50, 2000, 300, .Milliseconds, false⟩,
    ⟨"delayRepeat", "Delay Repeat", 0, 0.95, 0.3, .Generic, false⟩,
    ⟨"delayMix", "Delay Mix", 0, 1, 0.3, .Generic, false⟩,
    ⟨"reverbSize", "Reverb Size", 0, 1, 0.5, .Generic, false⟩,
    ⟨"reverbStyle", "Reverb Style", 0, 1, 0, .Generic, false⟩,
    ⟨"reverbMix", "Reverb Mix", 0, 1, 0.3, .Generic, false⟩,
    ⟨"delayLowCut", "Delay Low Cut", 20, 2000, 80, .Hertz, true⟩,
    ⟨"delayHighCut", "Delay High Cut", 1000, 20000, 8000, .Hertz, true⟩,
    ⟨"reverbLowCut", "Reverb Low Cut", 20, 2000, 100, .Hertz, true⟩,
    ⟨"reverbHighCut", "Reverb High Cut", 1000, 20000, 10000, .Hertz, true⟩,
    ⟨"duckDelayAmount", "Duck Delay", 0, 1, 0, .Generic, true⟩,
    ⟨"duckReverbAmount", "Duck Reverb", 0, 1, 0, .Generic, true⟩,
    ⟨"duckBehaviour", "Duck Behaviour", 0, 1, 0.5, .Generic, true⟩,
    ⟨"advanced", "Advanced", 0, 1, 0, .Boolean, false⟩ ]

/-! ## State predicates used by the properties -/

/-- Every sample of the delay buffer is zero. -/
def DelayLine.Silent (d : DelayLine α) : Prop :=
  ∀ x, x ∈ d.m_buffer → x = 0

/-- Both state variables of the biquad are zero. -/
def Biquad.Silent (b : Biquad α) : Prop :=
  b.m_z1 = 0 ∧ b.m_z2 = 0

/-- Every delay buffer and every biquad state of the reverb is zero. -/
def Reverb.Silent (r : Reverb α) : Prop :=
  (∀ i, (r.m_allpass i).Silent) ∧
  (∀ i, (r.m_combL i).Silent) ∧ (∀ i, (r.m_combR i).Silent) ∧
  (∀ i, (r.m_combFilterL i).Silent) ∧ (∀ i, (r.m_combFilterR i).Silent) ∧
  r.m_preDelayL.Silent ∧ r.m_preDelayR.Silent ∧
  r.m_inputLowCutL.Silent ∧ r.m_inputLowCutR.Silent ∧
  r.m_inputHighCutL.Silent ∧ r.m_inputHighCutR.Silent ∧
  r.m_inputScoopL.Silent ∧ r.m_inputScoopR.Silent

/-- Every delay buffer sample, every biquad state variable and the envelope of
the processor are zero. -/
def DeliVerbDSP.Silent (s : DeliVerbDSP α) : Prop :=
  s.m_delayL.Silent ∧ s.m_delayR.Silent ∧ s.m_reverb.Silent ∧
  s.m_ducker.m_envelopeFollower.m_envelope = 0 ∧
  s.m_delayLowCutL.Silent ∧ s.m_delayLowCutR.Silent ∧
  s.m_delayHighCutL.Silent ∧ s.m_delayHighCutR.Silent ∧
  s.m_delayFeedbackFilterL.Silent ∧ s.m_delayFeedbackFilterR.Silent

/-- The four reverb setters called by `DeliVerbDSP::updateParameters`, in order. -/
def Reverb.retune (lm : Libm α) (r : Reverb α) (size style lowCut highCut : α) : Reverb α :=
  (((r.setSize lm size).setStyle lm style).setLowCut lm lowCut).setHighCut lm highCut

/-- A sequence of `setParameter` calls, first to last. -/
def DeliVerbDSP.setParameters (lm : Libm α) (s : DeliVerbDSP α) (ps : List (ParamID × α)) :
    DeliVerbDSP α :=
  ps.foldl (fun acc pv => acc.setParameter lm pv.1 pv.2) s

/-- The current values of the fourteen parameters, as arguments for
`setParameter`. -/
def DeliVerbDSP.parameters (s : DeliVerbDSP α) : List (ParamID × α) :=
  ParamID.all.map (fun p => (p, s.getParameter p))

/-- The processor with its `m_advanced` flag replaced. -/
def DeliVerbDSP.withAdvanced (s : DeliVerbDSP α) (b : Bool) : DeliVerbDSP α :=
  { s with m_advanced := b }

/-- A call of one of the public member functions of `DeliVerbDSP`. -/
inductive Op (α : Type) where
  | setSampleRate (sampleRate : α)
  | setParameter (param : ParamID) (value : α)
  | processStereo (inputL inputR : Nat → α) (numSamples : Nat)
  | process (input : Nat → α) (numSamples : Nat)
  | reset

/-- The processor after one call. -/
def DeliVerbDSP.step (lm : Libm α) (tanh : α → α) (s : DeliVerbDSP α) : Op α → DeliVerbDSP α
  | .setSampleRate sampleRate => s.setSampleRate lm sampleRate
  | .setParameter param value => s.setParameter lm param value
  | .processStereo inputL inputR numSamples =>
      (s.processStereo tanh inputL inputR numSamples).dsp
  | .process input numSamples => (s.process tanh input numSamples).dsp
  | .reset => s.reset

/-- The processor after a sequence of calls, first to last. -/
def DeliVerbDSP.run (lm : Libm α) (tanh : α → α) (s : DeliVerbDSP α) (ops : List (Op α)) :
    DeliVerbDSP α :=
  ops.foldl (DeliVerbDSP.step lm tanh) s

/-- The precondition `sr > 0` of `setSampleRate`, for a call. -/
def Op.RateOk : Op α → Prop
  | .setSampleRate sampleRate => 0 < sampleRate
  | _ => True

/-- The call runs `updateParameters`: it is `setSampleRate` or `setParameter`. -/
def Op.Updates : Op α → Prop
  | .setSampleRate _ => True
  | .setParameter _ _ => True
  | _ => False

/-- The statements of `DeliVerbDSP::setSampleRate` before its closing call of
`updateParameters`. -/
def DeliVerbDSP.prepare (lm : Libm α) (s : DeliVerbDSP α) (sampleRate : α) : DeliVerbDSP α :=
  { s with
    m_sampleRate := sampleRate
    m_delayL := (s.m_delayL.setSampleRate sampleRate).setMaxDelayMs 2100
    m_delayR := (s.m_delayR.setSampleRate sampleRate).setMaxDelayMs 2100
    m_reverb := s.m_reverb.setSampleRate lm sampleRate
    m_ducker := s.m_ducker.setSampleRate lm sampleRate
    m_delayLowCutL := s.m_delayLowCutL.setSampleRate sampleRate
    m_delayLowCutR := s.m_delayLowCutR.setSampleRate sampleRate
    m_delayHighCutL := s.m_delayHighCutL.setSampleRate sampleRate
    m_delayHighCutR := s.m_delayHighCutR.setSampleRate sampleRate
    m_delayFeedbackFilterL :=
      (s.m_delayFeedbackFilterL.setSampleRate sampleRate).setCoefficients lm
        .LowPass 12000 0.707 0
    m_delayFeedbackFilterR :=
      (s.m_delayFeedbackFilterR.setSampleRate sampleRate).setCoefficients lm
        .LowPass 12000 0.707 0 }

/-- A sequence of parameter stores without `updateParameters`, first to last. -/
def DeliVerbDSP.storeParameters (s : DeliVerbDSP α) (ps : List (ParamID × α)) :
    DeliVerbDSP α :=
  ps.foldl (fun acc pv => acc.storeParameter pv.1 pv.2) s

/-- The processor is in step with a fresh instance: its sample rate is positive,
the scoop amount has its default, and after `reset` it would equal a newly
constructed processor given the same fourteen parameter values and then the
same sample rate. -/
def DeliVerbDSP.Tuned (lm : Libm α) (s : DeliVerbDSP α) : Prop :=
  0 < s.m_sampleRate ∧ s.m_reverb.m_scoopAmount = 0 ∧
  s.reset = (DeliVerbDSP.init.setParameters lm s.parameters).setSampleRate lm s.m_sampleRate

/-- The memory of a biquad: its two state variables. -/
def Biquad.memory (b : Biquad α) : List α :=
  [b.m_z1, b.m_z2]

/-- The memory of all the biquads of the reverb. -/
def Reverb.memory (r : Reverb α) : List α :=
  ((List.finRange kNumComb).map
      (fun i => (r.m_combFilterL i).memory ++ (r.m_combFilterR i).memory)).flatten ++
    r.m_inputLowCutL.memory ++ r.m_inputLowCutR.memory ++
    r.m_inputHighCutL.memory ++ r.m_inputHighCutR.memory ++
    r.m_inputScoopL.memory ++ r.m_inputScoopR.memory

/-- The envelope of the ducker and the state variables of every biquad of the
processor. -/
def DeliVerbDSP.memory (s : DeliVerbDSP α) : List α :=
  s.m_ducker.m_envelopeFollower.m_envelope ::
    (s.m_delayLowCutL.memory ++ s.m_delayLowCutR.memory ++
      s.m_delayHighCutL.memory ++ s.m_delayHighCutR.memory ++
      s.m_delayFeedbackFilterL.memory ++ s.m_delayFeedbackFilterR.memory ++
      s.m_reverb.memory)

/-- The derived values are up to date: running `updateParameters` on the reset
processor would change nothing. -/
def DeliVerbDSP.Updated (lm : Libm α) (s : DeliVerbDSP α) : Prop :=
  DeliVerbDSP.updateParameters lm s.reset = s.reset

/-- The reverb has no buffer allocated and its comb damping filters are at rest. -/
def Reverb.Idle (r : Reverb α) : Prop :=
  (∀ i, (r.m_allpass i).m_buffer = []) ∧
  (∀ i, (r.m_combL i).m_buffer = []) ∧ (∀ i, (r.m_combR i).m_buffer = []) ∧
  (∀ i, (r.m_combFilterL i).Silent) ∧ (∀ i, (r.m_combFilterR i).Silent) ∧
  r.m_preDelayL.m_buffer = [] ∧ r.m_preDelayR.m_buffer = []

/-- The processor has no buffer allocated (no `setSampleRate` yet) and the
filters behind its delay lines are at rest. -/
def DeliVerbDSP.Idle (s : DeliVerbDSP α) : Prop :=
  s.m_delayL.m_buffer = [] ∧ s.m_delayR.m_buffer = [] ∧ s.m_reverb.Idle ∧
  s.m_delayLowCutL.Silent ∧ s.m_delayLowCutR.Silent ∧
  s.m_delayHighCutL.Silent ∧ s.m_delayHighCutR.Silent ∧
  s.m_delayFeedbackFilterL.Silent ∧ s.m_delayFeedbackFilterR.Silent

/-- The read position in the words of the specification: `d = clamp(delay, 1, cap - 2)`
and `r = writeIndex - d`, wrapped into `[0, cap)` by adding `cap` when negative. -/
def DelayLine.specReadPos (d : DelayLine α) (delay : α) : α :=
  let cap := d.m_buffer.length
  let dl := max 1 (min ((cap : α) - 2) delay)
  let r := (d.m_writeIndex : α) - dl
  if r < 0 then r + (cap : α) else r

/-- The fractional read in the words of the specification: linear interpolation between
the slots `⌊r⌋` and `(⌊r⌋ + 1) mod cap` with `frac = r - ⌊r⌋`, at the read position `r`
of the specification. -/
def DelayLine.specRead (d : DelayLine α) (delay : α) : α :=
  let r := d.specReadPos delay
  let frac := r - (⌊r⌋₊ : α)
  d.m_buffer.getD ⌊r⌋₊ 0 * (1 - frac) +
    d.m_buffer.getD ((⌊r⌋₊ + 1) % d.m_buffer.length) 0 * frac

/-- The delay line has been allocated by `setMaxDelayMs`: at least the four guard samples,
and a write index inside the buffer. -/
def DelayLine.Allocated (d : DelayLine α) : Prop :=
  4 ≤ d.m_buffer.length ∧ d.m_writeIndex < d.m_buffer.length

instance (d : DelayLine α) : Decidable d.Allocated :=
  inferInstanceAs (Decidable (4 ≤ d.m_buffer.length ∧ d.m_writeIndex < d.m_buffer.length))

/-- The calls that change a `DelayLine`. -/
inductive DelayOp (α : Type) where
  | setSampleRate (sampleRate : α)
  | setMaxDelayMs (maxDelayMs : α)
  | write (sample : α)
  | reset

/-- One call on a delay line. -/
def DelayLine.step (d : DelayLine α) : DelayOp α → DelayLine α
  | .setSampleRate sampleRate => d.setSampleRate sampleRate
  | .setMaxDelayMs maxDelayMs => d.setMaxDelayMs maxDelayMs
  | .write sample => d.write sample
  | .reset => d.reset

/-- A sequence of calls on a delay line, first call first. -/
def DelayLine.run (d : DelayLine α) (ops : List (DelayOp α)) : DelayLine α :=
  ops.foldl DelayLine.step d

/-- The call is a `setMaxDelayMs`. -/
def DelayOp.Allocates : DelayOp α → Prop
  | .setMaxDelayMs _ => True
  | _ => False

instance (op : DelayOp α) : Decidable op.Allocates :=
  match op with
  | .setSampleRate _ => isFalse id
  | .setMaxDelayMs _ => isTrue trivial
  | .write _ => isFalse id
  | .reset => isFalse id

/-- The delay line after `n` frames that each write one sample, `x 0` first. -/
def DelayLine.writeFrames (d : DelayLine α) (x : Nat → α) (n : Nat) : DelayLine α :=
  (List.range n).foldl (fun acc i => acc.write (x i)) d

/-- Member function `Biquad::processBlock(buffer, numSamples)`: the new filter and the
buffer after the loop `buffer[i] = process(buffer[i])`. -/
def Biquad.processBlock (b : Biquad α) (buffer : List α) : Biquad α × List α :=
  buffer.foldl (fun acc x => ((acc.1.process x).1, acc.2 ++ [(acc.1.process x).2])) (b, [])

/-- The calls that change a `Biquad`. -/
inductive BiquadOp (α : Type) where
  | setSampleRate (sampleRate : α)
  | setCoefficients (type : BiquadType) (frequency Q gainDB : α)
  | process (input : α)
  | reset

/-- One call on a biquad. -/
def Biquad.step (lm : Libm α) (b : Biquad α) : BiquadOp α → Biquad α
  | .setSampleRate sampleRate => b.setSampleRate sampleRate
  | .setCoefficients type frequency Q gainDB => b.setCoefficients lm type frequency Q gainDB
  | .process input => (b.process input).1
  | .reset => b.reset

/-- A sequence of calls on a biquad, first call first. -/
def Biquad.run (lm : Libm α) (b : Biquad α) (ops : List (BiquadOp α)) : Biquad α :=
  ops.foldl (Biquad.step lm) b

/-- Every `setCoefficients` of the sequence is made while the stored sample rate is not
positive, so that none of them takes effect. -/
def Biquad.NeverSet (lm : Libm α) (b : Biquad α) : List (BiquadOp α) → Prop
  | [] => True
  | .setCoefficients type frequency Q gainDB :: ops =>
      b.m_sampleRate ≤ 0 ∧
        Biquad.NeverSet lm (b.setCoefficients lm type frequency Q gainDB) ops
  | op :: ops => Biquad.NeverSet lm (b.step lm op) ops

/-- The locals `(b0, b1, b2, a0, a1, a2)` of `Biquad::setCoefficients` before the
normalisation, with `omega`, `alpha` and `A` computed as the function does. -/
def Biquad.cookbook (lm : Libm α) (b : Biquad α) (type : BiquadType)
    (frequency Q gainDB : α) : α × α × α × α × α × α :=
  let omega := 2 * lm.pi * frequency / b.m_sampleRate
  let sinOmega := lm.sin omega
  let cosOmega := lm.cos omega
  let alpha := sinOmega / (2 * Q)
  let A := lm.pow 10 (gainDB / 40)
  Biquad.rawCoefficients lm type cosOmega alpha A

/-- The calls that change an `EnvelopeFollower`. -/
inductive FollowerOp (α : Type) where
  | setSampleRate (sampleRate : α)
  | setAttackMs (attackMs : α)
  | setReleaseMs (releaseMs : α)
  | process (input : α)
  | reset

/-- One call on an envelope follower. -/
def EnvelopeFollower.step (lm : Libm α) (e : EnvelopeFollower α) :
    FollowerOp α → EnvelopeFollower α
  | .setSampleRate sampleRate => e.setSampleRate lm sampleRate
  | .setAttackMs attackMs => e.setAttackMs lm attackMs
  | .setReleaseMs releaseMs => e.setReleaseMs lm releaseMs
  | .process input => (e.process input).1
  | .reset => e.reset

/-- A sequence of calls on an envelope follower, first call first. -/
def EnvelopeFollower.run (lm : Libm α) (e : EnvelopeFollower α) (ops : List (FollowerOp α)) :
    EnvelopeFollower α :=
  ops.foldl (EnvelopeFollower.step lm) e

/-- The call sets a positive sample rate or a positive time, or it is a `process` or a
`reset`. -/
def FollowerOp.Ok : FollowerOp α → Prop
  | .setSampleRate sampleRate => 0 < sampleRate
  | .setAttackMs attackMs => 0 < attackMs
  | .setReleaseMs releaseMs => 0 < releaseMs
  | .process _ => True
  | .reset => True

/-- The stored times and the sample rate are positive, both coefficients lie in `[0, 1)`
and the envelope is not negative. -/
def EnvelopeFollower.Sound (e : EnvelopeFollower α) : Prop :=
  0 < e.m_sampleRate ∧ 0 < e.m_attackMs ∧ 0 < e.m_releaseMs ∧
  (0 ≤ e.m_attackCoeff ∧ e.m_attackCoeff < 1) ∧
  (0 ≤ e.m_releaseCoeff ∧ e.m_releaseCoeff < 1) ∧ 0 ≤ e.m_envelope

/-- The public calls that configure a `Reverb`. -/
inductive ReverbOp (α : Type) where
  | setSampleRate (sampleRate : α)
  | setSize (size : α)
  | setStyle (style : α)
  | setLowCut (freqHz : α)
  | setHighCut (freqHz : α)
  | setScoopAmount (amount : α)

/-- One configuration call on a reverb. -/
def Reverb.step (lm : Libm α) (r : Reverb α) : ReverbOp α → Reverb α
  | .setSampleRate sampleRate => r.setSampleRate lm sampleRate
  | .setSize size => r.setSize lm size
  | .setStyle style => r.setStyle lm style
  | .setLowCut freqHz => r.setLowCut lm freqHz
  | .setHighCut freqHz => r.setHighCut lm freqHz
  | .setScoopAmount amount => r.setScoopAmount lm amount

/-- A sequence of configuration calls on a reverb, first call first. -/
def Reverb.run (lm : Libm α) (r : Reverb α) (ops : List (ReverbOp α)) : Reverb α :=
  ops.foldl (Reverb.step lm) r

/-- The call ends in `updateParameters`: it is a `setSampleRate`, a `setSize` or a
`setStyle`. -/
def ReverbOp.Retunes : ReverbOp α → Prop
  | .setSampleRate _ => True
  | .setSize _ => True
  | .setStyle _ => True
  | _ => False

instance (op : ReverbOp α) : Decidable op.Retunes :=
  match op with
  | .setSampleRate _ => isTrue trivial
  | .setSize _ => isTrue trivial
  | .setStyle _ => isTrue trivial
  | .setLowCut _ => isFalse id
  | .setHighCut _ => isFalse id
  | .setScoopAmount _ => isFalse id

/-- The three derived values of the reverb agree with the stored size and style. -/
def Reverb.Derived (r : Reverb α) : Prop :=
  r.m_combFeedback = min 0.98 (0.7 + 0.25 * r.m_size) ∧
  r.m_allpassFeedback = 0.5 + 0.25 * r.m_style ∧
  r.m_stereoSpread = 1.02 + 0.02 * r.m_style

/-- The stored size and style of the reverb lie in `[0, 1]`. -/
def Reverb.Ranged (r : Reverb α) : Prop :=
  (0 ≤ r.m_size ∧ r.m_size ≤ 1) ∧ (0 ≤ r.m_style ∧ r.m_style ≤ 1)

/-- The capacities `m_buffer.size()` of the delay lines of the reverb: the four allpass
lines, the eight left and the eight right comb lines and the two pre-delay lines. -/
def Reverb.capacities (r : Reverb α) : List Nat :=
  (List.finRange kNumAllpass).map (fun i => (r.m_allpass i).m_buffer.length) ++
    (List.finRange kNumComb).map (fun i => (r.m_combL i).m_buffer.length) ++
    (List.finRange kNumComb).map (fun i => (r.m_combR i).m_buffer.length) ++
    [r.m_preDelayL.m_buffer.length, r.m_preDelayR.m_buffer.length]

/-- The capacities of all the delay lines of the processor: the two main lines, then those
of the reverb. -/
def DeliVerbDSP.capacities (s : DeliVerbDSP α) : List Nat :=
  s.m_delayL.m_buffer.length :: s.m_delayR.m_buffer.length :: s.m_reverb.capacities

/-- The delay lines of the second reverb have the capacities of those of the first, line
by line. -/
def Reverb.SameCapacities (r r' : Reverb α) : Prop :=
  (∀ i, (r'.m_allpass i).m_buffer.length = (r.m_allpass i).m_buffer.length) ∧
  (∀ i, (r'.m_combL i).m_buffer.length = (r.m_combL i).m_buffer.length) ∧
  (∀ i, (r'.m_combR i).m_buffer.length = (r.m_combR i).m_buffer.length) ∧
  r'.m_preDelayL.m_buffer.length = r.m_preDelayL.m_buffer.length ∧
  r'.m_preDelayR.m_buffer.length = r.m_preDelayR.m_buffer.length

/-- The local `delayedL` of `DeliVerbDSP::processStereo` after the two delay filters: the
tap read from the left main line, low-cut and high-cut, before the ducking gain. -/
def DeliVerbDSP.eqTapL (s : DeliVerbDSP α) : α :=
  (s.m_delayHighCutL.process (s.m_delayLowCutL.process (s.m_delayL.read s.m_delayTime)).2).2

/-- The local `delayedR` of `DeliVerbDSP::processStereo` after the two delay filters. -/
def DeliVerbDSP.eqTapR (s : DeliVerbDSP α) : α :=
  (s.m_delayHighCutR.process
    (s.m_delayLowCutR.process (s.m_delayR.read (s.m_delayTime + 2))).2).2

/-- The pair `(reverbWetL, reverbWetR)` that `m_reverb.process` returns in one frame of
`DeliVerbDSP::processStereo`, before the ducking gain: the reverb is fed the dry frame,
plus a share of the ducked delay when the style is above 0.3. -/
def DeliVerbDSP.reverbOut (s : DeliVerbDSP α) (dryL dryR : α) : α × α :=
  let delayGain := (s.m_ducker.process dryL dryR).2.1
  let delayWetL := s.eqTapL * delayGain
  let delayWetR := s.eqTapR * delayGain
  let delayToReverb := (s.m_reverbStyle - 0.3) / 0.7 * 0.3
  let reverbInL := if s.m_reverbStyle > 0.3 then dryL + delayWetL * delayToReverb else dryL
  let reverbInR := if s.m_reverbStyle > 0.3 then dryR + delayWetR * delayToReverb else dryR
  (s.m_reverb.process reverbInL reverbInR).2

/-- The delay section of the processor: delay time, repeat and the two cut-off parameters,
the two main delay lines, and the delay EQ and feedback filters. -/
structure DelayCore (α : Type) where
  delayTime : α
  delayRepeat : α
  delayLowCut : α
  delayHighCut : α
  delayL : DelayLine α
  delayR : DelayLine α
  lowCutL : Biquad α
  lowCutR : Biquad α
  highCutL : Biquad α
  highCutR : Biquad α
  feedbackFilterL : Biquad α
  feedbackFilterR : Biquad α

/-- The delay section of a processor. -/
def DeliVerbDSP.delayCore (s : DeliVerbDSP α) : DelayCore α :=
  { delayTime := s.m_delayTime, delayRepeat := s.m_delayRepeat,
    delayLowCut := s.m_delayLowCut, delayHighCut := s.m_delayHighCut,
    delayL := s.m_delayL, delayR := s.m_delayR,
    lowCutL := s.m_delayLowCutL, lowCutR := s.m_delayLowCutR,
    highCutL := s.m_delayHighCutL, highCutR := s.m_delayHighCutR,
    feedbackFilterL := s.m_delayFeedbackFilterL,
    feedbackFilterR := s.m_delayFeedbackFilterR }

/-- The parameter is one of those outside the delay section: the two mixes, the three
ducking parameters and the four reverb parameters. -/
def ParamID.OutsideDelay : ParamID → Prop
  | .kDelayMix => True
  | .kReverbSize => True
  | .kReverbStyle => True
  | .kReverbMix => True
  | .kReverbLowCut => True
  | .kReverbHighCut => True
  | .kDuckDelayAmount => True
  | .kDuckReverbAmount => True
  | .kDuckBehaviour => True
  | _ => False

/-- The sum of the squares of the samples of window `k`, the windows being consecutive
runs of `w` samples of the block. -/
def windowEnergy (out : List α) (k w : Nat) : α :=
  (((out.drop (k * w)).take w).map (fun y => y ^ 2)).sum

/-- The RMS of window `k`: the square root of the mean square of its `w` samples. -/
def windowRms (lm : Libm α) (out : List α) (k w : Nat) : α :=
  lm.sqrt (windowEnergy out k w / (w : α))

/-- The input block made of the `n` frames of block `a` followed by the frames of block
`b`: what a caller passes when it renders the two blocks in one call. -/
def blockConcat (a b : Nat → α) (n : Nat) : Nat → α :=
  fun k => if k < n then a k else b (k - n)

/-- The local `delaySamples` of `DelayLine::read` before the two clamps: the requested
delay converted to samples. -/
def DelayLine.delaySamples (d : DelayLine α) (delayMs : α) : α :=
  delayMs * d.m_sampleRate / 1000

/-- The request `read(delayMs)` passes the two clamps of `DelayLine::read` as it is: the
delay in samples lies between 1 and the `size_t` value `m_buffer.size() - 2`. -/
def DelayLine.Unclamped (d : DelayLine α) (delayMs : α) : Prop :=
  1 ≤ d.delaySamples delayMs ∧
  d.delaySamples delayMs ≤ ((sizeMinusTwo d.m_buffer.length : Nat) : α)

/-- A line as `setSampleRate(sr)` and `setMaxDelayMs(ms)` leave it, whatever it holds: the
rate is `sr` and the capacity is `⌊sr * ms / 1000⌋ + 4`. -/
def DelayLine.Sized (d : DelayLine α) (sr ms : α) : Prop :=
  d.m_sampleRate = sr ∧ d.m_buffer.length = ⌊sr * ms / 1000⌋₊ + 4

/-- The reverb after `setSampleRate(sr)` and `updateParameters`: the lines have the rate
`sr` and the capacities of 100 ms (allpass, pre-delay) and 200 ms (comb), the stored size
and style lie in `[0, 1]`, and the delays and the stereo spread are those that
`updateParameters` computes from them. -/
def Reverb.Prepared (r : Reverb α) (sr : α) : Prop :=
  (∀ i, (r.m_allpass i).Sized sr 100) ∧
  (∀ i, (r.m_combL i).Sized sr 200) ∧ (∀ i, (r.m_combR i).Sized sr 200) ∧
  r.m_preDelayL.Sized sr 100 ∧ r.m_preDelayR.Sized sr 100 ∧
  (0 ≤ r.m_size ∧ r.m_size ≤ 1) ∧ (0 ≤ r.m_style ∧ r.m_style ≤ 1) ∧
  r.m_allpassDelays = ![4.77 * (0.5 + r.m_size * 1.5), 5.93 * (0.5 + r.m_size * 1.5),
    7.11 * (0.5 + r.m_size * 1.5), 8.17 * (0.5 + r.m_size * 1.5)] ∧
  r.m_combDelays = ![25.31 * (0.5 + r.m_size * 1.5), 26.93 * (0.5 + r.m_size * 1.5),
    28.97 * (0.5 + r.m_size * 1.5), 30.71 * (0.5 + r.m_size * 1.5),
    32.83 * (0.5 + r.m_size * 1.5), 34.49 * (0.5 + r.m_size * 1.5),
    36.37 * (0.5 + r.m_size * 1.5), 38.89 * (0.5 + r.m_size * 1.5)] ∧
  r.m_stereoSpread = 1.02 + r.m_style * 0.02

/-- The processor after `setSampleRate(sr)`: the two main lines have the rate `sr` and the
capacity of 2100 ms, and the reverb is prepared at `sr`. -/
def DeliVerbDSP.Prepared (s : DeliVerbDSP α) (sr : α) : Prop :=
  s.m_delayL.Sized sr 2100 ∧ s.m_delayR.Sized sr 2100 ∧ s.m_reverb.Prepared sr

/-- The sample rate is at least 8 kHz and the capacity of a main line at that rate is a
`size_t` value. -/
def RateFits (sr : α) : Prop :=
  8000 ≤ sr ∧ ⌊sr * 2100 / 1000⌋₊ + 4 < 2 ^ 64

/-- The call, when it is `setSampleRate`, has a rate that fits. -/
def Op.RateFits : Op α → Prop
  | .setSampleRate sampleRate => DeliVerb.RateFits sampleRate
  | _ => True

/-- The delay requests of one call of `Reverb::process` pass the clamp of the line they
are read from: `preDelayMs` and `preDelayMs + 1.5` on the pre-delay lines, the allpass
delays and their 1.03 multiples on the allpass lines, the comb delays on the left comb
lines and their `m_stereoSpread` multiples on the right comb lines. -/
def Reverb.RequestsUnclamped (r : Reverb α) : Prop :=
  r.m_preDelayL.Unclamped (5 + r.m_size * 40) ∧
  r.m_preDelayR.Unclamped (5 + r.m_size * 40 + 1.5) ∧
  (∀ i, (r.m_allpass i).Unclamped (r.m_allpassDelays i) ∧
    (r.m_allpass i).Unclamped (r.m_allpassDelays i * 1.03)) ∧
  (∀ i, (r.m_combL i).Unclamped (r.m_combDelays i) ∧
    (r.m_combR i).Unclamped (r.m_combDelays i * r.m_stereoSpread))

/-- The delay requests of one frame of `DeliVerbDSP::processStereo` pass the clamp of the
line they are read from: `m_delayTime` on the left main line, `m_delayTime + 2` on the
right one, and the requests of the reverb. -/
def DeliVerbDSP.RequestsUnclamped (s : DeliVerbDSP α) : Prop :=
  s.m_delayL.Unclamped s.m_delayTime ∧ s.m_delayR.Unclamped (s.m_delayTime + 2) ∧
  s.m_reverb.RequestsUnclamped

/-! ## Machine arithmetic: rounding to `float` and `double` -/

/-- Rounding to the nearest integer, ties to the even one. -/
def roundHalfEven (q : α) : ℤ :=
  if q - (⌊q⌋ : α) < 1 / 2 then ⌊q⌋
  else if 1 / 2 < q - (⌊q⌋ : α) then ⌊q⌋ + 1
  else if ⌊q⌋ % 2 = 0 then ⌊q⌋ else ⌊q⌋ + 1

/-- The IEEE 754 rounding (to nearest, ties to even) of the exact result `x` of an
operation into the binary format with `p` significand bits and least exponent `emin`:
the spacing of the format at `x` is `2 ^ (e - (p - 1))` with `e = ⌊log2 |x|⌋`, and not
less than `2 ^ (emin - (p - 1))` (gradual underflow).  The exponent has no upper bound
here: an overflow to infinity is not modelled. -/
def roundBinary (p : Nat) (emin : ℤ) (x : α) : α :=
  if x = 0 then 0
  else
    (roundHalfEven (x / (2 : α) ^ (max (Int.log 2 |x|) emin - ((p : ℤ) - 1))) : α) *
      (2 : α) ^ (max (Int.log 2 |x|) emin - ((p : ℤ) - 1))

/-- The rounding of a result to `float` (binary32: 24 significand bits). -/
def roundFloat (x : α) : α :=
  roundBinary 24 (-126) x

/-- The rounding of a result to `double` (binary64: 53 significand bits). -/
def roundDouble (x : α) : α :=
  roundBinary 53 (-1022) x

/-- The local `delaySamples` of `DelayLine::read(delayMs)` as the machine computes it,
before the clamps: the `float` argument is promoted to `double`, the product with the
`double` sample rate and the quotient by `1000.0` are `double` operations, and the result
is cast to `float`. -/
def DelayLine.delaySamplesFloat (d : DelayLine α) (delayMs : α) : α :=
  roundFloat (roundDouble (roundDouble (delayMs * d.m_sampleRate) / 1000))

/-- The local `readPos` of `DelayLine::read` and `DelayLine::readSamples` in `float`
arithmetic, after the two clamps and the wrap, for the `float` `delaySamples`: the casts
of the `size_t` values, the difference and the sum are rounded to `float`. -/
def DelayLine.readPosFloat (d : DelayLine α) (delaySamples : α) : α :=
  let delaySamples := max 1 delaySamples
  let delaySamples :=
    min delaySamples (roundFloat ((sizeMinusTwo d.m_buffer.length : Nat) : α))
  let readPos := roundFloat (roundFloat (d.m_writeIndex : α) - delaySamples)
  if readPos < 0 then roundFloat (readPos + roundFloat (d.m_buffer.length : α)) else readPos

/-- The local `index0` of `DelayLine::read` and `DelayLine::readSamples` in `float`
arithmetic: the cast of the `float` read position to `size_t`. -/
def DelayLine.index0Float (d : DelayLine α) (delaySamples : α) : Nat :=
  ⌊d.readPosFloat delaySamples⌋₊

/-- The local `index1` of `DelayLine::read` and `DelayLine::readSamples` in `float`
arithmetic. -/
def DelayLine.index1Float (d : DelayLine α) (delaySamples : α) : Nat :=
  if d.index0Float delaySamples + 1 ≥ d.m_buffer.length then 0
  else d.index0Float delaySamples + 1

/-- The local `frac` of `DelayLine::read` and `DelayLine::readSamples` in `float`
arithmetic. -/
def DelayLine.fracFloat (d : DelayLine α) (delaySamples : α) : α :=
  roundFloat (d.readPosFloat delaySamples - roundFloat (d.index0Float delaySamples : α))

end Embedding

/-! ## Properties -/

section Properties

set_option linter.unusedSectionVars false

variable {α : Type} [LinearOrderedField α] [FloorRing α]

/-- An invariant of the loop body holds after the loop. -/
theorem forLoop_induction {σ : Type} (n : Nat) (body : Fin n → σ → σ) (P : σ → Prop)
    (s : σ) (h0 : P s) (hstep : ∀ i t, P t → P (body i t)) : P (forLoop n body s) := by
  unfold forLoop
  generalize List.finRange n = l
  induction l generalizing s with
  | nil => simpa using h0
  | cons i l ih => exact ih (body i s) (hstep i s h0)

/-- One more frame of `processStereo`. -/
theorem processStereo_succ (tanh : α → α) (s : DeliVerbDSP α) (inputL inputR : Nat → α)
    (n : Nat) :
    DeliVerbDSP.processStereo tanh s inputL inputR (n + 1) =
      { dsp := (DeliVerbDSP.processStereoFrame tanh
            (DeliVerbDSP.processStereo tanh s inputL inputR n).dsp (inputL n) (inputR n)).1
        outputL := (DeliVerbDSP.processStereo tanh s inputL inputR n).outputL ++
          [(DeliVerbDSP.processStereoFrame tanh
            (DeliVerbDSP.processStereo tanh s inputL inputR n).dsp (inputL n) (inputR n)).2.1]
        outputR := (DeliVerbDSP.processStereo tanh s inputL inputR n).outputR ++
          [(DeliVerbDSP.processStereoFrame tanh
            (DeliVerbDSP.processStereo tanh s inputL inputR n).dsp
              (inputL n) (inputR n)).2.2] } := by
  simp [DeliVerbDSP.processStereo, List.range_succ, List.foldl_append]

/-- One more frame of `process`. -/
theorem process_succ (tanh : α → α) (s : DeliVerbDSP α) (input : Nat → α) (n : Nat) :
    DeliVerbDSP.process tanh s input (n + 1) =
      { dsp := (DeliVerbDSP.processFrame tanh
            (DeliVerbDSP.process tanh s input n).dsp (input n)).1
        outputL := (DeliVerbDSP.process tanh s input n).outputL ++
          [(DeliVerbDSP.processFrame tanh
            (DeliVerbDSP.process tanh s input n).dsp (input n)).2.1]
        outputR := (DeliVerbDSP.process tanh s input n).outputR ++
          [(DeliVerbDSP.processFrame tanh
            (DeliVerbDSP.process tanh s input n).dsp (input n)).2.2] } := by
  simp [DeliVerbDSP.process, List.range_succ, List.foldl_append]

/-- The mono loop body is the stereo loop body on the duplicated sample. -/
theorem processFrame_eq_processStereoFrame (tanh : α → α) (s : DeliVerbDSP α) (dry : α) :
    DeliVerbDSP.processFrame tanh s dry = DeliVerbDSP.processStereoFrame tanh s dry dry := by
  simp only [DeliVerbDSP.processFrame, DeliVerbDSP.processStereoFrame]

/-- The mono render call is the stereo render call on the duplicated block. -/
theorem process_eq_processStereo (tanh : α → α) (s : DeliVerbDSP α) (input : Nat → α)
    (n : Nat) :
    DeliVerbDSP.process tanh s input n = DeliVerbDSP.processStereo tanh s input input n := by
  induction n with
  | zero => simp [DeliVerbDSP.process, DeliVerbDSP.processStereo]
  | succ k ih =>
    rw [process_succ, processStereo_succ, ih]
    simp only [processFrame_eq_processStereoFrame]

/-- The real hyperbolic tangent stays strictly inside `(-1, 1)`. -/
theorem abs_tanh_lt_one (x : ℝ) : |Real.tanh x| < 1 := by
  rw [Real.tanh_eq_sinh_div_cosh, abs_div, abs_of_pos (Real.cosh_pos x),
    div_lt_one (Real.cosh_pos x), abs_lt]
  refine ⟨?_, Real.sinh_lt_cosh x⟩
  have h := Real.sinh_lt_cosh (-x)
  rw [Real.sinh_neg, Real.cosh_neg] at h
  linarith

/-- The soft clipper `tanh(0.9 x) / 0.9` stays strictly below `1 / 0.9`. -/
theorem abs_softclip_lt (x : ℝ) : |Real.tanh (x * 0.9) / 0.9| < 1 / 0.9 := by
  rw [abs_div, abs_of_pos (by norm_num : (0 : ℝ) < 0.9)]
  exact div_lt_div_of_pos_right (abs_tanh_lt_one _) (by norm_num)

/-- Member function `DeliVerbDSP::updateParameters` does not write any of the fourteen parameters. -/
theorem getParameter_updateParameters (lm : Libm α) (s : DeliVerbDSP α) (q : ParamID) :
    (DeliVerbDSP.updateParameters lm s).getParameter q = s.getParameter q := by
  have ha : (DeliVerbDSP.updateParameters lm s).m_advanced = s.m_advanced := by
    simp only [DeliVerbDSP.updateParameters]
  cases q <;> simp only [DeliVerbDSP.getParameter]
  case kAdvanced => rw [ha]
  all_goals simp only [DeliVerbDSP.updateParameters]

/-! ### The loops over the reverb's arrays, pass by pass -/

/-- The indices `0 .. kNumAllpass - 1`. -/
theorem finRange_four : List.finRange 4 = [0, 1, 2, 3] := by decide

/-- The indices `0 .. kNumComb - 1`. -/
theorem finRange_eight : List.finRange 8 = [0, 1, 2, 3, 4, 5, 6, 7] := by decide

/-- Member function `Reverb::reset` resets every element of every array. -/
theorem reverb_reset_eq (r : Reverb α) :
    r.reset = { r with
      m_allpass := fun i => (r.m_allpass i).reset
      m_combL := fun i => (r.m_combL i).reset
      m_combR := fun i => (r.m_combR i).reset
      m_combFilterL := fun i => (r.m_combFilterL i).reset
      m_combFilterR := fun i => (r.m_combFilterR i).reset
      m_preDelayL := r.m_preDelayL.reset
      m_preDelayR := r.m_preDelayR.reset
      m_inputLowCutL := r.m_inputLowCutL.reset
      m_inputLowCutR := r.m_inputLowCutR.reset
      m_inputHighCutL := r.m_inputHighCutL.reset
      m_inputHighCutR := r.m_inputHighCutR.reset
      m_inputScoopL := r.m_inputScoopL.reset
      m_inputScoopR := r.m_inputScoopR.reset } := by
  simp only [Reverb.reset, forLoop, finRange_four, finRange_eight, List.foldl_cons,
    List.foldl_nil, Reverb.resetAllpass, Reverb.resetComb, Reverb.mk.injEq, true_and, and_true]
  refine ⟨?_, ?_, ?_, ?_, ?_⟩ <;> funext i <;> fin_cases i <;> rfl

/-- Member function `Reverb::updateParameters`, with the loop over the damping filters written
element by element. -/
theorem reverb_updateParameters_eq (lm : Libm α) (r : Reverb α) :
    Reverb.updateParameters lm r = { r with
      m_allpassDelays := ![4.77 * (0.5 + r.m_size * 1.5), 5.93 * (0.5 + r.m_size * 1.5),
        7.11 * (0.5 + r.m_size * 1.5), 8.17 * (0.5 + r.m_size * 1.5)]
      m_allpassFeedback := 0.5 + r.m_style * 0.25
      m_combDelays := ![25.31 * (0.5 + r.m_size * 1.5), 26.93 * (0.5 + r.m_size * 1.5),
        28.97 * (0.5 + r.m_size * 1.5), 30.71 * (0.5 + r.m_size * 1.5),
        32.83 * (0.5 + r.m_size * 1.5), 34.49 * (0.5 + r.m_size * 1.5),
        36.37 * (0.5 + r.m_size * 1.5), 38.89 * (0.5 + r.m_size * 1.5)]
      m_combFeedback := min 0.98 (0.7 + r.m_size * 0.25)
      m_stereoSpread := 1.02 + r.m_style * 0.02
      m_combFilterL := fun i =>
        (r.m_combFilterL i).setCoefficients lm .LowPass (4000 + r.m_style * 8000) 0.707 0
      m_combFilterR := fun i =>
        (r.m_combFilterR i).setCoefficients lm .LowPass (4000 + r.m_style * 8000) 0.707 0
      m_inputLowCutL := r.m_inputLowCutL.setCoefficients lm .HighPass r.m_lowCutFreq 0.707 0
      m_inputLowCutR := r.m_inputLowCutR.setCoefficients lm .HighPass r.m_lowCutFreq 0.707 0
      m_inputHighCutL := r.m_inputHighCutL.setCoefficients lm .LowPass r.m_highCutFreq 0.707 0
      m_inputHighCutR := r.m_inputHighCutR.setCoefficients lm .LowPass r.m_highCutFreq 0.707 0
      m_inputScoopL := r.m_inputScoopL.setCoefficients lm .Peak 500 0.7 (r.m_scoopAmount * -12)
      m_inputScoopR :=
        r.m_inputScoopR.setCoefficients lm .Peak 500 0.7 (r.m_scoopAmount * -12) } := by
  simp only [Reverb.updateParameters, Reverb.updateFilters, forLoop, finRange_eight,
    List.foldl_cons, List.foldl_nil, Reverb.updateCombFilter, Reverb.mk.injEq, true_and,
    and_true]
  refine ⟨?_, ?_⟩ <;> funext i <;> fin_cases i <;> rfl

/-- Member function `Reverb::setSampleRate`, with its two loops written element by element. -/
theorem reverb_setSampleRate_eq (lm : Libm α) (r : Reverb α) (sr : α) :
    Reverb.setSampleRate lm r sr = Reverb.updateParameters lm { r with
      m_sampleRate := sr
      m_allpass := fun i => ((r.m_allpass i).setSampleRate sr).setMaxDelayMs 100
      m_combL := fun i => ((r.m_combL i).setSampleRate sr).setMaxDelayMs 200
      m_combR := fun i => ((r.m_combR i).setSampleRate sr).setMaxDelayMs 200
      m_combFilterL := fun i => (r.m_combFilterL i).setSampleRate sr
      m_combFilterR := fun i => (r.m_combFilterR i).setSampleRate sr
      m_preDelayL := (r.m_preDelayL.setSampleRate sr).setMaxDelayMs 100
      m_preDelayR := (r.m_preDelayR.setSampleRate sr).setMaxDelayMs 100
      m_inputLowCutL := r.m_inputLowCutL.setSampleRate sr
      m_inputLowCutR := r.m_inputLowCutR.setSampleRate sr
      m_inputHighCutL := r.m_inputHighCutL.setSampleRate sr
      m_inputHighCutR := r.m_inputHighCutR.setSampleRate sr
      m_inputScoopL := r.m_inputScoopL.setSampleRate sr
      m_inputScoopR := r.m_inputScoopR.setSampleRate sr } := by
  unfold Reverb.setSampleRate
  simp only [forLoop, finRange_four, finRange_eight,
    List.foldl_cons, List.foldl_nil, Reverb.prepareAllpass, Reverb.prepareComb]
  congr 2 <;> funext i <;> fin_cases i <;> rfl

/-! ### Biquad and DelayLine, operation by operation -/

/-- Member function `Biquad::setCoefficients` writes the five coefficients only. -/
theorem biquad_setCoefficients_fields (lm : Libm α) (b : Biquad α) (t : BiquadType)
    (f q g : α) :
    (b.setCoefficients lm t f q g).m_sampleRate = b.m_sampleRate ∧
    (b.setCoefficients lm t f q g).m_z1 = b.m_z1 ∧
    (b.setCoefficients lm t f q g).m_z2 = b.m_z2 := by
  unfold Biquad.setCoefficients
  split <;> exact ⟨rfl, rfl, rfl⟩

/-- A second `setCoefficients` overwrites the first. -/
theorem biquad_setCoefficients_absorb (lm : Libm α) (b : Biquad α) (t t' : BiquadType)
    (f q g f' q' g' : α) :
    (b.setCoefficients lm t f q g).setCoefficients lm t' f' q' g' =
      b.setCoefficients lm t' f' q' g' := by
  unfold Biquad.setCoefficients
  by_cases h : b.m_sampleRate ≤ 0
  · simp only [h, if_true]
  · simp only [h, if_false]

/-- The call `setCoefficients` after a new sample rate overwrites earlier coefficients. -/
theorem biquad_setSampleRate_absorb (lm : Libm α) (b : Biquad α) (sr : α) (hsr : 0 < sr)
    (t t' : BiquadType) (f q g f' q' g' : α) :
    ((b.setCoefficients lm t f q g).setSampleRate sr).setCoefficients lm t' f' q' g' =
      (b.setSampleRate sr).setCoefficients lm t' f' q' g' := by
  have h : ¬ sr ≤ 0 := not_le.mpr hsr
  by_cases hb : b.m_sampleRate ≤ 0
  · simp only [Biquad.setCoefficients, Biquad.setSampleRate, h, hb, if_false, if_true]
  · simp only [Biquad.setCoefficients, Biquad.setSampleRate, h, hb, if_false]

/-- The call `reset` and `setCoefficients` commute. -/
theorem biquad_reset_setCoefficients (lm : Libm α) (b : Biquad α) (t : BiquadType)
    (f q g : α) :
    (b.setCoefficients lm t f q g).reset = b.reset.setCoefficients lm t f q g := by
  unfold Biquad.setCoefficients Biquad.reset
  by_cases h : b.m_sampleRate ≤ 0
  · simp only [h, if_true]
  · simp only [h, if_false]

/-- The call `reset` forgets what `process` did. -/
theorem biquad_reset_process (b : Biquad α) (x : α) : (b.process x).1.reset = b.reset := rfl

/-- Two biquads at rest are equal once given the same rate and coefficients. -/
theorem biquad_configure_eq (lm : Libm α) (b b' : Biquad α) (sr : α) (hsr : 0 < sr)
    (hb : b.Silent) (hb' : b'.Silent) (t : BiquadType) (f q g : α) :
    (b.setSampleRate sr).setCoefficients lm t f q g =
      (b'.setSampleRate sr).setCoefficients lm t f q g := by
  have h : ¬ sr ≤ 0 := not_le.mpr hsr
  simp only [Biquad.setCoefficients, Biquad.setSampleRate, h, if_false, hb.1, hb.2,
    hb'.1, hb'.2]

/-- The call `setCoefficients` keeps a biquad at rest. -/
theorem biquad_setCoefficients_silent (lm : Libm α) (b : Biquad α) (t : BiquadType)
    (f q g : α) (h : b.Silent) : (b.setCoefficients lm t f q g).Silent := by
  have hf := biquad_setCoefficients_fields lm b t f q g
  exact ⟨hf.2.1.trans h.1, hf.2.2.trans h.2⟩

/-- A list of zeros resized with zeros is a list of zeros. -/
theorem vectorResize_zeros (v : List α) (n : Nat) (h : ∀ x, x ∈ v → x = 0) :
    vectorResize v n 0 = List.replicate n 0 := by
  have hv : v = List.replicate v.length 0 := List.eq_replicate_iff.mpr ⟨rfl, h⟩
  unfold vectorResize
  rw [hv]
  simp only [List.take_replicate, List.length_replicate, List.append_replicate_replicate]
  congr 1
  rcases Nat.le_total n v.length with hle | hle
  · rw [Nat.min_eq_left hle]
    omega
  · rw [Nat.min_eq_right hle]
    omega

/-- The length of a resized vector. -/
theorem vectorResize_length (v : List α) (n : Nat) (x : α) :
    (vectorResize v n x).length = n := by
  simp only [vectorResize, List.length_append, List.length_take, List.length_replicate]
  omega

/-- The call `setMaxDelayMs` on a silent line gives the zeroed line of the new capacity. -/
theorem delayLine_prepare_silent (d : DelayLine α) (sr ms : α) (h : d.Silent) :
    (d.setSampleRate sr).setMaxDelayMs ms =
      { m_sampleRate := sr, m_buffer := List.replicate (⌊sr * ms / 1000⌋₊ + 4) 0,
        m_writeIndex := 0 } := by
  simp only [DelayLine.setMaxDelayMs, DelayLine.setSampleRate, vectorResize_zeros _ _ h]

/-- The call `reset` after `setMaxDelayMs` gives the zeroed line of the new capacity. -/
theorem delayLine_reset_prepare (d : DelayLine α) (sr ms : α) :
    ((d.setSampleRate sr).setMaxDelayMs ms).reset =
      { m_sampleRate := sr, m_buffer := List.replicate (⌊sr * ms / 1000⌋₊ + 4) 0,
        m_writeIndex := 0 } := by
  simp only [DelayLine.setMaxDelayMs, DelayLine.setSampleRate, DelayLine.reset,
    vectorResize_length]

/-- A reset delay line is silent. -/
theorem delayLine_reset_silent (d : DelayLine α) : d.reset.Silent := by
  intro x hx
  exact List.eq_of_mem_replicate hx

/-- The call `reset` forgets what `write` did. -/
theorem delayLine_reset_write (d : DelayLine α) (x : α) : (d.write x).reset = d.reset := by
  unfold DelayLine.write
  split
  · rfl
  · simp only [DelayLine.reset, List.length_set]

/-! ### Silence -/

/-- Reading a silent delay line returns zero. -/
theorem delayLine_read_silent (d : DelayLine α) (delayMs : α) (h : d.Silent) :
    d.read delayMs = 0 := by
  have hg : ∀ k, d.m_buffer.getD k 0 = 0 := by
    intro k
    rcases Nat.lt_or_ge k d.m_buffer.length with hk | hk
    · rw [List.getD_eq_getElem _ _ hk]
      exact h _ (List.getElem_mem hk)
    · exact List.getD_eq_default _ _ hk
  unfold DelayLine.read DelayLine.interpolate
  split
  · rfl
  · simp only [hg, zero_mul, add_zero]

/-- Writing a zero into a silent delay line leaves it silent. -/
theorem delayLine_write_zero_silent (d : DelayLine α) (h : d.Silent) :
    (d.write 0).Silent := by
  unfold DelayLine.write
  split
  · exact h
  · intro x hx
    rcases List.mem_or_eq_of_mem_set hx with hx | hx
    · exact h x hx
    · exact hx

/-- A silent biquad fed a zero returns zero and stays silent. -/
theorem biquad_process_zero_silent (b : Biquad α) (h : b.Silent) :
    (b.process 0).2 = 0 ∧ (b.process 0).1.Silent := by
  obtain ⟨h1, h2⟩ := h
  simp [Biquad.process, Biquad.Silent, h1, h2]

/-- Replacing one element of an array by a value with the property. -/
theorem forall_update {n : Nat} {β : Type} (P : β → Prop) (f : Fin n → β) (i : Fin n)
    (x : β) (hf : ∀ j, P (f j)) (hx : P x) : ∀ j, P (Function.update f i x j) := by
  intro j
  by_cases hj : j = i
  · subst hj
    simpa using hx
  · simpa [Function.update_noteq hj] using hf j

/-- One allpass stage on a silent line with a zero input. -/
theorem reverb_processAllpass_silent (d : DelayLine α) (delayMs feedback : α)
    (h : d.Silent) :
    (Reverb.processAllpass d 0 delayMs feedback).1.Silent ∧
    (Reverb.processAllpass d 0 delayMs feedback).2 = 0 := by
  simp only [Reverb.processAllpass, delayLine_read_silent d delayMs h, zero_mul, add_zero,
    neg_zero]
  exact ⟨delayLine_write_zero_silent d h, trivial⟩

/-- One pass of the allpass loop keeps a silent reverb with zero locals. -/
theorem reverb_diffuse_silent (i : Fin kNumAllpass) (st : Reverb α × α × α)
    (h : st.1.Silent ∧ st.2.1 = 0 ∧ st.2.2 = 0) :
    (Reverb.diffuse i st).1.Silent ∧ (Reverb.diffuse i st).2.1 = 0 ∧
      (Reverb.diffuse i st).2.2 = 0 := by
  obtain ⟨r, dl, dr⟩ := st
  obtain ⟨hs, hl, hr⟩ := h
  simp only at hl hr
  subst hl hr
  obtain ⟨ha, hrest⟩ := hs
  have h1 := reverb_processAllpass_silent (r.m_allpass i) (r.m_allpassDelays i)
    r.m_allpassFeedback (ha i)
  have h2 := reverb_processAllpass_silent
    (Reverb.processAllpass (r.m_allpass i) 0 (r.m_allpassDelays i) r.m_allpassFeedback).1
    (r.m_allpassDelays i * 1.03) r.m_allpassFeedback h1.1
  simp only [Reverb.diffuse, Function.update_same, Function.update_idem]
  refine ⟨⟨?_, hrest⟩, h1.2, h2.2⟩
  exact forall_update DelayLine.Silent _ _ _ ha h2.1

/-- One pass of the comb loop keeps a silent reverb with zero sums, when the
diffused inputs are zero. -/
theorem reverb_comb_silent (i : Fin kNumComb) (st : Reverb α × α × α)
    (h : st.1.Silent ∧ st.2.1 = 0 ∧ st.2.2 = 0) :
    (Reverb.comb 0 0 i st).1.Silent ∧ (Reverb.comb 0 0 i st).2.1 = 0 ∧
      (Reverb.comb 0 0 i st).2.2 = 0 := by
  obtain ⟨r, sl, sr⟩ := st
  obtain ⟨hs, hl, hr⟩ := h
  simp only at hl hr
  subst hl hr
  obtain ⟨ha, hcl, hcr, hfl, hfr, hrest⟩ := hs
  have hbl := biquad_process_zero_silent (r.m_combFilterL i) (hfl i)
  have hbr := biquad_process_zero_silent (r.m_combFilterR i) (hfr i)
  simp only [Reverb.comb, delayLine_read_silent _ _ (hcl i), delayLine_read_silent _ _ (hcr i),
    hbl.1, hbr.1, zero_mul, add_zero]
  refine ⟨⟨ha, ?_, ?_, ?_, ?_, hrest⟩, trivial, trivial⟩
  · exact forall_update DelayLine.Silent _ _ _ hcl (delayLine_write_zero_silent _ (hcl i))
  · exact forall_update DelayLine.Silent _ _ _ hcr (delayLine_write_zero_silent _ (hcr i))
  · exact forall_update Biquad.Silent _ _ _ hfl hbl.2
  · exact forall_update Biquad.Silent _ _ _ hfr hbr.2

/-- The two loops of `Reverb::process` on a silent reverb with zero locals. -/
theorem reverb_loops_silent (st : Reverb α × α × α)
    (h : st.1.Silent ∧ st.2.1 = 0 ∧ st.2.2 = 0) :
    (forLoop kNumComb
      (Reverb.comb (forLoop kNumAllpass Reverb.diffuse st).2.1
        (forLoop kNumAllpass Reverb.diffuse st).2.2)
      ((forLoop kNumAllpass Reverb.diffuse st).1, 0, 0)).1.Silent ∧
    (forLoop kNumComb
      (Reverb.comb (forLoop kNumAllpass Reverb.diffuse st).2.1
        (forLoop kNumAllpass Reverb.diffuse st).2.2)
      ((forLoop kNumAllpass Reverb.diffuse st).1, 0, 0)).2.1 * 0.25 = 0 ∧
    (forLoop kNumComb
      (Reverb.comb (forLoop kNumAllpass Reverb.diffuse st).2.1
        (forLoop kNumAllpass Reverb.diffuse st).2.2)
      ((forLoop kNumAllpass Reverb.diffuse st).1, 0, 0)).2.2 * 0.25 = 0 := by
  have hd := forLoop_induction kNumAllpass Reverb.diffuse
    (fun t : Reverb α × α × α => t.1.Silent ∧ t.2.1 = 0 ∧ t.2.2 = 0) st h
    (fun i t ht => reverb_diffuse_silent i t ht)
  obtain ⟨hd1, hd2, hd3⟩ := hd
  rw [hd2, hd3]
  have hc := forLoop_induction kNumComb (Reverb.comb (0 : α) 0)
    (fun t : Reverb α × α × α => t.1.Silent ∧ t.2.1 = 0 ∧ t.2.2 = 0)
    ((forLoop kNumAllpass Reverb.diffuse st).1, 0, 0) ⟨hd1, rfl, rfl⟩
    (fun i t ht => reverb_comb_silent i t ht)
  obtain ⟨hc1, hc2, hc3⟩ := hc
  exact ⟨hc1, by rw [hc2, zero_mul], by rw [hc3, zero_mul]⟩

/-- A silent reverb fed a zero frame returns a zero frame and stays silent. -/
theorem reverb_process_silent (r : Reverb α) (h : r.Silent) :
    (r.process 0 0).1.Silent ∧ (r.process 0 0).2.1 = 0 ∧ (r.process 0 0).2.2 = 0 := by
  obtain ⟨ha, hcl, hcr, hfl, hfr, hpl, hpr, h1, h2, h3, h4, h5, h6⟩ := h
  have b1 := biquad_process_zero_silent _ h1
  have b2 := biquad_process_zero_silent _ h2
  have b3 := biquad_process_zero_silent _ h3
  have b4 := biquad_process_zero_silent _ h4
  have b5 := biquad_process_zero_silent _ h5
  have b6 := biquad_process_zero_silent _ h6
  have wl := delayLine_write_zero_silent _ hpl
  have wr := delayLine_write_zero_silent _ hpr
  simp only [Reverb.process, b1.1, b2.1, b3.1, b4.1, b5.1, b6.1,
    delayLine_read_silent _ _ wl, delayLine_read_silent _ _ wr]
  refine reverb_loops_silent _ ⟨?_, rfl, rfl⟩
  exact ⟨ha, hcl, hcr, hfl, hfr, wl, wr, b1.2, b2.2, b3.2, b4.2, b5.2, b6.2⟩

/-- A follower at rest fed a zero stays at rest. -/
theorem ducker_process_silent (d : Ducker α) (h : d.m_envelopeFollower.m_envelope = 0) :
    (d.process 0 0).1.m_envelopeFollower.m_envelope = 0 := by
  simp [Ducker.process, EnvelopeFollower.process, h]

/-- A silent processor fed a zero frame writes a zero frame and stays silent. -/
theorem processStereoFrame_silent (tanh : α → α) (ht : tanh 0 = 0) (s : DeliVerbDSP α)
    (h : s.Silent) :
    (DeliVerbDSP.processStereoFrame tanh s 0 0).1.Silent ∧
    (DeliVerbDSP.processStereoFrame tanh s 0 0).2.1 = 0 ∧
    (DeliVerbDSP.processStereoFrame tanh s 0 0).2.2 = 0 := by
  obtain ⟨hL, hR, hrev, henv, h1, h2, h3, h4, h5, h6⟩ := h
  have b1 := biquad_process_zero_silent _ h1
  have b2 := biquad_process_zero_silent _ h2
  have b3 := biquad_process_zero_silent _ h3
  have b4 := biquad_process_zero_silent _ h4
  have b5 := biquad_process_zero_silent _ h5
  have b6 := biquad_process_zero_silent _ h6
  have hd := ducker_process_silent s.m_ducker henv
  have hv := reverb_process_silent s.m_reverb hrev
  simp only [DeliVerbDSP.processStereoFrame, delayLine_read_silent _ _ hL,
    delayLine_read_silent _ _ hR, b1.1, b2.1, b3.1, b4.1, b5.1, b6.1, zero_mul, add_zero,
    ite_self, hv.2.1, hv.2.2, ht, zero_div]
  refine ⟨?_, trivial, trivial⟩
  exact ⟨delayLine_write_zero_silent _ hL, delayLine_write_zero_silent _ hR, hv.1, hd,
    b1.2, b2.2, b3.2, b4.2, b5.2, b6.2⟩

/-- A silent processor rendering silence writes zeros and stays silent. -/
theorem processStereo_silent (tanh : α → α) (ht : tanh 0 = 0) (s : DeliVerbDSP α)
    (h : s.Silent) (n : Nat) :
    (DeliVerbDSP.processStereo tanh s (fun _ => 0) (fun _ => 0) n).dsp.Silent ∧
    (DeliVerbDSP.processStereo tanh s (fun _ => 0) (fun _ => 0) n).outputL =
      List.replicate n 0 ∧
    (DeliVerbDSP.processStereo tanh s (fun _ => 0) (fun _ => 0) n).outputR =
      List.replicate n 0 := by
  induction n with
  | zero => exact ⟨h, rfl, rfl⟩
  | succ k ih =>
    obtain ⟨i1, i2, i3⟩ := ih
    have hf := processStereoFrame_silent tanh ht _ i1
    rw [processStereo_succ]
    refine ⟨hf.1, ?_, ?_⟩
    · simp only [i2, hf.2.1, List.replicate_succ']
    · simp only [i3, hf.2.2, List.replicate_succ']

/-! ### Silence and the control operations -/

/-- The call `setMaxDelayMs` keeps a silent line silent. -/
theorem delayLine_prepare_keeps_silent (d : DelayLine α) (sr ms : α) (h : d.Silent) :
    ((d.setSampleRate sr).setMaxDelayMs ms).Silent := by
  rw [delayLine_prepare_silent d sr ms h]
  intro x hx
  exact List.eq_of_mem_replicate hx

/-- Member function `Reverb::updateFilters` keeps a silent reverb silent. -/
theorem reverb_updateFilters_silent (lm : Libm α) (r : Reverb α) (h : r.Silent) :
    (Reverb.updateFilters lm r).Silent := by
  obtain ⟨ha, hcl, hcr, hfl, hfr, hpl, hpr, h1, h2, h3, h4, h5, h6⟩ := h
  exact ⟨ha, hcl, hcr, hfl, hfr, hpl, hpr,
    biquad_setCoefficients_silent lm _ _ _ _ _ h1, biquad_setCoefficients_silent lm _ _ _ _ _ h2,
    biquad_setCoefficients_silent lm _ _ _ _ _ h3, biquad_setCoefficients_silent lm _ _ _ _ _ h4,
    biquad_setCoefficients_silent lm _ _ _ _ _ h5, biquad_setCoefficients_silent lm _ _ _ _ _ h6⟩

/-- Member function `Reverb::updateParameters` keeps a silent reverb silent. -/
theorem reverb_updateParameters_silent (lm : Libm α) (r : Reverb α) (h : r.Silent) :
    (Reverb.updateParameters lm r).Silent := by
  obtain ⟨ha, hcl, hcr, hfl, hfr, hpl, hpr, h1, h2, h3, h4, h5, h6⟩ := h
  rw [reverb_updateParameters_eq]
  exact ⟨ha, hcl, hcr,
    fun i => biquad_setCoefficients_silent lm _ _ _ _ _ (hfl i),
    fun i => biquad_setCoefficients_silent lm _ _ _ _ _ (hfr i), hpl, hpr,
    biquad_setCoefficients_silent lm _ _ _ _ _ h1, biquad_setCoefficients_silent lm _ _ _ _ _ h2,
    biquad_setCoefficients_silent lm _ _ _ _ _ h3, biquad_setCoefficients_silent lm _ _ _ _ _ h4,
    biquad_setCoefficients_silent lm _ _ _ _ _ h5, biquad_setCoefficients_silent lm _ _ _ _ _ h6⟩

/-- Member function `Reverb::setSampleRate` keeps a silent reverb silent. -/
theorem reverb_setSampleRate_silent (lm : Libm α) (r : Reverb α) (sr : α) (h : r.Silent) :
    (Reverb.setSampleRate lm r sr).Silent := by
  obtain ⟨ha, hcl, hcr, hfl, hfr, hpl, hpr, h1, h2, h3, h4, h5, h6⟩ := h
  rw [reverb_setSampleRate_eq]
  apply reverb_updateParameters_silent
  exact ⟨fun i => delayLine_prepare_keeps_silent _ sr 100 (ha i),
    fun i => delayLine_prepare_keeps_silent _ sr 200 (hcl i),
    fun i => delayLine_prepare_keeps_silent _ sr 200 (hcr i),
    fun i => hfl i, fun i => hfr i,
    delayLine_prepare_keeps_silent _ sr 100 hpl, delayLine_prepare_keeps_silent _ sr 100 hpr,
    h1, h2, h3, h4, h5, h6⟩

/-- A reset reverb is silent. -/
theorem reverb_reset_silent (r : Reverb α) : r.reset.Silent := by
  rw [reverb_reset_eq]
  exact ⟨fun i => delayLine_reset_silent _, fun i => delayLine_reset_silent _,
    fun i => delayLine_reset_silent _, fun i => ⟨rfl, rfl⟩, fun i => ⟨rfl, rfl⟩,
    delayLine_reset_silent _, delayLine_reset_silent _,
    ⟨rfl, rfl⟩, ⟨rfl, rfl⟩, ⟨rfl, rfl⟩, ⟨rfl, rfl⟩, ⟨rfl, rfl⟩, ⟨rfl, rfl⟩⟩

/-- Member function `DeliVerbDSP::updateParameters` as one record update. -/
theorem updateParameters_eq (lm : Libm α) (s : DeliVerbDSP α) :
    DeliVerbDSP.updateParameters lm s = { s with
      m_reverb := s.m_reverb.retune lm s.m_reverbSize s.m_reverbStyle s.m_reverbLowCut
        s.m_reverbHighCut
      m_delayLowCutL := s.m_delayLowCutL.setCoefficients lm .HighPass s.m_delayLowCut 0.707 0
      m_delayLowCutR := s.m_delayLowCutR.setCoefficients lm .HighPass s.m_delayLowCut 0.707 0
      m_delayHighCutL := s.m_delayHighCutL.setCoefficients lm .LowPass s.m_delayHighCut 0.707 0
      m_delayHighCutR := s.m_delayHighCutR.setCoefficients lm .LowPass s.m_delayHighCut 0.707 0
      m_ducker := ((s.m_ducker.setDelayAmount s.m_duckDelayAmount).setReverbAmount
        s.m_duckReverbAmount).setBehaviour s.m_duckBehaviour } := by
  simp only [DeliVerbDSP.updateParameters, Reverb.retune]

/-- The four reverb setters keep a silent reverb silent. -/
theorem reverb_retune_silent (lm : Libm α) (r : Reverb α) (size style lowCut highCut : α)
    (h : r.Silent) : (r.retune lm size style lowCut highCut).Silent := by
  have h1 : (r.setSize lm size).Silent := reverb_updateParameters_silent lm _ h
  have h2 : ((r.setSize lm size).setStyle lm style).Silent :=
    reverb_updateParameters_silent lm _ h1
  have h3 : (((r.setSize lm size).setStyle lm style).setLowCut lm lowCut).Silent :=
    reverb_updateFilters_silent lm _ h2
  exact reverb_updateFilters_silent lm _ h3

/-- Member function `DeliVerbDSP::updateParameters` keeps a silent processor silent. -/
theorem updateParameters_silent (lm : Libm α) (s : DeliVerbDSP α) (h : s.Silent) :
    (DeliVerbDSP.updateParameters lm s).Silent := by
  obtain ⟨hL, hR, hrev, henv, h1, h2, h3, h4, h5, h6⟩ := h
  rw [updateParameters_eq]
  exact ⟨hL, hR, reverb_retune_silent lm _ _ _ _ _ hrev, henv,
    biquad_setCoefficients_silent lm _ _ _ _ _ h1,
    biquad_setCoefficients_silent lm _ _ _ _ _ h2, biquad_setCoefficients_silent lm _ _ _ _ _ h3,
    biquad_setCoefficients_silent lm _ _ _ _ _ h4, h5, h6⟩

/-- Member function `DeliVerbDSP::setParameter` keeps a silent processor silent. -/
theorem setParameter_silent (lm : Libm α) (s : DeliVerbDSP α) (p : ParamID) (v : α)
    (h : s.Silent) : (s.setParameter lm p v).Silent := by
  apply updateParameters_silent
  cases p <;> exact h

/-- The envelope survives `Ducker::setSampleRate`. -/
theorem ducker_setSampleRate_envelope (lm : Libm α) (d : Ducker α) (sr : α) :
    (d.setSampleRate lm sr).m_envelopeFollower.m_envelope =
      d.m_envelopeFollower.m_envelope := by
  simp only [Ducker.setSampleRate, EnvelopeFollower.setSampleRate,
    EnvelopeFollower.setAttackMs, EnvelopeFollower.setReleaseMs,
    EnvelopeFollower.updateCoefficients]
  split_ifs <;> rfl

/-- Member function `DeliVerbDSP::setSampleRate` keeps a silent processor silent. -/
theorem setSampleRate_silent (lm : Libm α) (s : DeliVerbDSP α) (sr : α) (h : s.Silent) :
    (s.setSampleRate lm sr).Silent := by
  obtain ⟨hL, hR, hrev, henv, h1, h2, h3, h4, h5, h6⟩ := h
  unfold DeliVerbDSP.setSampleRate
  apply updateParameters_silent
  exact ⟨delayLine_prepare_keeps_silent _ sr 2100 hL, delayLine_prepare_keeps_silent _ sr 2100 hR,
    reverb_setSampleRate_silent lm _ sr hrev,
    (ducker_setSampleRate_envelope lm _ sr).trans henv, h1, h2, h3, h4,
    biquad_setCoefficients_silent lm _ _ _ _ _ h5, biquad_setCoefficients_silent lm _ _ _ _ _ h6⟩

/-- A reset processor is silent. -/
theorem reset_silent (s : DeliVerbDSP α) : s.reset.Silent :=
  ⟨delayLine_reset_silent _, delayLine_reset_silent _, reverb_reset_silent _, rfl,
    ⟨rfl, rfl⟩, ⟨rfl, rfl⟩, ⟨rfl, rfl⟩, ⟨rfl, rfl⟩, ⟨rfl, rfl⟩, ⟨rfl, rfl⟩⟩

/-- A freshly constructed processor is silent: its buffers are empty. -/
theorem init_silent : (DeliVerbDSP.init : DeliVerbDSP α).Silent := by
  have hd : (DelayLine.init : DelayLine α).Silent := fun x hx => by cases hx
  have hb : (Biquad.init : Biquad α).Silent := ⟨rfl, rfl⟩
  exact ⟨hd, hd, ⟨fun _ => hd, fun _ => hd, fun _ => hd, fun _ => hb, fun _ => hb, hd, hd,
    hb, hb, hb, hb, hb, hb⟩, rfl, hb, hb, hb, hb, hb, hb⟩

/-- A sequence of `setParameter` calls keeps a silent processor silent. -/
theorem setParameters_silent (lm : Libm α) (ps : List (ParamID × α)) (s : DeliVerbDSP α)
    (h : s.Silent) : (s.setParameters lm ps).Silent := by
  unfold DeliVerbDSP.setParameters
  induction ps generalizing s with
  | nil => exact h
  | cons pv ps ih => exact ih _ (setParameter_silent lm s pv.1 pv.2 h)

/-! ### C3: silence is a fixed point -/

/-- C3: starting from a freshly constructed processor after `setSampleRate(sr)`
(with any parameters set before or after it), or from any processor after
`reset`, processing any number of all-zero frames through `processStereo`
writes samples that are all exactly `0` and leaves every delay buffer sample,
biquad state variable and the envelope at zero. -/
theorem silence_fixed_point (lm : Libm ℝ) (sr : ℝ) (before after : List (ParamID × ℝ))
    (s : DeliVerbDSP ℝ) (n : Nat) :
    ((DeliVerbDSP.processStereo Real.tanh
        (((DeliVerbDSP.init.setParameters lm before).setSampleRate lm sr).setParameters lm
          after) (fun _ => 0) (fun _ => 0) n).outputL = List.replicate n 0 ∧
      (DeliVerbDSP.processStereo Real.tanh
        (((DeliVerbDSP.init.setParameters lm before).setSampleRate lm sr).setParameters lm
          after) (fun _ => 0) (fun _ => 0) n).outputR = List.replicate n 0 ∧
      (DeliVerbDSP.processStereo Real.tanh
        (((DeliVerbDSP.init.setParameters lm before).setSampleRate lm sr).setParameters lm
          after) (fun _ => 0) (fun _ => 0) n).dsp.Silent) ∧
    ((DeliVerbDSP.processStereo Real.tanh s.reset (fun _ => 0) (fun _ => 0) n).outputL =
        List.replicate n 0 ∧
      (DeliVerbDSP.processStereo Real.tanh s.reset (fun _ => 0) (fun _ => 0) n).outputR =
        List.replicate n 0 ∧
      (DeliVerbDSP.processStereo Real.tanh s.reset (fun _ => 0) (fun _ => 0) n).dsp.Silent) := by
  have h1 : (((DeliVerbDSP.init.setParameters lm before).setSampleRate lm sr).setParameters lm
      after).Silent :=
    setParameters_silent lm after _
      (setSampleRate_silent lm _ sr (setParameters_silent lm before _ init_silent))
  have r1 := processStereo_silent Real.tanh Real.tanh_zero _ h1 n
  have r2 := processStereo_silent Real.tanh Real.tanh_zero _ (reset_silent s) n
  exact ⟨⟨r1.2.1, r1.2.2, r1.1⟩, ⟨r2.2.1, r2.2.2, r2.1⟩⟩

/-! ### Static and dynamic state: the reverb -/

/-- The four reverb setters of `updateParameters`, as one record update. -/
theorem reverb_retune_eq (lm : Libm α) (r : Reverb α) (size style lowCut highCut : α) :
    r.retune lm size style lowCut highCut = { r with
      m_size := max 0 (min 1 size)
      m_style := max 0 (min 1 style)
      m_lowCutFreq := max 20 (min 2000 lowCut)
      m_highCutFreq := max 1000 (min 20000 highCut)
      m_allpassDelays := ![4.77 * (0.5 + max 0 (min 1 size) * 1.5),
        5.93 * (0.5 + max 0 (min 1 size) * 1.5), 7.11 * (0.5 + max 0 (min 1 size) * 1.5),
        8.17 * (0.5 + max 0 (min 1 size) * 1.5)]
      m_allpassFeedback := 0.5 + max 0 (min 1 style) * 0.25
      m_combDelays := ![25.31 * (0.5 + max 0 (min 1 size) * 1.5),
        26.93 * (0.5 + max 0 (min 1 size) * 1.5), 28.97 * (0.5 + max 0 (min 1 size) * 1.5),
        30.71 * (0.5 + max 0 (min 1 size) * 1.5), 32.83 * (0.5 + max 0 (min 1 size) * 1.5),
        34.49 * (0.5 + max 0 (min 1 size) * 1.5), 36.37 * (0.5 + max 0 (min 1 size) * 1.5),
        38.89 * (0.5 + max 0 (min 1 size) * 1.5)]
      m_combFeedback := min 0.98 (0.7 + max 0 (min 1 size) * 0.25)
      m_stereoSpread := 1.02 + max 0 (min 1 style) * 0.02
      m_combFilterL := fun i => (r.m_combFilterL i).setCoefficients lm .LowPass
        (4000 + max 0 (min 1 style) * 8000) 0.707 0
      m_combFilterR := fun i => (r.m_combFilterR i).setCoefficients lm .LowPass
        (4000 + max 0 (min 1 style) * 8000) 0.707 0
      m_inputLowCutL := r.m_inputLowCutL.setCoefficients lm .HighPass
        (max 20 (min 2000 lowCut)) 0.707 0
      m_inputLowCutR := r.m_inputLowCutR.setCoefficients lm .HighPass
        (max 20 (min 2000 lowCut)) 0.707 0
      m_inputHighCutL := r.m_inputHighCutL.setCoefficients lm .LowPass
        (max 1000 (min 20000 highCut)) 0.707 0
      m_inputHighCutR := r.m_inputHighCutR.setCoefficients lm .LowPass
        (max 1000 (min 20000 highCut)) 0.707 0
      m_inputScoopL := r.m_inputScoopL.setCoefficients lm .Peak 500 0.7 (r.m_scoopAmount * -12)
      m_inputScoopR :=
        r.m_inputScoopR.setCoefficients lm .Peak 500 0.7 (r.m_scoopAmount * -12) } := by
  simp only [Reverb.retune, Reverb.setSize, Reverb.setStyle, Reverb.setLowCut,
    Reverb.setHighCut, reverb_updateParameters_eq, Reverb.updateFilters,
    biquad_setCoefficients_absorb]

/-- The call `reset` and `setSampleRate` of a biquad commute. -/
theorem biquad_reset_setSampleRate (b : Biquad α) (sr : α) :
    (b.setSampleRate sr).reset = b.reset.setSampleRate sr := rfl

/-- The call `setMaxDelayMs` on a reset line gives the zeroed line of the new capacity. -/
theorem delayLine_prepare_reset (d : DelayLine α) (sr ms : α) :
    (d.reset.setSampleRate sr).setMaxDelayMs ms =
      { m_sampleRate := sr, m_buffer := List.replicate (⌊sr * ms / 1000⌋₊ + 4) 0,
        m_writeIndex := 0 } :=
  delayLine_prepare_silent _ sr ms (delayLine_reset_silent d)

/-- The call `reset` commutes with the four reverb setters. -/
theorem reverb_reset_retune (lm : Libm α) (r : Reverb α) (size style lowCut highCut : α) :
    (r.retune lm size style lowCut highCut).reset =
      r.reset.retune lm size style lowCut highCut := by
  simp only [reverb_retune_eq, reverb_reset_eq, biquad_reset_setCoefficients]

/-- A second round of the four reverb setters overwrites the first. -/
theorem reverb_retune_absorb (lm : Libm α) (r : Reverb α)
    (size style lowCut highCut size' style' lowCut' highCut' : α) :
    (r.retune lm size style lowCut highCut).retune lm size' style' lowCut' highCut' =
      r.retune lm size' style' lowCut' highCut' := by
  simp only [reverb_retune_eq, biquad_setCoefficients_absorb]

/-- The call `reset` commutes with `Reverb::setSampleRate`. -/
theorem reverb_reset_setSampleRate (lm : Libm α) (r : Reverb α) (sr : α) :
    (Reverb.setSampleRate lm r sr).reset = Reverb.setSampleRate lm r.reset sr := by
  simp only [reverb_setSampleRate_eq, reverb_updateParameters_eq, reverb_reset_eq,
    biquad_reset_setCoefficients, biquad_reset_setSampleRate, delayLine_reset_prepare,
    delayLine_prepare_reset]

/-- Two silent reverbs with the same scoop amount are equal once prepared for
the same sample rate and given the same four parameters. -/
theorem reverb_configure_eq (lm : Libm α) (r r' : Reverb α) (sr : α) (hsr : 0 < sr)
    (h : r.Silent) (h' : r'.Silent) (hs : r.m_scoopAmount = r'.m_scoopAmount)
    (size style lowCut highCut : α) :
    (Reverb.setSampleRate lm r sr).retune lm size style lowCut highCut =
      (Reverb.setSampleRate lm r' sr).retune lm size style lowCut highCut := by
  obtain ⟨ha, hcl, hcr, hfl, hfr, hpl, hpr, h1, h2, h3, h4, h5, h6⟩ := h
  obtain ⟨ha', hcl', hcr', hfl', hfr', hpl', hpr', h1', h2', h3', h4', h5', h6'⟩ := h'
  have e1 : (fun i => ((r.m_allpass i).setSampleRate sr).setMaxDelayMs 100) =
      fun i => ((r'.m_allpass i).setSampleRate sr).setMaxDelayMs 100 := by
    funext i
    rw [delayLine_prepare_silent _ sr 100 (ha i), delayLine_prepare_silent _ sr 100 (ha' i)]
  have e2 : (fun i => ((r.m_combL i).setSampleRate sr).setMaxDelayMs 200) =
      fun i => ((r'.m_combL i).setSampleRate sr).setMaxDelayMs 200 := by
    funext i
    rw [delayLine_prepare_silent _ sr 200 (hcl i), delayLine_prepare_silent _ sr 200 (hcl' i)]
  have e3 : (fun i => ((r.m_combR i).setSampleRate sr).setMaxDelayMs 200) =
      fun i => ((r'.m_combR i).setSampleRate sr).setMaxDelayMs 200 := by
    funext i
    rw [delayLine_prepare_silent _ sr 200 (hcr i), delayLine_prepare_silent _ sr 200 (hcr' i)]
  have e4 : ∀ f, (fun i => ((r.m_combFilterL i).setSampleRate sr).setCoefficients lm
        .LowPass f 0.707 0) =
      fun i => ((r'.m_combFilterL i).setSampleRate sr).setCoefficients lm .LowPass f 0.707 0 :=
    fun f => funext fun i => biquad_configure_eq lm _ _ sr hsr (hfl i) (hfl' i) _ _ _ _
  have e5 : ∀ f, (fun i => ((r.m_combFilterR i).setSampleRate sr).setCoefficients lm
        .LowPass f 0.707 0) =
      fun i => ((r'.m_combFilterR i).setSampleRate sr).setCoefficients lm .LowPass f 0.707 0 :=
    fun f => funext fun i => biquad_configure_eq lm _ _ sr hsr (hfr i) (hfr' i) _ _ _ _
  simp only [reverb_retune_eq, reverb_setSampleRate_eq, reverb_updateParameters_eq,
    biquad_setCoefficients_absorb, e1, e2, e3, e4, e5, hs,
    delayLine_prepare_silent _ sr 100 hpl, delayLine_prepare_silent _ sr 100 hpl',
    delayLine_prepare_silent _ sr 100 hpr, delayLine_prepare_silent _ sr 100 hpr',
    biquad_configure_eq lm r.m_inputLowCutL r'.m_inputLowCutL sr hsr h1 h1',
    biquad_configure_eq lm r.m_inputLowCutR r'.m_inputLowCutR sr hsr h2 h2',
    biquad_configure_eq lm r.m_inputHighCutL r'.m_inputHighCutL sr hsr h3 h3',
    biquad_configure_eq lm r.m_inputHighCutR r'.m_inputHighCutR sr hsr h4 h4',
    biquad_configure_eq lm r.m_inputScoopL r'.m_inputScoopL sr hsr h5 h5',
    biquad_configure_eq lm r.m_inputScoopR r'.m_inputScoopR sr hsr h6 h6']

/-- Replacing one element of an array by one with the same image under `g`. -/
theorem map_update_eq {n : Nat} {β γ : Type} (g : β → γ) (f : Fin n → β) (i : Fin n) (x : β)
    (h : g x = g (f i)) : (fun j => g (Function.update f i x j)) = fun j => g (f j) := by
  funext j
  by_cases hj : j = i
  · subst hj
    simpa using h
  · simp [Function.update_noteq hj]

/-- The call `reset` forgets what one allpass stage did. -/
theorem reverb_reset_processAllpass (d : DelayLine α) (input delayMs feedback : α) :
    (Reverb.processAllpass d input delayMs feedback).1.reset = d.reset := by
  simp only [Reverb.processAllpass, delayLine_reset_write]

/-- The call `reset` forgets what one pass of the allpass loop did. -/
theorem reverb_reset_diffuse (i : Fin kNumAllpass) (st : Reverb α × α × α) :
    (Reverb.diffuse i st).1.reset = st.1.reset := by
  have h : (fun j => (Function.update st.1.m_allpass i
        (Reverb.processAllpass
          (Reverb.processAllpass (st.1.m_allpass i) st.2.1 (st.1.m_allpassDelays i)
            st.1.m_allpassFeedback).1
          st.2.2 (st.1.m_allpassDelays i * 1.03) st.1.m_allpassFeedback).1 j).reset) =
      fun j => (st.1.m_allpass j).reset :=
    map_update_eq DelayLine.reset _ _ _
      (by rw [reverb_reset_processAllpass, reverb_reset_processAllpass])
  simp only [Reverb.diffuse, reverb_reset_eq, Function.update_same, Function.update_idem, h]

/-- The call `reset` forgets what one pass of the comb loop did. -/
theorem reverb_reset_comb (diffL diffR : α) (i : Fin kNumComb) (st : Reverb α × α × α) :
    (Reverb.comb diffL diffR i st).1.reset = st.1.reset := by
  simp only [Reverb.comb, reverb_reset_eq]
  rw [map_update_eq DelayLine.reset st.1.m_combL i _ (delayLine_reset_write _ _),
    map_update_eq DelayLine.reset st.1.m_combR i _ (delayLine_reset_write _ _),
    map_update_eq Biquad.reset st.1.m_combFilterL i _ (biquad_reset_process _ _),
    map_update_eq Biquad.reset st.1.m_combFilterR i _ (biquad_reset_process _ _)]

/-- The call `reset` forgets what `Reverb::process` did. -/
theorem reverb_reset_process (r : Reverb α) (inputL inputR : α) :
    (r.process inputL inputR).1.reset = r.reset := by
  simp only [Reverb.process]
  refine (forLoop_induction kNumComb _ (fun t : Reverb α × α × α => t.1.reset = r.reset) _ ?_
    (fun i t ht => (reverb_reset_comb _ _ i t).trans ht))
  refine (forLoop_induction kNumAllpass Reverb.diffuse
    (fun t : Reverb α × α × α => t.1.reset = r.reset) _ ?_
    (fun i t ht => (reverb_reset_diffuse i t).trans ht))
  simp only [reverb_reset_eq, delayLine_reset_write, biquad_reset_process]

/-! ### Static and dynamic state: the processor -/

/-- The call `reset` forgets what `Ducker::process` did. -/
theorem ducker_reset_process (d : Ducker α) (inputL inputR : α) :
    (d.process inputL inputR).1.reset = d.reset := rfl

/-- The call `reset` commutes with the three ducker setters. -/
theorem ducker_reset_setters (d : Ducker α) (a b c : α) :
    (((d.setDelayAmount a).setReverbAmount b).setBehaviour c).reset =
      ((d.reset.setDelayAmount a).setReverbAmount b).setBehaviour c := rfl

/-- The call `reset` commutes with `Ducker::setSampleRate`. -/
theorem ducker_reset_setSampleRate (lm : Libm α) (d : Ducker α) (sr : α) :
    (d.setSampleRate lm sr).reset = d.reset.setSampleRate lm sr := by
  simp only [Ducker.setSampleRate, Ducker.reset, EnvelopeFollower.setSampleRate,
    EnvelopeFollower.setAttackMs, EnvelopeFollower.setReleaseMs,
    EnvelopeFollower.updateCoefficients, EnvelopeFollower.reset]
  split_ifs <;> rfl

/-- The call `reset` forgets what one frame of `processStereo` did. -/
theorem reset_processStereoFrame (tanh : α → α) (s : DeliVerbDSP α) (dryL dryR : α) :
    (DeliVerbDSP.processStereoFrame tanh s dryL dryR).1.reset = s.reset := by
  simp only [DeliVerbDSP.processStereoFrame, DeliVerbDSP.reset, delayLine_reset_write,
    biquad_reset_process, reverb_reset_process, ducker_reset_process]

/-- The call `reset` forgets what `processStereo` did. -/
theorem reset_processStereo (tanh : α → α) (s : DeliVerbDSP α) (inputL inputR : Nat → α)
    (n : Nat) : (DeliVerbDSP.processStereo tanh s inputL inputR n).dsp.reset = s.reset := by
  induction n with
  | zero => rfl
  | succ k ih =>
    rw [processStereo_succ]
    exact (reset_processStereoFrame tanh _ _ _).trans ih

/-- The call `reset` commutes with `updateParameters`. -/
theorem reset_updateParameters (lm : Libm α) (s : DeliVerbDSP α) :
    (DeliVerbDSP.updateParameters lm s).reset = DeliVerbDSP.updateParameters lm s.reset := by
  simp only [updateParameters_eq, DeliVerbDSP.reset, reverb_reset_retune,
    biquad_reset_setCoefficients, ducker_reset_setters]

/-- The call `reset` commutes with the store of a parameter. -/
theorem reset_storeParameter (s : DeliVerbDSP α) (p : ParamID) (v : α) :
    (s.storeParameter p v).reset = s.reset.storeParameter p v := by
  cases p <;> rfl

/-- The call `reset` commutes with `setParameter`. -/
theorem reset_setParameter (lm : Libm α) (s : DeliVerbDSP α) (p : ParamID) (v : α) :
    (s.setParameter lm p v).reset = s.reset.setParameter lm p v := by
  simp only [DeliVerbDSP.setParameter, reset_updateParameters, reset_storeParameter]

/-- The call `reset` commutes with `setSampleRate`. -/
theorem reset_setSampleRate (lm : Libm α) (s : DeliVerbDSP α) (sr : α) :
    (s.setSampleRate lm sr).reset = s.reset.setSampleRate lm sr := by
  simp only [DeliVerbDSP.setSampleRate, reset_updateParameters]
  simp only [DeliVerbDSP.reset, delayLine_reset_prepare, delayLine_prepare_reset,
    reverb_reset_setSampleRate, ducker_reset_setSampleRate, biquad_reset_setCoefficients,
    biquad_reset_setSampleRate]

/-- Two duckers with the same envelope are equal once prepared for the same
sample rate and given the same three parameters. -/
theorem ducker_configure_eq (lm : Libm α) (d d' : Ducker α) (sr : α) (hsr : 0 < sr)
    (h : d.m_envelopeFollower.m_envelope = d'.m_envelopeFollower.m_envelope) (a b c : α) :
    (((d.setSampleRate lm sr).setDelayAmount a).setReverbAmount b).setBehaviour c =
      (((d'.setSampleRate lm sr).setDelayAmount a).setReverbAmount b).setBehaviour c := by
  have hn : ¬ sr ≤ 0 := not_le.mpr hsr
  simp only [Ducker.setSampleRate, Ducker.setDelayAmount, Ducker.setReverbAmount,
    Ducker.setBehaviour, EnvelopeFollower.setSampleRate, EnvelopeFollower.setAttackMs,
    EnvelopeFollower.setReleaseMs, EnvelopeFollower.updateCoefficients, hn, if_false, h]

/-- The fourteen parameters of two processors agree. -/
theorem parameters_agree (u v : DeliVerbDSP α)
    (hp : ∀ p, u.getParameter p = v.getParameter p) :
    u.m_delayTime = v.m_delayTime ∧ u.m_delayRepeat = v.m_delayRepeat ∧
    u.m_delayMix = v.m_delayMix ∧ u.m_reverbSize = v.m_reverbSize ∧
    u.m_reverbStyle = v.m_reverbStyle ∧ u.m_reverbMix = v.m_reverbMix ∧
    u.m_delayLowCut = v.m_delayLowCut ∧ u.m_delayHighCut = v.m_delayHighCut ∧
    u.m_reverbLowCut = v.m_reverbLowCut ∧ u.m_reverbHighCut = v.m_reverbHighCut ∧
    u.m_duckDelayAmount = v.m_duckDelayAmount ∧ u.m_duckReverbAmount = v.m_duckReverbAmount ∧
    u.m_duckBehaviour = v.m_duckBehaviour ∧ u.m_advanced = v.m_advanced := by
  refine ⟨hp .kDelayTime, hp .kDelayRepeat, hp .kDelayMix, hp .kReverbSize, hp .kReverbStyle,
    hp .kReverbMix, hp .kDelayLowCut, hp .kDelayHighCut, hp .kReverbLowCut,
    hp .kReverbHighCut, hp .kDuckDelayAmount, hp .kDuckReverbAmount, hp .kDuckBehaviour, ?_⟩
  have h := hp .kAdvanced
  simp only [DeliVerbDSP.getParameter] at h
  cases hu : u.m_advanced <;> cases hv : v.m_advanced <;> simp [hu, hv] at h ⊢

/-- Two silent processors with the same parameters (and the same scoop amount)
are equal after `setSampleRate(sr)`, `sr > 0`. -/
theorem setSampleRate_determined (lm : Libm α) (u v : DeliVerbDSP α) (sr : α) (hsr : 0 < sr)
    (hu : u.Silent) (hv : v.Silent) (hp : ∀ p, u.getParameter p = v.getParameter p)
    (hs : u.m_reverb.m_scoopAmount = v.m_reverb.m_scoopAmount) :
    u.setSampleRate lm sr = v.setSampleRate lm sr := by
  obtain ⟨p1, p2, p3, p4, p5, p6, p7, p8, p9, p10, p11, p12, p13, p14⟩ := parameters_agree u v hp
  obtain ⟨hL, hR, hrev, henv, h1, h2, h3, h4, h5, h6⟩ := hu
  obtain ⟨hL', hR', hrev', henv', h1', h2', h3', h4', h5', h6'⟩ := hv
  simp only [DeliVerbDSP.setSampleRate, updateParameters_eq, p1, p2, p3, p4, p5, p6, p7, p8,
    p9, p10, p11, p12, p13, p14,
    delayLine_prepare_silent _ sr 2100 hL, delayLine_prepare_silent _ sr 2100 hL',
    delayLine_prepare_silent _ sr 2100 hR, delayLine_prepare_silent _ sr 2100 hR',
    reverb_configure_eq lm u.m_reverb v.m_reverb sr hsr hrev hrev' hs,
    ducker_configure_eq lm u.m_ducker v.m_ducker sr hsr (henv.trans henv'.symm),
    biquad_configure_eq lm u.m_delayLowCutL v.m_delayLowCutL sr hsr h1 h1',
    biquad_configure_eq lm u.m_delayLowCutR v.m_delayLowCutR sr hsr h2 h2',
    biquad_configure_eq lm u.m_delayHighCutL v.m_delayHighCutL sr hsr h3 h3',
    biquad_configure_eq lm u.m_delayHighCutR v.m_delayHighCutR sr hsr h4 h4',
    biquad_configure_eq lm u.m_delayFeedbackFilterL v.m_delayFeedbackFilterL sr hsr h5 h5',
    biquad_configure_eq lm u.m_delayFeedbackFilterR v.m_delayFeedbackFilterR sr hsr h6 h6']

/-! ### Parameters, sample rate and scoop amount along a run -/

/-- The `switch` of `setParameter` followed by the `switch` of `getParameter`. -/
theorem getParameter_storeParameter (s : DeliVerbDSP α) (p q : ParamID) (v : α) :
    (s.storeParameter p v).getParameter q =
      if q = p then
        (if p = .kAdvanced then (if v > 0.5 then 1 else 0)
          else if p = .kNumParams then 0 else v)
      else s.getParameter q := by
  cases p <;> cases q <;>
    simp [DeliVerbDSP.storeParameter, DeliVerbDSP.getParameter]

/-- The call `getParameter` after `setParameter`. -/
theorem getParameter_setParameter (lm : Libm α) (s : DeliVerbDSP α) (p q : ParamID) (v : α) :
    (s.setParameter lm p v).getParameter q =
      if q = p then
        (if p = .kAdvanced then (if v > 0.5 then 1 else 0)
          else if p = .kNumParams then 0 else v)
      else s.getParameter q := by
  rw [DeliVerbDSP.setParameter, getParameter_updateParameters, getParameter_storeParameter]

/-- The call `reset` does not write any of the fourteen parameters. -/
theorem getParameter_reset (s : DeliVerbDSP α) (q : ParamID) :
    s.reset.getParameter q = s.getParameter q := by
  cases q <;> simp only [DeliVerbDSP.getParameter, DeliVerbDSP.reset]

/-- Setting the fourteen parameters to those of `s` makes `getParameter` agree
with `s`. -/
theorem getParameter_setParameters (lm : Libm α) (t s : DeliVerbDSP α) (q : ParamID) :
    (t.setParameters lm s.parameters).getParameter q = s.getParameter q := by
  have hadv : (if (if s.m_advanced = true then (1 : α) else 0) > 0.5 then (1 : α) else 0) =
      if s.m_advanced = true then 1 else 0 := by
    cases s.m_advanced <;> norm_num
  simp only [DeliVerbDSP.setParameters, DeliVerbDSP.parameters, ParamID.all, List.map_cons,
    List.map_nil, List.foldl_cons, List.foldl_nil, getParameter_setParameter]
  cases q <;> simp [DeliVerbDSP.getParameter, hadv]

/-- The call `reset` keeps the scoop amount and the sample rate. -/
theorem reset_keeps (s : DeliVerbDSP α) :
    s.reset.m_reverb.m_scoopAmount = s.m_reverb.m_scoopAmount ∧
    s.reset.m_sampleRate = s.m_sampleRate := by
  simp only [DeliVerbDSP.reset, reverb_reset_eq, and_self]

/-- The call `updateParameters` keeps the scoop amount and the sample rate. -/
theorem updateParameters_keeps (lm : Libm α) (s : DeliVerbDSP α) :
    (DeliVerbDSP.updateParameters lm s).m_reverb.m_scoopAmount = s.m_reverb.m_scoopAmount ∧
    (DeliVerbDSP.updateParameters lm s).m_sampleRate = s.m_sampleRate := by
  simp only [updateParameters_eq, reverb_retune_eq, and_self]

/-- The call `setParameter` keeps the scoop amount and the sample rate. -/
theorem setParameter_keeps (lm : Libm α) (s : DeliVerbDSP α) (p : ParamID) (v : α) :
    (s.setParameter lm p v).m_reverb.m_scoopAmount = s.m_reverb.m_scoopAmount ∧
    (s.setParameter lm p v).m_sampleRate = s.m_sampleRate := by
  have h := updateParameters_keeps lm (s.storeParameter p v)
  unfold DeliVerbDSP.setParameter
  refine ⟨h.1.trans ?_, h.2.trans ?_⟩ <;> cases p <;> rfl

/-- The call `setSampleRate` keeps the scoop amount and stores the sample rate. -/
theorem setSampleRate_keeps (lm : Libm α) (s : DeliVerbDSP α) (sr : α) :
    (s.setSampleRate lm sr).m_reverb.m_scoopAmount = s.m_reverb.m_scoopAmount ∧
    (s.setSampleRate lm sr).m_sampleRate = sr := by
  simp only [DeliVerbDSP.setSampleRate, updateParameters_eq, reverb_retune_eq,
    reverb_setSampleRate_eq, reverb_updateParameters_eq, and_self]

/-- The call `processStereo` keeps the parameters, the scoop amount and the sample rate. -/
theorem processStereo_keeps (tanh : α → α) (s : DeliVerbDSP α) (inputL inputR : Nat → α)
    (n : Nat) :
    (∀ q, (s.processStereo tanh inputL inputR n).dsp.getParameter q = s.getParameter q) ∧
    (s.processStereo tanh inputL inputR n).dsp.m_reverb.m_scoopAmount =
      s.m_reverb.m_scoopAmount ∧
    (s.processStereo tanh inputL inputR n).dsp.m_sampleRate = s.m_sampleRate := by
  have h := reset_processStereo tanh s inputL inputR n
  refine ⟨fun q => ?_, ?_, ?_⟩
  · rw [← getParameter_reset, h, getParameter_reset]
  · rw [← (reset_keeps _).1, h, (reset_keeps _).1]
  · rw [← (reset_keeps _).2, h, (reset_keeps _).2]

/-- A sequence of `setParameter` calls keeps the scoop amount. -/
theorem setParameters_keeps (lm : Libm α) (ps : List (ParamID × α)) (s : DeliVerbDSP α) :
    (s.setParameters lm ps).m_reverb.m_scoopAmount = s.m_reverb.m_scoopAmount := by
  unfold DeliVerbDSP.setParameters
  induction ps generalizing s with
  | nil => rfl
  | cons pv ps ih => exact (ih _).trans (setParameter_keeps lm s pv.1 pv.2).1

/-! ### Absorption: a later configuration overwrites an earlier one -/

/-- The call `reset` twice is `reset` once, for the reverb. -/
theorem reverb_reset_reset (r : Reverb α) : r.reset.reset = r.reset := by
  simp only [reverb_reset_eq, DelayLine.reset, Biquad.reset, List.length_replicate]

/-- The call `reset` twice is `reset` once. -/
theorem reset_reset (s : DeliVerbDSP α) : s.reset.reset = s.reset := by
  simp only [DeliVerbDSP.reset, reverb_reset_reset]
  simp only [DelayLine.reset, Biquad.reset, Ducker.reset, EnvelopeFollower.reset,
    List.length_replicate]

/-- A second `updateParameters`, after a parameter store, overwrites the first. -/
theorem updateParameters_absorb (lm : Libm α) (s : DeliVerbDSP α) (p : ParamID) (v : α) :
    DeliVerbDSP.updateParameters lm ((DeliVerbDSP.updateParameters lm s).storeParameter p v) =
      DeliVerbDSP.updateParameters lm (s.storeParameter p v) := by
  cases p <;>
    simp only [updateParameters_eq, DeliVerbDSP.storeParameter, reverb_retune_absorb,
      biquad_setCoefficients_absorb, Ducker.setDelayAmount, Ducker.setReverbAmount,
      Ducker.setBehaviour]

/-- The call `setSampleRate` is `updateParameters` after the preparation. -/
theorem setSampleRate_eq_prepare (lm : Libm α) (s : DeliVerbDSP α) (sr : α) :
    s.setSampleRate lm sr = DeliVerbDSP.updateParameters lm (s.prepare lm sr) := by
  simp only [DeliVerbDSP.setSampleRate, DeliVerbDSP.prepare]

/-- The preparation and the store of a parameter commute. -/
theorem prepare_storeParameter (lm : Libm α) (s : DeliVerbDSP α) (sr : α) (p : ParamID)
    (v : α) : (s.storeParameter p v).prepare lm sr = (s.prepare lm sr).storeParameter p v := by
  cases p <;> simp only [DeliVerbDSP.prepare, DeliVerbDSP.storeParameter]

/-- The call `setParameter` after `setSampleRate` is `setSampleRate` after the store. -/
theorem setSampleRate_setParameter (lm : Libm α) (s : DeliVerbDSP α) (sr : α) (p : ParamID)
    (v : α) :
    (s.setSampleRate lm sr).setParameter lm p v = (s.storeParameter p v).setSampleRate lm sr := by
  rw [DeliVerbDSP.setParameter, setSampleRate_eq_prepare, setSampleRate_eq_prepare,
    updateParameters_absorb, prepare_storeParameter]

/-! ### Reachable states and the fresh instance -/

/-- Processors that agree on `getParameter` have the same parameter list. -/
theorem parameters_congr (a b : DeliVerbDSP α)
    (h : ∀ q, a.getParameter q = b.getParameter q) : a.parameters = b.parameters := by
  simp only [DeliVerbDSP.parameters, h]

/-- The call `setSampleRate` does not write any of the fourteen parameters. -/
theorem getParameter_setSampleRate (lm : Libm α) (s : DeliVerbDSP α) (sr : α) (q : ParamID) :
    (s.setSampleRate lm sr).getParameter q = s.getParameter q := by
  rw [setSampleRate_eq_prepare, getParameter_updateParameters]
  cases q <;> simp only [DeliVerbDSP.getParameter, DeliVerbDSP.prepare]

/-- The store of a parameter keeps a silent processor silent and keeps the
scoop amount. -/
theorem storeParameter_keeps (s : DeliVerbDSP α) (p : ParamID) (v : α) :
    (s.Silent → (s.storeParameter p v).Silent) ∧
    (s.storeParameter p v).m_reverb.m_scoopAmount = s.m_reverb.m_scoopAmount := by
  cases p <;> exact ⟨fun h => h, rfl⟩

/-- The scoop amount of a constructed processor is its default `0`. -/
theorem init_scoop : (DeliVerbDSP.init : DeliVerbDSP α).m_reverb.m_scoopAmount = 0 := rfl

/-- After `setSampleRate(sr)`, `sr > 0`, the processor is in step with a fresh
instance. -/
theorem tuned_setSampleRate (lm : Libm α) (s : DeliVerbDSP α) (sr : α) (hsr : 0 < sr)
    (hs : s.m_reverb.m_scoopAmount = 0) : (s.setSampleRate lm sr).Tuned lm := by
  have hk := setSampleRate_keeps lm s sr
  have hpar : (s.setSampleRate lm sr).parameters = s.parameters :=
    parameters_congr _ _ (getParameter_setSampleRate lm s sr)
  refine ⟨hk.2.symm ▸ hsr, hk.1.trans hs, ?_⟩
  rw [reset_setSampleRate, hk.2, hpar]
  apply setSampleRate_determined lm _ _ sr hsr (reset_silent s)
    (setParameters_silent lm _ _ init_silent)
  · intro q
    rw [getParameter_reset, getParameter_setParameters]
  · rw [(reset_keeps s).1, hs, setParameters_keeps, init_scoop]

/-- The call `setParameter` keeps the processor in step with a fresh instance. -/
theorem tuned_setParameter (lm : Libm α) (s : DeliVerbDSP α) (p : ParamID) (v : α)
    (h : s.Tuned lm) : (s.setParameter lm p v).Tuned lm := by
  obtain ⟨hsr, hs, hr⟩ := h
  have hk := setParameter_keeps lm s p v
  refine ⟨hk.2.symm ▸ hsr, hk.1.trans hs, ?_⟩
  rw [reset_setParameter, hr, setSampleRate_setParameter, hk.2]
  apply setSampleRate_determined lm _ _ _ hsr
    ((storeParameter_keeps _ p v).1 (setParameters_silent lm _ _ init_silent))
    (setParameters_silent lm _ _ init_silent)
  · intro q
    rw [getParameter_storeParameter, getParameter_setParameters, getParameter_setParameters,
      getParameter_setParameter]
  · rw [(storeParameter_keeps _ p v).2, setParameters_keeps, setParameters_keeps]

/-- The call `processStereo` keeps the processor in step with a fresh instance. -/
theorem tuned_processStereo (lm : Libm α) (tanh : α → α) (s : DeliVerbDSP α)
    (inputL inputR : Nat → α) (n : Nat) (h : s.Tuned lm) :
    (s.processStereo tanh inputL inputR n).dsp.Tuned lm := by
  obtain ⟨hsr, hs, hr⟩ := h
  have hk := processStereo_keeps tanh s inputL inputR n
  refine ⟨hk.2.2.symm ▸ hsr, hk.2.1.trans hs, ?_⟩
  rw [reset_processStereo, hr, hk.2.2, parameters_congr _ _ hk.1]

/-- The call `reset` keeps the processor in step with a fresh instance. -/
theorem tuned_reset (lm : Libm α) (s : DeliVerbDSP α) (h : s.Tuned lm) : s.reset.Tuned lm := by
  obtain ⟨hsr, hs, hr⟩ := h
  have hk := reset_keeps s
  refine ⟨hk.2.symm ▸ hsr, hk.1.trans hs, ?_⟩
  rw [reset_reset, hk.2, parameters_congr _ _ (getParameter_reset s)]
  exact hr

/-- Every call with a positive sample rate keeps the processor in step with a
fresh instance. -/
theorem tuned_step (lm : Libm α) (tanh : α → α) (s : DeliVerbDSP α) (op : Op α)
    (h : s.Tuned lm) (hop : op.RateOk) : (s.step lm tanh op).Tuned lm := by
  cases op with
  | setSampleRate sr => exact tuned_setSampleRate lm s sr hop h.2.1
  | setParameter p v => exact tuned_setParameter lm s p v h
  | processStereo inputL inputR n => exact tuned_processStereo lm tanh s inputL inputR n h
  | process input n =>
    simp only [DeliVerbDSP.step, process_eq_processStereo]
    exact tuned_processStereo lm tanh s input input n h
  | reset => exact tuned_reset lm s h

/-- Every sequence of calls with positive sample rates keeps the processor in
step with a fresh instance. -/
theorem tuned_run (lm : Libm α) (tanh : α → α) (ops : List (Op α)) (s : DeliVerbDSP α)
    (h : s.Tuned lm) (hops : ∀ op, op ∈ ops → op.RateOk) : (s.run lm tanh ops).Tuned lm := by
  unfold DeliVerbDSP.run
  induction ops generalizing s with
  | nil => exact h
  | cons op ops ih =>
    exact ih _ (tuned_step lm tanh s op h (hops op (List.mem_cons_self _ _)))
      (fun o ho => hops o (List.mem_cons_of_mem _ ho))

/-- No call changes the scoop amount. -/
theorem run_scoop (lm : Libm α) (tanh : α → α) (ops : List (Op α)) (s : DeliVerbDSP α) :
    (s.run lm tanh ops).m_reverb.m_scoopAmount = s.m_reverb.m_scoopAmount := by
  unfold DeliVerbDSP.run
  induction ops generalizing s with
  | nil => rfl
  | cons op ops ih =>
    refine (ih _).trans ?_
    cases op with
    | setSampleRate sr => exact (setSampleRate_keeps lm s sr).1
    | setParameter p v => exact (setParameter_keeps lm s p v).1
    | processStereo inputL inputR n => exact (processStereo_keeps tanh s inputL inputR n).2.1
    | process input n =>
      simp only [DeliVerbDSP.step, process_eq_processStereo]
      exact (processStereo_keeps tanh s input input n).2.1
    | reset => exact (reset_keeps s).1

/-- The call `setParameter` calls after `setSampleRate` are `setSampleRate` after the stores. -/
theorem setSampleRate_setParameters (lm : Libm α) (sr : α) (ps : List (ParamID × α))
    (t : DeliVerbDSP α) :
    (t.setSampleRate lm sr).setParameters lm ps = (t.storeParameters ps).setSampleRate lm sr := by
  unfold DeliVerbDSP.setParameters DeliVerbDSP.storeParameters
  induction ps generalizing t with
  | nil => rfl
  | cons pv ps ih =>
    simp only [List.foldl_cons, setSampleRate_setParameter]
    exact ih _

/-- Stores and `setParameter` calls leave the same parameter values, the same
scoop amount, and a silent processor silent. -/
theorem storeParameters_agree (lm : Libm α) (ps : List (ParamID × α)) (t t' : DeliVerbDSP α)
    (h : ∀ q, t.getParameter q = t'.getParameter q) (hs : t.Silent) :
    (∀ q, (t.storeParameters ps).getParameter q = (t'.setParameters lm ps).getParameter q) ∧
    (t.storeParameters ps).Silent ∧
    (t.storeParameters ps).m_reverb.m_scoopAmount = t.m_reverb.m_scoopAmount := by
  unfold DeliVerbDSP.setParameters DeliVerbDSP.storeParameters
  induction ps generalizing t t' with
  | nil => exact ⟨h, hs, rfl⟩
  | cons pv ps ih =>
    simp only [List.foldl_cons]
    have h' : ∀ q, (t.storeParameter pv.1 pv.2).getParameter q =
        (t'.setParameter lm pv.1 pv.2).getParameter q := by
      intro q
      rw [getParameter_storeParameter, getParameter_setParameter, h q]
    obtain ⟨i1, i2, i3⟩ := ih _ _ h' ((storeParameter_keeps t pv.1 pv.2).1 hs)
    exact ⟨i1, i2, i3.trans (storeParameter_keeps t pv.1 pv.2).2⟩

/-- A fresh instance is the same whether the parameters are set before or
after `setSampleRate(sr)`, `sr > 0`. -/
theorem fresh_order (lm : Libm α) (sr : α) (hsr : 0 < sr) (ps : List (ParamID × α)) :
    ((DeliVerbDSP.init : DeliVerbDSP α).setSampleRate lm sr).setParameters lm ps =
      (DeliVerbDSP.init.setParameters lm ps).setSampleRate lm sr := by
  rw [setSampleRate_setParameters]
  obtain ⟨h1, h2, h3⟩ := storeParameters_agree lm ps DeliVerbDSP.init DeliVerbDSP.init
    (fun _ => rfl) init_silent
  exact setSampleRate_determined lm _ _ sr hsr h2 (setParameters_silent lm _ _ init_silent) h1
    (by rw [h3, setParameters_keeps])

/-! ### C4: reset determinism -/

/-- C4: for every processor that has had `setSampleRate(sr)` called with
`sr > 0` and is in any state reached from there (by calls whose sample rates
are positive), after `reset()` its complete state equals that of a freshly
constructed processor given the same sample rate and the same 14 parameter
values (in either order), so processing any input block afterwards produces
identical output on both. -/
theorem reset_determinism (lm : Libm α) (tanh : α → α) (before after : List (Op α)) (sr : α)
    (hsr : 0 < sr) (hafter : ∀ op, op ∈ after → op.RateOk) (s : DeliVerbDSP α)
    (hs : s = ((DeliVerbDSP.init.run lm tanh before).setSampleRate lm sr).run lm tanh after)
    (inputL inputR : Nat → α) (n : Nat) :
    s.reset =
      (DeliVerbDSP.init.setParameters lm s.parameters).setSampleRate lm s.m_sampleRate ∧
    s.reset =
      (DeliVerbDSP.init.setSampleRate lm s.m_sampleRate).setParameters lm s.parameters ∧
    s.reset.processStereo tanh inputL inputR n =
      ((DeliVerbDSP.init.setParameters lm s.parameters).setSampleRate lm
        s.m_sampleRate).processStereo tanh inputL inputR n ∧
    s.reset.process tanh inputL n =
      ((DeliVerbDSP.init.setParameters lm s.parameters).setSampleRate lm
        s.m_sampleRate).process tanh inputL n := by
  have h0 : ((DeliVerbDSP.init.run lm tanh before).setSampleRate lm sr).Tuned lm :=
    tuned_setSampleRate lm _ sr hsr ((run_scoop lm tanh before _).trans init_scoop)
  have ht : s.Tuned lm := hs ▸ tuned_run lm tanh after _ h0 hafter
  obtain ⟨h1, _, h3⟩ := ht
  refine ⟨h3, ?_, ?_, ?_⟩
  · rw [fresh_order lm _ h1]
    exact h3
  · rw [← h3]
  · rw [← h3]

/-- C4 at a concrete history: 48 kHz, `delayMix` set to 1, two frames of a
constant input rendered, then `reset`. -/
theorem reset_determinism_witness :
    ((((DeliVerbDSP.init : DeliVerbDSP ℝ).run
          ⟨Real.sin, Real.cos, Real.exp, Real.rpow, Real.sqrt, Real.pi⟩ Real.tanh
          []).setSampleRate ⟨Real.sin, Real.cos, Real.exp, Real.rpow, Real.sqrt, Real.pi⟩
        48000).run ⟨Real.sin, Real.cos, Real.exp, Real.rpow, Real.sqrt, Real.pi⟩ Real.tanh
      [.setParameter .kDelayMix 1, .processStereo (fun _ => 1) (fun _ => 1) 2]).reset.processStereo
        Real.tanh (fun _ => 1) (fun _ => 0) 4 =
    ((DeliVerbDSP.init.setParameters ⟨Real.sin, Real.cos, Real.exp, Real.rpow, Real.sqrt, Real.pi⟩
        ((((DeliVerbDSP.init : DeliVerbDSP ℝ).run
          ⟨Real.sin, Real.cos, Real.exp, Real.rpow, Real.sqrt, Real.pi⟩ Real.tanh
          []).setSampleRate ⟨Real.sin, Real.cos, Real.exp, Real.rpow, Real.sqrt, Real.pi⟩
        48000).run ⟨Real.sin, Real.cos, Real.exp, Real.rpow, Real.sqrt, Real.pi⟩ Real.tanh
      [.setParameter .kDelayMix 1,
        .processStereo (fun _ => 1) (fun _ => 1) 2]).parameters).setSampleRate
      ⟨Real.sin, Real.cos, Real.exp, Real.rpow, Real.sqrt, Real.pi⟩
        ((((DeliVerbDSP.init : DeliVerbDSP ℝ).run
          ⟨Real.sin, Real.cos, Real.exp, Real.rpow, Real.sqrt, Real.pi⟩ Real.tanh
          []).setSampleRate ⟨Real.sin, Real.cos, Real.exp, Real.rpow, Real.sqrt, Real.pi⟩
        48000).run ⟨Real.sin, Real.cos, Real.exp, Real.rpow, Real.sqrt, Real.pi⟩ Real.tanh
      [.setParameter .kDelayMix 1,
        .processStereo (fun _ => 1) (fun _ => 1) 2]).m_sampleRate).processStereo
        Real.tanh (fun _ => 1) (fun _ => 0) 4 :=
  (reset_determinism ⟨Real.sin, Real.cos, Real.exp, Real.rpow, Real.sqrt, Real.pi⟩ Real.tanh []
    [.setParameter .kDelayMix 1, .processStereo (fun _ => 1) (fun _ => 1) 2] 48000
    (by norm_num)
    (by
      intro op hop
      simp only [List.mem_cons, List.mem_singleton, List.not_mem_nil, or_false] at hop
      rcases hop with h | h <;> subst h <;> exact trivial)
    _ rfl (fun _ => 1) (fun _ => 0) 4).2.2.1

/-! ### C5: what `setSampleRate` re-initialises -/

/-- The call `setCoefficients` and `setSampleRate` keep the memory of a biquad. -/
theorem biquad_memory_keeps (lm : Libm α) (b : Biquad α) (t : BiquadType) (f q g sr : α) :
    (b.setCoefficients lm t f q g).memory = b.memory ∧
    (b.setSampleRate sr).memory = b.memory := by
  have h := biquad_setCoefficients_fields lm b t f q g
  simp only [Biquad.memory, h.2.1, h.2.2, Biquad.setSampleRate, and_self]

/-- Member function `Reverb::setSampleRate` and the four reverb setters keep the memory of the
reverb's biquads. -/
theorem reverb_memory_keeps (lm : Libm α) (r : Reverb α) (sr size style lowCut highCut : α) :
    ((Reverb.setSampleRate lm r sr).retune lm size style lowCut highCut).memory = r.memory := by
  simp only [Reverb.memory, reverb_retune_eq, reverb_setSampleRate_eq,
    reverb_updateParameters_eq, (biquad_memory_keeps lm _ _ _ _ _ 0).1,
    (biquad_memory_keeps lm _ .LowPass 0 0 0 _).2]

/-- The call `setSampleRate` leaves the envelope and every biquad state variable as it was. -/
theorem setSampleRate_memory (lm : Libm α) (s : DeliVerbDSP α) (sr : α) :
    (s.setSampleRate lm sr).memory = s.memory := by
  simp only [DeliVerbDSP.memory, DeliVerbDSP.setSampleRate, updateParameters_eq,
    reverb_memory_keeps, (biquad_memory_keeps lm _ _ _ _ _ 0).1,
    (biquad_memory_keeps lm _ .LowPass 0 0 0 _).2, Ducker.setDelayAmount,
    Ducker.setReverbAmount, Ducker.setBehaviour, ducker_setSampleRate_envelope]

/-- The envelope follower after `setSampleRate(sr)`, `sr > 0`. -/
theorem setSampleRate_follower (lm : Libm α) (s : DeliVerbDSP α) (sr : α) (hsr : 0 < sr) :
    (s.setSampleRate lm sr).m_ducker.m_envelopeFollower =
      { m_sampleRate := sr, m_attackMs := 5, m_releaseMs := 150,
        m_attackCoeff := lm.exp (-1 / (5 * 0.001 * sr)),
        m_releaseCoeff := lm.exp (-1 / (150 * 0.001 * sr)),
        m_envelope := s.m_ducker.m_envelopeFollower.m_envelope } := by
  have hn : ¬ sr ≤ 0 := not_le.mpr hsr
  simp only [DeliVerbDSP.setSampleRate, updateParameters_eq, Ducker.setDelayAmount,
    Ducker.setReverbAmount, Ducker.setBehaviour, Ducker.setSampleRate,
    EnvelopeFollower.setSampleRate, EnvelopeFollower.setAttackMs,
    EnvelopeFollower.setReleaseMs, EnvelopeFollower.updateCoefficients, hn, if_false]

/-- The ducker after one frame of `processStereo`. -/
theorem processStereoFrame_ducker (tanh : α → α) (s : DeliVerbDSP α) (dryL dryR : α) :
    (DeliVerbDSP.processStereoFrame tanh s dryL dryR).1.m_ducker =
      (s.m_ducker.process dryL dryR).1 := by
  simp only [DeliVerbDSP.processStereoFrame]

/-- A freshly constructed processor is its own reset. -/
theorem reset_init : (DeliVerbDSP.init : DeliVerbDSP α).reset = DeliVerbDSP.init := by
  have hd : (DelayLine.init : DelayLine α).reset = DelayLine.init := rfl
  have hb : (Biquad.init : Biquad α).reset = Biquad.init := rfl
  have hr : (Reverb.init : Reverb α).reset = Reverb.init := by
    rw [reverb_reset_eq]
    simp only [Reverb.init, hd, hb]
  have he : (Ducker.init : Ducker α).reset = Ducker.init := rfl
  simp only [DeliVerbDSP.reset, DeliVerbDSP.init, DeliVerbDSP.setDefaultParameters,
    DeliVerbDSP.members, hd, hb, hr, he]

/-- C5, as the code has it: `setSampleRate(sr)` leaves the envelope and the
state variables `z1`, `z2` of every biquad as they were; on a processor whose
delay buffers, biquad state and envelope are all zero (any processor right
after `reset`; a fresh one is its own reset) the result, for `sr > 0`, is again
all zero and equals a fresh instance prepared with the same sample rate and
parameters, so the subsequent output is equal. -/
theorem setSampleRate_reinitialises (lm : Libm α) (tanh : α → α) (t : DeliVerbDSP α)
    (history : List (Op α)) (sr : α) (hsr : 0 < sr) (s : DeliVerbDSP α)
    (hs : s = (DeliVerbDSP.init.run lm tanh history).reset)
    (inputL inputR : Nat → α) (n : Nat) :
    (t.setSampleRate lm sr).memory = t.memory ∧
    (DeliVerbDSP.init : DeliVerbDSP α).reset = DeliVerbDSP.init ∧
    (s.setSampleRate lm sr).Silent ∧
    s.setSampleRate lm sr = (DeliVerbDSP.init.setParameters lm s.parameters).setSampleRate lm sr ∧
    (s.setSampleRate lm sr).processStereo tanh inputL inputR n =
      ((DeliVerbDSP.init.setParameters lm s.parameters).setSampleRate lm sr).processStereo tanh
        inputL inputR n := by
  have hsil : s.Silent := hs ▸ reset_silent _
  have hscoop : s.m_reverb.m_scoopAmount = 0 := by
    rw [hs, (reset_keeps _).1, run_scoop, init_scoop]
  have heq : s.setSampleRate lm sr =
      (DeliVerbDSP.init.setParameters lm s.parameters).setSampleRate lm sr :=
    setSampleRate_determined lm _ _ sr hsr hsil (setParameters_silent lm _ _ init_silent)
      (fun q => (getParameter_setParameters lm _ s q).symm)
      (by rw [hscoop, setParameters_keeps, init_scoop])
  exact ⟨setSampleRate_memory lm t sr, reset_init, setSampleRate_silent lm s sr hsil, heq,
    by rw [heq]⟩

/-- C5 at a concrete processor: 44.1 kHz, one burst rendered, `reset`, then
`setSampleRate(48000)`. -/
theorem setSampleRate_reinitialises_witness :
    ((((DeliVerbDSP.init : DeliVerbDSP ℝ).run
        ⟨Real.sin, Real.cos, Real.exp, Real.rpow, Real.sqrt, Real.pi⟩ Real.tanh
        [.setSampleRate 44100, .processStereo (fun _ => 1) (fun _ => 1) 8]).reset).setSampleRate
      ⟨Real.sin, Real.cos, Real.exp, Real.rpow, Real.sqrt, Real.pi⟩ 48000).Silent :=
  (setSampleRate_reinitialises ⟨Real.sin, Real.cos, Real.exp, Real.rpow, Real.sqrt, Real.pi⟩
    Real.tanh DeliVerbDSP.init
    [.setSampleRate 44100, .processStereo (fun _ => 1) (fun _ => 1) 8] 48000 (by norm_num)
    _ rfl (fun _ => 0) (fun _ => 0) 0).2.2.1

/-- C5 fails as stated: a processor at 48 kHz that has rendered one frame of
the input `(1, 1)` still has a non-zero envelope after `setSampleRate(48000)`. -/
theorem setSampleRate_keeps_envelope :
    (((((DeliVerbDSP.init : DeliVerbDSP ℝ).setSampleRate
          ⟨Real.sin, Real.cos, Real.exp, Real.rpow, Real.sqrt, Real.pi⟩ 48000).processStereo
        Real.tanh (fun _ => 1) (fun _ => 1) 1).dsp.setSampleRate
      ⟨Real.sin, Real.cos, Real.exp, Real.rpow, Real.sqrt, Real.pi⟩
      48000).m_ducker.m_envelopeFollower.m_envelope ≠ 0) := by
  rw [setSampleRate_follower _ _ _ (by norm_num)]
  have h1 : DeliVerbDSP.processStereo Real.tanh
      ((DeliVerbDSP.init : DeliVerbDSP ℝ).setSampleRate
        ⟨Real.sin, Real.cos, Real.exp, Real.rpow, Real.sqrt, Real.pi⟩ 48000)
      (fun _ => 1) (fun _ => 1) 0 =
      { dsp := (DeliVerbDSP.init : DeliVerbDSP ℝ).setSampleRate
          ⟨Real.sin, Real.cos, Real.exp, Real.rpow, Real.sqrt, Real.pi⟩ 48000,
        outputL := [], outputR := [] } := rfl
  rw [processStereo_succ, h1]
  simp only [processStereoFrame_ducker, Ducker.process, EnvelopeFollower.process]
  rw [setSampleRate_follower _ _ _ (by norm_num)]
  have he : Real.exp (-1 / (5 * 0.001 * 48000)) < 1 :=
    Real.exp_lt_one_iff.mpr (by norm_num)
  have h0 : (DeliVerbDSP.init : DeliVerbDSP ℝ).m_ducker.m_envelopeFollower.m_envelope = 0 := rfl
  simp only [h0]
  norm_num
  intro h
  linarith

/-! ### C9: the advanced flag -/

/-- One frame of `processStereo` does not read the advanced flag. -/
theorem processStereoFrame_withAdvanced (tanh : α → α) (s : DeliVerbDSP α) (b : Bool)
    (dryL dryR : α) :
    DeliVerbDSP.processStereoFrame tanh (s.withAdvanced b) dryL dryR =
      ((DeliVerbDSP.processStereoFrame tanh s dryL dryR).1.withAdvanced b,
        (DeliVerbDSP.processStereoFrame tanh s dryL dryR).2) := by
  simp only [DeliVerbDSP.processStereoFrame, DeliVerbDSP.withAdvanced]

/-- The call `processStereo` does not read the advanced flag. -/
theorem processStereo_withAdvanced (tanh : α → α) (s : DeliVerbDSP α) (b : Bool)
    (inputL inputR : Nat → α) (n : Nat) :
    (s.withAdvanced b).processStereo tanh inputL inputR n =
      { dsp := (s.processStereo tanh inputL inputR n).dsp.withAdvanced b
        outputL := (s.processStereo tanh inputL inputR n).outputL
        outputR := (s.processStereo tanh inputL inputR n).outputR } := by
  induction n with
  | zero => rfl
  | succ k ih =>
    rw [processStereo_succ, processStereo_succ, ih]
    simp only [processStereoFrame_withAdvanced]

/-- If `setCoefficients` would not change the reset biquad, it does not change
the biquad. -/
theorem biquad_fix_of_reset (lm : Libm α) (b : Biquad α) (t : BiquadType) (f q g : α)
    (h : b.reset.setCoefficients lm t f q g = b.reset) : b.setCoefficients lm t f q g = b := by
  unfold Biquad.setCoefficients at h ⊢
  have hsr : b.reset.m_sampleRate = b.m_sampleRate := rfl
  by_cases hle : b.m_sampleRate ≤ 0
  · simp only [hle, if_true]
  · simp only [hsr, hle, if_false] at h ⊢
    have e0 := congrArg Biquad.m_b0 h
    have e1 := congrArg Biquad.m_b1 h
    have e2 := congrArg Biquad.m_b2 h
    have e3 := congrArg Biquad.m_a1 h
    have e4 := congrArg Biquad.m_a2 h
    simp only [Biquad.reset] at e0 e1 e2 e3 e4
    cases b
    simp only [Biquad.mk.injEq, true_and, and_true] at e0 e1 e2 e3 e4 ⊢
    exact ⟨e0, e1, e2, e3, e4⟩

/-- If the four reverb setters would not change the reset reverb, they do not
change the reverb. -/
theorem reverb_fix_of_reset (lm : Libm α) (r : Reverb α) (size style lowCut highCut : α)
    (h : r.reset.retune lm size style lowCut highCut = r.reset) :
    r.retune lm size style lowCut highCut = r := by
  rw [reverb_retune_eq, reverb_reset_eq] at h
  rw [reverb_retune_eq]
  cases r
  simp only [Reverb.mk.injEq, true_and, and_true] at h ⊢
  obtain ⟨h1, h2, h3, h4, h5, h6, h7, h8, h9, h10, h11, h12, h13, h14, h15, h16, h17⟩ := h
  refine ⟨h1, h2, h3, h4, h5, h6, h7, h8, h9, ?_, ?_, ?_, ?_, ?_, ?_, ?_, ?_⟩
  · exact funext fun i => biquad_fix_of_reset lm _ _ _ _ _ (congrFun h10 i)
  · exact funext fun i => biquad_fix_of_reset lm _ _ _ _ _ (congrFun h11 i)
  · exact biquad_fix_of_reset lm _ _ _ _ _ h12
  · exact biquad_fix_of_reset lm _ _ _ _ _ h13
  · exact biquad_fix_of_reset lm _ _ _ _ _ h14
  · exact biquad_fix_of_reset lm _ _ _ _ _ h15
  · exact biquad_fix_of_reset lm _ _ _ _ _ h16
  · exact biquad_fix_of_reset lm _ _ _ _ _ h17

/-- If `updateParameters` would not change the reset processor, it does not
change the processor. -/
theorem updateParameters_fix (lm : Libm α) (s : DeliVerbDSP α) (h : s.Updated lm) :
    DeliVerbDSP.updateParameters lm s = s := by
  unfold DeliVerbDSP.Updated at h
  rw [updateParameters_eq] at h ⊢
  have e1 := congrArg DeliVerbDSP.m_reverb h
  have e2 := congrArg DeliVerbDSP.m_delayLowCutL h
  have e3 := congrArg DeliVerbDSP.m_delayLowCutR h
  have e4 := congrArg DeliVerbDSP.m_delayHighCutL h
  have e5 := congrArg DeliVerbDSP.m_delayHighCutR h
  have e6 := congrArg DeliVerbDSP.m_ducker h
  simp only [DeliVerbDSP.reset] at e1 e2 e3 e4 e5 e6
  have e7 := congrArg Ducker.m_delayAmount e6
  have e8 := congrArg Ducker.m_reverbAmount e6
  have e9 := congrArg Ducker.m_behaviour e6
  simp only [Ducker.setDelayAmount, Ducker.setReverbAmount, Ducker.setBehaviour,
    Ducker.reset] at e7 e8 e9
  have f1 := reverb_fix_of_reset lm _ _ _ _ _ e1
  have f2 := biquad_fix_of_reset lm _ _ _ _ _ e2
  have f3 := biquad_fix_of_reset lm _ _ _ _ _ e3
  have f4 := biquad_fix_of_reset lm _ _ _ _ _ e4
  have f5 := biquad_fix_of_reset lm _ _ _ _ _ e5
  have f6 : ((s.m_ducker.setDelayAmount s.m_duckDelayAmount).setReverbAmount
      s.m_duckReverbAmount).setBehaviour s.m_duckBehaviour = s.m_ducker := by
    simp only [Ducker.setDelayAmount, Ducker.setReverbAmount, Ducker.setBehaviour, e7, e8, e9]
  rw [f1, f2, f3, f4, f5, f6]

/-- The call `updateParameters` brings the derived values up to date. -/
theorem updated_updateParameters (lm : Libm α) (s : DeliVerbDSP α) :
    (DeliVerbDSP.updateParameters lm s).Updated lm := by
  have h := updateParameters_absorb lm s.reset .kNumParams 0
  unfold DeliVerbDSP.Updated
  rw [reset_updateParameters]
  exact h

/-- Once `setSampleRate` or `setParameter` has run, the derived values are up
to date. -/
theorem updated_step (lm : Libm α) (tanh : α → α) (s : DeliVerbDSP α) (op : Op α)
    (hop : op.Updates) : (s.step lm tanh op).Updated lm := by
  cases op with
  | setSampleRate sr =>
    simp only [DeliVerbDSP.step, setSampleRate_eq_prepare]
    exact updated_updateParameters lm _
  | setParameter p v => exact updated_updateParameters lm _
  | processStereo inputL inputR n => exact hop.elim
  | process input n => exact hop.elim
  | reset => exact hop.elim

/-- Every call keeps the derived values up to date. -/
theorem updated_run (lm : Libm α) (tanh : α → α) (ops : List (Op α)) (s : DeliVerbDSP α)
    (h : s.Updated lm) : (s.run lm tanh ops).Updated lm := by
  unfold DeliVerbDSP.run
  induction ops generalizing s with
  | nil => exact h
  | cons op ops ih =>
    refine ih _ ?_
    cases op with
    | setSampleRate sr => exact updated_step lm tanh s _ trivial
    | setParameter p v => exact updated_step lm tanh s _ trivial
    | processStereo inputL inputR n =>
      unfold DeliVerbDSP.Updated
      simp only [DeliVerbDSP.step, reset_processStereo]
      exact h
    | process input n =>
      unfold DeliVerbDSP.Updated
      simp only [DeliVerbDSP.step, process_eq_processStereo, reset_processStereo]
      exact h
    | reset =>
      unfold DeliVerbDSP.Updated
      simp only [DeliVerbDSP.step, reset_reset]
      exact h

/-- With the derived values up to date, `setParameter(kAdvanced, v)` changes
the stored flag and nothing else. -/
theorem setParameter_advanced (lm : Libm α) (s : DeliVerbDSP α) (v : α) (h : s.Updated lm) :
    s.setParameter lm .kAdvanced v = s.withAdvanced (decide (v > 0.5)) := by
  have h' : (s.withAdvanced (decide (v > 0.5))).Updated lm := by
    unfold DeliVerbDSP.Updated at h ⊢
    have e : (s.withAdvanced (decide (v > 0.5))).reset =
        s.reset.withAdvanced (decide (v > 0.5)) := rfl
    rw [e]
    have e2 : DeliVerbDSP.updateParameters lm (s.reset.withAdvanced (decide (v > 0.5))) =
        (DeliVerbDSP.updateParameters lm s.reset).withAdvanced (decide (v > 0.5)) := by
      simp only [updateParameters_eq, DeliVerbDSP.withAdvanced]
    rw [e2, h]
  exact updateParameters_fix lm _ h'

/-- An empty delay line reads as zero and ignores writes. -/
theorem delayLine_empty (d : DelayLine α) (x : α) (h : d.m_buffer = []) :
    d.read x = 0 ∧ d.write x = d := by
  simp [DelayLine.read, DelayLine.write, h]

/-- One allpass stage on an empty line leaves it as it is. -/
theorem reverb_processAllpass_empty (d : DelayLine α) (input delayMs feedback : α)
    (h : d.m_buffer = []) : (Reverb.processAllpass d input delayMs feedback).1 = d := by
  simp only [Reverb.processAllpass, (delayLine_empty d _ h).2]

/-- One pass of the allpass loop keeps an idle reverb idle. -/
theorem reverb_diffuse_idle (i : Fin kNumAllpass) (st : Reverb α × α × α) (h : st.1.Idle) :
    (Reverb.diffuse i st).1.Idle := by
  obtain ⟨ha, hrest⟩ := h
  have h1 := reverb_processAllpass_empty (st.1.m_allpass i) st.2.1 (st.1.m_allpassDelays i)
    st.1.m_allpassFeedback (ha i)
  simp only [Reverb.diffuse, Function.update_same, Function.update_idem, h1]
  have h2 := reverb_processAllpass_empty (st.1.m_allpass i) st.2.2
    (st.1.m_allpassDelays i * 1.03) st.1.m_allpassFeedback (ha i)
  rw [h2, Function.update_eq_self]
  exact ⟨ha, hrest⟩

/-- One pass of the comb loop keeps an idle reverb idle and the sums at zero. -/
theorem reverb_comb_idle (diffL diffR : α) (i : Fin kNumComb) (st : Reverb α × α × α)
    (h : st.1.Idle ∧ st.2.1 = 0 ∧ st.2.2 = 0) :
    (Reverb.comb diffL diffR i st).1.Idle ∧ (Reverb.comb diffL diffR i st).2.1 = 0 ∧
      (Reverb.comb diffL diffR i st).2.2 = 0 := by
  obtain ⟨r, sl, sr⟩ := st
  obtain ⟨hs, hl, hr⟩ := h
  simp only at hl hr
  subst hl hr
  obtain ⟨ha, hcl, hcr, hfl, hfr, hpl, hpr⟩ := hs
  have hbl := biquad_process_zero_silent (r.m_combFilterL i) (hfl i)
  have hbr := biquad_process_zero_silent (r.m_combFilterR i) (hfr i)
  simp only [Reverb.comb, (delayLine_empty _ _ (hcl i)).1, (delayLine_empty _ _ (hcr i)).1,
    (delayLine_empty _ _ (hcl i)).2, (delayLine_empty _ _ (hcr i)).2,
    hbl.1, hbr.1, zero_mul, add_zero, Function.update_eq_self]
  exact ⟨⟨ha, hcl, hcr, forall_update Biquad.Silent _ _ _ hfl hbl.2,
    forall_update Biquad.Silent _ _ _ hfr hbr.2, hpl, hpr⟩, trivial, trivial⟩

/-- The two loops of `Reverb::process` on an idle reverb. -/
theorem reverb_loops_idle (st : Reverb α × α × α) (h : st.1.Idle) :
    (forLoop kNumComb
      (Reverb.comb (forLoop kNumAllpass Reverb.diffuse st).2.1
        (forLoop kNumAllpass Reverb.diffuse st).2.2)
      ((forLoop kNumAllpass Reverb.diffuse st).1, 0, 0)).1.Idle ∧
    (forLoop kNumComb
      (Reverb.comb (forLoop kNumAllpass Reverb.diffuse st).2.1
        (forLoop kNumAllpass Reverb.diffuse st).2.2)
      ((forLoop kNumAllpass Reverb.diffuse st).1, 0, 0)).2.1 * 0.25 = 0 ∧
    (forLoop kNumComb
      (Reverb.comb (forLoop kNumAllpass Reverb.diffuse st).2.1
        (forLoop kNumAllpass Reverb.diffuse st).2.2)
      ((forLoop kNumAllpass Reverb.diffuse st).1, 0, 0)).2.2 * 0.25 = 0 := by
  have hd := forLoop_induction kNumAllpass Reverb.diffuse
    (fun t : Reverb α × α × α => t.1.Idle) st h (fun i t ht => reverb_diffuse_idle i t ht)
  have hc := forLoop_induction kNumComb
    (Reverb.comb (forLoop kNumAllpass Reverb.diffuse st).2.1
      (forLoop kNumAllpass Reverb.diffuse st).2.2)
    (fun t : Reverb α × α × α => t.1.Idle ∧ t.2.1 = 0 ∧ t.2.2 = 0)
    ((forLoop kNumAllpass Reverb.diffuse st).1, 0, 0) ⟨hd, rfl, rfl⟩
    (fun i t ht => reverb_comb_idle _ _ i t ht)
  exact ⟨hc.1, by rw [hc.2.1, zero_mul], by rw [hc.2.2, zero_mul]⟩

/-- An idle reverb returns a zero frame for every input and stays idle. -/
theorem reverb_process_idle (r : Reverb α) (inputL inputR : α) (h : r.Idle) :
    (r.process inputL inputR).1.Idle ∧ (r.process inputL inputR).2.1 = 0 ∧
      (r.process inputL inputR).2.2 = 0 := by
  obtain ⟨ha, hcl, hcr, hfl, hfr, hpl, hpr⟩ := h
  simp only [Reverb.process, (delayLine_empty _ _ hpl).2, (delayLine_empty _ _ hpr).2]
  refine reverb_loops_idle _ ?_
  exact ⟨ha, hcl, hcr, hfl, hfr, hpl, hpr⟩

/-- An idle processor writes the soft-clipped dry frame, whatever its
parameters and coefficients, and stays idle. -/
theorem processStereoFrame_idle (tanh : α → α) (s : DeliVerbDSP α) (dryL dryR : α)
    (h : s.Idle) :
    (DeliVerbDSP.processStereoFrame tanh s dryL dryR).1.Idle ∧
    (DeliVerbDSP.processStereoFrame tanh s dryL dryR).2 =
      (tanh (dryL * 0.9) / 0.9, tanh (dryR * 0.9) / 0.9) := by
  obtain ⟨hL, hR, hrev, h1, h2, h3, h4, h5, h6⟩ := h
  have b1 := biquad_process_zero_silent _ h1
  have b2 := biquad_process_zero_silent _ h2
  have b3 := biquad_process_zero_silent _ h3
  have b4 := biquad_process_zero_silent _ h4
  have b5 := biquad_process_zero_silent _ h5
  have b6 := biquad_process_zero_silent _ h6
  have e : ∀ x m : α, x * (1 - m) + x * m = x := fun x m => by ring
  simp only [DeliVerbDSP.processStereoFrame, (delayLine_empty _ _ hL).1,
    (delayLine_empty _ _ hR).1, (delayLine_empty _ _ hL).2, (delayLine_empty _ _ hR).2,
    b1.1, b2.1, b3.1, b4.1, b5.1, b6.1, zero_mul, add_zero, ite_self,
    (reverb_process_idle s.m_reverb dryL dryR hrev).2.1,
    (reverb_process_idle s.m_reverb dryL dryR hrev).2.2, e, and_true]
  exact ⟨hL, hR, (reverb_process_idle s.m_reverb dryL dryR hrev).1, b1.2, b2.2, b3.2, b4.2,
    b5.2, b6.2⟩

/-- An idle processor writes the soft-clipped dry block and stays idle. -/
theorem processStereo_idle (tanh : α → α) (s : DeliVerbDSP α) (inputL inputR : Nat → α)
    (n : Nat) (h : s.Idle) :
    (s.processStereo tanh inputL inputR n).dsp.Idle ∧
    (s.processStereo tanh inputL inputR n).outputL =
      (List.range n).map (fun i => tanh (inputL i * 0.9) / 0.9) ∧
    (s.processStereo tanh inputL inputR n).outputR =
      (List.range n).map (fun i => tanh (inputR i * 0.9) / 0.9) := by
  induction n with
  | zero => exact ⟨h, rfl, rfl⟩
  | succ k ih =>
    obtain ⟨i1, i2, i3⟩ := ih
    have hf := processStereoFrame_idle tanh _ (inputL k) (inputR k) i1
    rw [processStereo_succ]
    refine ⟨hf.1, ?_, ?_⟩
    · simp only [i2, hf.2, List.range_succ, List.map_append, List.map_cons, List.map_nil]
    · simp only [i3, hf.2, List.range_succ, List.map_append, List.map_cons, List.map_nil]

/-- The call `updateParameters` keeps an idle processor idle. -/
theorem updateParameters_idle (lm : Libm α) (s : DeliVerbDSP α) (h : s.Idle) :
    (DeliVerbDSP.updateParameters lm s).Idle := by
  obtain ⟨hL, hR, ⟨ha, hcl, hcr, hfl, hfr, hpl, hpr⟩, h1, h2, h3, h4, h5, h6⟩ := h
  rw [updateParameters_eq, reverb_retune_eq]
  exact ⟨hL, hR, ⟨ha, hcl, hcr, fun i => biquad_setCoefficients_silent lm _ _ _ _ _ (hfl i),
    fun i => biquad_setCoefficients_silent lm _ _ _ _ _ (hfr i), hpl, hpr⟩,
    biquad_setCoefficients_silent lm _ _ _ _ _ h1, biquad_setCoefficients_silent lm _ _ _ _ _ h2,
    biquad_setCoefficients_silent lm _ _ _ _ _ h3, biquad_setCoefficients_silent lm _ _ _ _ _ h4,
    h5, h6⟩

/-- The call `reset` keeps an idle processor idle. -/
theorem reset_idle (s : DeliVerbDSP α) (h : s.Idle) : s.reset.Idle := by
  obtain ⟨hL, hR, ⟨ha, hcl, hcr, hfl, hfr, hpl, hpr⟩, h1, h2, h3, h4, h5, h6⟩ := h
  have e : ∀ d : DelayLine α, d.m_buffer = [] → d.reset.m_buffer = [] := by
    intro d hd
    simp only [DelayLine.reset, hd, List.length_nil, List.replicate_zero]
  have hr : s.m_reverb.reset.Idle := by
    rw [reverb_reset_eq]
    exact ⟨fun i => e _ (ha i), fun i => e _ (hcl i), fun i => e _ (hcr i),
      fun _ => ⟨rfl, rfl⟩, fun _ => ⟨rfl, rfl⟩, e _ hpl, e _ hpr⟩
  exact ⟨e _ hL, e _ hR, hr, ⟨rfl, rfl⟩, ⟨rfl, rfl⟩, ⟨rfl, rfl⟩, ⟨rfl, rfl⟩, ⟨rfl, rfl⟩,
    ⟨rfl, rfl⟩⟩

/-- A freshly constructed processor is idle. -/
theorem init_idle : (DeliVerbDSP.init : DeliVerbDSP α).Idle :=
  ⟨rfl, rfl, ⟨fun _ => rfl, fun _ => rfl, fun _ => rfl, fun _ => ⟨rfl, rfl⟩,
    fun _ => ⟨rfl, rfl⟩, rfl, rfl⟩, ⟨rfl, rfl⟩, ⟨rfl, rfl⟩, ⟨rfl, rfl⟩, ⟨rfl, rfl⟩, ⟨rfl, rfl⟩,
    ⟨rfl, rfl⟩⟩

/-- Before the first `setSampleRate` or `setParameter` call the processor is idle. -/
theorem idle_run (lm : Libm α) (tanh : α → α) (ops : List (Op α)) (s : DeliVerbDSP α)
    (h : s.Idle) (hops : ∀ op, op ∈ ops → ¬ op.Updates) : (s.run lm tanh ops).Idle := by
  unfold DeliVerbDSP.run
  induction ops generalizing s with
  | nil => exact h
  | cons op ops ih =>
    refine ih _ ?_ (fun o ho => hops o (List.mem_cons_of_mem _ ho))
    have hop := hops op (List.mem_cons_self _ _)
    cases op with
    | setSampleRate sr => exact (hop trivial).elim
    | setParameter p v => exact (hop trivial).elim
    | processStereo inputL inputR n => exact (processStereo_idle tanh s inputL inputR n h).1
    | process input n =>
      simp only [DeliVerbDSP.step, process_eq_processStereo]
      exact (processStereo_idle tanh s input input n h).1
    | reset => exact reset_idle s h

/-- A run splits at any of its calls. -/
theorem run_split (lm : Libm α) (tanh : α → α) (s : DeliVerbDSP α) (l1 l2 : List (Op α))
    (op : Op α) :
    s.run lm tanh (l1 ++ op :: l2) = ((s.run lm tanh l1).step lm tanh op).run lm tanh l2 := by
  simp only [DeliVerbDSP.run, List.foldl_append, List.foldl_cons]

/-- In every state a constructed processor can reach, `setParameter(kAdvanced, v)`
does not change what `processStereo` writes. -/
theorem advanced_inaudible (lm : Libm α) (tanh : α → α) (history : List (Op α)) (v : α)
    (inputL inputR : Nat → α) (n : Nat) :
    (((DeliVerbDSP.init.run lm tanh history).setParameter lm .kAdvanced v).processStereo tanh
        inputL inputR n).outputL =
      ((DeliVerbDSP.init.run lm tanh history).processStereo tanh inputL inputR n).outputL ∧
    (((DeliVerbDSP.init.run lm tanh history).setParameter lm .kAdvanced v).processStereo tanh
        inputL inputR n).outputR =
      ((DeliVerbDSP.init.run lm tanh history).processStereo tanh inputL inputR n).outputR := by
  by_cases h : ∃ op, op ∈ history ∧ op.Updates
  · obtain ⟨op, hmem, hop⟩ := h
    obtain ⟨l1, l2, rfl⟩ := List.append_of_mem hmem
    rw [run_split]
    have hu := updated_run lm tanh l2 _ (updated_step lm tanh (DeliVerbDSP.init.run lm tanh l1)
      op hop)
    rw [setParameter_advanced lm _ v hu, processStereo_withAdvanced]
    exact ⟨rfl, rfl⟩
  · have hi : (DeliVerbDSP.init.run lm tanh history).Idle :=
      idle_run lm tanh history _ init_idle (fun op hmem hop => h ⟨op, hmem, hop⟩)
    have hi' : ((DeliVerbDSP.init.run lm tanh history).setParameter lm .kAdvanced v).Idle :=
      updateParameters_idle lm _ hi
    have r1 := processStereo_idle tanh _ inputL inputR n hi
    have r2 := processStereo_idle tanh _ inputL inputR n hi'
    exact ⟨r2.2.1.trans r1.2.1.symm, r2.2.2.trans r1.2.2.symm⟩

/-- C9, as the code has it: two processors that differ only in the stored
advanced flag write identical outputs and reach states that again differ only
in the flag, under `processStereo` and `process`, for every input block; in
every state a constructed processor can reach, `setParameter(kAdvanced, v)`
leaves what `processStereo` and `process` write unchanged; and made at any point
after a first `setSampleRate` or `setParameter` call, it changes the stored
flag and nothing else, so the states that follow are the same as well. -/
theorem advanced_changes_nothing (lm : Libm α) (tanh : α → α) (s : DeliVerbDSP α) (b : Bool)
    (inputL inputR : Nat → α) (n : Nat) (history : List (Op α))
    (start : DeliVerbDSP α) (first : Op α) (hfirst : first.Updates) (later : List (Op α))
    (v : α) (t : DeliVerbDSP α) (ht : t = ((start.step lm tanh first).run lm tanh later)) :
    (s.withAdvanced b).processStereo tanh inputL inputR n =
      { dsp := (s.processStereo tanh inputL inputR n).dsp.withAdvanced b
        outputL := (s.processStereo tanh inputL inputR n).outputL
        outputR := (s.processStereo tanh inputL inputR n).outputR } ∧
    (s.withAdvanced b).process tanh inputL n =
      { dsp := (s.process tanh inputL n).dsp.withAdvanced b
        outputL := (s.process tanh inputL n).outputL
        outputR := (s.process tanh inputL n).outputR } ∧
    ((((DeliVerbDSP.init.run lm tanh history).setParameter lm .kAdvanced v).processStereo tanh
          inputL inputR n).outputL =
        ((DeliVerbDSP.init.run lm tanh history).processStereo tanh inputL inputR n).outputL ∧
      (((DeliVerbDSP.init.run lm tanh history).setParameter lm .kAdvanced v).processStereo tanh
          inputL inputR n).outputR =
        ((DeliVerbDSP.init.run lm tanh history).processStereo tanh inputL inputR n).outputR ∧
      (((DeliVerbDSP.init.run lm tanh history).setParameter lm .kAdvanced v).process tanh
          inputL n).outputL =
        ((DeliVerbDSP.init.run lm tanh history).process tanh inputL n).outputL ∧
      (((DeliVerbDSP.init.run lm tanh history).setParameter lm .kAdvanced v).process tanh
          inputL n).outputR =
        ((DeliVerbDSP.init.run lm tanh history).process tanh inputL n).outputR) ∧
    t.setParameter lm .kAdvanced v = t.withAdvanced (decide (v > 0.5)) ∧
    (t.setParameter lm .kAdvanced v).processStereo tanh inputL inputR n =
      { dsp := (t.processStereo tanh inputL inputR n).dsp.withAdvanced (decide (v > 0.5))
        outputL := (t.processStereo tanh inputL inputR n).outputL
        outputR := (t.processStereo tanh inputL inputR n).outputR } := by
  have hu : t.Updated lm :=
    ht ▸ updated_run lm tanh later _ (updated_step lm tanh start first hfirst)
  have h3 := setParameter_advanced lm t v hu
  have a1 := advanced_inaudible lm tanh history v inputL inputR n
  have a2 := advanced_inaudible lm tanh history v inputL inputL n
  refine ⟨processStereo_withAdvanced tanh s b inputL inputR n, ?_, ⟨a1.1, a1.2, ?_, ?_⟩, h3, ?_⟩
  · rw [process_eq_processStereo, process_eq_processStereo]
    exact processStereo_withAdvanced tanh s b inputL inputL n
  · rw [process_eq_processStereo, process_eq_processStereo]
    exact a2.1
  · rw [process_eq_processStereo, process_eq_processStereo]
    exact a2.2
  · rw [h3]
    exact processStereo_withAdvanced tanh t _ inputL inputR n

/-- C9 at a concrete history: construction, `setSampleRate(48000)`, four frames
rendered, then `setParameter(kAdvanced, 1)`. -/
theorem advanced_changes_nothing_witness :
    ((((DeliVerbDSP.init : DeliVerbDSP ℝ).step
          ⟨Real.sin, Real.cos, Real.exp, Real.rpow, Real.sqrt, Real.pi⟩ Real.tanh
          (.setSampleRate 48000)).run
        ⟨Real.sin, Real.cos, Real.exp, Real.rpow, Real.sqrt, Real.pi⟩ Real.tanh
        [.processStereo (fun _ => 1) (fun _ => 1) 4]).setParameter
      ⟨Real.sin, Real.cos, Real.exp, Real.rpow, Real.sqrt, Real.pi⟩ .kAdvanced 1) =
    (((DeliVerbDSP.init : DeliVerbDSP ℝ).step
          ⟨Real.sin, Real.cos, Real.exp, Real.rpow, Real.sqrt, Real.pi⟩ Real.tanh
          (.setSampleRate 48000)).run
        ⟨Real.sin, Real.cos, Real.exp, Real.rpow, Real.sqrt, Real.pi⟩ Real.tanh
        [.processStereo (fun _ => 1) (fun _ => 1) 4]).withAdvanced
      (decide ((1 : ℝ) > 0.5)) :=
  (advanced_changes_nothing ⟨Real.sin, Real.cos, Real.exp, Real.rpow, Real.sqrt, Real.pi⟩
    Real.tanh DeliVerbDSP.init true (fun _ => 0) (fun _ => 0) 0 [] DeliVerbDSP.init
    (.setSampleRate 48000) trivial [.processStereo (fun _ => 1) (fun _ => 1) 4] 1 _
    rfl).2.2.2.1

/-- The denominator-normalised `a2` of the cookbook low-pass is not zero when
`Q = 0.707` and `sin` is the real sine. -/
theorem lowpass_a2_ne_zero (x : ℝ) :
    (1 - Real.sin x / (2 * 0.707)) / (1 + Real.sin x / (2 * 0.707)) ≠ 0 := by
  have h1 := Real.sin_le_one x
  have h2 := Real.neg_one_le_sin x
  have hq : (0 : ℝ) < 2 * 0.707 := by norm_num
  have ha : Real.sin x / (2 * 0.707) < 1 := by
    rw [div_lt_one hq]
    norm_num
    linarith
  have hb : -1 < Real.sin x / (2 * 0.707) := by
    rw [lt_div_iff₀ hq]
    norm_num
    linarith
  exact div_ne_zero (by linarith) (by linarith)

/-- One frame of `processStereo` keeps the coefficient `a2` of the delay
high-cut filter. -/
theorem processStereoFrame_a2 (tanh : α → α) (s : DeliVerbDSP α) (dryL dryR : α) :
    (DeliVerbDSP.processStereoFrame tanh s dryL dryR).1.m_delayHighCutL.m_a2 =
      s.m_delayHighCutL.m_a2 := by
  simp only [DeliVerbDSP.processStereoFrame, Biquad.process]

/-- C9 fails as stated on a freshly constructed processor: there
`setParameter(kAdvanced, 1)` runs `updateParameters` for the first time, and
the state after rendering one frame differs in a filter coefficient (`a2` of
the left delay high-cut filter, `0` without the call). -/
theorem advanced_on_fresh_changes_coefficients :
    (((DeliVerbDSP.init : DeliVerbDSP ℝ).setParameter
          ⟨Real.sin, Real.cos, Real.exp, Real.rpow, Real.sqrt, Real.pi⟩ .kAdvanced
          1).processStereo Real.tanh (fun _ => 0) (fun _ => 0) 1).dsp.m_delayHighCutL.m_a2 ≠
      ((DeliVerbDSP.init : DeliVerbDSP ℝ).processStereo Real.tanh (fun _ => 0) (fun _ => 0)
        1).dsp.m_delayHighCutL.m_a2 := by
  have z : ∀ s : DeliVerbDSP ℝ,
      (s.processStereo Real.tanh (fun _ => 0) (fun _ => 0) 1).dsp.m_delayHighCutL.m_a2 =
        s.m_delayHighCutL.m_a2 := by
    intro s
    have h0 : s.processStereo Real.tanh (fun _ => 0) (fun _ => 0) 0 =
        { dsp := s, outputL := [], outputR := [] } := rfl
    rw [processStereo_succ, h0]
    exact processStereoFrame_a2 Real.tanh s 0 0
  rw [z, z]
  have hi : (DeliVerbDSP.init : DeliVerbDSP ℝ).m_delayHighCutL.m_a2 = 0 := rfl
  rw [hi]
  have hn : ¬ ((44100 : ℝ) ≤ 0) := by norm_num
  simp only [DeliVerbDSP.setParameter, updateParameters_eq, DeliVerbDSP.storeParameter,
    DeliVerbDSP.init, DeliVerbDSP.setDefaultParameters, DeliVerbDSP.members, Biquad.init,
    Biquad.setCoefficients, Biquad.rawCoefficients, hn, if_false]
  exact lowpass_a2_ne_zero _

/-! ### C1: dry passthrough -/

/-- C6: for every processor state and every mono input block `x`, `process(x)`
writes the same two output blocks and leaves the processor in the same state
as `processStereo(x, x)` started from the same state. -/
theorem mono_is_stereo_on_duplicate (tanh : α → α) (s : DeliVerbDSP α) (x : Nat → α)
    (n : Nat) :
    (DeliVerbDSP.process tanh s x n).outputL =
      (DeliVerbDSP.processStereo tanh s x x n).outputL ∧
    (DeliVerbDSP.process tanh s x n).outputR =
      (DeliVerbDSP.processStereo tanh s x x n).outputR ∧
    (DeliVerbDSP.process tanh s x n).dsp = (DeliVerbDSP.processStereo tanh s x x n).dsp := by
  rw [process_eq_processStereo]
  exact ⟨rfl, rfl, rfl⟩

/-! ### C10: ducker pass-through -/

/-- C10: for a `Ducker` whose `delayAmount` and `reverbAmount` are both `0`,
`Ducker::process` returns `delayGain = 1` and `reverbGain = 1` for every input
pair, every behaviour value and every prior envelope state. -/
theorem ducker_passthrough (d : Ducker α) (inputL inputR : α)
    (hd : d.m_delayAmount = 0) (hr : d.m_reverbAmount = 0) :
    (d.process inputL inputR).2.1 = 1 ∧ (d.process inputL inputR).2.2 = 1 := by
  simp [Ducker.process, hd, hr]

/-- C10 at a concrete ducker: envelope `0.7`, behaviour `0.2`, input `(1, -3)`. -/
theorem ducker_passthrough_witness :
    ((Ducker.mk 48000 (EnvelopeFollower.mk 48000 5 150 0.5 0.9 0.7) 0 0 0.2 :
        Ducker ℚ).process 1 (-3)).2.1 = 1 ∧
    ((Ducker.mk 48000 (EnvelopeFollower.mk 48000 5 150 0.5 0.9 0.7) 0 0 0.2 :
        Ducker ℚ).process 1 (-3)).2.2 = 1 :=
  ducker_passthrough _ 1 (-3) rfl rfl

/-! ### C7: parameter store and read-back -/

/-- C7: for each of the 13 non-boolean parameter ids `p` and every value `v`,
also outside the published range, `getParameter(p)` right after
`setParameter(p, v)` returns exactly `v`, and `getParameter(q)` is unchanged for
every other id `q`; for the advanced id, `getParameter` returns `1` if
`v > 0.5` and `0` otherwise. -/
theorem setParameter_then_getParameter (lm : Libm α) (s : DeliVerbDSP α) (p : ParamID)
    (v : α) :
    (p ≠ .kAdvanced → p ≠ .kNumParams → (s.setParameter lm p v).getParameter p = v) ∧
    (∀ q, q ≠ p → (s.setParameter lm p v).getParameter q = s.getParameter q) ∧
    (s.setParameter lm .kAdvanced v).getParameter .kAdvanced = if v > 0.5 then 1 else 0 := by
  refine ⟨?_, ?_, ?_⟩
  · intro h1 h2
    rw [DeliVerbDSP.setParameter, getParameter_updateParameters, getParameter_storeParameter]
    simp [h1, h2]
  · intro q hq
    rw [DeliVerbDSP.setParameter, getParameter_updateParameters, getParameter_storeParameter]
    simp [hq]
  · rw [DeliVerbDSP.setParameter, getParameter_updateParameters, getParameter_storeParameter]
    simp

/-- C7 at a concrete call: `setParameter(kDelayTime, 5000)`, a value above the
published maximum of 2000, on the constructed processor. -/
theorem setParameter_then_getParameter_witness :
    ((DeliVerbDSP.init : DeliVerbDSP ℝ).setParameter
        ⟨Real.sin, Real.cos, Real.exp, Real.rpow, Real.sqrt, Real.pi⟩
        .kDelayTime 5000).getParameter .kDelayTime = 5000 ∧
    ((DeliVerbDSP.init : DeliVerbDSP ℝ).setParameter
        ⟨Real.sin, Real.cos, Real.exp, Real.rpow, Real.sqrt, Real.pi⟩
        .kDelayTime 5000).getParameter .kDelayMix =
      (DeliVerbDSP.init : DeliVerbDSP ℝ).getParameter .kDelayMix :=
  ⟨(setParameter_then_getParameter _ DeliVerbDSP.init .kDelayTime 5000).1
      (by decide) (by decide),
    (setParameter_then_getParameter _ DeliVerbDSP.init .kDelayTime 5000).2.1 .kDelayMix
      (by decide)⟩

/-! ### C8: defaults -/

/-- C8: a freshly constructed processor reports, through `getParameter`, the
published default of each of the 14 parameters; each default lies inside its
published `[min, max]` range and equals the `defaultValue` of the entry at the
same index of `kParameterInfos`. -/
theorem defaults_published :
    ParamID.all.map (DeliVerbDSP.init : DeliVerbDSP α).getParameter =
      [300, 0.3, 0.3, 0.5, 0, 0.3, 80, 8000, 100, 10000, 0, 0, 0.5, 0] ∧
    ParamID.all.map (DeliVerbDSP.init : DeliVerbDSP α).getParameter =
      (kParameterInfos : List (ParameterInfo α)).map (fun i => i.defaultValue) ∧
    ParamID.all.map ParamID.toNat = List.range 14 ∧
    (kParameterInfos : List (ParameterInfo α)).map (fun i => i.identifier) =
      ["delayTime", "delayRepeat", "delayMix", "reverbSize", "reverbStyle", "reverbMix",
        "delayLowCut", "delayHighCut", "reverbLowCut", "reverbHighCut",
        "duckDelayAmount", "duckReverbAmount", "duckBehaviour", "advanced"] ∧
    (kParameterInfos : List (ParameterInfo α)).map (fun i => (i.minValue, i.maxValue)) =
      [(50, 2000), (0, 0.95), (0, 1), (0, 1), (0, 1), (0, 1), (20, 2000), (1000, 20000),
        (20, 2000), (1000, 20000), (0, 1), (0, 1), (0, 1), (0, 1)] ∧
    ∀ i, i ∈ (kParameterInfos : List (ParameterInfo α)) →
      i.minValue ≤ i.defaultValue ∧ i.defaultValue ≤ i.maxValue := by
  refine ⟨?_, ?_, by decide, ?_, ?_, ?_⟩
  · simp [ParamID.all, DeliVerbDSP.getParameter, DeliVerbDSP.init,
      DeliVerbDSP.setDefaultParameters]
  · simp [ParamID.all, DeliVerbDSP.getParameter, DeliVerbDSP.init,
      DeliVerbDSP.setDefaultParameters, kParameterInfos]
  · simp [kParameterInfos]
  · simp [kParameterInfos]
  · intro i hi
    simp only [kParameterInfos, List.mem_cons, List.mem_singleton, List.not_mem_nil,
      or_false] at hi
    rcases hi with h | h | h | h | h | h | h | h | h | h | h | h | h | h <;>
      subst h <;> norm_num

/-- C8 at the rationals, for the table entry of `delayRepeat`. -/
theorem defaults_published_witness :
    (0 : ℚ) ≤ 0.3 ∧ (0.3 : ℚ) ≤ 0.95 :=
  (@defaults_published ℚ _ _).2.2.2.2.2
    ⟨"delayRepeat", "Delay Repeat", 0, 0.95, 0.3, .Generic, false⟩
    (by simp [kParameterInfos])

/-! ### The ducker, call by call -/

/-- Member function `EnvelopeFollower::process` writes `m_envelope` and nothing else, and
returns the new envelope. -/
theorem follower_process_fields (e : EnvelopeFollower α) (x : α) :
    (e.process x).1 = { e with m_envelope := (e.process x).2 } := by
  simp only [EnvelopeFollower.process]

/-- Member function `Ducker::process` with its locals substituted: the normalised envelope
is `min 1 (4 * envelope)` and `1 - delayDuckFactor` is the behaviour. -/
theorem ducker_process_eq (d : Ducker α) (inputL inputR : α) :
    d.process inputL inputR =
      ({ d with m_envelopeFollower :=
          (d.m_envelopeFollower.process ((|inputL| + |inputR|) / 2)).1 },
        max 0 (min 1 (1
          - min 1 (4 * (d.m_envelopeFollower.process ((|inputL| + |inputR|) / 2)).2)
              * (1 - d.m_behaviour) * d.m_delayAmount
          + (1 - min 1 (4 * (d.m_envelopeFollower.process ((|inputL| + |inputR|) / 2)).2))
              * d.m_behaviour * d.m_delayAmount * 0.3)),
        max 0 (min 1 (1
          - min 1 (4 * (d.m_envelopeFollower.process ((|inputL| + |inputR|) / 2)).2)
              * d.m_behaviour * d.m_reverbAmount
          + (1 - min 1 (4 * (d.m_envelopeFollower.process ((|inputL| + |inputR|) / 2)).2))
              * (1 - d.m_behaviour) * d.m_reverbAmount * 0.3))) := by
  have h2 : (|inputL| + |inputR|) * (0.5 : α) = (|inputL| + |inputR|) / 2 := by norm_num; ring
  have h4 : ∀ e : α, e * 4 = 4 * e := fun e => mul_comm e 4
  have h1 : ∀ b : α, 1 - (1 - b) = b := fun b => sub_sub_cancel 1 b
  simp only [Ducker.process, h2, h4, h1]

/-- A value inside `[lo, hi]` passes `std::max(lo, std::min(hi, v))` unchanged. -/
theorem clamp_inside {lo hi v : α} (h1 : lo ≤ v) (h2 : v ≤ hi) : max lo (min hi v) = v := by
  rw [min_eq_right h2, max_eq_right h1]

/-! ### C11: the contract of `Ducker::process` -/

/-- C11: for every ducker state and every input pair, `Ducker::process` feeds
`(|L| + |R|) / 2` to the envelope follower, and with `nEnv = min(1, 4 * env)` it returns
`delayGain = clamp(1 - nEnv * (1 - behaviour) * delayAmount
  + (1 - nEnv) * behaviour * delayAmount * 0.3, 0, 1)` and
`reverbGain = clamp(1 - nEnv * behaviour * reverbAmount
  + (1 - nEnv) * (1 - behaviour) * reverbAmount * 0.3, 0, 1)`; both gains lie in `[0, 1]`,
and the new state is the old one with only the follower's envelope replaced. -/
theorem ducker_process_contract (d : Ducker α) (inputL inputR : α) :
    let r := d.m_envelopeFollower.process ((|inputL| + |inputR|) / 2)
    let nEnv := min 1 (4 * r.2)
    let out := d.process inputL inputR
    out.2.1 = max 0 (min 1 (1 - nEnv * (1 - d.m_behaviour) * d.m_delayAmount
      + (1 - nEnv) * d.m_behaviour * d.m_delayAmount * 0.3)) ∧
    out.2.2 = max 0 (min 1 (1 - nEnv * d.m_behaviour * d.m_reverbAmount
      + (1 - nEnv) * (1 - d.m_behaviour) * d.m_reverbAmount * 0.3)) ∧
    (0 ≤ out.2.1 ∧ out.2.1 ≤ 1) ∧ (0 ≤ out.2.2 ∧ out.2.2 ≤ 1) ∧
    out.1 = { d with m_envelopeFollower := { d.m_envelopeFollower with m_envelope := r.2 } } := by
  intro r nEnv out
  have ho : out = _ := ducker_process_eq d inputL inputR
  have hf := follower_process_fields d.m_envelopeFollower ((|inputL| + |inputR|) / 2)
  refine ⟨by rw [ho], by rw [ho], ?_, ?_, ?_⟩
  · rw [ho]; exact ⟨le_max_left _ _, max_le zero_le_one (min_le_left _ _)⟩
  · rw [ho]; exact ⟨le_max_left _ _, max_le zero_le_one (min_le_left _ _)⟩
  · rw [ho]; simp only []; rw [hf]

/-! ### C13: the behaviour control mirrors delay and reverb -/

/-- C14: for every `v`, `Ducker::setDelayAmount`, `setReverbAmount` and `setBehaviour` store
`clamp(v, 0, 1)`, `Reverb::setSize`, `setStyle` and `setScoopAmount` store `clamp(v, 0, 1)`,
`Reverb::setLowCut` stores `clamp(v, 20, 2000)` and `Reverb::setHighCut` stores
`clamp(v, 1000, 20000)`; a value inside its range is stored unchanged. -/
theorem setters_clamp (lm : Libm α) (d : Ducker α) (r : Reverb α) (v : α) :
    ((d.setDelayAmount v).m_delayAmount = max 0 (min 1 v) ∧
      (d.setReverbAmount v).m_reverbAmount = max 0 (min 1 v) ∧
      (d.setBehaviour v).m_behaviour = max 0 (min 1 v) ∧
      (r.setSize lm v).m_size = max 0 (min 1 v) ∧
      (r.setStyle lm v).m_style = max 0 (min 1 v) ∧
      (r.setScoopAmount lm v).m_scoopAmount = max 0 (min 1 v) ∧
      (r.setLowCut lm v).m_lowCutFreq = max 20 (min 2000 v) ∧
      (r.setHighCut lm v).m_highCutFreq = max 1000 (min 20000 v)) ∧
    (0 ≤ v → v ≤ 1 →
      (d.setDelayAmount v).m_delayAmount = v ∧ (d.setReverbAmount v).m_reverbAmount = v ∧
      (d.setBehaviour v).m_behaviour = v ∧ (r.setSize lm v).m_size = v ∧
      (r.setStyle lm v).m_style = v ∧ (r.setScoopAmount lm v).m_scoopAmount = v) ∧
    (20 ≤ v → v ≤ 2000 → (r.setLowCut lm v).m_lowCutFreq = v) ∧
    (1000 ≤ v → v ≤ 20000 → (r.setHighCut lm v).m_highCutFreq = v) := by
  have h : (d.setDelayAmount v).m_delayAmount = max 0 (min 1 v) ∧
      (d.setReverbAmount v).m_reverbAmount = max 0 (min 1 v) ∧
      (d.setBehaviour v).m_behaviour = max 0 (min 1 v) ∧
      (r.setSize lm v).m_size = max 0 (min 1 v) ∧
      (r.setStyle lm v).m_style = max 0 (min 1 v) ∧
      (r.setScoopAmount lm v).m_scoopAmount = max 0 (min 1 v) ∧
      (r.setLowCut lm v).m_lowCutFreq = max 20 (min 2000 v) ∧
      (r.setHighCut lm v).m_highCutFreq = max 1000 (min 20000 v) := by
    refine ⟨rfl, rfl, rfl, ?_, ?_, rfl, rfl, rfl⟩
    · simp only [Reverb.setSize, reverb_updateParameters_eq]
    · simp only [Reverb.setStyle, reverb_updateParameters_eq]
  obtain ⟨h1, h2, h3, h4, h5, h6, h7, h8⟩ := h
  refine ⟨⟨h1, h2, h3, h4, h5, h6, h7, h8⟩, fun a b => ?_, fun a b => ?_, fun a b => ?_⟩
  · rw [h1, h2, h3, h4, h5, h6, clamp_inside a b]
    exact ⟨rfl, rfl, rfl, rfl, rfl, rfl⟩
  · rw [h7, clamp_inside a b]
  · rw [h8, clamp_inside a b]

/-! ### C12: behaviour 0 -/

/-- With behaviour 0, a non-negative envelope and a delay amount of `[0, 1]`, the delay
gain is `1 - nEnv * delayAmount`: the clamp does not cut. -/
theorem ducker_behaviour_zero_delayGain (d : Ducker α) (inputL inputR : α)
    (hb : d.m_behaviour = 0) (h0 : 0 ≤ d.m_delayAmount) (h1 : d.m_delayAmount ≤ 1)
    (he : 0 ≤ (d.m_envelopeFollower.process ((|inputL| + |inputR|) / 2)).2) :
    (d.process inputL inputR).2.1 =
      1 - min 1 (4 * (d.m_envelopeFollower.process ((|inputL| + |inputR|) / 2)).2)
        * d.m_delayAmount := by
  rw [ducker_process_eq, hb]
  simp only [sub_zero, mul_one, mul_zero, zero_mul, add_zero]
  have hn0 : 0 ≤ min 1 (4 * (d.m_envelopeFollower.process ((|inputL| + |inputR|) / 2)).2) :=
    le_min zero_le_one (mul_nonneg (by norm_num) he)
  have hn1 : min 1 (4 * (d.m_envelopeFollower.process ((|inputL| + |inputR|) / 2)).2) ≤ 1 :=
    min_le_left _ _
  have hp := mul_nonneg hn0 h0
  have hq := mul_le_one₀ hn1 h0 h1
  exact clamp_inside (by linarith) (by linarith)

/-- With behaviour 0 and a non-negative reverb amount the reverb gain is 1 whatever the
envelope: the swell term is added to 1 and the sum is clamped back to 1. -/
theorem ducker_behaviour_zero_reverbGain (d : Ducker α) (inputL inputR : α)
    (hb : d.m_behaviour = 0) (h0 : 0 ≤ d.m_reverbAmount) :
    (d.process inputL inputR).2.2 = 1 := by
  rw [ducker_process_eq, hb]
  simp only [sub_zero, mul_one, mul_zero, zero_mul]
  have hn1 : min 1 (4 * (d.m_envelopeFollower.process ((|inputL| + |inputR|) / 2)).2) ≤ 1 :=
    min_le_left _ _
  have hs : 0 ≤ (1 - min 1 (4 * (d.m_envelopeFollower.process ((|inputL| + |inputR|) / 2)).2))
      * d.m_reverbAmount * 0.3 :=
    mul_nonneg (mul_nonneg (by linarith) h0) (by norm_num)
  rw [min_eq_left (by linarith), max_eq_right zero_le_one]

/-- C12, the code at the failing input: a fresh ducker with behaviour 0 and reverb amount 1
renders the frame `(1, 1)` and then the frame `(0, 0)`; the envelope decays from the first
frame to the second (`1/100` to `9999/1000000`), and the reverb gain is 1 in both frames, so
it does not increase. -/
theorem ducker_swell_is_clamped :
    ((((Ducker.init : Ducker ℚ).setBehaviour 0).setReverbAmount 1).process
        1 1).1.m_envelopeFollower.m_envelope = 1 / 100 ∧
      ((((((Ducker.init : Ducker ℚ).setBehaviour 0).setReverbAmount 1).process 1 1).1.process
        0 0).1).m_envelopeFollower.m_envelope = 9999 / 1000000 ∧
      ((((Ducker.init : Ducker ℚ).setBehaviour 0).setReverbAmount 1).process 1 1).2.2 = 1 ∧
      (((((Ducker.init : Ducker ℚ).setBehaviour 0).setReverbAmount 1).process 1 1).1.process
        0 0).2.2 = 1 := by
  refine ⟨?_, ?_, ?_, ?_⟩ <;>
    norm_num [Ducker.process, Ducker.init, Ducker.setBehaviour, Ducker.setReverbAmount,
      EnvelopeFollower.process, EnvelopeFollower.init]

/-! ### The delay line: capacity, write index, reachable states -/

/-- Member function `DelayLine::setMaxDelayMs` sets the capacity to
`⌊sr * ms / 1000⌋ + 4` and the write index to 0, whatever the line held. -/
theorem delayLine_setMaxDelayMs_shape (d : DelayLine α) (ms : α) :
    (d.setMaxDelayMs ms).m_buffer.length = ⌊d.m_sampleRate * ms / 1000⌋₊ + 4 ∧
    (d.setMaxDelayMs ms).m_writeIndex = 0 ∧
    (d.setMaxDelayMs ms).m_sampleRate = d.m_sampleRate := by
  simp only [DelayLine.setMaxDelayMs, vectorResize_length, and_self]

/-- Member function `DelayLine::write` on a line with a write index inside a non-empty
buffer. -/
theorem delayLine_write_eq (d : DelayLine α) (x : α)
    (hw : d.m_writeIndex < d.m_buffer.length) :
    d.write x = { d with
      m_buffer := d.m_buffer.set d.m_writeIndex x
      m_writeIndex := (d.m_writeIndex + 1) % d.m_buffer.length } := by
  have hne : d.m_buffer.isEmpty = false := by
    cases hb : d.m_buffer with
    | nil => rw [hb] at hw; exact absurd hw (Nat.not_lt_zero _)
    | cons a l => rfl
  have hm : (if d.m_writeIndex + 1 ≥ d.m_buffer.length then 0 else d.m_writeIndex + 1) =
      (d.m_writeIndex + 1) % d.m_buffer.length := by
    split
    · have : d.m_writeIndex + 1 = d.m_buffer.length := by omega
      rw [this, Nat.mod_self]
    · rw [Nat.mod_eq_of_lt (by omega)]
  simp only [DelayLine.write, hne, Bool.false_eq_true, if_false, List.length_set, hm]

/-- After `setMaxDelayMs` the line is allocated. -/
theorem delayLine_setMaxDelayMs_allocated (d : DelayLine α) (ms : α) :
    (d.setMaxDelayMs ms).Allocated := by
  obtain ⟨h1, h2, -⟩ := delayLine_setMaxDelayMs_shape d ms
  unfold DelayLine.Allocated
  rw [h1, h2]
  omega

/-- Every call keeps an allocated line allocated. -/
theorem delayLine_step_allocated (d : DelayLine α) (op : DelayOp α) (h : d.Allocated) :
    (d.step op).Allocated := by
  cases op with
  | setSampleRate sr => exact h
  | setMaxDelayMs ms => exact delayLine_setMaxDelayMs_allocated d ms
  | write x =>
    unfold DelayLine.Allocated at h ⊢
    simp only [DelayLine.step, delayLine_write_eq d x h.2, List.length_set]
    exact ⟨h.1, Nat.mod_lt _ (by omega)⟩
  | reset =>
    unfold DelayLine.Allocated at h ⊢
    simp only [DelayLine.step, DelayLine.reset, List.length_replicate]
    omega

/-- Every sequence of calls keeps an allocated line allocated. -/
theorem delayLine_run_allocated (ops : List (DelayOp α)) (d : DelayLine α) (h : d.Allocated) :
    (d.run ops).Allocated := by
  induction ops generalizing d with
  | nil => exact h
  | cons op ops ih => exact ih _ (delayLine_step_allocated d op h)

/-- A sequence of calls with a `setMaxDelayMs` among them leaves an allocated line,
whatever the line was before. -/
theorem delayLine_run_allocates (ops : List (DelayOp α)) (d : DelayLine α)
    (h : ∃ op, op ∈ ops ∧ op.Allocates) : (d.run ops).Allocated := by
  induction ops generalizing d with
  | nil =>
    obtain ⟨op, hop, -⟩ := h
    exact absurd hop (List.not_mem_nil _)
  | cons op ops ih =>
    by_cases ha : op.Allocates
    · refine delayLine_run_allocated ops _ ?_
      cases op with
      | setMaxDelayMs ms => exact delayLine_setMaxDelayMs_allocated d ms
      | setSampleRate sr => exact absurd ha id
      | write x => exact absurd ha id
      | reset => exact absurd ha id
    · refine ih _ ?_
      obtain ⟨op', hop, hal⟩ := h
      rcases List.mem_cons.mp hop with rfl | hmem
      · exact absurd hal ha
      · exact ⟨op', hmem, hal⟩

/-- Without a `setMaxDelayMs` a line with an empty buffer and write index 0 stays so. -/
theorem delayLine_run_unallocated (ops : List (DelayOp α)) (d : DelayLine α)
    (h : ∀ op, op ∈ ops → ¬ op.Allocates) (hb : d.m_buffer = []) (hw : d.m_writeIndex = 0) :
    (d.run ops).m_buffer = [] ∧ (d.run ops).m_writeIndex = 0 := by
  induction ops generalizing d with
  | nil => exact ⟨hb, hw⟩
  | cons op ops ih =>
    have hrest : ∀ op', op' ∈ ops → ¬ op'.Allocates :=
      fun op' hm => h op' (List.mem_cons_of_mem _ hm)
    have hop := h op (List.mem_cons_self _ _)
    cases op with
    | setMaxDelayMs ms => exact absurd trivial hop
    | setSampleRate sr => exact ih _ hrest hb hw
    | write x =>
      have : d.write x = d := by simp [DelayLine.write, hb]
      exact ih _ hrest (by simp only [DelayLine.step, this, hb])
        (by simp only [DelayLine.step, this, hw])
    | reset =>
      exact ih _ hrest
        (by simp only [DelayLine.step, DelayLine.reset, hb, List.length_nil,
          List.replicate_zero]) rfl

/-! ### C15: the capacity after `setMaxDelayMs` -/

/-- C15, counterexample: at 44.1 kHz, `setMaxDelayMs(0.5)` gives a buffer of
`⌊22.05⌋ + 4 = 26` samples, while `⌈22.05⌉ + 4 = 27`. -/
theorem setMaxDelayMs_truncates :
    (((DelayLine.init : DelayLine ℚ).setSampleRate 44100).setMaxDelayMs (1 / 2)).m_buffer.length
        = 26 ∧
      ⌈(44100 : ℚ) * (1 / 2) / 1000⌉₊ + 4 = 27 := by
  have e : (44100 : ℚ) * (1 / 2) / 1000 = 441 / 20 := by norm_num
  have hf : ⌊(441 / 20 : ℚ)⌋₊ = 22 := by
    rw [Nat.floor_eq_iff (by norm_num)]; norm_num
  have hc : ⌈(441 / 20 : ℚ)⌉₊ = 23 := by
    rw [Nat.ceil_eq_iff (by norm_num)]; norm_num
  refine ⟨?_, by rw [e, hc]⟩
  rw [(delayLine_setMaxDelayMs_shape _ _).1]
  simp only [DelayLine.setSampleRate, e, hf]

/-- Member function `DeliVerbDSP::setSampleRate` prepares the two main lines for 2100 ms,
the comb lines for 200 ms and the allpass and pre-delay lines for 100 ms. -/
theorem setSampleRate_delayLines (lm : Libm α) (s : DeliVerbDSP α) (sr : α) :
    (s.setSampleRate lm sr).m_delayL = (s.m_delayL.setSampleRate sr).setMaxDelayMs 2100 ∧
    (s.setSampleRate lm sr).m_delayR = (s.m_delayR.setSampleRate sr).setMaxDelayMs 2100 ∧
    (∀ i, (s.setSampleRate lm sr).m_reverb.m_combL i =
      ((s.m_reverb.m_combL i).setSampleRate sr).setMaxDelayMs 200) ∧
    (∀ i, (s.setSampleRate lm sr).m_reverb.m_combR i =
      ((s.m_reverb.m_combR i).setSampleRate sr).setMaxDelayMs 200) ∧
    (∀ i, (s.setSampleRate lm sr).m_reverb.m_allpass i =
      ((s.m_reverb.m_allpass i).setSampleRate sr).setMaxDelayMs 100) ∧
    (s.setSampleRate lm sr).m_reverb.m_preDelayL =
      (s.m_reverb.m_preDelayL.setSampleRate sr).setMaxDelayMs 100 ∧
    (s.setSampleRate lm sr).m_reverb.m_preDelayR =
      (s.m_reverb.m_preDelayR.setSampleRate sr).setMaxDelayMs 100 := by
  simp only [setSampleRate_eq_prepare, updateParameters_eq, reverb_retune_eq,
    DeliVerbDSP.prepare, reverb_setSampleRate_eq, reverb_updateParameters_eq, implies_true,
    and_self]

/-- C15, amended: for every sample rate `sr` and every `ms` (in particular `sr > 0` and
`ms ≥ 0`), after `setSampleRate(sr)` and `setMaxDelayMs(ms)` the capacity is
`⌊sr * ms / 1000⌋ + 4` and the write index is 0; after `DeliVerbDSP::setSampleRate(44100)`
the main lines of 2100 ms hold 92614 samples, the comb lines of 200 ms hold 8824 and the
allpass and pre-delay lines of 100 ms hold 4414. -/
theorem setMaxDelayMs_capacity (lm : Libm α) (s : DeliVerbDSP α) (d : DelayLine α)
    (sr ms : α) :
    (((d.setSampleRate sr).setMaxDelayMs ms).m_buffer.length = ⌊sr * ms / 1000⌋₊ + 4 ∧
      ((d.setSampleRate sr).setMaxDelayMs ms).m_writeIndex = 0) ∧
    ((s.setSampleRate lm 44100).m_delayL.m_buffer.length = 92614 ∧
      (s.setSampleRate lm 44100).m_delayR.m_buffer.length = 92614) ∧
    (∀ i, ((s.setSampleRate lm 44100).m_reverb.m_combL i).m_buffer.length = 8824 ∧
      ((s.setSampleRate lm 44100).m_reverb.m_combR i).m_buffer.length = 8824) ∧
    (∀ i, ((s.setSampleRate lm 44100).m_reverb.m_allpass i).m_buffer.length = 4414) ∧
    (s.setSampleRate lm 44100).m_reverb.m_preDelayL.m_buffer.length = 4414 ∧
    (s.setSampleRate lm 44100).m_reverb.m_preDelayR.m_buffer.length = 4414 := by
  have h1 : ⌊(44100 : α) * 2100 / 1000⌋₊ = 92610 := by
    have : (44100 : α) * 2100 / 1000 = ((92610 : ℕ) : α) := by norm_num
    rw [this, Nat.floor_natCast]
  have h2 : ⌊(44100 : α) * 200 / 1000⌋₊ = 8820 := by
    have : (44100 : α) * 200 / 1000 = ((8820 : ℕ) : α) := by norm_num
    rw [this, Nat.floor_natCast]
  have h3 : ⌊(44100 : α) * 100 / 1000⌋₊ = 4410 := by
    have : (44100 : α) * 100 / 1000 = ((4410 : ℕ) : α) := by norm_num
    rw [this, Nat.floor_natCast]
  have hl : ∀ (e : DelayLine α) (x : α),
      ((e.setSampleRate 44100).setMaxDelayMs x).m_buffer.length =
        ⌊(44100 : α) * x / 1000⌋₊ + 4 :=
    fun e x => (delayLine_setMaxDelayMs_shape _ _).1
  obtain ⟨a1, a2, a3, a4, a5, a6, a7⟩ := setSampleRate_delayLines lm s 44100
  refine ⟨⟨(delayLine_setMaxDelayMs_shape _ _).1, (delayLine_setMaxDelayMs_shape _ _).2.1⟩,
    ⟨?_, ?_⟩, fun i => ⟨?_, ?_⟩, fun i => ?_, ?_, ?_⟩
  · rw [a1, hl, h1]
  · rw [a2, hl, h1]
  · rw [a3, hl, h2]
  · rw [a4, hl, h2]
  · rw [a5, hl, h3]
  · rw [a6, hl, h3]
  · rw [a7, hl, h3]

/-! ### C16: what `setMaxDelayMs` leaves in the buffer -/

/-- The call `v.resize(n, x)` keeps the first element of a non-empty vector when `n > 0`. -/
theorem vectorResize_head (a : α) (l : List α) (n : Nat) (x : α) :
    (vectorResize (a :: l) (n + 1) x).getD 0 x = a := by
  simp only [vectorResize, List.take_succ_cons, List.cons_append, List.getD_cons_zero]

/-- A sample written at the start of an allocated line is still in slot 0 after a second
`setMaxDelayMs`: the resize keeps it, and the write index is back at 0. -/
theorem delayLine_setMaxDelayMs_keeps_sample (d : DelayLine α) (ms ms2 x : α) :
    ((((d.setMaxDelayMs ms).write x).setMaxDelayMs ms2).m_buffer.getD 0 0 = x) ∧
    (((d.setMaxDelayMs ms).write x).setMaxDelayMs ms2).m_writeIndex = 0 := by
  obtain ⟨h4, hw⟩ := delayLine_setMaxDelayMs_allocated d ms
  refine ⟨?_, rfl⟩
  rw [delayLine_write_eq _ x hw, (delayLine_setMaxDelayMs_shape d ms).2.1]
  cases hb : (d.setMaxDelayMs ms).m_buffer with
  | nil => rw [hb] at h4; exact absurd h4 (by simp)
  | cons a l =>
    simp only [DelayLine.setMaxDelayMs, List.set_cons_zero]
    exact vectorResize_head x l _ 0

/-- C16, the code at the failing input: a line at 44.1 kHz is allocated for 100 ms, one
sample `1` is written, and the line is allocated for 100 ms again (as a second
`setSampleRate` of the processor does); the buffer of 4414 samples then holds `1` in
slot 0, at the write index. -/
theorem setMaxDelayMs_keeps_old_samples :
    (((((DelayLine.init : DelayLine ℚ).setSampleRate 44100).setMaxDelayMs 100).write
        1).setMaxDelayMs 100).m_buffer.getD 0 0 = 1 ∧
      (((((DelayLine.init : DelayLine ℚ).setSampleRate 44100).setMaxDelayMs 100).write
        1).setMaxDelayMs 100).m_buffer.length = 4414 ∧
      (((((DelayLine.init : DelayLine ℚ).setSampleRate 44100).setMaxDelayMs 100).write
        1).setMaxDelayMs 100).m_writeIndex = 0 := by
  have h3 : ⌊(44100 : ℚ) * 100 / 1000⌋₊ = 4410 := by
    have : (44100 : ℚ) * 100 / 1000 = ((4410 : ℕ) : ℚ) := by norm_num
    rw [this, Nat.floor_natCast]
  have hs : ((((DelayLine.init : DelayLine ℚ).setSampleRate 44100).setMaxDelayMs 100).write
      1).m_sampleRate = 44100 := by
    rw [delayLine_write_eq _ _ (delayLine_setMaxDelayMs_allocated _ _).2]
    rfl
  refine ⟨(delayLine_setMaxDelayMs_keeps_sample _ _ _ _).1, ?_, rfl⟩
  rw [(delayLine_setMaxDelayMs_shape _ _).1, hs, h3]

/-! ### C17: the write and the write index -/

/-- C17: on a line with a buffer of capacity `cap` and write index `w < cap` (so that the
buffer is not empty), `write(x)` stores `x` at slot `w`, leaves every other slot and the
capacity unchanged and sets the write index to `(w + 1) mod cap`.  Consequently the write
index is below the capacity in every state reached through a sequence of `setSampleRate`,
`setMaxDelayMs`, `write` and `reset` calls with a `setMaxDelayMs` among them, from a
constructed line or any other (a sequence without one leaves a constructed line with an
empty buffer and write index 0), and the buffer is non-empty after any `setMaxDelayMs`. -/
theorem write_advances (d : DelayLine α) (x : α) (hw : d.m_writeIndex < d.m_buffer.length) :
    ((d.write x).m_buffer[d.m_writeIndex]? = some x ∧
      (∀ j, j ≠ d.m_writeIndex → (d.write x).m_buffer[j]? = d.m_buffer[j]?) ∧
      (d.write x).m_buffer.length = d.m_buffer.length ∧
      (d.write x).m_writeIndex = (d.m_writeIndex + 1) % d.m_buffer.length ∧
      (d.write x).m_sampleRate = d.m_sampleRate) ∧
    (∀ (e : DelayLine α) (ops : List (DelayOp α)), (∃ op, op ∈ ops ∧ op.Allocates) →
      (e.run ops).m_writeIndex < (e.run ops).m_buffer.length) ∧
    (∀ ops : List (DelayOp α), (∀ op, op ∈ ops → ¬ op.Allocates) →
      ((DelayLine.init : DelayLine α).run ops).m_buffer = [] ∧
        ((DelayLine.init : DelayLine α).run ops).m_writeIndex = 0) ∧
    (∀ (e : DelayLine α) (ms : α), (e.setMaxDelayMs ms).m_buffer ≠ []) := by
  refine ⟨?_, fun e ops h => (delayLine_run_allocates ops e h).2,
    fun ops h => delayLine_run_unallocated ops _ h rfl rfl, fun e ms hb => ?_⟩
  · rw [delayLine_write_eq d x hw]
    refine ⟨?_, fun j hj => ?_, List.length_set _ _ _, rfl, rfl⟩
    · simp only [List.getElem?_set_self hw]
    · simp only [List.getElem?_set_ne (Ne.symm hj)]
  · have h := (delayLine_setMaxDelayMs_allocated e ms).1
    rw [hb] at h
    exact absurd h (by simp)

/-- C17, instance: a write at the last slot of a four-sample line wraps the write index
to 0. -/
theorem write_advances_witness :
    ({ m_sampleRate := 44100, m_buffer := [5, 6, 7, 8], m_writeIndex := 3 } :
          DelayLine ℚ).m_writeIndex <
        ({ m_sampleRate := 44100, m_buffer := [5, 6, 7, 8], m_writeIndex := 3 } :
          DelayLine ℚ).m_buffer.length ∧
      (({ m_sampleRate := 44100, m_buffer := [5, 6, 7, 8], m_writeIndex := 3 } :
        DelayLine ℚ).write 9).m_buffer[3]? = some 9 ∧
      (({ m_sampleRate := 44100, m_buffer := [5, 6, 7, 8], m_writeIndex := 3 } :
        DelayLine ℚ).write 9).m_writeIndex = (3 + 1) % 4 :=
  ⟨by decide,
    (@write_advances ℚ _ _
      { m_sampleRate := 44100, m_buffer := [5, 6, 7, 8], m_writeIndex := 3 } 9
      (by decide)).1.1,
    (@write_advances ℚ _ _
      { m_sampleRate := 44100, m_buffer := [5, 6, 7, 8], m_writeIndex := 3 } 9
      (by decide)).1.2.2.2.1⟩

/-! ### The fractional read: position and indices -/

/-- The `size_t` value `size - 2` is at most `size - 2` once `size ≥ 2`, and it is
`size - 2` for a size below `2 ^ 64`. -/
theorem sizeMinusTwo_le (size : Nat) (h : 2 ≤ size) :
    sizeMinusTwo size + 2 ≤ size ∧ (size < 2 ^ 64 → sizeMinusTwo size + 2 = size) := by
  unfold sizeMinusTwo
  norm_num
  omega

/-- Member functions `DelayLine::read` and `readSamples`, in terms of the locals
`readPos`, `index0` and `index1`. -/
theorem delayLine_interpolate_eq (d : DelayLine α) (x : α) :
    d.interpolate x =
      d.m_buffer.getD (d.index0 x) 0 * (1 - (d.readPos x - (d.index0 x : α))) +
        d.m_buffer.getD (d.index1 x) 0 * (d.readPos x - (d.index0 x : α)) := rfl

/-- On a line with at least two samples and the write index inside the buffer, the
wrapped read position lies in `[0, cap)` and both interpolation indices are below the
capacity, for every delay argument. -/
theorem delayLine_readPos_bounds (d : DelayLine α) (x : α) (h2 : 2 ≤ d.m_buffer.length)
    (hw : d.m_writeIndex < d.m_buffer.length) :
    (0 ≤ d.readPos x ∧ d.readPos x < (d.m_buffer.length : α)) ∧
    d.index0 x < d.m_buffer.length ∧ d.index1 x < d.m_buffer.length := by
  have hM : ((sizeMinusTwo d.m_buffer.length : Nat) : α) + 2 ≤ (d.m_buffer.length : α) := by
    exact_mod_cast (sizeMinusTwo_le _ h2).1
  have hM0 : (0 : α) ≤ ((sizeMinusTwo d.m_buffer.length : Nat) : α) := Nat.cast_nonneg _
  have hwc : (d.m_writeIndex : α) + 1 ≤ (d.m_buffer.length : α) := by exact_mod_cast hw
  have hw0 : (0 : α) ≤ (d.m_writeIndex : α) := Nat.cast_nonneg _
  have hd1 : min (max 1 x) ((sizeMinusTwo d.m_buffer.length : Nat) : α) ≤
      ((sizeMinusTwo d.m_buffer.length : Nat) : α) := min_le_right _ _
  have hd0 : (0 : α) ≤ min (max 1 x) ((sizeMinusTwo d.m_buffer.length : Nat) : α) :=
    le_min (le_trans zero_le_one (le_max_left _ _)) hM0
  have hr : 0 ≤ d.readPos x ∧ d.readPos x < (d.m_buffer.length : α) := by
    unfold DelayLine.readPos
    simp only []
    split
    · constructor <;> linarith
    · rename_i hn
      constructor
      · exact not_lt.mp hn
      · linarith
  have h0 : d.index0 x < d.m_buffer.length := (Nat.floor_lt hr.1).mpr hr.2
  refine ⟨hr, h0, ?_⟩
  unfold DelayLine.index1
  split <;> omega

/-- The read position of the code is that of the specification when the capacity is a
`size_t` value of at least 4. -/
theorem delayLine_readPos_spec (d : DelayLine α) (x : α) (h4 : 4 ≤ d.m_buffer.length)
    (h64 : d.m_buffer.length < 2 ^ 64) : d.readPos x = d.specReadPos x := by
  have hM : ((sizeMinusTwo d.m_buffer.length : Nat) : α) = (d.m_buffer.length : α) - 2 := by
    have := (sizeMinusTwo_le _ (by omega : 2 ≤ d.m_buffer.length)).2 h64
    have hc : ((sizeMinusTwo d.m_buffer.length : Nat) : α) + 2 = (d.m_buffer.length : α) := by
      exact_mod_cast this
    linarith
  have h1 : (1 : α) ≤ (d.m_buffer.length : α) - 2 := by
    have : (4 : α) ≤ (d.m_buffer.length : α) := by exact_mod_cast h4
    linarith
  have hc : min (max 1 x) ((d.m_buffer.length : α) - 2) =
      max 1 (min ((d.m_buffer.length : α) - 2) x) := by
    rw [max_min_distrib_left, max_eq_right h1, min_comm]
  unfold DelayLine.readPos DelayLine.specReadPos
  simp only [hM, hc]

/-- The second interpolation index is `(index0 + 1) mod cap`. -/
theorem delayLine_index1_mod (d : DelayLine α) (x : α)
    (h0 : d.index0 x < d.m_buffer.length) :
    d.index1 x = (d.index0 x + 1) % d.m_buffer.length := by
  unfold DelayLine.index1
  split
  · have : d.index0 x + 1 = d.m_buffer.length := by omega
    rw [this, Nat.mod_self]
  · rw [Nat.mod_eq_of_lt (by omega)]

/-- The interpolation of the code is the fractional read of the specification when the
capacity is a `size_t` value of at least 4 and the write index is inside the buffer. -/
theorem delayLine_interpolate_spec (d : DelayLine α) (x : α) (h4 : 4 ≤ d.m_buffer.length)
    (h64 : d.m_buffer.length < 2 ^ 64) (hw : d.m_writeIndex < d.m_buffer.length) :
    d.interpolate x = d.specRead x := by
  have hb := delayLine_readPos_bounds d x (by omega) hw
  rw [delayLine_interpolate_eq, delayLine_index1_mod d x hb.2.1]
  unfold DelayLine.specRead DelayLine.index0
  simp only [delayLine_readPos_spec d x h4 h64]

/-- A line with a write index inside its buffer is not empty. -/
theorem delayLine_isEmpty_false (d : DelayLine α) (hw : d.m_writeIndex < d.m_buffer.length) :
    d.m_buffer.isEmpty = false := by
  cases hb : d.m_buffer with
  | nil => rw [hb] at hw; exact absurd hw (Nat.not_lt_zero _)
  | cons a l => rfl

/-! ### The fractional read in exact arithmetic -/

/-- In exact arithmetic, without the rounding of the `float` operations: on a line whose
capacity `cap` is a `size_t` value of at least 4 and whose write
index is below `cap`, `read(ms)` is the fractional read of the specification at the delay
`ms * sr / 1000` and `readSamples(s)` is the one at the delay `s`, so that
`read(ms) = readSamples(ms * sr / 1000)`; the read position of the specification is in
`[0, cap)`.  Both member functions are `const`: they return a sample and no new state. -/
theorem read_is_fractional_read (d : DelayLine α) (ms s : α) (h4 : 4 ≤ d.m_buffer.length)
    (h64 : d.m_buffer.length < 2 ^ 64) (hw : d.m_writeIndex < d.m_buffer.length) :
    d.read ms = d.specRead (ms * d.m_sampleRate / 1000) ∧
    d.readSamples s = d.specRead s ∧
    d.read ms = d.readSamples (ms * d.m_sampleRate / 1000) ∧
    (0 ≤ d.specReadPos s ∧ d.specReadPos s < (d.m_buffer.length : α)) := by
  have he := delayLine_isEmpty_false d hw
  refine ⟨?_, ?_, ?_, ?_⟩
  · simp only [DelayLine.read, he, Bool.false_eq_true, if_false,
      delayLine_interpolate_spec d _ h4 h64 hw]
  · simp only [DelayLine.readSamples, he, Bool.false_eq_true, if_false,
      delayLine_interpolate_spec d _ h4 h64 hw]
  · simp only [DelayLine.read, DelayLine.readSamples, he, Bool.false_eq_true, if_false]
  · rw [← delayLine_readPos_spec d s h4 h64]
    exact (delayLine_readPos_bounds d s (by omega) hw).1

/-- An instance in exact arithmetic: a four-sample line `[1, 2, 3, 4]` at 1 kHz with write
index 1 read at
1.5 ms: `d = 1.5`, `r = 1 - 1.5 + 4 = 3.5`, and the read returns
`4 * 0.5 + 1 * 0.5 = 2.5`. -/
theorem read_is_fractional_read_witness :
    (4 ≤ ({ m_sampleRate := 1000, m_buffer := [1, 2, 3, 4], m_writeIndex := 1 } :
        DelayLine ℚ).m_buffer.length) ∧
      (({ m_sampleRate := 1000, m_buffer := [1, 2, 3, 4], m_writeIndex := 1 } :
        DelayLine ℚ).read (3 / 2) =
        ({ m_sampleRate := 1000, m_buffer := [1, 2, 3, 4], m_writeIndex := 1 } :
          DelayLine ℚ).specRead (3 / 2 * 1000 / 1000)) ∧
      ({ m_sampleRate := 1000, m_buffer := [1, 2, 3, 4], m_writeIndex := 1 } :
        DelayLine ℚ).specRead (3 / 2 * 1000 / 1000) = 5 / 2 := by
  refine ⟨by decide,
    (@read_is_fractional_read ℚ _ _
      { m_sampleRate := 1000, m_buffer := [1, 2, 3, 4], m_writeIndex := 1 } (3 / 2) 0
      (by decide) (by norm_num) (by decide)).1, ?_⟩
  have hr : ({ m_sampleRate := 1000, m_buffer := [1, 2, 3, 4], m_writeIndex := 1 } :
      DelayLine ℚ).specReadPos (3 / 2 * 1000 / 1000) = 7 / 2 := by
    norm_num [DelayLine.specReadPos]
  have hf : ⌊(7 / 2 : ℚ)⌋₊ = 3 := by
    rw [Nat.floor_eq_iff (by norm_num)]; norm_num
  simp only [DelayLine.specRead, hr, hf]
  norm_num

/-! ### Access in exact arithmetic -/

/-- In exact arithmetic, without the rounding of the `float` operations: on an empty
buffer `write` changes nothing and `read` and `readSamples` return 0
before any index is computed.  A constructed line that has gone through a sequence of
`setSampleRate`, `setMaxDelayMs`, `write` and `reset` calls is still empty when there was no
`setMaxDelayMs` among them; a line, constructed or not, is allocated (capacity at least 4,
write index below the capacity) when there was one, whatever the arguments of the calls
(so for `sr > 0` and `ms ≥ 0`).  On an allocated line,
for every delay argument (negative, zero or beyond the buffer), `read` and `readSamples`
index the buffer at `index0` and `index1` only, the wrapped read position lies in
`[0, cap)`, and both indices are below the capacity. -/
theorem delayLine_access_in_bounds (d : DelayLine α) (x : α) :
    (d.m_buffer = [] → (∀ y, d.write y = d) ∧ d.read x = 0 ∧ d.readSamples x = 0) ∧
    (∀ ops : List (DelayOp α), (∀ op, op ∈ ops → ¬ op.Allocates) →
      ((DelayLine.init : DelayLine α).run ops).m_buffer = []) ∧
    (∀ (e : DelayLine α) (ops : List (DelayOp α)), (∃ op, op ∈ ops ∧ op.Allocates) →
      (e.run ops).Allocated) ∧
    (d.Allocated →
      d.m_buffer ≠ [] ∧
      d.readSamples x =
        d.m_buffer.getD (d.index0 x) 0 * (1 - (d.readPos x - (d.index0 x : α))) +
          d.m_buffer.getD (d.index1 x) 0 * (d.readPos x - (d.index0 x : α)) ∧
      d.read x = d.readSamples (x * d.m_sampleRate / 1000) ∧
      (0 ≤ d.readPos x ∧ d.readPos x < (d.m_buffer.length : α)) ∧
      d.index0 x < d.m_buffer.length ∧ d.index1 x < d.m_buffer.length) := by
  refine ⟨fun hb => ?_, fun ops h => (delayLine_run_unallocated ops _ h rfl rfl).1,
    fun e ops h => delayLine_run_allocates ops e h, fun h => ?_⟩
  · simp [DelayLine.write, DelayLine.read, DelayLine.readSamples, hb]
  · obtain ⟨h4, hw⟩ := h
    have he := delayLine_isEmpty_false _ hw
    refine ⟨fun hb => ?_, ?_, ?_, delayLine_readPos_bounds _ x (by omega) hw⟩
    · rw [hb] at h4
      exact absurd h4 (by simp)
    · simp only [DelayLine.readSamples, he, Bool.false_eq_true, if_false,
        delayLine_interpolate_eq]
    · simp only [DelayLine.read, DelayLine.readSamples, he, Bool.false_eq_true, if_false]

/-! ### The delay line as a ring buffer -/

/-- One more frame is one more write. -/
theorem delayLine_writeFrames_succ (d : DelayLine α) (x : Nat → α) (n : Nat) :
    d.writeFrames x (n + 1) = (d.writeFrames x n).write (x n) := by
  simp only [DelayLine.writeFrames, List.range_succ, List.foldl_append, List.foldl_cons,
    List.foldl_nil]

/-- Two frame numbers less than a capacity apart use different slots. -/
theorem mod_ne_of_lt_of_lt {k n cap : Nat} (h1 : k < n) (h2 : n < k + cap) :
    k % cap ≠ n % cap := by
  intro h
  have hd : cap ∣ n - k := (Nat.modEq_iff_dvd' (le_of_lt h1)).mp h
  have := Nat.le_of_dvd (by omega) hd
  omega

/-- A zeroed line of capacity `cap` after `n` frames: the write index is `n mod cap`, the
sample of each of the last `cap` frames `k` is in slot `k mod cap`, and the slots from `n`
on are still zero. -/
theorem delayLine_writeFrames_ring (d : DelayLine α) (x : Nat → α) (cap : Nat)
    (hc : 0 < cap) (hb : d.m_buffer = List.replicate cap 0) (hw : d.m_writeIndex = 0)
    (n : Nat) :
    (d.writeFrames x n).m_buffer.length = cap ∧
    (d.writeFrames x n).m_writeIndex = n % cap ∧
    (d.writeFrames x n).m_sampleRate = d.m_sampleRate ∧
    (∀ k, k < n → n ≤ k + cap → (d.writeFrames x n).m_buffer.getD (k % cap) 0 = x k) ∧
    (∀ j, n ≤ j → (d.writeFrames x n).m_buffer.getD j 0 = 0) := by
  induction n with
  | zero =>
    have h0 : d.writeFrames x 0 = d := rfl
    rw [h0, hb, hw]
    refine ⟨List.length_replicate _ _, (Nat.zero_mod _).symm, rfl,
      fun k hk => absurd hk (Nat.not_lt_zero _), fun j _ => ?_⟩
    rcases Nat.lt_or_ge j (List.replicate cap (0 : α)).length with hj | hj
    · rw [List.getD_eq_getElem _ _ hj]
      exact List.eq_of_mem_replicate (List.getElem_mem hj)
    · exact List.getD_eq_default _ _ hj
  | succ n ih =>
    obtain ⟨hl, hwi, hsr, hk, hz⟩ := ih
    have hlt : (d.writeFrames x n).m_writeIndex < (d.writeFrames x n).m_buffer.length := by
      rw [hl, hwi]; exact Nat.mod_lt _ hc
    rw [delayLine_writeFrames_succ, delayLine_write_eq _ _ hlt]
    simp only [List.length_set, hl, hwi, Nat.mod_add_mod, hsr, true_and]
    have hset : ∀ j, ((d.writeFrames x n).m_buffer.set (n % cap) (x n)).getD j 0 =
        if j = n % cap then x n else (d.writeFrames x n).m_buffer.getD j 0 := by
      intro j
      rw [List.getD_eq_getElem?_getD, List.getD_eq_getElem?_getD]
      split
      · rename_i hj
        rw [hj, List.getElem?_set_self (by rw [hl]; exact Nat.mod_lt _ hc)]
        rfl
      · rename_i hj
        rw [List.getElem?_set_ne (Ne.symm hj)]
    refine ⟨fun k hk1 hk2 => ?_, fun j hj => ?_⟩
    · rw [hset]
      rcases Nat.lt_or_ge k n with hkn | hkn
      · rw [if_neg (mod_ne_of_lt_of_lt hkn (by omega))]
        exact hk k hkn (by omega)
      · have : k = n := by omega
        rw [this, if_pos rfl]
    · rw [hset]
      rcases Nat.lt_or_ge j cap with hjc | hjc
      · have hn : n % cap = n := Nat.mod_eq_of_lt (by omega)
        rw [if_neg (by omega)]
        exact hz j (by omega)
      · have hn : n % cap < cap := Nat.mod_lt _ hc
        rw [if_neg (by omega)]
        exact hz j (by omega)

/-- A read at a whole number `D` of samples, `1 ≤ D ≤ cap - 2`, returns one slot of the
buffer: slot `w - D`, or `w + cap - D` when that is negative. -/
theorem delayLine_interpolate_whole (d : DelayLine α) (D : Nat) (h1 : 1 ≤ D)
    (hD : D + 2 ≤ d.m_buffer.length) (h64 : d.m_buffer.length < 2 ^ 64) :
    d.interpolate (D : α) =
      d.m_buffer.getD (if D ≤ d.m_writeIndex then d.m_writeIndex - D
        else d.m_writeIndex + d.m_buffer.length - D) 0 := by
  have hM := (sizeMinusTwo_le _ (by omega : 2 ≤ d.m_buffer.length)).2 h64
  have e1 : max (1 : α) (D : α) = (D : α) := max_eq_right (by exact_mod_cast h1)
  have e2 : min (D : α) ((sizeMinusTwo d.m_buffer.length : Nat) : α) = (D : α) :=
    min_eq_left (by exact_mod_cast (by omega : D ≤ sizeMinusTwo d.m_buffer.length))
  have hr : d.readPos (D : α) = (((if D ≤ d.m_writeIndex then d.m_writeIndex - D
      else d.m_writeIndex + d.m_buffer.length - D : Nat)) : α) := by
    unfold DelayLine.readPos
    simp only [e1, e2]
    by_cases hle : D ≤ d.m_writeIndex
    · have : ¬ ((d.m_writeIndex : α) - (D : α) < 0) := by
        rw [not_lt, sub_nonneg]; exact_mod_cast hle
      rw [if_neg this, if_pos hle, Nat.cast_sub hle]
    · have : (d.m_writeIndex : α) - (D : α) < 0 := by
        rw [sub_neg]; exact_mod_cast (not_le.mp hle)
      rw [if_pos this, if_neg hle, Nat.cast_sub (by omega), Nat.cast_add]
      ring
  rw [delayLine_interpolate_eq]
  unfold DelayLine.index0
  rw [hr, Nat.floor_natCast, sub_self, sub_zero, mul_one, mul_zero, add_zero]

/-- Echo position on the delay line: a zeroed line of capacity `cap` is written once per
frame; read at a whole number `D` of samples, `1 ≤ D ≤ cap - 2`, before the write of frame
`n`, it returns 0 for `n < D` and the sample written in frame `n - D` for `n ≥ D`. -/
theorem delayLine_echo (d : DelayLine α) (x : Nat → α) (cap D : Nat)
    (hb : d.m_buffer = List.replicate cap 0) (hw : d.m_writeIndex = 0)
    (h1 : 1 ≤ D) (hD : D + 2 ≤ cap) (h64 : cap < 2 ^ 64) (n : Nat) :
    (d.writeFrames x n).interpolate (D : α) = if n < D then 0 else x (n - D) := by
  obtain ⟨hl, hwi, -, hk, hz⟩ := delayLine_writeFrames_ring d x cap (by omega) hb hw n
  rw [delayLine_interpolate_whole _ D h1 (by rw [hl]; exact hD) (by rw [hl]; exact h64), hl,
    hwi]
  have hmod : n % cap < cap := Nat.mod_lt _ (by omega)
  by_cases hn : n < D
  · have hnc : n % cap = n := Nat.mod_eq_of_lt (by omega)
    rw [if_pos hn, hnc, if_neg (by omega)]
    exact hz _ (by omega)
  · rw [if_neg hn]
    have hslot : (if D ≤ n % cap then n % cap - D else n % cap + cap - D) = (n - D) % cap := by
      have hdm := Nat.div_add_mod n cap
      split
      · rename_i hle
        have e : n - D = (n % cap - D) + cap * (n / cap) := by omega
        rw [e, Nat.add_mul_mod_self_left,
          Nat.mod_eq_of_lt (show n % cap - D < cap by omega)]
      · rename_i hle
        have hq : 1 ≤ n / cap := by
          rcases Nat.eq_zero_or_pos (n / cap) with h0 | h0
          · rw [h0] at hdm; omega
          · exact h0
        have e : n - D = (n % cap + cap - D) + cap * (n / cap - 1) := by
          have : cap * (n / cap) = cap + cap * (n / cap - 1) := by
            conv_lhs => rw [← Nat.sub_add_cancel hq]
            ring
          omega
        rw [e, Nat.add_mul_mod_self_left,
          Nat.mod_eq_of_lt (show n % cap + cap - D < cap by omega)]
    rw [hslot]
    exact hk (n - D) (by omega) (by omega)

/-! ### C20: echo position -/

/-- The call `setParameter` does not touch the delay lines. -/
theorem setParameter_delayL (lm : Libm α) (s : DeliVerbDSP α) (p : ParamID) (v : α) :
    (s.setParameter lm p v).m_delayL = s.m_delayL := by
  unfold DeliVerbDSP.setParameter
  rw [updateParameters_eq]
  cases p <;> rfl

/-- Echo position on a reset line, for `readSamples(D)` and for `read(ms)` with
`ms * sr / 1000 = D`. -/
theorem delayLine_echo_reset (d : DelayLine α) (x : Nat → α) (D : Nat) (ms : α)
    (h1 : 1 ≤ D) (hD : D + 2 ≤ d.m_buffer.length) (h64 : d.m_buffer.length < 2 ^ 64)
    (n : Nat) :
    (d.reset.writeFrames x n).readSamples (D : α) = (if n < D then 0 else x (n - D)) ∧
    ((D : α) = ms * d.m_sampleRate / 1000 →
      (d.reset.writeFrames x n).read ms = if n < D then 0 else x (n - D)) := by
  have hb : d.reset.m_buffer = List.replicate d.m_buffer.length 0 := rfl
  have hw : d.reset.m_writeIndex = 0 := rfl
  obtain ⟨hl, hwi, hsr, -, -⟩ :=
    delayLine_writeFrames_ring d.reset x d.m_buffer.length (by omega) hb hw n
  have he : (d.reset.writeFrames x n).m_buffer.isEmpty = false :=
    delayLine_isEmpty_false _ (by rw [hl, hwi]; exact Nat.mod_lt _ (by omega))
  have hecho := delayLine_echo d.reset x d.m_buffer.length D hb hw h1 hD h64 n
  refine ⟨?_, fun hms => ?_⟩
  · simp only [DelayLine.readSamples, he, Bool.false_eq_true, if_false, hecho]
  · have hs : (d.reset.writeFrames x n).m_sampleRate = d.m_sampleRate := hsr
    simp only [DelayLine.read, he, Bool.false_eq_true, if_false, hs, ← hms, hecho]

/-- A biquad with the identity coefficients and zero state returns its input and stays as
it is. -/
theorem biquad_identity_process (b : Biquad α) (x : α) (h0 : b.m_b0 = 1) (h1 : b.m_b1 = 0)
    (h2 : b.m_b2 = 0) (h3 : b.m_a1 = 0) (h4 : b.m_a2 = 0) (h5 : b.m_z1 = 0)
    (h6 : b.m_z2 = 0) : b.process x = (b, x) := by
  cases b
  simp only at h0 h1 h2 h3 h4 h5 h6
  subst h0 h1 h2 h3 h4 h5 h6
  simp [Biquad.process]

/-- A biquad with the identity coefficients and zero state returns every block unchanged. -/
theorem biquad_identity_processBlock (b : Biquad α) (xs : List α) (h0 : b.m_b0 = 1)
    (h1 : b.m_b1 = 0) (h2 : b.m_b2 = 0) (h3 : b.m_a1 = 0) (h4 : b.m_a2 = 0)
    (h5 : b.m_z1 = 0) (h6 : b.m_z2 = 0) : b.processBlock xs = (b, xs) := by
  have key : ∀ (ys acc : List α),
      ys.foldl (fun st x => ((st.1.process x).1, st.2 ++ [(st.1.process x).2])) (b, acc) =
        (b, acc ++ ys) := by
    intro ys
    induction ys with
    | nil => intro acc; simp
    | cons y ys ih =>
      intro acc
      rw [List.foldl_cons]
      simp only [biquad_identity_process b y h0 h1 h2 h3 h4 h5 h6]
      rw [ih]
      simp
  unfold Biquad.processBlock
  rw [key]
  simp

/-- A sequence of calls in which no `setCoefficients` takes effect leaves the identity
coefficients and the zero state of a constructed biquad. -/
theorem biquad_neverSet_identity (lm : Libm α) (ops : List (BiquadOp α)) (b : Biquad α)
    (h : b.NeverSet lm ops) (h0 : b.m_b0 = 1) (h1 : b.m_b1 = 0) (h2 : b.m_b2 = 0)
    (h3 : b.m_a1 = 0) (h4 : b.m_a2 = 0) (h5 : b.m_z1 = 0) (h6 : b.m_z2 = 0) :
    (b.run lm ops).m_b0 = 1 ∧ (b.run lm ops).m_b1 = 0 ∧ (b.run lm ops).m_b2 = 0 ∧
    (b.run lm ops).m_a1 = 0 ∧ (b.run lm ops).m_a2 = 0 ∧ (b.run lm ops).m_z1 = 0 ∧
    (b.run lm ops).m_z2 = 0 := by
  induction ops generalizing b with
  | nil => exact ⟨h0, h1, h2, h3, h4, h5, h6⟩
  | cons op ops ih =>
    cases op with
    | setSampleRate sr => exact ih _ h h0 h1 h2 h3 h4 h5 h6
    | setCoefficients t f q g =>
      obtain ⟨hsr, hrest⟩ := h
      have e : b.setCoefficients lm t f q g = b := by
        simp only [Biquad.setCoefficients, hsr, if_true]
      have hrun : b.run lm (.setCoefficients t f q g :: ops) = b.run lm ops := by
        simp only [Biquad.run, List.foldl_cons, Biquad.step, e]
      rw [hrun]
      rw [e] at hrest
      exact ih b hrest h0 h1 h2 h3 h4 h5 h6
    | process x =>
      have e : (b.process x).1 = b := by
        rw [biquad_identity_process b x h0 h1 h2 h3 h4 h5 h6]
      have hrun : b.run lm (.process x :: ops) = b.run lm ops := by
        simp only [Biquad.run, List.foldl_cons, Biquad.step, e]
      rw [hrun]
      have h' : b.NeverSet lm ops := by
        have : (b.step lm (.process x)) = b := e
        simpa [Biquad.NeverSet, this] using h
      exact ih b h' h0 h1 h2 h3 h4 h5 h6
    | reset => exact ih _ h h0 h1 h2 h3 h4 rfl rfl

/-- C21: on a biquad whose stored sample rate is not positive, `setCoefficients` changes
nothing, whatever the type, frequency, Q and gain: the five coefficients and the two state
variables stay.  A constructed biquad that has gone through any sequence of
`setSampleRate`, `setCoefficients`, `process` and `reset` calls in which no
`setCoefficients` took effect holds the identity coefficients `b0 = 1`,
`b1 = b2 = a1 = a2 = 0` and the zero state, and returns every input sequence unchanged. -/
theorem biquad_failure_policy (lm : Libm α) (b : Biquad α) (type : BiquadType)
    (frequency Q gainDB : α) (h : b.m_sampleRate ≤ 0) :
    b.setCoefficients lm type frequency Q gainDB = b ∧
    (∀ ops : List (BiquadOp α), (Biquad.init : Biquad α).NeverSet lm ops →
      ((Biquad.init : Biquad α).run lm ops).m_b0 = 1 ∧
      ((Biquad.init : Biquad α).run lm ops).m_b1 = 0 ∧
      ((Biquad.init : Biquad α).run lm ops).m_b2 = 0 ∧
      ((Biquad.init : Biquad α).run lm ops).m_a1 = 0 ∧
      ((Biquad.init : Biquad α).run lm ops).m_a2 = 0 ∧
      ∀ xs : List α, ((Biquad.init : Biquad α).run lm ops).processBlock xs =
        ((Biquad.init : Biquad α).run lm ops, xs)) := by
  refine ⟨by simp only [Biquad.setCoefficients, h, if_true], fun ops hops => ?_⟩
  obtain ⟨h0, h1, h2, h3, h4, h5, h6⟩ :=
    biquad_neverSet_identity lm ops Biquad.init hops rfl rfl rfl rfl rfl rfl rfl
  exact ⟨h0, h1, h2, h3, h4, fun xs => biquad_identity_processBlock _ xs h0 h1 h2 h3 h4 h5 h6⟩

/-- C21, instance: a biquad whose sample rate was set to 0 ignores `setCoefficients`, and
after `setSampleRate(0)`, a low-pass request and one processed sample the constructed
biquad still has `b0 = 1`. -/
theorem biquad_failure_policy_witness :
    ((Biquad.init : Biquad ℝ).setSampleRate 0).m_sampleRate ≤ 0 ∧
      ((Biquad.init : Biquad ℝ).setSampleRate 0).setCoefficients
          ⟨Real.sin, Real.cos, Real.exp, Real.rpow, Real.sqrt, Real.pi⟩ .LowPass 1000 0.707 0 =
        (Biquad.init : Biquad ℝ).setSampleRate 0 ∧
      ((Biquad.init : Biquad ℝ).run ⟨Real.sin, Real.cos, Real.exp, Real.rpow, Real.sqrt, Real.pi⟩
        [.setSampleRate 0, .setCoefficients .LowPass 1000 0.707 0, .process 1]).m_b0 = 1 :=
  ⟨le_refl (0 : ℝ),
    (biquad_failure_policy ⟨Real.sin, Real.cos, Real.exp, Real.rpow, Real.sqrt, Real.pi⟩
      ((Biquad.init : Biquad ℝ).setSampleRate 0) .LowPass 1000 0.707 0 (le_refl (0 : ℝ))).1,
    ((biquad_failure_policy ⟨Real.sin, Real.cos, Real.exp, Real.rpow, Real.sqrt, Real.pi⟩
      ((Biquad.init : Biquad ℝ).setSampleRate 0) .LowPass 1000 0.707 0 (le_refl (0 : ℝ))).2
      [.setSampleRate 0, .setCoefficients .LowPass 1000 0.707 0, .process 1]
      ⟨le_refl (0 : ℝ), trivial⟩).1⟩

/-! ### The cookbook coefficients -/

/-- Member function `Biquad::setCoefficients` on a biquad with a positive sample rate: the
five stored coefficients are the cookbook ones divided by `a0`. -/
theorem biquad_setCoefficients_pos (lm : Libm α) (b : Biquad α) (t : BiquadType)
    (f q g : α) (h : 0 < b.m_sampleRate) :
    b.setCoefficients lm t f q g = { b with
      m_b0 := (b.cookbook lm t f q g).1 / (b.cookbook lm t f q g).2.2.2.1
      m_b1 := (b.cookbook lm t f q g).2.1 / (b.cookbook lm t f q g).2.2.2.1
      m_b2 := (b.cookbook lm t f q g).2.2.1 / (b.cookbook lm t f q g).2.2.2.1
      m_a1 := (b.cookbook lm t f q g).2.2.2.2.1 / (b.cookbook lm t f q g).2.2.2.1
      m_a2 := (b.cookbook lm t f q g).2.2.2.2.2 / (b.cookbook lm t f q g).2.2.2.1 } := by
  simp only [Biquad.setCoefficients, Biquad.cookbook, not_le.mpr h, if_false]

/-- The angle `2 π f / sr` lies strictly between 0 and `π` for `0 < f < sr / 2`, so its
sine is positive and its cosine is strictly between -1 and 1. -/
theorem omega_range (sr f : ℝ) (hsr : 0 < sr) (hf0 : 0 < f) (hf1 : f < sr / 2) :
    0 < Real.sin (2 * Real.pi * f / sr) ∧ -1 < Real.cos (2 * Real.pi * f / sr) ∧
    Real.cos (2 * Real.pi * f / sr) < 1 := by
  have hpi := Real.pi_pos
  have h0 : 0 < 2 * Real.pi * f / sr := by positivity
  have h1 : 2 * Real.pi * f / sr < Real.pi := by
    rw [div_lt_iff₀ hsr]
    nlinarith
  refine ⟨Real.sin_pos_of_pos_of_lt_pi h0 h1, ?_, ?_⟩
  · have := Real.cos_lt_cos_of_nonneg_of_le_pi (le_of_lt h0) le_rfl h1
    rwa [Real.cos_pi] at this
  · have := Real.cos_lt_cos_of_nonneg_of_le_pi le_rfl (le_of_lt h1) h0
    rwa [Real.cos_zero] at this

/-- The coefficient `exp(-1 / (t * 0.001 * sr))` lies strictly between 0 and 1 for a
positive time and a positive sample rate. -/
theorem follower_coeff_range (t sr : ℝ) (ht : 0 < t) (hsr : 0 < sr) :
    0 < Real.exp (-1 / (t * 0.001 * sr)) ∧ Real.exp (-1 / (t * 0.001 * sr)) < 1 := by
  refine ⟨Real.exp_pos _, Real.exp_lt_one_iff.mpr ?_⟩
  apply div_neg_of_neg_of_pos (by norm_num)
  positivity

/-- Member function `EnvelopeFollower::updateCoefficients` with positive stored sample rate
and times: both coefficients are `exp(-1 / (t * 0.001 * sr))`. -/
theorem follower_updateCoefficients_pos (lm : Libm α) (e : EnvelopeFollower α)
    (h : 0 < e.m_sampleRate) :
    EnvelopeFollower.updateCoefficients lm e = { e with
      m_attackCoeff := lm.exp (-1 / (e.m_attackMs * 0.001 * e.m_sampleRate))
      m_releaseCoeff := lm.exp (-1 / (e.m_releaseMs * 0.001 * e.m_sampleRate)) } := by
  simp only [EnvelopeFollower.updateCoefficients, not_le.mpr h, if_false]

/-- One step of the follower's update keeps the envelope non-negative when the
coefficient is in `[0, 1]`. -/
theorem follower_process_nonneg (e : EnvelopeFollower α) (x : α)
    (ha : 0 ≤ e.m_attackCoeff ∧ e.m_attackCoeff ≤ 1)
    (hr : 0 ≤ e.m_releaseCoeff ∧ e.m_releaseCoeff ≤ 1) (he : 0 ≤ e.m_envelope) :
    0 ≤ (e.process x).2 := by
  simp only [EnvelopeFollower.process]
  split
  · exact add_nonneg (mul_nonneg ha.1 he) (mul_nonneg (by linarith [ha.2]) (abs_nonneg x))
  · exact add_nonneg (mul_nonneg hr.1 he) (mul_nonneg (by linarith [hr.2]) (abs_nonneg x))

/-- Every call with a positive argument keeps a sound follower sound. -/
theorem follower_step_sound (e : EnvelopeFollower ℝ) (op : FollowerOp ℝ) (h : e.Sound)
    (hok : op.Ok) :
    (e.step ⟨Real.sin, Real.cos, Real.exp, Real.rpow, Real.sqrt, Real.pi⟩ op).Sound := by
  obtain ⟨hsr, hta, htr, ha, hr, he⟩ := h
  cases op with
  | setSampleRate sr =>
    have hs : (0 : ℝ) < sr := hok
    simp only [EnvelopeFollower.step, EnvelopeFollower.setSampleRate]
    rw [follower_updateCoefficients_pos _ { e with m_sampleRate := sr } hs]
    have r1 := follower_coeff_range e.m_attackMs sr hta hs
    have r2 := follower_coeff_range e.m_releaseMs sr htr hs
    exact ⟨hs, hta, htr, ⟨le_of_lt r1.1, r1.2⟩, ⟨le_of_lt r2.1, r2.2⟩, he⟩
  | setAttackMs t =>
    have ht : (0 : ℝ) < t := hok
    simp only [EnvelopeFollower.step, EnvelopeFollower.setAttackMs]
    rw [follower_updateCoefficients_pos _ { e with m_attackMs := t } hsr]
    have r1 := follower_coeff_range t e.m_sampleRate ht hsr
    have r2 := follower_coeff_range e.m_releaseMs e.m_sampleRate htr hsr
    exact ⟨hsr, ht, htr, ⟨le_of_lt r1.1, r1.2⟩, ⟨le_of_lt r2.1, r2.2⟩, he⟩
  | setReleaseMs t =>
    have ht : (0 : ℝ) < t := hok
    simp only [EnvelopeFollower.step, EnvelopeFollower.setReleaseMs]
    rw [follower_updateCoefficients_pos _ { e with m_releaseMs := t } hsr]
    have r1 := follower_coeff_range e.m_attackMs e.m_sampleRate hta hsr
    have r2 := follower_coeff_range t e.m_sampleRate ht hsr
    exact ⟨hsr, hta, ht, ⟨le_of_lt r1.1, r1.2⟩, ⟨le_of_lt r2.1, r2.2⟩, he⟩
  | process x =>
    have hn := follower_process_nonneg e x ⟨ha.1, le_of_lt ha.2⟩ ⟨hr.1, le_of_lt hr.2⟩ he
    simp only [EnvelopeFollower.step]
    rw [follower_process_fields]
    exact ⟨hsr, hta, htr, ha, hr, hn⟩
  | reset => exact ⟨hsr, hta, htr, ha, hr, le_refl _⟩

/-- Every sequence of calls with positive arguments keeps a sound follower sound. -/
theorem follower_run_sound (ops : List (FollowerOp ℝ)) (e : EnvelopeFollower ℝ)
    (h : e.Sound) (hok : ∀ op, op ∈ ops → op.Ok) :
    (e.run ⟨Real.sin, Real.cos, Real.exp, Real.rpow, Real.sqrt, Real.pi⟩ ops).Sound := by
  induction ops generalizing e with
  | nil => exact h
  | cons op ops ih =>
    exact ih _ (follower_step_sound e op h (hok op (List.mem_cons_self _ _)))
      (fun op' hm => hok op' (List.mem_cons_of_mem _ hm))

/-- A constructed follower is sound. -/
theorem follower_init_sound : (EnvelopeFollower.init : EnvelopeFollower ℝ).Sound := by
  simp only [EnvelopeFollower.Sound, EnvelopeFollower.init]
  norm_num

/-- C24: for every sample rate `sr > 0` and positive attack and release times, the
coefficients that the follower stores are `exp(-1 / (t * 0.001 * sr))` and lie in `[0, 1)`.
A constructed follower that has gone through any sequence of `setSampleRate`, `setAttackMs`,
`setReleaseMs`, `process` and `reset` calls with positive rates and times has both
coefficients in `[0, 1)` and a non-negative envelope; and after `process(x)` on any follower
the envelope is `c * e + (1 - c) * |x|`, with `c` the attack coefficient when `|x| > e` and
the release coefficient otherwise, which is again non-negative on such a follower. -/
theorem follower_coefficients_envelope (ops : List (FollowerOp ℝ))
    (hok : ∀ op, op ∈ ops → op.Ok) (e : EnvelopeFollower ℝ) (sr ta tr x : ℝ)
    (hsr : 0 < sr) (hta : 0 < ta) (htr : 0 < tr) :
    ((((e.setSampleRate ⟨Real.sin, Real.cos, Real.exp, Real.rpow, Real.sqrt, Real.pi⟩
          sr).setAttackMs ⟨Real.sin, Real.cos, Real.exp, Real.rpow, Real.sqrt, Real.pi⟩
          ta).setReleaseMs ⟨Real.sin, Real.cos, Real.exp, Real.rpow, Real.sqrt, Real.pi⟩
          tr).m_attackCoeff = Real.exp (-1 / (ta * 0.001 * sr)) ∧
      (((e.setSampleRate ⟨Real.sin, Real.cos, Real.exp, Real.rpow, Real.sqrt, Real.pi⟩
          sr).setAttackMs ⟨Real.sin, Real.cos, Real.exp, Real.rpow, Real.sqrt, Real.pi⟩
          ta).setReleaseMs ⟨Real.sin, Real.cos, Real.exp, Real.rpow, Real.sqrt, Real.pi⟩
          tr).m_releaseCoeff = Real.exp (-1 / (tr * 0.001 * sr)) ∧
      (0 ≤ Real.exp (-1 / (ta * 0.001 * sr)) ∧ Real.exp (-1 / (ta * 0.001 * sr)) < 1) ∧
      (0 ≤ Real.exp (-1 / (tr * 0.001 * sr)) ∧ Real.exp (-1 / (tr * 0.001 * sr)) < 1)) ∧
    ((EnvelopeFollower.init : EnvelopeFollower ℝ).run
        ⟨Real.sin, Real.cos, Real.exp, Real.rpow, Real.sqrt, Real.pi⟩ ops).Sound ∧
    ((e.process x).2 =
        (if |x| > e.m_envelope then e.m_attackCoeff else e.m_releaseCoeff) * e.m_envelope +
          (1 - (if |x| > e.m_envelope then e.m_attackCoeff else e.m_releaseCoeff)) * |x| ∧
      (e.process x).1 = { e with m_envelope := (e.process x).2 }) ∧
    0 ≤ (((EnvelopeFollower.init : EnvelopeFollower ℝ).run
        ⟨Real.sin, Real.cos, Real.exp, Real.rpow, Real.sqrt, Real.pi⟩ ops).process x).2 := by
  have hs := follower_run_sound ops _ follower_init_sound hok
  have r1 := follower_coeff_range ta sr hta hsr
  have r2 := follower_coeff_range tr sr htr hsr
  refine ⟨⟨?_, ?_, ⟨le_of_lt r1.1, r1.2⟩, ⟨le_of_lt r2.1, r2.2⟩⟩, hs, ⟨?_, ?_⟩, ?_⟩
  · simp only [EnvelopeFollower.setSampleRate, EnvelopeFollower.setAttackMs,
      EnvelopeFollower.setReleaseMs, EnvelopeFollower.updateCoefficients, not_le.mpr hsr,
      if_false]
  · simp only [EnvelopeFollower.setSampleRate, EnvelopeFollower.setAttackMs,
      EnvelopeFollower.setReleaseMs, EnvelopeFollower.updateCoefficients, not_le.mpr hsr,
      if_false]
  · simp only [EnvelopeFollower.process]
    split <;> rfl
  · exact follower_process_fields e x
  · obtain ⟨-, -, -, ha, hr, he⟩ := hs
    exact follower_process_nonneg _ x ⟨ha.1, le_of_lt ha.2⟩ ⟨hr.1, le_of_lt hr.2⟩ he

/-- C24, instance: the ducker's follower at 48 kHz with 5 ms attack and 150 ms release,
after one processed sample and a reset. -/
theorem follower_coefficients_envelope_witness :
    (∀ op, op ∈ [FollowerOp.setSampleRate (48000 : ℝ), .setAttackMs 5, .setReleaseMs 150,
        .process 1, .reset] → op.Ok) ∧
      ((EnvelopeFollower.init : EnvelopeFollower ℝ).run
        ⟨Real.sin, Real.cos, Real.exp, Real.rpow, Real.sqrt, Real.pi⟩
        [.setSampleRate 48000, .setAttackMs 5, .setReleaseMs 150, .process 1, .reset]).Sound :=
  ⟨by
      intro op hop
      simp only [List.mem_cons, List.mem_singleton, List.not_mem_nil, or_false] at hop
      rcases hop with rfl | rfl | rfl | rfl | rfl <;> simp [FollowerOp.Ok],
    (follower_coefficients_envelope
      [.setSampleRate 48000, .setAttackMs 5, .setReleaseMs 150, .process 1, .reset]
      (by
        intro op hop
        simp only [List.mem_cons, List.mem_singleton, List.not_mem_nil, or_false] at hop
        rcases hop with rfl | rfl | rfl | rfl | rfl <;> simp [FollowerOp.Ok])
      EnvelopeFollower.init 48000 5 150 1 (by norm_num) (by norm_num) (by norm_num)).2.1⟩

/-! ### C25: the derived values of the reverb -/

/-- Member function `Reverb::updateParameters` brings the derived values up to date and
keeps the stored size and style. -/
theorem reverb_updateParameters_derived (lm : Libm α) (r : Reverb α) :
    (Reverb.updateParameters lm r).Derived ∧
    (Reverb.updateParameters lm r).m_size = r.m_size ∧
    (Reverb.updateParameters lm r).m_style = r.m_style := by
  rw [reverb_updateParameters_eq]
  refine ⟨⟨?_, ?_, ?_⟩, rfl, rfl⟩
  · show min 0.98 (0.7 + r.m_size * 0.25) = min 0.98 (0.7 + 0.25 * r.m_size)
    rw [mul_comm]
  · show 0.5 + r.m_style * 0.25 = 0.5 + 0.25 * r.m_style
    rw [mul_comm]
  · show 1.02 + r.m_style * 0.02 = 1.02 + 0.02 * r.m_style
    rw [mul_comm]

/-- Member function `Reverb::updateFilters` writes the six input filters only. -/
theorem reverb_updateFilters_keeps (lm : Libm α) (r : Reverb α) :
    (Reverb.updateFilters lm r).m_size = r.m_size ∧
    (Reverb.updateFilters lm r).m_style = r.m_style ∧
    (Reverb.updateFilters lm r).m_combFeedback = r.m_combFeedback ∧
    (Reverb.updateFilters lm r).m_allpassFeedback = r.m_allpassFeedback ∧
    (Reverb.updateFilters lm r).m_stereoSpread = r.m_stereoSpread :=
  ⟨rfl, rfl, rfl, rfl, rfl⟩

/-- A clamped value lies in its range. -/
theorem clamp_range (v : α) : 0 ≤ max 0 (min 1 v) ∧ max 0 (min 1 v) ≤ (1 : α) :=
  ⟨le_max_left _ _, max_le zero_le_one (min_le_left _ _)⟩

/-- Every configuration call keeps the stored size and style in `[0, 1]`; a call that
retunes brings the derived values up to date, and every other call keeps them as they
are. -/
theorem reverb_step_derived (lm : Libm α) (r : Reverb α) (op : ReverbOp α) (h : r.Ranged) :
    (r.step lm op).Ranged ∧ (op.Retunes → (r.step lm op).Derived) ∧
    (r.Derived → (r.step lm op).Derived) ∧
    (¬ op.Retunes → (r.step lm op).m_combFeedback = r.m_combFeedback ∧
      (r.step lm op).m_allpassFeedback = r.m_allpassFeedback ∧
      (r.step lm op).m_stereoSpread = r.m_stereoSpread) := by
  cases op with
  | setSampleRate sr =>
    have e : (r.step lm (.setSampleRate sr)) = Reverb.updateParameters lm _ :=
      reverb_setSampleRate_eq lm r sr
    obtain ⟨hd, hs, ht⟩ := reverb_updateParameters_derived lm
      ({ r with
        m_sampleRate := sr
        m_allpass := fun i => ((r.m_allpass i).setSampleRate sr).setMaxDelayMs 100
        m_combL := fun i => ((r.m_combL i).setSampleRate sr).setMaxDelayMs 200
        m_combR := fun i => ((r.m_combR i).setSampleRate sr).setMaxDelayMs 200
        m_combFilterL := fun i => (r.m_combFilterL i).setSampleRate sr
        m_combFilterR := fun i => (r.m_combFilterR i).setSampleRate sr
        m_preDelayL := (r.m_preDelayL.setSampleRate sr).setMaxDelayMs 100
        m_preDelayR := (r.m_preDelayR.setSampleRate sr).setMaxDelayMs 100
        m_inputLowCutL := r.m_inputLowCutL.setSampleRate sr
        m_inputLowCutR := r.m_inputLowCutR.setSampleRate sr
        m_inputHighCutL := r.m_inputHighCutL.setSampleRate sr
        m_inputHighCutR := r.m_inputHighCutR.setSampleRate sr
        m_inputScoopL := r.m_inputScoopL.setSampleRate sr
        m_inputScoopR := r.m_inputScoopR.setSampleRate sr } : Reverb α)
    rw [e]
    refine ⟨?_, fun _ => hd, fun _ => hd, fun hn => absurd trivial hn⟩
    unfold Reverb.Ranged
    rw [hs, ht]
    exact h
  | setSize v =>
    obtain ⟨hd, hs, ht⟩ := reverb_updateParameters_derived lm
      ({ r with m_size := max 0 (min 1 v) } : Reverb α)
    refine ⟨?_, fun _ => hd, fun _ => hd, fun hn => absurd trivial hn⟩
    show (Reverb.updateParameters lm { r with m_size := max 0 (min 1 v) }).Ranged
    unfold Reverb.Ranged
    rw [hs, ht]
    exact ⟨clamp_range v, h.2⟩
  | setStyle v =>
    obtain ⟨hd, hs, ht⟩ := reverb_updateParameters_derived lm
      ({ r with m_style := max 0 (min 1 v) } : Reverb α)
    refine ⟨?_, fun _ => hd, fun _ => hd, fun hn => absurd trivial hn⟩
    show (Reverb.updateParameters lm { r with m_style := max 0 (min 1 v) }).Ranged
    unfold Reverb.Ranged
    rw [hs, ht]
    exact ⟨h.1, clamp_range v⟩
  | setLowCut v => exact ⟨h, fun hr => absurd hr id, fun hd => hd, fun _ => ⟨rfl, rfl, rfl⟩⟩
  | setHighCut v => exact ⟨h, fun hr => absurd hr id, fun hd => hd, fun _ => ⟨rfl, rfl, rfl⟩⟩
  | setScoopAmount v =>
    exact ⟨h, fun hr => absurd hr id, fun hd => hd, fun _ => ⟨rfl, rfl, rfl⟩⟩

/-- The stored size and style stay in `[0, 1]` along every sequence of calls, and up-to-date
derived values stay up to date. -/
theorem reverb_run_derived (lm : Libm α) (ops : List (ReverbOp α)) (r : Reverb α)
    (h : r.Ranged) : (r.run lm ops).Ranged ∧ (r.Derived → (r.run lm ops).Derived) := by
  induction ops generalizing r with
  | nil => exact ⟨h, fun hd => hd⟩
  | cons op ops ih =>
    obtain ⟨h1, -, h3, -⟩ := reverb_step_derived lm r op h
    exact ⟨(ih _ h1).1, fun hd => (ih _ h1).2 (h3 hd)⟩

/-- A sequence of calls with a retuning call among them leaves the derived values up to
date. -/
theorem reverb_run_retuned (lm : Libm α) (ops : List (ReverbOp α)) (r : Reverb α)
    (h : r.Ranged) (hr : ∃ op, op ∈ ops ∧ op.Retunes) : (r.run lm ops).Derived := by
  induction ops generalizing r with
  | nil =>
    obtain ⟨op, hop, -⟩ := hr
    exact absurd hop (List.not_mem_nil _)
  | cons op ops ih =>
    obtain ⟨h1, h2, -, -⟩ := reverb_step_derived lm r op h
    by_cases ha : op.Retunes
    · exact (reverb_run_derived lm ops _ h1).2 (h2 ha)
    · refine ih _ h1 ?_
      obtain ⟨op', hop, hal⟩ := hr
      rcases List.mem_cons.mp hop with rfl | hmem
      · exact absurd hal ha
      · exact ⟨op', hmem, hal⟩

/-- A sequence of calls without a retuning call leaves the three derived values as they
were. -/
theorem reverb_run_stale (lm : Libm α) (ops : List (ReverbOp α)) (r : Reverb α)
    (h : r.Ranged) (hr : ∀ op, op ∈ ops → ¬ op.Retunes) :
    (r.run lm ops).m_combFeedback = r.m_combFeedback ∧
    (r.run lm ops).m_allpassFeedback = r.m_allpassFeedback ∧
    (r.run lm ops).m_stereoSpread = r.m_stereoSpread ∧
    (r.run lm ops).m_size = r.m_size ∧ (r.run lm ops).m_style = r.m_style := by
  induction ops generalizing r with
  | nil => exact ⟨rfl, rfl, rfl, rfl, rfl⟩
  | cons op ops ih =>
    obtain ⟨h1, -, -, h4⟩ := reverb_step_derived lm r op h
    have hn := hr op (List.mem_cons_self _ _)
    obtain ⟨a, b, c⟩ := h4 hn
    obtain ⟨a', b', c', d', e'⟩ := ih (r.step lm op) h1
      (fun op' hm => hr op' (List.mem_cons_of_mem _ hm))
    have hsz : (r.step lm op).m_size = r.m_size ∧ (r.step lm op).m_style = r.m_style := by
      cases op with
      | setSampleRate sr => exact absurd trivial hn
      | setSize v => exact absurd trivial hn
      | setStyle v => exact absurd trivial hn
      | setLowCut v => exact ⟨rfl, rfl⟩
      | setHighCut v => exact ⟨rfl, rfl⟩
      | setScoopAmount v => exact ⟨rfl, rfl⟩
    exact ⟨a'.trans a, b'.trans b, c'.trans c, d'.trans hsz.1, e'.trans hsz.2⟩

/-- C25, counterexample: a constructed reverb after `setLowCut(100)` has the size 0.5 and
the style 0 but still the initial comb feedback 0.8 and stereo spread 1.03, while
`min(0.98, 0.7 + 0.25 * 0.5) = 0.825` and `1.02 + 0.02 * 0 = 1.02`. -/
theorem reverb_derived_stale_after_setLowCut :
    ((Reverb.init : Reverb ℝ).run ⟨Real.sin, Real.cos, Real.exp, Real.rpow, Real.sqrt, Real.pi⟩
        [.setLowCut 100]).m_combFeedback ≠
      min 0.98 (0.7 + 0.25 * ((Reverb.init : Reverb ℝ).run
        ⟨Real.sin, Real.cos, Real.exp, Real.rpow, Real.sqrt, Real.pi⟩
        [.setLowCut 100]).m_size) ∧
    ((Reverb.init : Reverb ℝ).run ⟨Real.sin, Real.cos, Real.exp, Real.rpow, Real.sqrt, Real.pi⟩
        [.setLowCut 100]).m_stereoSpread ≠
      1.02 + 0.02 * ((Reverb.init : Reverb ℝ).run
        ⟨Real.sin, Real.cos, Real.exp, Real.rpow, Real.sqrt, Real.pi⟩
        [.setLowCut 100]).m_style := by
  have h1 : ((Reverb.init : Reverb ℝ).run
      ⟨Real.sin, Real.cos, Real.exp, Real.rpow, Real.sqrt, Real.pi⟩
      [.setLowCut 100]).m_combFeedback = 0.8 := rfl
  have h2 : ((Reverb.init : Reverb ℝ).run
      ⟨Real.sin, Real.cos, Real.exp, Real.rpow, Real.sqrt, Real.pi⟩
      [.setLowCut 100]).m_size = 0.5 := rfl
  have h3 : ((Reverb.init : Reverb ℝ).run
      ⟨Real.sin, Real.cos, Real.exp, Real.rpow, Real.sqrt, Real.pi⟩
      [.setLowCut 100]).m_stereoSpread = 1.03 := rfl
  have h4 : ((Reverb.init : Reverb ℝ).run
      ⟨Real.sin, Real.cos, Real.exp, Real.rpow, Real.sqrt, Real.pi⟩
      [.setLowCut 100]).m_style = 0 := rfl
  rw [h1, h2, h3, h4]
  constructor
  · rw [min_eq_right (by norm_num)]
    norm_num
  · norm_num

/-- C25, amended: in every reverb state reached from construction by a sequence of
`setSampleRate`, `setSize`, `setStyle`, `setLowCut`, `setHighCut` and `setScoopAmount` calls
with arbitrary arguments that contains a `setSampleRate`, a `setSize` or a `setStyle`, the
comb feedback is `min(0.98, 0.7 + 0.25 * size)` for the stored (clamped) size and at most
0.98, the allpass feedback is `0.5 + 0.25 * style` and lies in `[0.5, 0.75]`, and the stereo
spread is `1.02 + 0.02 * style`; the stored size and style lie in `[0, 1]`.  After a
sequence without such a call the three values are the initial 0.8, 0.5 and 1.03. -/
theorem reverb_derived_values (lm : Libm α) (ops : List (ReverbOp α))
    (h : ∃ op, op ∈ ops ∧ op.Retunes) :
    (((Reverb.init : Reverb α).run lm ops).m_combFeedback =
        min 0.98 (0.7 + 0.25 * ((Reverb.init : Reverb α).run lm ops).m_size) ∧
      ((Reverb.init : Reverb α).run lm ops).m_combFeedback ≤ 0.98) ∧
    (((Reverb.init : Reverb α).run lm ops).m_allpassFeedback =
        0.5 + 0.25 * ((Reverb.init : Reverb α).run lm ops).m_style ∧
      0.5 ≤ ((Reverb.init : Reverb α).run lm ops).m_allpassFeedback ∧
      ((Reverb.init : Reverb α).run lm ops).m_allpassFeedback ≤ 0.75) ∧
    ((Reverb.init : Reverb α).run lm ops).m_stereoSpread =
      1.02 + 0.02 * ((Reverb.init : Reverb α).run lm ops).m_style ∧
    ((Reverb.init : Reverb α).run lm ops).Ranged ∧
    (∀ ops' : List (ReverbOp α), (∀ op, op ∈ ops' → ¬ op.Retunes) →
      ((Reverb.init : Reverb α).run lm ops').m_combFeedback = 0.8 ∧
      ((Reverb.init : Reverb α).run lm ops').m_allpassFeedback = 0.5 ∧
      ((Reverb.init : Reverb α).run lm ops').m_stereoSpread = 1.03) := by
  have hi : (Reverb.init : Reverb α).Ranged := by
    simp only [Reverb.Ranged, Reverb.init]
    norm_num
  obtain ⟨d1, d2, d3⟩ := reverb_run_retuned lm ops _ hi h
  obtain ⟨⟨s0, s1⟩, ⟨t0, t1⟩⟩ := (reverb_run_derived lm ops _ hi).1
  refine ⟨⟨d1, ?_⟩, ⟨d2, ?_, ?_⟩, d3, ⟨⟨s0, s1⟩, ⟨t0, t1⟩⟩, fun ops' h' => ?_⟩
  · rw [d1]; exact min_le_left _ _
  · rw [d2]; linarith [mul_nonneg (by norm_num : (0 : α) ≤ 0.25) t0]
  · rw [d2]
    have : (0.25 : α) * ((Reverb.init : Reverb α).run lm ops).m_style ≤ 0.25 * 1 :=
      mul_le_mul_of_nonneg_left t1 (by norm_num)
    norm_num at this ⊢
    linarith
  · obtain ⟨a, b, c, -, -⟩ := reverb_run_stale lm ops' _ hi h'
    exact ⟨a, b, c⟩

/-- C25, instance: `setSampleRate(48000)`, `setSize(2)`, `setLowCut(50)`; the size is
clamped to 1 and the comb feedback is `min(0.98, 0.95)`. -/
theorem reverb_derived_values_witness :
    (∃ op, op ∈ [ReverbOp.setSampleRate (48000 : ℝ), .setSize 2, .setLowCut 50] ∧
        op.Retunes) ∧
      ((Reverb.init : Reverb ℝ).run ⟨Real.sin, Real.cos, Real.exp, Real.rpow, Real.sqrt, Real.pi⟩
          [.setSampleRate 48000, .setSize 2, .setLowCut 50]).m_combFeedback =
        min 0.98 (0.7 + 0.25 * ((Reverb.init : Reverb ℝ).run
          ⟨Real.sin, Real.cos, Real.exp, Real.rpow, Real.sqrt, Real.pi⟩
          [.setSampleRate 48000, .setSize 2, .setLowCut 50]).m_size) :=
  ⟨⟨.setSampleRate 48000, List.mem_cons_self _ _, trivial⟩,
    (reverb_derived_values ⟨Real.sin, Real.cos, Real.exp, Real.rpow, Real.sqrt, Real.pi⟩
      [.setSampleRate 48000, .setSize 2, .setLowCut 50]
      ⟨.setSampleRate 48000, List.mem_cons_self _ _, trivial⟩).1.1⟩

/-! ### C26: rendering never resizes a buffer -/

/-- Member function `DelayLine::write` keeps the capacity. -/
theorem delayLine_write_length (d : DelayLine α) (x : α) :
    (d.write x).m_buffer.length = d.m_buffer.length := by
  unfold DelayLine.write
  split
  · rfl
  · simp only [List.length_set]

/-- Member function `DelayLine::reset` keeps the capacity. -/
theorem delayLine_reset_length (d : DelayLine α) :
    d.reset.m_buffer.length = d.m_buffer.length := by
  simp only [DelayLine.reset, List.length_replicate]

/-- Replacing one element of an array by a value with the property of that place. -/
theorem forall_update_at {n : Nat} {β : Type} (P : Fin n → β → Prop) (f : Fin n → β)
    (i : Fin n) (x : β) (hf : ∀ j, P j (f j)) (hx : P i x) :
    ∀ j, P j (Function.update f i x j) := by
  intro j
  by_cases hj : j = i
  · subst hj
    simpa using hx
  · simpa [Function.update_noteq hj] using hf j

/-- Reverbs with the same capacities line by line have the same list of capacities. -/
theorem reverb_capacities_eq (r r' : Reverb α) (h : r.SameCapacities r') :
    r'.capacities = r.capacities := by
  obtain ⟨h1, h2, h3, h4, h5⟩ := h
  simp only [Reverb.capacities, h1, h2, h3, h4, h5]

/-- One pass of the allpass loop keeps every capacity. -/
theorem reverb_diffuse_capacity (r : Reverb α) (i : Fin kNumAllpass)
    (st : Reverb α × α × α) (h : r.SameCapacities st.1) :
    r.SameCapacities (Reverb.diffuse i st).1 := by
  obtain ⟨h1, h2, h3, h4, h5⟩ := h
  simp only [Reverb.diffuse, Reverb.processAllpass, Function.update_same,
    Function.update_idem]
  refine ⟨?_, h2, h3, h4, h5⟩
  refine forall_update_at
    (fun j (d : DelayLine α) => d.m_buffer.length = (r.m_allpass j).m_buffer.length)
    _ i _ h1 ?_
  simp only [delayLine_write_length]
  exact h1 i

/-- One pass of the comb loop keeps every capacity. -/
theorem reverb_comb_capacity (r : Reverb α) (diffL diffR : α) (i : Fin kNumComb)
    (st : Reverb α × α × α) (h : r.SameCapacities st.1) :
    r.SameCapacities (Reverb.comb diffL diffR i st).1 := by
  obtain ⟨h1, h2, h3, h4, h5⟩ := h
  simp only [Reverb.comb]
  refine ⟨h1, ?_, ?_, h4, h5⟩
  · refine forall_update_at
      (fun j (d : DelayLine α) => d.m_buffer.length = (r.m_combL j).m_buffer.length)
      _ i _ h2 ?_
    simp only [delayLine_write_length]
    exact h2 i
  · refine forall_update_at
      (fun j (d : DelayLine α) => d.m_buffer.length = (r.m_combR j).m_buffer.length)
      _ i _ h3 ?_
    simp only [delayLine_write_length]
    exact h3 i

/-- The two loops of `Reverb::process` keep every capacity. -/
theorem reverb_loops_capacity (r : Reverb α) (st : Reverb α × α × α)
    (h : r.SameCapacities st.1) :
    r.SameCapacities (forLoop kNumComb
      (Reverb.comb (forLoop kNumAllpass Reverb.diffuse st).2.1
        (forLoop kNumAllpass Reverb.diffuse st).2.2)
      ((forLoop kNumAllpass Reverb.diffuse st).1, 0, 0)).1 := by
  have hd := forLoop_induction kNumAllpass Reverb.diffuse
    (fun t : Reverb α × α × α => r.SameCapacities t.1) st h
    (fun i t ht => reverb_diffuse_capacity r i t ht)
  exact forLoop_induction kNumComb
    (Reverb.comb (forLoop kNumAllpass Reverb.diffuse st).2.1
      (forLoop kNumAllpass Reverb.diffuse st).2.2)
    (fun t : Reverb α × α × α => r.SameCapacities t.1)
    ((forLoop kNumAllpass Reverb.diffuse st).1, 0, 0) hd
    (fun i t ht => reverb_comb_capacity r _ _ i t ht)

/-- Member function `Reverb::process` keeps every capacity. -/
theorem reverb_process_capacity (r : Reverb α) (inputL inputR : α) :
    r.SameCapacities (r.process inputL inputR).1 := by
  simp only [Reverb.process]
  refine reverb_loops_capacity r _ ?_
  exact ⟨fun _ => rfl, fun _ => rfl, fun _ => rfl, delayLine_write_length _ _,
    delayLine_write_length _ _⟩

/-- One frame of `processStereo` keeps every capacity. -/
theorem processStereoFrame_capacities (tanh : α → α) (s : DeliVerbDSP α) (dryL dryR : α) :
    (DeliVerbDSP.processStereoFrame tanh s dryL dryR).1.capacities = s.capacities := by
  simp only [DeliVerbDSP.processStereoFrame, DeliVerbDSP.capacities, delayLine_write_length,
    reverb_capacities_eq _ _ (reverb_process_capacity s.m_reverb _ _)]

/-- The call `processStereo` keeps every capacity. -/
theorem processStereo_capacities (tanh : α → α) (s : DeliVerbDSP α) (inputL inputR : Nat → α)
    (n : Nat) : (s.processStereo tanh inputL inputR n).dsp.capacities = s.capacities := by
  induction n with
  | zero => rfl
  | succ k ih =>
    rw [processStereo_succ]
    exact (processStereoFrame_capacities tanh _ _ _).trans ih

/-- The call `reset` keeps every capacity. -/
theorem reset_capacities (s : DeliVerbDSP α) : s.reset.capacities = s.capacities := by
  simp only [DeliVerbDSP.capacities, DeliVerbDSP.reset, reverb_reset_eq, Reverb.capacities,
    delayLine_reset_length]

/-- The call `setParameter` keeps every capacity. -/
theorem setParameter_capacities (lm : Libm α) (s : DeliVerbDSP α) (p : ParamID) (v : α) :
    (s.setParameter lm p v).capacities = s.capacities := by
  unfold DeliVerbDSP.setParameter
  rw [updateParameters_eq]
  simp only [DeliVerbDSP.capacities, reverb_retune_eq, Reverb.capacities]
  cases p <;> rfl

/-- The capacities after `setSampleRate(sr)`: every line has the size that
`setMaxDelayMs` gives it at the rate `sr`. -/
theorem setSampleRate_capacities (lm : Libm α) (s : DeliVerbDSP α) (sr : α) :
    (s.setSampleRate lm sr).capacities =
      (⌊sr * 2100 / 1000⌋₊ + 4) :: (⌊sr * 2100 / 1000⌋₊ + 4) ::
        ((List.finRange kNumAllpass).map (fun _ => ⌊sr * 100 / 1000⌋₊ + 4) ++
          (List.finRange kNumComb).map (fun _ => ⌊sr * 200 / 1000⌋₊ + 4) ++
          (List.finRange kNumComb).map (fun _ => ⌊sr * 200 / 1000⌋₊ + 4) ++
          [⌊sr * 100 / 1000⌋₊ + 4, ⌊sr * 100 / 1000⌋₊ + 4]) := by
  obtain ⟨a1, a2, a3, a4, a5, a6, a7⟩ := setSampleRate_delayLines lm s sr
  have hl : ∀ (e : DelayLine α) (x : α),
      ((e.setSampleRate sr).setMaxDelayMs x).m_buffer.length = ⌊sr * x / 1000⌋₊ + 4 :=
    fun e x => (delayLine_setMaxDelayMs_shape _ _).1
  simp only [DeliVerbDSP.capacities, Reverb.capacities, a1, a2, a3, a4, a5, a6, a7, hl]

/-- C26: for every processor state, `processStereo`, `process`, `reset` and `setParameter`
leave the capacity of each of the 24 delay lines (2 main, 4 allpass, 16 comb, 2 pre-delay)
as it is.  The call `setSampleRate(sr)` sets each capacity to the size that
`DelayLine::setMaxDelayMs` gives at the rate `sr`, whatever it was before, and on a
constructed processor it does change them. -/
theorem rendering_keeps_capacities (lm : Libm α) (tanh : α → α) (s : DeliVerbDSP α)
    (inputL inputR : Nat → α) (n : Nat) (p : ParamID) (v sr : α) :
    (s.processStereo tanh inputL inputR n).dsp.capacities = s.capacities ∧
    (s.process tanh inputL n).dsp.capacities = s.capacities ∧
    s.reset.capacities = s.capacities ∧
    (s.setParameter lm p v).capacities = s.capacities ∧
    (s.setSampleRate lm sr).capacities =
      (⌊sr * 2100 / 1000⌋₊ + 4) :: (⌊sr * 2100 / 1000⌋₊ + 4) ::
        ((List.finRange kNumAllpass).map (fun _ => ⌊sr * 100 / 1000⌋₊ + 4) ++
          (List.finRange kNumComb).map (fun _ => ⌊sr * 200 / 1000⌋₊ + 4) ++
          (List.finRange kNumComb).map (fun _ => ⌊sr * 200 / 1000⌋₊ + 4) ++
          [⌊sr * 100 / 1000⌋₊ + 4, ⌊sr * 100 / 1000⌋₊ + 4]) ∧
    ((DeliVerbDSP.init : DeliVerbDSP α).setSampleRate lm sr).capacities ≠
      (DeliVerbDSP.init : DeliVerbDSP α).capacities := by
  refine ⟨processStereo_capacities tanh s inputL inputR n, ?_, reset_capacities s,
    setParameter_capacities lm s p v, setSampleRate_capacities lm s sr, ?_⟩
  · rw [process_eq_processStereo]
    exact processStereo_capacities tanh s inputL inputL n
  · rw [setSampleRate_capacities]
    intro h
    have h0 : (DeliVerbDSP.init : DeliVerbDSP α).capacities.head? = some 0 := rfl
    rw [← h] at h0
    simp at h0

/-! ### C28: the allpass lines are written twice per frame -/

/-- One pass of the allpass loop writes line `i` twice, first for the left and then for the
right channel, reads it before each write (at `d` and at `1.03 d` ms), and leaves the other
lines alone. -/
theorem reverb_diffuse_allpass (i : Fin kNumAllpass) (st : Reverb α × α × α) :
    (Reverb.diffuse i st).1.m_allpass = Function.update st.1.m_allpass i
      (((st.1.m_allpass i).write
          (st.2.1 + (st.1.m_allpass i).read (st.1.m_allpassDelays i) *
            st.1.m_allpassFeedback)).write
        (st.2.2 + ((st.1.m_allpass i).write
          (st.2.1 + (st.1.m_allpass i).read (st.1.m_allpassDelays i) *
            st.1.m_allpassFeedback)).read (st.1.m_allpassDelays i * 1.03) *
          st.1.m_allpassFeedback)) := by
  simp only [Reverb.diffuse, Reverb.processAllpass, Function.update_same,
    Function.update_idem]

/-- The allpass loop over a list of distinct stages: the lines of the list are written
twice, the others are left alone. -/
theorem reverb_diffuse_list (l : List (Fin kNumAllpass)) (hl : l.Nodup)
    (st : Reverb α × α × α) (j : Fin kNumAllpass) :
    (j ∈ l → ∃ x y, (l.foldl (fun acc i => Reverb.diffuse i acc) st).1.m_allpass j =
      ((st.1.m_allpass j).write x).write y) ∧
    (j ∉ l → (l.foldl (fun acc i => Reverb.diffuse i acc) st).1.m_allpass j =
      st.1.m_allpass j) := by
  induction l generalizing st with
  | nil => exact ⟨fun h => absurd h (List.not_mem_nil _), fun _ => rfl⟩
  | cons i l ih =>
    obtain ⟨hi, hl'⟩ := List.nodup_cons.mp hl
    obtain ⟨ih1, ih2⟩ := ih hl' (Reverb.diffuse i st)
    rw [List.foldl_cons]
    constructor
    · intro hj
      rcases List.mem_cons.mp hj with rfl | hmem
      · rw [ih2 hi, reverb_diffuse_allpass, Function.update_same]
        exact ⟨_, _, rfl⟩
      · have hne : j ≠ i := fun h => hi (h ▸ hmem)
        obtain ⟨x, y, hxy⟩ := ih1 hmem
        rw [reverb_diffuse_allpass, Function.update_noteq hne] at hxy
        exact ⟨x, y, hxy⟩
    · intro hj
      have hne : j ≠ i := fun h => hj (h ▸ List.mem_cons_self _ _)
      have hnl : j ∉ l := fun h => hj (List.mem_cons_of_mem _ h)
      rw [ih2 hnl, reverb_diffuse_allpass, Function.update_noteq hne]

/-- One pass of the comb loop does not touch the allpass lines. -/
theorem reverb_comb_allpass (diffL diffR : α) (i : Fin kNumComb) (st : Reverb α × α × α) :
    (Reverb.comb diffL diffR i st).1.m_allpass = st.1.m_allpass := by
  simp only [Reverb.comb]

/-- Member function `Reverb::process` writes every allpass line exactly twice. -/
theorem reverb_process_allpass (r : Reverb α) (inputL inputR : α) (j : Fin kNumAllpass) :
    ∃ x y, (r.process inputL inputR).1.m_allpass j = ((r.m_allpass j).write x).write y := by
  simp only [Reverb.process]
  have hc := fun (st : Reverb α × α × α) (dl dr : α) =>
    forLoop_induction kNumComb (Reverb.comb dl dr)
      (fun t : Reverb α × α × α => t.1.m_allpass = st.1.m_allpass) (st.1, 0, 0) rfl
      (fun i t ht => (reverb_comb_allpass dl dr i t).trans ht)
  rw [hc]
  exact (reverb_diffuse_list (List.finRange kNumAllpass) (List.nodup_finRange _) _ j).1
    (List.mem_finRange j)

/-- Two writes on a line with the write index inside the buffer advance the write index by
two slots, modulo the capacity, and keep the capacity. -/
theorem delayLine_write_twice (d : DelayLine α) (x y : α)
    (hw : d.m_writeIndex < d.m_buffer.length) :
    ((d.write x).write y).m_writeIndex = (d.m_writeIndex + 2) % d.m_buffer.length ∧
    ((d.write x).write y).m_buffer.length = d.m_buffer.length := by
  have h1 := delayLine_write_eq d x hw
  have hw1 : (d.write x).m_writeIndex < (d.write x).m_buffer.length := by
    rw [h1]
    simp only [List.length_set]
    exact Nat.mod_lt _ (by omega)
  rw [delayLine_write_eq _ y hw1, h1]
  simp only [List.length_set, Nat.mod_add_mod, and_true]

/-- The allpass lines of a reverb prepared at the rate `sr`. -/
theorem reverb_setSampleRate_allpass (lm : Libm α) (r : Reverb α) (sr : α)
    (i : Fin kNumAllpass) :
    (r.setSampleRate lm sr).m_allpass i =
      ((r.m_allpass i).setSampleRate sr).setMaxDelayMs 100 := by
  simp only [reverb_setSampleRate_eq, reverb_updateParameters_eq]

/-- C28, counterexample: a constructed reverb is prepared at 48 kHz, so that the first
allpass line has 4804 samples and write index 0; after one call of `process` its write
index is 2, not 1. -/
theorem allpass_write_index_after_one_frame :
    (((Reverb.init : Reverb ℝ).setSampleRate
        ⟨Real.sin, Real.cos, Real.exp, Real.rpow, Real.sqrt, Real.pi⟩ 48000).m_allpass
        0).m_writeIndex = 0 ∧
    (((Reverb.init : Reverb ℝ).setSampleRate
        ⟨Real.sin, Real.cos, Real.exp, Real.rpow, Real.sqrt, Real.pi⟩ 48000).m_allpass
        0).m_buffer.length = 4804 ∧
    (((((Reverb.init : Reverb ℝ).setSampleRate
        ⟨Real.sin, Real.cos, Real.exp, Real.rpow, Real.sqrt, Real.pi⟩ 48000).process
        1 1).1).m_allpass 0).m_writeIndex = 2 := by
  have hf : ⌊(48000 : ℝ) * 100 / 1000⌋₊ = 4800 := by
    have : (48000 : ℝ) * 100 / 1000 = ((4800 : ℕ) : ℝ) := by norm_num
    rw [this, Nat.floor_natCast]
  have hw : (((Reverb.init : Reverb ℝ).setSampleRate
      ⟨Real.sin, Real.cos, Real.exp, Real.rpow, Real.sqrt, Real.pi⟩ 48000).m_allpass
      0).m_writeIndex = 0 := by
    rw [reverb_setSampleRate_allpass]; rfl
  have hc : (((Reverb.init : Reverb ℝ).setSampleRate
      ⟨Real.sin, Real.cos, Real.exp, Real.rpow, Real.sqrt, Real.pi⟩ 48000).m_allpass
      0).m_buffer.length = 4804 := by
    rw [reverb_setSampleRate_allpass, (delayLine_setMaxDelayMs_shape _ _).1]
    simp only [DelayLine.setSampleRate, hf]
  refine ⟨hw, hc, ?_⟩
  obtain ⟨x, y, hxy⟩ := reverb_process_allpass ((Reverb.init : Reverb ℝ).setSampleRate
    ⟨Real.sin, Real.cos, Real.exp, Real.rpow, Real.sqrt, Real.pi⟩ 48000) 1 1 0
  rw [hxy, (delayLine_write_twice _ x y (by rw [hw, hc]; norm_num)).1, hw, hc]

/-- C28, amended: in one call of `Reverb::process` each of the four allpass stages reads
its single shared delay line twice (left at `d_i` ms, right at `1.03 d_i` ms) and writes it
twice, once after each read; so on a line with the write index inside the buffer the write
index advances by exactly two slots per processed frame, modulo the capacity, and the
capacity stays. -/
theorem allpass_two_writes (r : Reverb α) (inputL inputR : α) (i : Fin kNumAllpass)
    (hw : (r.m_allpass i).m_writeIndex < (r.m_allpass i).m_buffer.length) :
    (∀ st : Reverb α × α × α, (Reverb.diffuse i st).1.m_allpass i =
      ((st.1.m_allpass i).write
          (st.2.1 + (st.1.m_allpass i).read (st.1.m_allpassDelays i) *
            st.1.m_allpassFeedback)).write
        (st.2.2 + ((st.1.m_allpass i).write
          (st.2.1 + (st.1.m_allpass i).read (st.1.m_allpassDelays i) *
            st.1.m_allpassFeedback)).read (st.1.m_allpassDelays i * 1.03) *
          st.1.m_allpassFeedback)) ∧
    (∃ x y, (r.process inputL inputR).1.m_allpass i = ((r.m_allpass i).write x).write y) ∧
    ((r.process inputL inputR).1.m_allpass i).m_writeIndex =
      ((r.m_allpass i).m_writeIndex + 2) % (r.m_allpass i).m_buffer.length ∧
    ((r.process inputL inputR).1.m_allpass i).m_buffer.length =
      (r.m_allpass i).m_buffer.length := by
  obtain ⟨x, y, hxy⟩ := reverb_process_allpass r inputL inputR i
  refine ⟨fun st => ?_, ⟨x, y, hxy⟩, ?_, ?_⟩
  · rw [reverb_diffuse_allpass, Function.update_same]
  · rw [hxy]; exact (delayLine_write_twice _ x y hw).1
  · rw [hxy]; exact (delayLine_write_twice _ x y hw).2

/-- C28, instance: the first allpass line of a reverb prepared at 48 kHz. -/
theorem allpass_two_writes_witness :
    (((Reverb.init : Reverb ℝ).setSampleRate
        ⟨Real.sin, Real.cos, Real.exp, Real.rpow, Real.sqrt, Real.pi⟩ 48000).m_allpass
        0).m_writeIndex <
      (((Reverb.init : Reverb ℝ).setSampleRate
        ⟨Real.sin, Real.cos, Real.exp, Real.rpow, Real.sqrt, Real.pi⟩ 48000).m_allpass
        0).m_buffer.length ∧
    (((((Reverb.init : Reverb ℝ).setSampleRate
          ⟨Real.sin, Real.cos, Real.exp, Real.rpow, Real.sqrt, Real.pi⟩ 48000).process
          1 0).1).m_allpass 0).m_buffer.length =
      (((Reverb.init : Reverb ℝ).setSampleRate
        ⟨Real.sin, Real.cos, Real.exp, Real.rpow, Real.sqrt, Real.pi⟩ 48000).m_allpass
        0).m_buffer.length :=
  ⟨by
      rw [reverb_setSampleRate_allpass]
      exact (delayLine_setMaxDelayMs_allocated _ _).2,
    (allpass_two_writes ((Reverb.init : Reverb ℝ).setSampleRate
        ⟨Real.sin, Real.cos, Real.exp, Real.rpow, Real.sqrt, Real.pi⟩ 48000) 1 0 0
      (by
        rw [reverb_setSampleRate_allpass]
        exact (delayLine_setMaxDelayMs_allocated _ _).2)).2.2.2⟩

/-! ### C29: what the main delay lines store -/

/-- One frame of `processStereo` writes `dry + feedbackLP(eq) * delayRepeat` to each main
line, `eq` being the filtered tap of that line before ducking. -/
theorem processStereoFrame_writes (tanh : α → α) (s : DeliVerbDSP α) (dryL dryR : α) :
    (DeliVerbDSP.processStereoFrame tanh s dryL dryR).1.m_delayL =
      s.m_delayL.write (dryL + s.m_delayRepeat * (s.m_delayFeedbackFilterL.process s.eqTapL).2) ∧
    (DeliVerbDSP.processStereoFrame tanh s dryL dryR).1.m_delayR =
      s.m_delayR.write (dryR + s.m_delayRepeat * (s.m_delayFeedbackFilterR.process s.eqTapR).2) := by
  simp only [DeliVerbDSP.processStereoFrame, DeliVerbDSP.eqTapL, DeliVerbDSP.eqTapR,
    mul_comm s.m_delayRepeat, and_self]

/-- The delay section after one frame depends on the delay section before it and on the
dry frame only. -/
theorem processStereoFrame_delayCore (tanh1 tanh2 : α → α) (s1 s2 : DeliVerbDSP α)
    (dryL dryR : α) (h : s1.delayCore = s2.delayCore) :
    (DeliVerbDSP.processStereoFrame tanh1 s1 dryL dryR).1.delayCore =
      (DeliVerbDSP.processStereoFrame tanh2 s2 dryL dryR).1.delayCore := by
  simp only [DeliVerbDSP.delayCore, DelayCore.mk.injEq] at h
  obtain ⟨h1, h2, h3, h4, h5, h6, h7, h8, h9, h10, h11, h12⟩ := h
  simp only [DeliVerbDSP.processStereoFrame, DeliVerbDSP.delayCore, h1, h2, h3, h4, h5, h6,
    h7, h8, h9, h10, h11, h12]

/-- The delay section after `n` frames depends on the delay section before them and on
the dry input only. -/
theorem processStereo_delayCore (tanh1 tanh2 : α → α) (s1 s2 : DeliVerbDSP α)
    (inputL inputR : Nat → α) (h : s1.delayCore = s2.delayCore) (n : Nat) :
    (s1.processStereo tanh1 inputL inputR n).dsp.delayCore =
      (s2.processStereo tanh2 inputL inputR n).dsp.delayCore := by
  induction n with
  | zero => exact h
  | succ k ih =>
    rw [processStereo_succ, processStereo_succ]
    exact processStereoFrame_delayCore tanh1 tanh2 _ _ _ _ ih

/-- The call `setParameter` for a parameter outside the delay section changes the delay
section in a way that does not depend on the value. -/
theorem setParameter_delayCore (lm : Libm α) (s1 s2 : DeliVerbDSP α) (p : ParamID)
    (v1 v2 : α) (hp : p.OutsideDelay) (h : s1.delayCore = s2.delayCore) :
    (s1.setParameter lm p v1).delayCore = (s2.setParameter lm p v2).delayCore := by
  simp only [DeliVerbDSP.delayCore, DelayCore.mk.injEq] at h
  obtain ⟨h1, h2, h3, h4, h5, h6, h7, h8, h9, h10, h11, h12⟩ := h
  unfold DeliVerbDSP.setParameter
  rw [updateParameters_eq, updateParameters_eq]
  cases p <;> first
    | exact absurd hp id
    | simp only [DeliVerbDSP.storeParameter, DeliVerbDSP.delayCore, h1, h2, h3, h4, h5, h6,
        h7, h8, h9, h10, h11, h12]

/-- C29: in every frame the sample written to each main delay line is
`dry + delayRepeat * feedbackLP(eq)`, where `eq` is the EQ-filtered tap read from that line
in the same frame, before ducking.  Hence two processors with the same delay section (delay
time, repeat, cut-offs, main lines, delay EQ and feedback filters) that receive the same
input have the same delay section after every frame of `processStereo` and of `process`,
whatever their mixes, ducking parameters, reverb parameters and reverb, ducker and soft-clip
are; and setting one of those parameters to different values keeps the delay sections
equal. -/
theorem delay_lines_store_dry_plus_feedback (lm : Libm α) (tanh1 tanh2 : α → α)
    (s1 s2 : DeliVerbDSP α) (h : s1.delayCore = s2.delayCore) :
    (∀ dryL dryR : α,
      (DeliVerbDSP.processStereoFrame tanh1 s1 dryL dryR).1.m_delayL =
        s1.m_delayL.write
          (dryL + s1.m_delayRepeat * (s1.m_delayFeedbackFilterL.process s1.eqTapL).2) ∧
      (DeliVerbDSP.processStereoFrame tanh1 s1 dryL dryR).1.m_delayR =
        s1.m_delayR.write
          (dryR + s1.m_delayRepeat * (s1.m_delayFeedbackFilterR.process s1.eqTapR).2) ∧
      (DeliVerbDSP.processFrame tanh1 s1 dryL).1.m_delayL =
        s1.m_delayL.write
          (dryL + s1.m_delayRepeat * (s1.m_delayFeedbackFilterL.process s1.eqTapL).2) ∧
      (DeliVerbDSP.processFrame tanh1 s1 dryL).1.m_delayR =
        s1.m_delayR.write
          (dryL + s1.m_delayRepeat * (s1.m_delayFeedbackFilterR.process s1.eqTapR).2)) ∧
    (∀ (inputL inputR : Nat → α) (n : Nat),
      (s1.processStereo tanh1 inputL inputR n).dsp.delayCore =
        (s2.processStereo tanh2 inputL inputR n).dsp.delayCore ∧
      (s1.process tanh1 inputL n).dsp.delayCore = (s2.process tanh2 inputL n).dsp.delayCore) ∧
    (∀ (p : ParamID) (v1 v2 : α), p.OutsideDelay →
      (s1.setParameter lm p v1).delayCore = (s2.setParameter lm p v2).delayCore) := by
  refine ⟨fun dryL dryR => ?_, fun inputL inputR n => ?_, fun p v1 v2 hp => ?_⟩
  · obtain ⟨a, b⟩ := processStereoFrame_writes tanh1 s1 dryL dryR
    obtain ⟨c, d⟩ := processStereoFrame_writes tanh1 s1 dryL dryL
    rw [processFrame_eq_processStereoFrame]
    exact ⟨a, b, c, d⟩
  · rw [process_eq_processStereo, process_eq_processStereo]
    exact ⟨processStereo_delayCore tanh1 tanh2 s1 s2 inputL inputR h n,
      processStereo_delayCore tanh1 tanh2 s1 s2 inputL inputL h n⟩
  · exact setParameter_delayCore lm s1 s2 p v1 v2 hp h

/-- C29, instance: a processor prepared at 48 kHz and the same processor with
`delayMix = 1`, `reverbMix = 0` have the same delay section after any block. -/
theorem delay_lines_store_dry_plus_feedback_witness :
    (((DeliVerbDSP.init : DeliVerbDSP ℝ).setSampleRate
        ⟨Real.sin, Real.cos, Real.exp, Real.rpow, Real.sqrt, Real.pi⟩ 48000).setParameter
        ⟨Real.sin, Real.cos, Real.exp, Real.rpow, Real.sqrt, Real.pi⟩ .kDelayMix 1).delayCore =
      (((DeliVerbDSP.init : DeliVerbDSP ℝ).setSampleRate
        ⟨Real.sin, Real.cos, Real.exp, Real.rpow, Real.sqrt, Real.pi⟩ 48000).setParameter
        ⟨Real.sin, Real.cos, Real.exp, Real.rpow, Real.sqrt, Real.pi⟩ .kReverbMix 0).delayCore ∧
    ∀ (input : Nat → ℝ) (n : Nat),
      ((((DeliVerbDSP.init : DeliVerbDSP ℝ).setSampleRate
        ⟨Real.sin, Real.cos, Real.exp, Real.rpow, Real.sqrt, Real.pi⟩ 48000).setParameter
        ⟨Real.sin, Real.cos, Real.exp, Real.rpow, Real.sqrt, Real.pi⟩ .kDelayMix 1).processStereo
        Real.tanh input input n).dsp.delayCore =
      ((((DeliVerbDSP.init : DeliVerbDSP ℝ).setSampleRate
        ⟨Real.sin, Real.cos, Real.exp, Real.rpow, Real.sqrt, Real.pi⟩ 48000).setParameter
        ⟨Real.sin, Real.cos, Real.exp, Real.rpow, Real.sqrt, Real.pi⟩ .kReverbMix 0).processStereo
        Real.tanh input input n).dsp.delayCore :=
  ⟨by
      unfold DeliVerbDSP.setParameter
      rw [updateParameters_eq, updateParameters_eq]
      rfl,
    fun input n =>
      ((delay_lines_store_dry_plus_feedback
        ⟨Real.sin, Real.cos, Real.exp, Real.rpow, Real.sqrt, Real.pi⟩ Real.tanh Real.tanh _ _
        (by
          unfold DeliVerbDSP.setParameter
          rw [updateParameters_eq, updateParameters_eq]
          rfl)).2.1 input input n).1⟩

/-! ### C30: the mix stage -/

/-- C30: in every frame the value that goes through the soft-clip `tanh(0.9 x) / 0.9` is
`dry + delayMix * delayGain * eq + reverbMix * reverbGain * rev`, with `eq` the EQ-filtered
delay tap, `rev` the output of the reverb and the two gains those of the ducker, because
`withDelay * (1 - reverbMix) + (withDelay + reverbWet) * reverbMix =
withDelay + reverbWet * reverbMix`; the dry sample enters with the coefficient 1 for every
`delayMix` and `reverbMix`.  The mono call `process` is the same on the duplicated
sample. -/
theorem mix_keeps_dry (tanh : α → α) (s : DeliVerbDSP α) (dryL dryR : α) :
    (DeliVerbDSP.processStereoFrame tanh s dryL dryR).2.1 =
      tanh ((dryL + s.m_delayMix * (s.m_ducker.process dryL dryR).2.1 * s.eqTapL +
        s.m_reverbMix * (s.m_ducker.process dryL dryR).2.2 * (s.reverbOut dryL dryR).1) *
          0.9) / 0.9 ∧
    (DeliVerbDSP.processStereoFrame tanh s dryL dryR).2.2 =
      tanh ((dryR + s.m_delayMix * (s.m_ducker.process dryL dryR).2.1 * s.eqTapR +
        s.m_reverbMix * (s.m_ducker.process dryL dryR).2.2 * (s.reverbOut dryL dryR).2) *
          0.9) / 0.9 ∧
    (DeliVerbDSP.processFrame tanh s dryL).2 =
      (DeliVerbDSP.processStereoFrame tanh s dryL dryL).2 ∧
    (∀ withDelay reverbWet reverbMix : α,
      withDelay * (1 - reverbMix) + (withDelay + reverbWet) * reverbMix =
        withDelay + reverbWet * reverbMix) := by
  refine ⟨?_, ?_, by rw [processFrame_eq_processStereoFrame], fun a b c => by ring⟩
  · simp only [DeliVerbDSP.processStereoFrame, DeliVerbDSP.reverbOut, DeliVerbDSP.eqTapL,
      DeliVerbDSP.eqTapR]
    congr 2
    ring
  · simp only [DeliVerbDSP.processStereoFrame, DeliVerbDSP.reverbOut, DeliVerbDSP.eqTapL,
      DeliVerbDSP.eqTapR]
    congr 2
    ring

/-! ### The impulse response with a long feedback -/

/-- A biquad at rest that is fed a zero stays as it is and returns zero. -/
theorem biquad_process_zero (b : Biquad α) (h : b.Silent) : b.process 0 = (b, 0) := by
  obtain ⟨h1, h2⟩ := h
  cases b
  simp only at h1 h2
  subst h1 h2
  simp [Biquad.process]

/-- A biquad at rest returns `b0 * x` for its first sample. -/
theorem biquad_process_first (b : Biquad α) (x : α) (h : b.Silent) :
    (b.process x).2 = b.m_b0 * x := by
  simp only [Biquad.process, h.1, add_zero]

/-- The three filters of the left delay path after one frame of `processStereo`. -/
theorem processStereoFrame_filtersL (tanh : α → α) (s : DeliVerbDSP α) (dryL dryR : α) :
    (DeliVerbDSP.processStereoFrame tanh s dryL dryR).1.m_delayLowCutL =
      (s.m_delayLowCutL.process (s.m_delayL.read s.m_delayTime)).1 ∧
    (DeliVerbDSP.processStereoFrame tanh s dryL dryR).1.m_delayHighCutL =
      (s.m_delayHighCutL.process
        (s.m_delayLowCutL.process (s.m_delayL.read s.m_delayTime)).2).1 ∧
    (DeliVerbDSP.processStereoFrame tanh s dryL dryR).1.m_delayFeedbackFilterL =
      (s.m_delayFeedbackFilterL.process s.eqTapL).1 := by
  simp only [DeliVerbDSP.processStereoFrame, DeliVerbDSP.eqTapL, and_self]

/-- The left output block of `processStereo`, frame by frame. -/
theorem processStereo_outputL (tanh : α → α) (s : DeliVerbDSP α) (inputL inputR : Nat → α)
    (n : Nat) :
    (s.processStereo tanh inputL inputR n).outputL = (List.range n).map (fun k =>
      (DeliVerbDSP.processStereoFrame tanh (s.processStereo tanh inputL inputR k).dsp
        (inputL k) (inputR k)).2.1) := by
  induction n with
  | zero => rfl
  | succ k ih =>
    rw [processStereo_succ, List.range_succ, List.map_append, ← ih]
    rfl

/-- The value that one frame of `processStereo` writes to the left output. -/
theorem processStereoFrame_outL (tanh : α → α) (s : DeliVerbDSP α) (dryL dryR : α) :
    (DeliVerbDSP.processStereoFrame tanh s dryL dryR).2.1 =
      tanh ((dryL + s.m_delayMix * (s.m_ducker.process dryL dryR).2.1 * s.eqTapL +
        s.m_reverbMix * (s.m_ducker.process dryL dryR).2.2 * (s.reverbOut dryL dryR).1) *
          0.9) / 0.9 := by
  simp only [DeliVerbDSP.processStereoFrame, DeliVerbDSP.reverbOut, DeliVerbDSP.eqTapL,
    DeliVerbDSP.eqTapR]
  congr 2
  ring

/-- The value that one frame of `processStereo` writes to the right output. -/
theorem processStereoFrame_outR (tanh : α → α) (s : DeliVerbDSP α) (dryL dryR : α) :
    (DeliVerbDSP.processStereoFrame tanh s dryL dryR).2.2 =
      tanh ((dryR + s.m_delayMix * (s.m_ducker.process dryL dryR).2.1 * s.eqTapR +
        s.m_reverbMix * (s.m_ducker.process dryL dryR).2.2 * (s.reverbOut dryL dryR).2) *
          0.9) / 0.9 := by
  simp only [DeliVerbDSP.processStereoFrame, DeliVerbDSP.reverbOut, DeliVerbDSP.eqTapL,
    DeliVerbDSP.eqTapR]
  congr 2
  ring

/-- Before the first echo: a processor whose left main line was reset and whose left delay
filters are at rest, with a delay of a whole number `D` of samples.  For the first `D`
frames the line holds the dry input and the filters stay at rest, whatever the repeat. -/
theorem processStereo_before_echo (tanh : α → α) (s : DeliVerbDSP α)
    (inputL inputR : Nat → α) (D : Nat)
    (hD : (D : α) = s.m_delayTime * s.m_delayL.m_sampleRate / 1000) (h1 : 1 ≤ D)
    (h2 : D + 2 ≤ s.m_delayL.m_buffer.length) (h64 : s.m_delayL.m_buffer.length < 2 ^ 64)
    (n : Nat) (hn : n ≤ D) :
    (s.reset.processStereo tanh inputL inputR n).dsp.m_delayL =
      s.m_delayL.reset.writeFrames inputL n ∧
    (s.reset.processStereo tanh inputL inputR n).dsp.m_delayLowCutL =
      s.m_delayLowCutL.reset ∧
    (s.reset.processStereo tanh inputL inputR n).dsp.m_delayHighCutL =
      s.m_delayHighCutL.reset ∧
    (s.reset.processStereo tanh inputL inputR n).dsp.m_delayFeedbackFilterL =
      s.m_delayFeedbackFilterL.reset := by
  induction n with
  | zero => exact ⟨rfl, rfl, rfl, rfl⟩
  | succ k ih =>
    obtain ⟨a, b, c, d⟩ := ih (by omega)
    have ht : (s.reset.processStereo tanh inputL inputR k).dsp.m_delayTime = s.m_delayTime := by
      have := (processStereo_keeps tanh s.reset inputL inputR k).1 .kDelayTime
      simp only [DeliVerbDSP.getParameter] at this
      exact this
    have hread : (s.reset.processStereo tanh inputL inputR k).dsp.m_delayL.read
        (s.reset.processStereo tanh inputL inputR k).dsp.m_delayTime = 0 := by
      rw [a, ht, (delayLine_echo_reset s.m_delayL inputL D s.m_delayTime h1 h2 h64 k).2 hD,
        if_pos (by omega)]
    have hs1 : s.m_delayLowCutL.reset.Silent := ⟨rfl, rfl⟩
    have hs2 : s.m_delayHighCutL.reset.Silent := ⟨rfl, rfl⟩
    have hs3 : s.m_delayFeedbackFilterL.reset.Silent := ⟨rfl, rfl⟩
    have htap : (s.reset.processStereo tanh inputL inputR k).dsp.eqTapL = 0 := by
      unfold DeliVerbDSP.eqTapL
      rw [hread, b, c, biquad_process_zero _ hs1, biquad_process_zero _ hs2]
    obtain ⟨f1, f2, f3⟩ := processStereoFrame_filtersL tanh
      (s.reset.processStereo tanh inputL inputR k).dsp (inputL k) (inputR k)
    obtain ⟨w1, -⟩ := processStereoFrame_writes tanh
      (s.reset.processStereo tanh inputL inputR k).dsp (inputL k) (inputR k)
    rw [processStereo_succ]
    refine ⟨?_, ?_, ?_, ?_⟩
    · show (DeliVerbDSP.processStereoFrame tanh _ _ _).1.m_delayL = _
      rw [w1, htap, d, biquad_process_zero _ hs3, mul_zero, add_zero, a,
        delayLine_writeFrames_succ]
    · show (DeliVerbDSP.processStereoFrame tanh _ _ _).1.m_delayLowCutL = _
      rw [f1, hread, b, biquad_process_zero _ hs1]
    · show (DeliVerbDSP.processStereoFrame tanh _ _ _).1.m_delayHighCutL = _
      rw [f2, hread, b, c, biquad_process_zero _ hs1, biquad_process_zero _ hs2]
    · show (DeliVerbDSP.processStereoFrame tanh _ _ _).1.m_delayFeedbackFilterL = _
      rw [f3, htap, d, biquad_process_zero _ hs3]

/-- The filtered tap of the left delay path before and at the first echo: zero in the
frames before `D`, and `b0 * (b0 * x 0)` through the two filters at rest in frame `D`. -/
theorem eqTapL_first_echo (tanh : α → α) (s : DeliVerbDSP α)
    (inputL inputR : Nat → α) (D : Nat)
    (hD : (D : α) = s.m_delayTime * s.m_delayL.m_sampleRate / 1000) (h1 : 1 ≤ D)
    (h2 : D + 2 ≤ s.m_delayL.m_buffer.length) (h64 : s.m_delayL.m_buffer.length < 2 ^ 64)
    (n : Nat) (hn : n ≤ D) :
    (s.reset.processStereo tanh inputL inputR n).dsp.eqTapL =
      if n < D then 0 else s.m_delayHighCutL.m_b0 * (s.m_delayLowCutL.m_b0 * inputL 0) := by
  obtain ⟨a, b, c, -⟩ := processStereo_before_echo tanh s inputL inputR D hD h1 h2 h64 n hn
  have ht : (s.reset.processStereo tanh inputL inputR n).dsp.m_delayTime = s.m_delayTime := by
    have := (processStereo_keeps tanh s.reset inputL inputR n).1 .kDelayTime
    simp only [DeliVerbDSP.getParameter] at this
    exact this
  have hs1 : s.m_delayLowCutL.reset.Silent := ⟨rfl, rfl⟩
  have hs2 : s.m_delayHighCutL.reset.Silent := ⟨rfl, rfl⟩
  unfold DeliVerbDSP.eqTapL
  rw [a, ht, (delayLine_echo_reset s.m_delayL inputL D s.m_delayTime h1 h2 h64 n).2 hD, b, c]
  by_cases hlt : n < D
  · rw [if_pos hlt, if_pos hlt, biquad_process_zero _ hs1, biquad_process_zero _ hs2]
  · have hnD : n = D := by omega
    rw [if_neg hlt, if_neg hlt, hnD, Nat.sub_self, biquad_process_first _ _ hs2,
      biquad_process_first _ _ hs1]
    rfl

/-- A sample of a window is the sample of the block at the window's offset. -/
theorem window_mem (out : List α) (a w : Nat) (y : α) (hy : y ∈ (out.drop a).take w) :
    ∃ i, a ≤ i ∧ i < a + w ∧ ∃ h : i < out.length, out[i] = y := by
  obtain ⟨j, hj, rfl⟩ := List.mem_iff_getElem.mp hy
  have hj' : j < w ∧ j < out.length - a := by
    simpa [List.length_take, List.length_drop] using hj
  refine ⟨a + j, by omega, by omega, by omega, ?_⟩
  simp [List.getElem_take, List.getElem_drop]

/-- A window of zero samples has zero energy. -/
theorem windowEnergy_zero (out : List α) (k w : Nat)
    (h : ∀ i, k * w ≤ i → i < k * w + w → ∀ hi : i < out.length, out[i] = 0) :
    windowEnergy out k w = 0 := by
  unfold windowEnergy
  apply List.sum_eq_zero
  intro x hx
  obtain ⟨y, hy, rfl⟩ := List.mem_map.mp hx
  obtain ⟨i, h1, h2, hi, rfl⟩ := window_mem out (k * w) w y hy
  rw [h i h1 h2 hi]
  ring

/-- A window whose first sample is not zero has positive energy. -/
theorem windowEnergy_pos (out : List α) (k w : Nat) (hw : 0 < w)
    (hk : k * w < out.length) (h : out[k * w] ≠ 0) : 0 < windowEnergy out k w := by
  unfold windowEnergy
  have hmem : out[k * w] ^ 2 ∈ ((out.drop (k * w)).take w).map (fun y => y ^ 2) := by
    apply List.mem_map.mpr
    refine ⟨out[k * w], ?_, rfl⟩
    apply List.mem_iff_getElem.mpr
    refine ⟨0, by simp [List.length_take, List.length_drop]; omega, ?_⟩
    simp [List.getElem_take, List.getElem_drop]
  have hnn : ∀ x ∈ ((out.drop (k * w)).take w).map (fun y => y ^ 2), 0 ≤ x := by
    intro x hx
    obtain ⟨y, -, rfl⟩ := List.mem_map.mp hx
    positivity
  exact lt_of_lt_of_le (by positivity) (List.single_le_sum hnn _ hmem)

/-- The call `setParameter` recomputes the two left delay filters from the stored cut-offs
and keeps their sample rates. -/
theorem setParameter_delayFilters (lm : Libm α) (s : DeliVerbDSP α) (p : ParamID) (v : α) :
    (s.setParameter lm p v).m_delayLowCutL =
      s.m_delayLowCutL.setCoefficients lm .HighPass (s.setParameter lm p v).m_delayLowCut
        0.707 0 ∧
    (s.setParameter lm p v).m_delayHighCutL =
      s.m_delayHighCutL.setCoefficients lm .LowPass (s.setParameter lm p v).m_delayHighCut
        0.707 0 ∧
    (s.setParameter lm p v).m_delayLowCutL.m_sampleRate = s.m_delayLowCutL.m_sampleRate ∧
    (s.setParameter lm p v).m_delayHighCutL.m_sampleRate = s.m_delayHighCutL.m_sampleRate := by
  have e : ∀ (b : Biquad α) (t : BiquadType) (f q g : α),
      (b.setCoefficients lm t f q g).m_sampleRate = b.m_sampleRate :=
    fun b t f q g => (biquad_setCoefficients_fields lm b t f q g).1
  unfold DeliVerbDSP.setParameter
  rw [updateParameters_eq]
  simp only [e]
  cases p <;> exact ⟨rfl, rfl, rfl, rfl⟩

/-- The call `setSampleRate` gives the two left delay filters the new sample rate. -/
theorem setSampleRate_delayFilters (lm : Libm α) (s : DeliVerbDSP α) (sr : α) :
    (s.setSampleRate lm sr).m_delayLowCutL.m_sampleRate = sr ∧
    (s.setSampleRate lm sr).m_delayHighCutL.m_sampleRate = sr := by
  have e : ∀ (b : Biquad α) (t : BiquadType) (f q g : α),
      (b.setCoefficients lm t f q g).m_sampleRate = b.m_sampleRate :=
    fun b t f q g => (biquad_setCoefficients_fields lm b t f q g).1
  rw [setSampleRate_eq_prepare, updateParameters_eq]
  simp only [e]
  exact ⟨rfl, rfl⟩

/-- The call `setParameter` sets the ducker's delay amount to the clamped stored value. -/
theorem setParameter_duckAmount (lm : Libm α) (s : DeliVerbDSP α) (p : ParamID) (v : α) :
    (s.setParameter lm p v).m_ducker.m_delayAmount =
      max 0 (min 1 (s.setParameter lm p v).m_duckDelayAmount) := by
  unfold DeliVerbDSP.setParameter
  rw [updateParameters_eq]
  cases p <;> rfl

/-- One frame of `processStereo` keeps the ducker's delay amount. -/
theorem processStereo_duckAmount (tanh : α → α) (s : DeliVerbDSP α)
    (inputL inputR : Nat → α) (n : Nat) :
    (s.processStereo tanh inputL inputR n).dsp.m_ducker.m_delayAmount =
      s.m_ducker.m_delayAmount := by
  induction n with
  | zero => rfl
  | succ k ih =>
    rw [processStereo_succ]
    show (DeliVerbDSP.processStereoFrame tanh _ _ _).1.m_ducker.m_delayAmount = _
    rw [processStereoFrame_ducker, ducker_process_eq]
    exact ih

/-- A ducker with a delay amount of zero returns the delay gain 1. -/
theorem ducker_delayGain_one (d : Ducker α) (inputL inputR : α) (h : d.m_delayAmount = 0) :
    (d.process inputL inputR).2.1 = 1 := by
  simp [Ducker.process, h]

/-- The first coefficient of a low-pass and of a high-pass is positive, for a positive
sample rate, a frequency below Nyquist and a positive `Q`. -/
theorem biquad_b0_pos (b : Biquad ℝ) (f Q : ℝ) (hsr : 0 < b.m_sampleRate) (hf0 : 0 < f)
    (hf1 : f < b.m_sampleRate / 2) (hQ : 0 < Q) :
    0 < (b.setCoefficients ⟨Real.sin, Real.cos, Real.exp, Real.rpow, Real.sqrt, Real.pi⟩
      .HighPass f Q 0).m_b0 ∧
    0 < (b.setCoefficients ⟨Real.sin, Real.cos, Real.exp, Real.rpow, Real.sqrt, Real.pi⟩
      .LowPass f Q 0).m_b0 := by
  obtain ⟨hs, hc1, hc2⟩ := omega_range b.m_sampleRate f hsr hf0 hf1
  have hal : 0 < Real.sin (2 * Real.pi * f / b.m_sampleRate) / (2 * Q) := by positivity
  rw [biquad_setCoefficients_pos _ b _ f Q 0 hsr, biquad_setCoefficients_pos _ b _ f Q 0 hsr]
  simp only [Biquad.cookbook, Biquad.rawCoefficients]
  constructor
  · apply div_pos <;> linarith
  · apply div_pos <;> linarith

/-- The hyperbolic tangent vanishes only at zero. -/
theorem tanh_ne_zero (x : ℝ) (h : x ≠ 0) : Real.tanh x ≠ 0 := by
  rw [Real.tanh_eq_sinh_div_cosh]
  exact div_ne_zero (fun h0 => h (Real.sinh_eq_zero.mp h0)) (ne_of_gt (Real.cosh_pos x))

/-- The processor of the feedback scenario with the reverb mixed out: a fresh processor
prepared at 48 kHz, then `delayRepeat = 0.95`, `reverbSize = 1`, `reverbStyle = 1` and
`reverbMix = 0`.  It keeps the defaults `delayTime = 300` and `delayMix = 0.3`, its left
delay line has 100804 samples at 48 kHz, the ducker has a delay amount of zero, and the
first coefficients of the two left delay filters are positive. -/
theorem feedback_processor (P : DeliVerbDSP ℝ)
    (hP : P = (((((DeliVerbDSP.init : DeliVerbDSP ℝ).setSampleRate
      ⟨Real.sin, Real.cos, Real.exp, Real.rpow, Real.sqrt, Real.pi⟩ 48000).setParameter
      ⟨Real.sin, Real.cos, Real.exp, Real.rpow, Real.sqrt, Real.pi⟩
        .kDelayRepeat 0.95).setParameter
      ⟨Real.sin, Real.cos, Real.exp, Real.rpow, Real.sqrt, Real.pi⟩
        .kReverbSize 1).setParameter
      ⟨Real.sin, Real.cos, Real.exp, Real.rpow, Real.sqrt, Real.pi⟩
        .kReverbStyle 1).setParameter
      ⟨Real.sin, Real.cos, Real.exp, Real.rpow, Real.sqrt, Real.pi⟩ .kReverbMix 0) :
    P.m_delayTime = 300 ∧ P.m_delayMix = 0.3 ∧ P.m_reverbMix = 0 ∧
    P.m_delayL.m_sampleRate = 48000 ∧ P.m_delayL.m_buffer.length = 100804 ∧
    P.m_ducker.m_delayAmount = 0 ∧ 0 < P.m_delayLowCutL.m_b0 ∧
    0 < P.m_delayHighCutL.m_b0 := by
  have hpar : ∀ q, P.getParameter q =
      if q = .kReverbMix then 0 else if q = .kReverbStyle then 1
      else if q = .kReverbSize then 1 else if q = .kDelayRepeat then 0.95
      else (DeliVerbDSP.init : DeliVerbDSP ℝ).getParameter q := by
    intro q
    rw [hP]
    simp only [getParameter_setParameter, getParameter_setSampleRate]
    cases q <;> simp
  have hL : P.m_delayL = ((DelayLine.init : DelayLine ℝ).setSampleRate 48000).setMaxDelayMs
      2100 := by
    rw [hP, setParameter_delayL, setParameter_delayL, setParameter_delayL,
      setParameter_delayL, (setSampleRate_delayLines _ _ _).1]
    rfl
  have hf : ⌊(48000 : ℝ) * 2100 / 1000⌋₊ = 100800 := by
    have : (48000 : ℝ) * 2100 / 1000 = ((100800 : ℕ) : ℝ) := by norm_num
    rw [this, Nat.floor_natCast]
  have h1 : P.m_delayTime = 300 := by
    have := hpar .kDelayTime
    simpa [DeliVerbDSP.getParameter] using this
  have h2 : P.m_delayMix = 0.3 := by
    have := hpar .kDelayMix
    simpa [DeliVerbDSP.getParameter] using this
  have h3 : P.m_reverbMix = 0 := by
    have := hpar .kReverbMix
    simpa [DeliVerbDSP.getParameter] using this
  have h4 : P.m_duckDelayAmount = 0 := by
    have := hpar .kDuckDelayAmount
    simpa [DeliVerbDSP.getParameter] using this
  have h5 : P.m_delayLowCut = 80 := by
    have := hpar .kDelayLowCut
    simpa [DeliVerbDSP.getParameter] using this
  have h6 : P.m_delayHighCut = 8000 := by
    have := hpar .kDelayHighCut
    simpa [DeliVerbDSP.getParameter] using this
  have hduck : P.m_ducker.m_delayAmount = 0 := by
    have := h4
    rw [hP] at this ⊢
    rw [setParameter_duckAmount, this]
    norm_num
  obtain ⟨r1, r2⟩ := setSampleRate_delayFilters
    ⟨Real.sin, Real.cos, Real.exp, Real.rpow, Real.sqrt, Real.pi⟩
    (DeliVerbDSP.init : DeliVerbDSP ℝ) 48000
  have hlow : 0 < P.m_delayLowCutL.m_b0 := by
    have e := h5
    rw [hP] at e ⊢
    obtain ⟨a, -, -, -⟩ := setParameter_delayFilters
      ⟨Real.sin, Real.cos, Real.exp, Real.rpow, Real.sqrt, Real.pi⟩
      (((((DeliVerbDSP.init : DeliVerbDSP ℝ).setSampleRate
        ⟨Real.sin, Real.cos, Real.exp, Real.rpow, Real.sqrt, Real.pi⟩ 48000).setParameter
        ⟨Real.sin, Real.cos, Real.exp, Real.rpow, Real.sqrt, Real.pi⟩
          .kDelayRepeat 0.95).setParameter
        ⟨Real.sin, Real.cos, Real.exp, Real.rpow, Real.sqrt, Real.pi⟩
          .kReverbSize 1).setParameter
        ⟨Real.sin, Real.cos, Real.exp, Real.rpow, Real.sqrt, Real.pi⟩
          .kReverbStyle 1) .kReverbMix 0
    rw [a, e]
    refine (biquad_b0_pos _ 80 0.707 ?_ (by norm_num) ?_ (by norm_num)).1
    · rw [(setParameter_delayFilters _ _ _ _).2.2.1, (setParameter_delayFilters _ _ _ _).2.2.1,
        (setParameter_delayFilters _ _ _ _).2.2.1, r1]
      norm_num
    · rw [(setParameter_delayFilters _ _ _ _).2.2.1, (setParameter_delayFilters _ _ _ _).2.2.1,
        (setParameter_delayFilters _ _ _ _).2.2.1, r1]
      norm_num
  have hhigh : 0 < P.m_delayHighCutL.m_b0 := by
    have e := h6
    rw [hP] at e ⊢
    obtain ⟨-, a, -, -⟩ := setParameter_delayFilters
      ⟨Real.sin, Real.cos, Real.exp, Real.rpow, Real.sqrt, Real.pi⟩
      (((((DeliVerbDSP.init : DeliVerbDSP ℝ).setSampleRate
        ⟨Real.sin, Real.cos, Real.exp, Real.rpow, Real.sqrt, Real.pi⟩ 48000).setParameter
        ⟨Real.sin, Real.cos, Real.exp, Real.rpow, Real.sqrt, Real.pi⟩
          .kDelayRepeat 0.95).setParameter
        ⟨Real.sin, Real.cos, Real.exp, Real.rpow, Real.sqrt, Real.pi⟩
          .kReverbSize 1).setParameter
        ⟨Real.sin, Real.cos, Real.exp, Real.rpow, Real.sqrt, Real.pi⟩
          .kReverbStyle 1) .kReverbMix 0
    rw [a, e]
    refine (biquad_b0_pos _ 8000 0.707 ?_ (by norm_num) ?_ (by norm_num)).2
    · rw [(setParameter_delayFilters _ _ _ _).2.2.2, (setParameter_delayFilters _ _ _ _).2.2.2,
        (setParameter_delayFilters _ _ _ _).2.2.2, r2]
      norm_num
    · rw [(setParameter_delayFilters _ _ _ _).2.2.2, (setParameter_delayFilters _ _ _ _).2.2.2,
        (setParameter_delayFilters _ _ _ _).2.2.2, r2]
      norm_num
  refine ⟨h1, h2, h3, ?_, ?_, hduck, hlow, hhigh⟩
  · rw [hL]; rfl
  · rw [hL, (delayLine_setMaxDelayMs_shape _ _).1]
    simp only [DelayLine.setSampleRate, hf]

/-- The left output up to the first echo, with the reverb mixed out and a ducker amount
of zero: the soft-clipped dry sample before frame `D`, and the soft-clipped sum of the dry
sample and `delayMix * b0 * b0 * x 0` in frame `D`. -/
theorem outputL_first_echo (s : DeliVerbDSP ℝ) (inputL inputR : Nat → ℝ) (D : Nat)
    (hD : (D : ℝ) = s.m_delayTime * s.m_delayL.m_sampleRate / 1000) (h1 : 1 ≤ D)
    (h2 : D + 2 ≤ s.m_delayL.m_buffer.length) (h64 : s.m_delayL.m_buffer.length < 2 ^ 64)
    (hrm : s.m_reverbMix = 0) (hduck : s.m_ducker.m_delayAmount = 0)
    (n i : Nat) (hiD : i ≤ D)
    (hlen : i < (s.reset.processStereo Real.tanh inputL inputR n).outputL.length) :
    (s.reset.processStereo Real.tanh inputL inputR n).outputL[i] =
      Real.tanh ((inputL i + s.m_delayMix *
        (if i < D then 0 else s.m_delayHighCutL.m_b0 * (s.m_delayLowCutL.m_b0 * inputL 0))) *
          0.9) / 0.9 := by
  have hk := (processStereo_keeps Real.tanh s.reset inputL inputR i).1
  have hmix : (s.reset.processStereo Real.tanh inputL inputR i).dsp.m_delayMix =
      s.m_delayMix := by
    have := hk .kDelayMix
    simp only [DeliVerbDSP.getParameter] at this
    exact this
  have hrev : (s.reset.processStereo Real.tanh inputL inputR i).dsp.m_reverbMix = 0 := by
    have := hk .kReverbMix
    simp only [DeliVerbDSP.getParameter] at this
    rw [this]
    exact hrm
  have hg : ((s.reset.processStereo Real.tanh inputL inputR i).dsp.m_ducker.process
      (inputL i) (inputR i)).2.1 = 1 := by
    apply ducker_delayGain_one
    rw [processStereo_duckAmount]
    exact hduck
  have e : (s.reset.processStereo Real.tanh inputL inputR n).outputL[i] =
      (DeliVerbDSP.processStereoFrame Real.tanh
        (s.reset.processStereo Real.tanh inputL inputR i).dsp (inputL i) (inputR i)).2.1 := by
    simp only [processStereo_outputL, List.getElem_map, List.getElem_range]
  rw [e, processStereoFrame_outL, hmix, hrev, hg,
    eqTapL_first_echo Real.tanh s inputL inputR D hD h1 h2 h64 i hiD]
  congr 2
  ring

/-- The number of samples that `processStereo` writes to the left output. -/
theorem processStereo_outputL_length (tanh : α → α) (s : DeliVerbDSP α)
    (inputL inputR : Nat → α) (n : Nat) :
    (s.processStereo tanh inputL inputR n).outputL.length = n := by
  rw [processStereo_outputL, List.length_map, List.length_range]

/-- The echo train with the reverb mixed out, in exact arithmetic.  A fresh processor is
prepared at 48 kHz with `delayRepeat = 0.95`,
`reverbSize = 1`, `reverbStyle = 1` and the reverb mixed out (`reverbMix = 0`), reset, and
fed a unit impulse in frame 0 followed by silence for 60 s (2880000 frames).  On the left
output the third 100 ms window (frames 9600 to 14399) has RMS zero and the fourth, which
holds the first echo in frame 14400, has a positive RMS: the windowed RMS increases. -/
theorem feedback_rms_not_monotone :
    windowRms ⟨Real.sin, Real.cos, Real.exp, Real.rpow, Real.sqrt, Real.pi⟩
      (((((((DeliVerbDSP.init : DeliVerbDSP ℝ).setSampleRate
        ⟨Real.sin, Real.cos, Real.exp, Real.rpow, Real.sqrt, Real.pi⟩ 48000).setParameter
        ⟨Real.sin, Real.cos, Real.exp, Real.rpow, Real.sqrt, Real.pi⟩
          .kDelayRepeat 0.95).setParameter
        ⟨Real.sin, Real.cos, Real.exp, Real.rpow, Real.sqrt, Real.pi⟩
          .kReverbSize 1).setParameter
        ⟨Real.sin, Real.cos, Real.exp, Real.rpow, Real.sqrt, Real.pi⟩
          .kReverbStyle 1).setParameter
        ⟨Real.sin, Real.cos, Real.exp, Real.rpow, Real.sqrt, Real.pi⟩
          .kReverbMix 0).reset.processStereo Real.tanh
        (fun k => if k = 0 then 1 else 0) (fun k => if k = 0 then 1 else 0) 2880000).outputL
      2 4800 <
    windowRms ⟨Real.sin, Real.cos, Real.exp, Real.rpow, Real.sqrt, Real.pi⟩
      (((((((DeliVerbDSP.init : DeliVerbDSP ℝ).setSampleRate
        ⟨Real.sin, Real.cos, Real.exp, Real.rpow, Real.sqrt, Real.pi⟩ 48000).setParameter
        ⟨Real.sin, Real.cos, Real.exp, Real.rpow, Real.sqrt, Real.pi⟩
          .kDelayRepeat 0.95).setParameter
        ⟨Real.sin, Real.cos, Real.exp, Real.rpow, Real.sqrt, Real.pi⟩
          .kReverbSize 1).setParameter
        ⟨Real.sin, Real.cos, Real.exp, Real.rpow, Real.sqrt, Real.pi⟩
          .kReverbStyle 1).setParameter
        ⟨Real.sin, Real.cos, Real.exp, Real.rpow, Real.sqrt, Real.pi⟩
          .kReverbMix 0).reset.processStereo Real.tanh
        (fun k => if k = 0 then 1 else 0) (fun k => if k = 0 then 1 else 0) 2880000).outputL
      3 4800 := by
  obtain ⟨ht, hmix, hrm, hsr, hlen, hduck, hlow, hhigh⟩ := feedback_processor _ rfl
  generalize (((((DeliVerbDSP.init : DeliVerbDSP ℝ).setSampleRate
        ⟨Real.sin, Real.cos, Real.exp, Real.rpow, Real.sqrt, Real.pi⟩ 48000).setParameter
        ⟨Real.sin, Real.cos, Real.exp, Real.rpow, Real.sqrt, Real.pi⟩
          .kDelayRepeat 0.95).setParameter
        ⟨Real.sin, Real.cos, Real.exp, Real.rpow, Real.sqrt, Real.pi⟩
          .kReverbSize 1).setParameter
        ⟨Real.sin, Real.cos, Real.exp, Real.rpow, Real.sqrt, Real.pi⟩
          .kReverbStyle 1).setParameter
        ⟨Real.sin, Real.cos, Real.exp, Real.rpow, Real.sqrt, Real.pi⟩
          .kReverbMix 0 = P at ht hmix hrm hsr hlen hduck hlow hhigh ⊢
  have hD : ((14400 : ℕ) : ℝ) = P.m_delayTime * P.m_delayL.m_sampleRate / 1000 := by
    rw [ht, hsr]; norm_num
  have hout := outputL_first_echo P (fun k => if k = 0 then 1 else 0)
    (fun k => if k = 0 then 1 else 0) 14400 hD (by norm_num) (by rw [hlen]; norm_num)
    (by rw [hlen]; norm_num) hrm hduck 2880000
  have hl := processStereo_outputL_length Real.tanh P.reset
    (fun k => if k = 0 then (1 : ℝ) else 0) (fun k => if k = 0 then (1 : ℝ) else 0) 2880000
  have hz : windowEnergy (P.reset.processStereo Real.tanh (fun k => if k = 0 then 1 else 0)
      (fun k => if k = 0 then 1 else 0) 2880000).outputL 2 4800 = 0 := by
    apply windowEnergy_zero
    intro i h1 h2 hi
    rw [hout i (by omega) hi, if_neg (by omega), if_pos (by omega)]
    simp
  have hp : 0 < windowEnergy (P.reset.processStereo Real.tanh
      (fun k => if k = 0 then 1 else 0) (fun k => if k = 0 then 1 else 0) 2880000).outputL
      3 4800 := by
    apply windowEnergy_pos _ 3 4800 (by norm_num) (by rw [hl]; norm_num)
    rw [hout (3 * 4800) (by norm_num) (by rw [hl]; norm_num), if_neg (by norm_num),
      if_neg (by norm_num), if_pos rfl, hmix]
    apply div_ne_zero _ (by norm_num)
    apply tanh_ne_zero
    have : 0 < P.m_delayHighCutL.m_b0 * (P.m_delayLowCutL.m_b0 * 1) := by positivity
    have h3 : (0 : ℝ) < (0 + 0.3 * (P.m_delayHighCutL.m_b0 * (P.m_delayLowCutL.m_b0 * 1))) *
        0.9 := by positivity
    exact ne_of_gt h3
  unfold windowRms
  show Real.sqrt _ < Real.sqrt _
  rw [hz, zero_div, Real.sqrt_zero]
  exact Real.sqrt_pos.mpr (div_pos hp (by norm_num))

/-! ### C31: no delay request is truncated by the clamp -/

/-- A request inside the clamp goes through the two clamps of `DelayLine::read` as it is. -/
theorem delayLine_unclamped_clamp (d : DelayLine α) (ms : α) (h : d.Unclamped ms) :
    min (max 1 (d.delaySamples ms)) ((sizeMinusTwo d.m_buffer.length : Nat) : α) =
      d.delaySamples ms := by
  rw [max_eq_right h.1, min_eq_left h.2]

/-- Member functions `DelayLine::write` and `DelayLine::reset` keep the rate and capacity. -/
theorem delayLine_sized_keeps (d : DelayLine α) (sr ms x : α) :
    ((d.write x).Sized sr ms ↔ d.Sized sr ms) ∧ (d.reset.Sized sr ms ↔ d.Sized sr ms) := by
  have hw : (d.write x).m_sampleRate = d.m_sampleRate := by
    unfold DelayLine.write
    split <;> rfl
  simp [DelayLine.Sized, hw, delayLine_write_length, delayLine_reset_length, DelayLine.reset]

/-- A line prepared for `msMax` at a rate of at least 8 kHz, with a capacity that is a
`size_t` value, does not clamp a request between 0.125 ms and `msMax`. -/
theorem delayLine_sized_unclamped (d : DelayLine α) (sr msMax ms : α)
    (h : d.Sized sr msMax) (hsr : 8000 ≤ sr) (h64 : d.m_buffer.length < 2 ^ 64)
    (hlo : 0.125 ≤ ms) (hhi : ms ≤ msMax) : d.Unclamped ms := by
  obtain ⟨hr, hl⟩ := h
  have hs : (sizeMinusTwo d.m_buffer.length : Nat) = ⌊sr * msMax / 1000⌋₊ + 2 := by
    have h2 : 2 ≤ d.m_buffer.length := by
      clear h64
      omega
    have e := (sizeMinusTwo_le d.m_buffer.length h2).2 h64
    clear h64
    omega
  clear h64
  have hfl : sr * msMax / 1000 < (⌊sr * msMax / 1000⌋₊ : α) + 1 := Nat.lt_floor_add_one _
  unfold DelayLine.Unclamped DelayLine.delaySamples
  rw [hr, hs]
  clear hs hl hr
  push_cast
  have h0 : (0 : α) ≤ sr := le_trans (by norm_num) hsr
  constructor
  · rw [le_div_iff₀ (by norm_num)]
    nlinarith [mul_nonneg (sub_nonneg.mpr hlo) (sub_nonneg.mpr hsr)]
  · have : ms * sr / 1000 ≤ sr * msMax / 1000 := by
      rw [div_le_div_iff_of_pos_right (by norm_num), mul_comm]
      exact mul_le_mul_of_nonneg_left hhi h0
    linarith

/-- The capacities of the shorter lines are `size_t` values when that of a main line is. -/
theorem floor_capacity_le (sr ms : α) (hsr : 0 ≤ sr) (hms : ms ≤ 2100) :
    ⌊sr * ms / 1000⌋₊ + 4 ≤ ⌊sr * 2100 / 1000⌋₊ + 4 := by
  apply Nat.add_le_add_right
  apply Nat.floor_mono
  rw [div_le_div_iff_of_pos_right (by norm_num)]
  exact mul_le_mul_of_nonneg_left hms hsr

/-- A property of the four elements of an array literal holds at every index. -/
theorem vec_forall4 {β : Type} (P : β → Prop) (a b c d : β) (ha : P a) (hb : P b)
    (hc : P c) (hd : P d) (i : Fin 4) : P ((![a, b, c, d] : Fin 4 → β) i) := by
  fin_cases i
  · exact ha
  · exact hb
  · exact hc
  · exact hd

/-- A property of the eight elements of an array literal holds at every index. -/
theorem vec_forall8 {β : Type} (P : β → Prop) (a b c d e f g h : β) (ha : P a) (hb : P b)
    (hc : P c) (hd : P d) (he : P e) (hf : P f) (hg : P g) (hh : P h) (i : Fin 8) :
    P ((![a, b, c, d, e, f, g, h] : Fin 8 → β) i) := by
  fin_cases i
  · exact ha
  · exact hb
  · exact hc
  · exact hd
  · exact he
  · exact hf
  · exact hg
  · exact hh

/-- The ranges of the delays that `Reverb::updateParameters` computes, for a size scale
between 0.5 and 2 and a stereo spread between 1.02 and 1.04: every allpass delay and its
1.03 multiple lie in `[0.125, 100]` ms, every comb delay and its multiple by the spread in
`[0.125, 200]` ms. -/
theorem reverb_delay_ranges (k w : α) (hk0 : 0.5 ≤ k) (hk1 : k ≤ 2) (hw0 : 1.02 ≤ w)
    (hw1 : w ≤ 1.04) :
    (∀ i, (0.125 ≤ (![4.77 * k, 5.93 * k, 7.11 * k, 8.17 * k] : Fin kNumAllpass → α) i ∧
        (![4.77 * k, 5.93 * k, 7.11 * k, 8.17 * k] : Fin kNumAllpass → α) i ≤ 100) ∧
      (0.125 ≤ (![4.77 * k, 5.93 * k, 7.11 * k, 8.17 * k] : Fin kNumAllpass → α) i * 1.03 ∧
        (![4.77 * k, 5.93 * k, 7.11 * k, 8.17 * k] : Fin kNumAllpass → α) i * 1.03 ≤ 100)) ∧
    (∀ i, (0.125 ≤ (![25.31 * k, 26.93 * k, 28.97 * k, 30.71 * k, 32.83 * k, 34.49 * k,
          36.37 * k, 38.89 * k] : Fin kNumComb → α) i ∧
        (![25.31 * k, 26.93 * k, 28.97 * k, 30.71 * k, 32.83 * k, 34.49 * k,
          36.37 * k, 38.89 * k] : Fin kNumComb → α) i ≤ 200) ∧
      (0.125 ≤ (![25.31 * k, 26.93 * k, 28.97 * k, 30.71 * k, 32.83 * k, 34.49 * k,
          36.37 * k, 38.89 * k] : Fin kNumComb → α) i * w ∧
        (![25.31 * k, 26.93 * k, 28.97 * k, 30.71 * k, 32.83 * k, 34.49 * k,
          36.37 * k, 38.89 * k] : Fin kNumComb → α) i * w ≤ 200)) := by
  have hprod : ∀ c : α, 1 ≤ c → c ≤ 40 →
      (0.125 ≤ c * k ∧ c * k ≤ 200) ∧ (0.125 ≤ c * k * w ∧ c * k * w ≤ 200) := by
    intro c hc0 hc1
    have h1 : 0.5 ≤ c * k := by nlinarith [mul_nonneg (sub_nonneg.mpr hc0) (sub_nonneg.mpr hk0)]
    have h2 : c * k ≤ 80 := by nlinarith [mul_nonneg (sub_nonneg.mpr hc1) (sub_nonneg.mpr hk1)]
    have h3 : 0 ≤ c * k := le_trans (by norm_num) h1
    refine ⟨⟨by linarith, by linarith⟩, ?_, ?_⟩
    · nlinarith [mul_nonneg h3 (sub_nonneg.mpr hw0)]
    · nlinarith [mul_nonneg h3 (sub_nonneg.mpr hw1)]
  constructor
  · exact vec_forall4 (fun x : α => (0.125 ≤ x ∧ x ≤ 100) ∧ (0.125 ≤ x * 1.03 ∧ x * 1.03 ≤ 100))
      _ _ _ _
      ⟨⟨by linarith, by linarith⟩, by linarith, by linarith⟩
      ⟨⟨by linarith, by linarith⟩, by linarith, by linarith⟩
      ⟨⟨by linarith, by linarith⟩, by linarith, by linarith⟩
      ⟨⟨by linarith, by linarith⟩, by linarith, by linarith⟩
  · exact vec_forall8 (fun x : α => (0.125 ≤ x ∧ x ≤ 200) ∧ (0.125 ≤ x * w ∧ x * w ≤ 200))
      _ _ _ _ _ _ _ _
      (hprod _ (by norm_num) (by norm_num)) (hprod _ (by norm_num) (by norm_num))
      (hprod _ (by norm_num) (by norm_num)) (hprod _ (by norm_num) (by norm_num))
      (hprod _ (by norm_num) (by norm_num)) (hprod _ (by norm_num) (by norm_num))
      (hprod _ (by norm_num) (by norm_num)) (hprod _ (by norm_num) (by norm_num))

/-- A prepared reverb at a rate that fits does not clamp any of its delay requests. -/
theorem reverb_prepared_unclamped (r : Reverb α) (sr : α) (h : r.Prepared sr)
    (hf : RateFits sr) : r.RequestsUnclamped := by
  obtain ⟨ha, hcl, hcr, hpl, hpr, ⟨hs0, hs1⟩, ⟨ht0, ht1⟩, had, hcd, hsp⟩ := h
  obtain ⟨hsr, h64⟩ := hf
  have h0 : (0 : α) ≤ sr := le_trans (by norm_num) hsr
  have key100 : ∀ (d : DelayLine α) (ms : α), d.Sized sr 100 →
      0.125 ≤ ms → ms ≤ 100 → d.Unclamped ms :=
    fun d ms hd hlo hhi => delayLine_sized_unclamped d sr 100 ms hd hsr
      (by rw [hd.2]; exact lt_of_le_of_lt (floor_capacity_le sr 100 h0 (by norm_num)) h64)
      hlo hhi
  have key200 : ∀ (d : DelayLine α) (ms : α), d.Sized sr 200 →
      0.125 ≤ ms → ms ≤ 200 → d.Unclamped ms :=
    fun d ms hd hlo hhi => delayLine_sized_unclamped d sr 200 ms hd hsr
      (by rw [hd.2]; exact lt_of_le_of_lt (floor_capacity_le sr 200 h0 (by norm_num)) h64)
      hlo hhi
  clear h64
  obtain ⟨hap, hcb⟩ := reverb_delay_ranges (0.5 + r.m_size * 1.5) r.m_stereoSpread
    (by linarith) (by linarith) (by rw [hsp]; linarith) (by rw [hsp]; linarith)
  rw [← had] at hap
  rw [← hcd] at hcb
  exact ⟨key100 _ _ hpl (by linarith) (by linarith),
    key100 _ _ hpr (by linarith) (by linarith),
    fun i => ⟨key100 _ _ (ha i) (hap i).1.1 (hap i).1.2,
      key100 _ _ (ha i) (hap i).2.1 (hap i).2.2⟩,
    fun i => ⟨key200 _ _ (hcl i) (hcb i).1.1 (hcb i).1.2,
      key200 _ _ (hcr i) (hcb i).2.1 (hcb i).2.2⟩⟩

/-- A prepared processor at a rate that fits, with a delay time between 50 and 2000 ms,
does not clamp any delay request. -/
theorem prepared_unclamped (s : DeliVerbDSP α) (sr : α) (h : s.Prepared sr)
    (hf : RateFits sr) (hlo : 50 ≤ s.m_delayTime) (hhi : s.m_delayTime ≤ 2000) :
    s.RequestsUnclamped := by
  obtain ⟨hL, hR, hrev⟩ := h
  refine ⟨?_, ?_, reverb_prepared_unclamped _ sr hrev hf⟩
  · exact delayLine_sized_unclamped _ sr 2100 _ hL hf.1 (by rw [hL.2]; exact hf.2)
      (by linarith) (by linarith)
  · exact delayLine_sized_unclamped _ sr 2100 _ hR hf.1 (by rw [hR.2]; exact hf.2)
      (by linarith) (by linarith)

/-- The call `reset` of the reverb keeps it prepared, and only a prepared reverb is
prepared after it. -/
theorem reverb_prepared_reset (r : Reverb α) (sr : α) : r.reset.Prepared sr ↔ r.Prepared sr := by
  have e : ∀ (d : DelayLine α) (ms : α), d.reset.Sized sr ms ↔ d.Sized sr ms :=
    fun d ms => (delayLine_sized_keeps d sr ms 0).2
  rw [reverb_reset_eq]
  simp only [Reverb.Prepared, e]

/-- The call `reset` of the processor keeps it prepared, and only a prepared processor is
prepared after it. -/
theorem prepared_reset (s : DeliVerbDSP α) (sr : α) : s.reset.Prepared sr ↔ s.Prepared sr := by
  have e : ∀ (d : DelayLine α) (ms : α), d.reset.Sized sr ms ↔ d.Sized sr ms :=
    fun d ms => (delayLine_sized_keeps d sr ms 0).2
  simp only [DeliVerbDSP.Prepared, DeliVerbDSP.reset, e, reverb_prepared_reset]

/-- The call `processStereo` keeps a prepared processor prepared. -/
theorem prepared_processStereo (tanh : α → α) (s : DeliVerbDSP α) (inputL inputR : Nat → α)
    (n : Nat) (sr : α) (h : s.Prepared sr) :
    (s.processStereo tanh inputL inputR n).dsp.Prepared sr := by
  rw [← prepared_reset, reset_processStereo, prepared_reset]
  exact h

/-- The four reverb setters keep the lines and bring size, style, delays and spread in
step: a reverb with prepared lines is prepared after them. -/
theorem reverb_retune_prepared (lm : Libm α) (r : Reverb α) (size style lowCut highCut sr : α)
    (ha : ∀ i, (r.m_allpass i).Sized sr 100) (hcl : ∀ i, (r.m_combL i).Sized sr 200)
    (hcr : ∀ i, (r.m_combR i).Sized sr 200) (hpl : r.m_preDelayL.Sized sr 100)
    (hpr : r.m_preDelayR.Sized sr 100) :
    (r.retune lm size style lowCut highCut).Prepared sr := by
  rw [reverb_retune_eq]
  exact ⟨ha, hcl, hcr, hpl, hpr, clamp_range size, clamp_range style, rfl, rfl, rfl⟩

/-- The call `setParameter` keeps a prepared processor prepared. -/
theorem prepared_setParameter (lm : Libm α) (s : DeliVerbDSP α) (p : ParamID) (v sr : α)
    (h : s.Prepared sr) : (s.setParameter lm p v).Prepared sr := by
  obtain ⟨hL, hR, ha, hcl, hcr, hpl, hpr, -⟩ := h
  unfold DeliVerbDSP.setParameter
  rw [updateParameters_eq]
  refine ⟨?_, ?_, ?_⟩
  · cases p <;> exact hL
  · cases p <;> exact hR
  · have hrev : (s.storeParameter p v).m_reverb = s.m_reverb := by cases p <;> rfl
    show (Reverb.retune lm (s.storeParameter p v).m_reverb _ _ _ _).Prepared sr
    rw [hrev]
    exact reverb_retune_prepared lm _ _ _ _ _ sr ha hcl hcr hpl hpr

/-- The call `setSampleRate(sr)` leaves every processor prepared at `sr`. -/
theorem prepared_setSampleRate (lm : Libm α) (s : DeliVerbDSP α) (sr : α) :
    (s.setSampleRate lm sr).Prepared sr := by
  have hz : ∀ (d : DelayLine α) (ms : α), ((d.setSampleRate sr).setMaxDelayMs ms).Sized sr ms :=
    fun d ms => ⟨(delayLine_setMaxDelayMs_shape _ _).2.2, (delayLine_setMaxDelayMs_shape _ _).1⟩
  rw [setSampleRate_eq_prepare, updateParameters_eq]
  refine ⟨hz _ _, hz _ _, ?_⟩
  show (Reverb.retune lm (s.m_reverb.setSampleRate lm sr) _ _ _ _).Prepared sr
  apply reverb_retune_prepared
  all_goals rw [reverb_setSampleRate_eq, reverb_updateParameters_eq]
  · exact fun i => hz _ _
  · exact fun i => hz _ _
  · exact fun i => hz _ _
  · exact hz _ _
  · exact hz _ _

/-- Every call with a rate that fits keeps the processor prepared at some rate that fits. -/
theorem prepared_step (lm : Libm α) (tanh : α → α) (s : DeliVerbDSP α) (op : Op α)
    (hop : op.RateFits) (h : ∃ sr, RateFits sr ∧ s.Prepared sr) :
    ∃ sr, RateFits sr ∧ (s.step lm tanh op).Prepared sr := by
  obtain ⟨sr, hf, hp⟩ := h
  cases op with
  | setSampleRate sr' => exact ⟨sr', hop, prepared_setSampleRate lm s sr'⟩
  | setParameter p v => exact ⟨sr, hf, prepared_setParameter lm s p v sr hp⟩
  | processStereo inputL inputR n =>
    exact ⟨sr, hf, prepared_processStereo tanh s inputL inputR n sr hp⟩
  | process input n =>
    refine ⟨sr, hf, ?_⟩
    simp only [DeliVerbDSP.step, process_eq_processStereo]
    exact prepared_processStereo tanh s input input n sr hp
  | reset => exact ⟨sr, hf, (prepared_reset s sr).mpr hp⟩

/-- Every sequence of calls with rates that fit keeps the processor prepared at some rate
that fits. -/
theorem prepared_run (lm : Libm α) (tanh : α → α) (ops : List (Op α)) (s : DeliVerbDSP α)
    (hops : ∀ op, op ∈ ops → op.RateFits) (h : ∃ sr, RateFits sr ∧ s.Prepared sr) :
    ∃ sr, RateFits sr ∧ (s.run lm tanh ops).Prepared sr := by
  unfold DeliVerbDSP.run
  induction ops generalizing s with
  | nil => exact h
  | cons op ops ih =>
    exact ih _ (fun o ho => hops o (List.mem_cons_of_mem _ ho))
      (prepared_step lm tanh s op (hops op (List.mem_cons_self _ _)) h)

/-- C31: a processor in any state is prepared by `setSampleRate(sr)` with `sr ≥ 8000` (and
a main-line capacity that is a `size_t` value) and then goes through any sequence of
`setSampleRate`, `setParameter`, `processStereo`, `process` and `reset` calls, every further
rate being such a rate.  If its delay time then lies in `[50, 2000]` ms, every delay that
a frame requests, converted to samples, lies in `[1, cap - 2]` of the line it is read from,
so that the two clamps of `DelayLine::read` leave it as it is: the delay time and the delay
time plus 2 ms on the main lines, `5 + 40 size` and that plus 1.5 ms on the pre-delay
lines, the allpass delays and their 1.03 multiples on the allpass lines, the comb delays
and their multiples by the stereo spread on the comb lines, for the clamped size and style
that the reverb holds. -/
theorem no_delay_request_clamped (lm : Libm α) (tanh : α → α) (s : DeliVerbDSP α) (sr : α)
    (ops : List (Op α)) (hsr : RateFits sr) (hops : ∀ op, op ∈ ops → op.RateFits)
    (hlo : 50 ≤ ((s.setSampleRate lm sr).run lm tanh ops).m_delayTime)
    (hhi : ((s.setSampleRate lm sr).run lm tanh ops).m_delayTime ≤ 2000) :
    ((s.setSampleRate lm sr).run lm tanh ops).RequestsUnclamped ∧
    (∀ (d : DelayLine α) (ms : α), d.Unclamped ms →
      min (max 1 (ms * d.m_sampleRate / 1000)) ((sizeMinusTwo d.m_buffer.length : Nat) : α) =
        ms * d.m_sampleRate / 1000) ∧
    (∀ (d : DelayLine α) (ms x : α), (d.write x).Unclamped ms ↔ d.Unclamped ms) := by
  obtain ⟨sr', hf, hp⟩ := prepared_run lm tanh ops (s.setSampleRate lm sr) hops
    ⟨sr, hsr, prepared_setSampleRate lm s sr⟩
  refine ⟨prepared_unclamped _ sr' hp hf hlo hhi,
    fun d ms h => delayLine_unclamped_clamp d ms h, fun d ms x => ?_⟩
  have hw : (d.write x).m_sampleRate = d.m_sampleRate := by
    unfold DelayLine.write
    split <;> rfl
  simp only [DelayLine.Unclamped, DelayLine.delaySamples, hw, delayLine_write_length]

/-- C31, instance: a constructed processor prepared at 48 kHz and given a delay time of
500 ms; the main-line capacity is 100804. -/
theorem no_delay_request_clamped_witness :
    RateFits (48000 : ℝ) ∧
      (((DeliVerbDSP.init : DeliVerbDSP ℝ).setSampleRate
        ⟨Real.sin, Real.cos, Real.exp, Real.rpow, Real.sqrt, Real.pi⟩ 48000).run
        ⟨Real.sin, Real.cos, Real.exp, Real.rpow, Real.sqrt, Real.pi⟩ Real.tanh
        [.setParameter .kDelayTime 500]).RequestsUnclamped := by
  have hf : ⌊(48000 : ℝ) * 2100 / 1000⌋₊ = 100800 := by
    have : (48000 : ℝ) * 2100 / 1000 = ((100800 : ℕ) : ℝ) := by norm_num
    rw [this, Nat.floor_natCast]
  have hfit : RateFits (48000 : ℝ) := ⟨by norm_num, by rw [hf]; norm_num⟩
  have ht : (((DeliVerbDSP.init : DeliVerbDSP ℝ).setSampleRate
      ⟨Real.sin, Real.cos, Real.exp, Real.rpow, Real.sqrt, Real.pi⟩ 48000).run
      ⟨Real.sin, Real.cos, Real.exp, Real.rpow, Real.sqrt, Real.pi⟩ Real.tanh
      [.setParameter .kDelayTime 500]).m_delayTime = 500 := by
    have := getParameter_setParameter
      ⟨Real.sin, Real.cos, Real.exp, Real.rpow, Real.sqrt, Real.pi⟩
      ((DeliVerbDSP.init : DeliVerbDSP ℝ).setSampleRate
        ⟨Real.sin, Real.cos, Real.exp, Real.rpow, Real.sqrt, Real.pi⟩ 48000)
      .kDelayTime .kDelayTime 500
    simpa [DeliVerbDSP.getParameter] using this
  exact ⟨hfit, (no_delay_request_clamped
    ⟨Real.sin, Real.cos, Real.exp, Real.rpow, Real.sqrt, Real.pi⟩ Real.tanh
    DeliVerbDSP.init 48000 [.setParameter .kDelayTime 500] hfit
    (fun op hop => by
      rw [List.mem_singleton] at hop
      subst hop
      trivial)
    (by rw [ht]; norm_num) (by rw [ht]; norm_num)).1⟩

/-! ### C32: rendering is independent of the block size -/

/-- The call `processStereo` reads only the first `n` frames of its input blocks. -/
theorem processStereo_congr (tanh : α → α) (s : DeliVerbDSP α)
    (inputL inputR inputL' inputR' : Nat → α) (n : Nat)
    (h : ∀ k, k < n → inputL' k = inputL k ∧ inputR' k = inputR k) :
    s.processStereo tanh inputL' inputR' n = s.processStereo tanh inputL inputR n := by
  induction n with
  | zero => rfl
  | succ k ih =>
    rw [processStereo_succ, processStereo_succ,
      ih (fun j hj => h j (Nat.lt_succ_of_lt hj)), (h k (Nat.lt_succ_self k)).1,
      (h k (Nat.lt_succ_self k)).2]

/-- Rendering `n + m` frames in one call is rendering `n` frames and then, from the state
left behind, the `m` frames that follow. -/
theorem processStereo_add (tanh : α → α) (s : DeliVerbDSP α) (inputL inputR : Nat → α)
    (n m : Nat) :
    s.processStereo tanh inputL inputR (n + m) =
      { dsp := ((s.processStereo tanh inputL inputR n).dsp.processStereo tanh
          (fun k => inputL (n + k)) (fun k => inputR (n + k)) m).dsp
        outputL := (s.processStereo tanh inputL inputR n).outputL ++
          ((s.processStereo tanh inputL inputR n).dsp.processStereo tanh
            (fun k => inputL (n + k)) (fun k => inputR (n + k)) m).outputL
        outputR := (s.processStereo tanh inputL inputR n).outputR ++
          ((s.processStereo tanh inputL inputR n).dsp.processStereo tanh
            (fun k => inputL (n + k)) (fun k => inputR (n + k)) m).outputR } := by
  induction m with
  | zero => simp [DeliVerbDSP.processStereo]
  | succ k ih =>
    rw [← Nat.add_assoc, processStereo_succ, ih, processStereo_succ]
    simp only [List.append_assoc]

/-- Two blocks rendered by two calls and their concatenation rendered by one call. -/
theorem processStereo_concat (tanh : α → α) (s : DeliVerbDSP α) (aL aR bL bR : Nat → α)
    (n m : Nat) :
    s.processStereo tanh (blockConcat aL bL n) (blockConcat aR bR n) (n + m) =
      { dsp := ((s.processStereo tanh aL aR n).dsp.processStereo tanh bL bR m).dsp
        outputL := (s.processStereo tanh aL aR n).outputL ++
          ((s.processStereo tanh aL aR n).dsp.processStereo tanh bL bR m).outputL
        outputR := (s.processStereo tanh aL aR n).outputR ++
          ((s.processStereo tanh aL aR n).dsp.processStereo tanh bL bR m).outputR } := by
  have h1 : s.processStereo tanh (blockConcat aL bL n) (blockConcat aR bR n) n =
      s.processStereo tanh aL aR n :=
    processStereo_congr tanh s aL aR _ _ n (fun k hk => by simp [blockConcat, hk])
  have h2 : (fun k => blockConcat aL bL n (n + k)) = bL := by
    funext k; simp [blockConcat]
  have h3 : (fun k => blockConcat aR bR n (n + k)) = bR := by
    funext k; simp [blockConcat]
  rw [processStereo_add, h1, h2, h3]

/-- The right output block of `processStereo`, frame by frame. -/
theorem processStereo_outputR (tanh : α → α) (s : DeliVerbDSP α) (inputL inputR : Nat → α)
    (n : Nat) :
    (s.processStereo tanh inputL inputR n).outputR = (List.range n).map (fun k =>
      (DeliVerbDSP.processStereoFrame tanh (s.processStereo tanh inputL inputR k).dsp
        (inputL k) (inputR k)).2.2) := by
  induction n with
  | zero => rfl
  | succ k ih =>
    rw [processStereo_succ, List.range_succ, List.map_append, ← ih]
    rfl

/-- Output frame `i` of `processStereo` is a function of the starting state and of the
input frames `0..i`. -/
theorem processStereo_causal (tanh : α → α) (s : DeliVerbDSP α)
    (inputL inputR inputL' inputR' : Nat → α) (n n' i : Nat) (hi : i < n) (hi' : i < n')
    (h : ∀ k, k ≤ i → inputL' k = inputL k ∧ inputR' k = inputR k) :
    (s.processStereo tanh inputL' inputR' n').outputL[i]? =
      (s.processStereo tanh inputL inputR n).outputL[i]? ∧
    (s.processStereo tanh inputL' inputR' n').outputR[i]? =
      (s.processStereo tanh inputL inputR n).outputR[i]? := by
  have hs := processStereo_congr tanh s inputL inputR inputL' inputR' i
    (fun k hk => h k (Nat.le_of_lt hk))
  simp only [processStereo_outputL, processStereo_outputR, List.getElem?_map,
    List.getElem?_range hi, List.getElem?_range hi', Option.map_some', hs, (h i le_rfl).1,
    (h i le_rfl).2, and_self]

/-- C32: for every processor state and all input blocks `A` (of `n` frames) and `B` (of `m`
frames), `processStereo` on `A` and then on `B` writes the same samples and leaves the same
state as one call on the concatenation of `A` and `B`; the same holds for the mono call
`process`.  Output frame `i` depends only on the starting state and the input frames
`0..i`: two calls from the same state whose inputs agree on these frames write the same
frame `i`, whatever their block lengths and later frames are. -/
theorem block_size_independence (tanh : α → α) (s : DeliVerbDSP α) (aL aR bL bR : Nat → α)
    (n m : Nat) :
    ((s.processStereo tanh (blockConcat aL bL n) (blockConcat aR bR n) (n + m)).outputL =
        (s.processStereo tanh aL aR n).outputL ++
          ((s.processStereo tanh aL aR n).dsp.processStereo tanh bL bR m).outputL ∧
      (s.processStereo tanh (blockConcat aL bL n) (blockConcat aR bR n) (n + m)).outputR =
        (s.processStereo tanh aL aR n).outputR ++
          ((s.processStereo tanh aL aR n).dsp.processStereo tanh bL bR m).outputR ∧
      (s.processStereo tanh (blockConcat aL bL n) (blockConcat aR bR n) (n + m)).dsp =
        ((s.processStereo tanh aL aR n).dsp.processStereo tanh bL bR m).dsp) ∧
    ((s.process tanh (blockConcat aL bL n) (n + m)).outputL =
        (s.process tanh aL n).outputL ++ ((s.process tanh aL n).dsp.process tanh bL m).outputL ∧
      (s.process tanh (blockConcat aL bL n) (n + m)).outputR =
        (s.process tanh aL n).outputR ++ ((s.process tanh aL n).dsp.process tanh bL m).outputR ∧
      (s.process tanh (blockConcat aL bL n) (n + m)).dsp =
        ((s.process tanh aL n).dsp.process tanh bL m).dsp) ∧
    (∀ (inputL inputR : Nat → α) (n' i : Nat), i < n → i < n' →
      (∀ k, k ≤ i → inputL k = aL k ∧ inputR k = aR k) →
      (s.processStereo tanh inputL inputR n').outputL[i]? =
        (s.processStereo tanh aL aR n).outputL[i]? ∧
      (s.processStereo tanh inputL inputR n').outputR[i]? =
        (s.processStereo tanh aL aR n).outputR[i]?) := by
  refine ⟨?_, ?_, fun inputL inputR n' i hi hi' h =>
    processStereo_causal tanh s aL aR inputL inputR n n' i hi hi' h⟩
  · rw [processStereo_concat]
    exact ⟨rfl, rfl, rfl⟩
  · simp only [process_eq_processStereo]
    rw [processStereo_concat]
    exact ⟨rfl, rfl, rfl⟩

/-! ### C33: the scoop filter at 0 dB -/

/-- A biquad with `b0 = 1`, `b1 = a1`, `b2 = a2` and zero state returns its input and
keeps the zero state. -/
theorem biquad_transparent_process (b : Biquad α) (x : α) (h0 : b.m_b0 = 1)
    (h1 : b.m_b1 = b.m_a1) (h2 : b.m_b2 = b.m_a2) (h5 : b.m_z1 = 0) (h6 : b.m_z2 = 0) :
    b.process x = (b, x) := by
  cases b
  simp only at h0 h1 h2 h5 h6
  subst h0 h1 h2 h5 h6
  simp [Biquad.process]

/-- A biquad with `b0 = 1`, `b1 = a1`, `b2 = a2` and zero state returns every block
unchanged and keeps the zero state. -/
theorem biquad_transparent_processBlock (b : Biquad α) (xs : List α) (h0 : b.m_b0 = 1)
    (h1 : b.m_b1 = b.m_a1) (h2 : b.m_b2 = b.m_a2) (h5 : b.m_z1 = 0) (h6 : b.m_z2 = 0) :
    b.processBlock xs = (b, xs) := by
  have key : ∀ (ys acc : List α),
      ys.foldl (fun st x => ((st.1.process x).1, st.2 ++ [(st.1.process x).2])) (b, acc) =
        (b, acc ++ ys) := by
    intro ys
    induction ys with
    | nil => intro acc; simp
    | cons y ys ih =>
      intro acc
      rw [List.foldl_cons]
      simp only [biquad_transparent_process b y h0 h1 h2 h5 h6]
      rw [ih]
      simp
  simpa [Biquad.processBlock] using key xs []

/-- C33: for every biquad with a sample rate `sr > 1000`, `setCoefficients(Peak, 500, 0.7,
0 dB)` stores `b0 = 1`, `b1 = a1` and `b2 = a2`.  A biquad with such coefficients started
from the reset state returns every input sequence unchanged, sample by sample and as a
block, and its state stays zero.  The reverb passes the gain `scoopAmount * -12` to its two
scoop filters, and no call of the processor changes the scoop amount, which is 0 after
construction. -/
theorem scoop_is_transparent (b : Biquad ℝ) (h : 1000 < b.m_sampleRate) :
    ((b.setCoefficients ⟨Real.sin, Real.cos, Real.exp, Real.rpow, Real.sqrt, Real.pi⟩
        .Peak 500 0.7 0).m_b0 = 1 ∧
      (b.setCoefficients ⟨Real.sin, Real.cos, Real.exp, Real.rpow, Real.sqrt, Real.pi⟩
        .Peak 500 0.7 0).m_b1 =
        (b.setCoefficients ⟨Real.sin, Real.cos, Real.exp, Real.rpow, Real.sqrt, Real.pi⟩
          .Peak 500 0.7 0).m_a1 ∧
      (b.setCoefficients ⟨Real.sin, Real.cos, Real.exp, Real.rpow, Real.sqrt, Real.pi⟩
        .Peak 500 0.7 0).m_b2 =
        (b.setCoefficients ⟨Real.sin, Real.cos, Real.exp, Real.rpow, Real.sqrt, Real.pi⟩
          .Peak 500 0.7 0).m_a2) ∧
    (∀ c : Biquad ℝ, c.m_b0 = 1 → c.m_b1 = c.m_a1 → c.m_b2 = c.m_a2 →
      (∀ x, c.reset.process x = (c.reset, x)) ∧
      (∀ xs, c.reset.processBlock xs = (c.reset, xs)) ∧
      c.reset.m_z1 = 0 ∧ c.reset.m_z2 = 0) ∧
    (∀ xs : List ℝ,
      (b.setCoefficients ⟨Real.sin, Real.cos, Real.exp, Real.rpow, Real.sqrt, Real.pi⟩
        .Peak 500 0.7 0).reset.processBlock xs =
      ((b.setCoefficients ⟨Real.sin, Real.cos, Real.exp, Real.rpow, Real.sqrt, Real.pi⟩
        .Peak 500 0.7 0).reset, xs)) ∧
    (∀ (lm : Libm ℝ) (r : Reverb ℝ),
      (r.updateFilters lm).m_inputScoopL =
        r.m_inputScoopL.setCoefficients lm .Peak 500 0.7 (r.m_scoopAmount * -12) ∧
      (r.updateFilters lm).m_inputScoopR =
        r.m_inputScoopR.setCoefficients lm .Peak 500 0.7 (r.m_scoopAmount * -12)) ∧
    (∀ (lm : Libm ℝ) (tanh : ℝ → ℝ) (ops : List (Op ℝ)),
      ((DeliVerbDSP.init : DeliVerbDSP ℝ).run lm tanh ops).m_reverb.m_scoopAmount = 0) := by
  have hsr : 0 < b.m_sampleRate := by linarith
  obtain ⟨hs, hc1, hc2⟩ := omega_range b.m_sampleRate 500 hsr (by norm_num) (by linarith)
  have hal : 0 < Real.sin (2 * Real.pi * 500 / b.m_sampleRate) / (2 * 0.7) := by positivity
  have hA : Real.rpow 10 (0 / 40) = 1 := by
    rw [zero_div]
    exact Real.rpow_zero 10
  have hco : (b.setCoefficients ⟨Real.sin, Real.cos, Real.exp, Real.rpow, Real.sqrt, Real.pi⟩
        .Peak 500 0.7 0).m_b0 = 1 ∧
      (b.setCoefficients ⟨Real.sin, Real.cos, Real.exp, Real.rpow, Real.sqrt, Real.pi⟩
        .Peak 500 0.7 0).m_b1 =
        (b.setCoefficients ⟨Real.sin, Real.cos, Real.exp, Real.rpow, Real.sqrt, Real.pi⟩
          .Peak 500 0.7 0).m_a1 ∧
      (b.setCoefficients ⟨Real.sin, Real.cos, Real.exp, Real.rpow, Real.sqrt, Real.pi⟩
        .Peak 500 0.7 0).m_b2 =
        (b.setCoefficients ⟨Real.sin, Real.cos, Real.exp, Real.rpow, Real.sqrt, Real.pi⟩
          .Peak 500 0.7 0).m_a2 := by
    rw [biquad_setCoefficients_pos _ b .Peak 500 0.7 0 hsr]
    simp only [Biquad.cookbook, Biquad.rawCoefficients, hA, mul_one, div_one]
    exact ⟨div_self (by linarith), trivial, trivial⟩
  have htr : ∀ c : Biquad ℝ, c.m_b0 = 1 → c.m_b1 = c.m_a1 → c.m_b2 = c.m_a2 →
      (∀ x, c.reset.process x = (c.reset, x)) ∧
      (∀ xs, c.reset.processBlock xs = (c.reset, xs)) ∧
      c.reset.m_z1 = 0 ∧ c.reset.m_z2 = 0 := fun c h0 h1 h2 =>
    ⟨fun x => biquad_transparent_process c.reset x h0 h1 h2 rfl rfl,
      fun xs => biquad_transparent_processBlock c.reset xs h0 h1 h2 rfl rfl, rfl, rfl⟩
  refine ⟨hco, htr, (htr _ hco.1 hco.2.1 hco.2.2).2.1, fun lm r => ⟨rfl, rfl⟩,
    fun lm tanh ops => ?_⟩
  rw [run_scoop]
  rfl

/-- C33, instance: the scoop filter of a reverb at 48 kHz. -/
theorem scoop_is_transparent_witness :
    (1000 : ℝ) < ((Biquad.init : Biquad ℝ).setSampleRate 48000).m_sampleRate ∧
      (((Biquad.init : Biquad ℝ).setSampleRate 48000).setCoefficients
        ⟨Real.sin, Real.cos, Real.exp, Real.rpow, Real.sqrt, Real.pi⟩
        .Peak 500 0.7 0).m_b0 = 1 :=
  ⟨by norm_num [Biquad.setSampleRate],
    (scoop_is_transparent ((Biquad.init : Biquad ℝ).setSampleRate 48000)
      (by norm_num [Biquad.setSampleRate])).1.1⟩

/-! ### Rounding to `float` and `double` -/

/-- An integer rounds to itself. -/
theorem roundHalfEven_intCast (n : ℤ) : roundHalfEven (n : α) = n := by
  unfold roundHalfEven
  rw [Int.floor_intCast, sub_self, if_pos (by norm_num)]

/-- A number above the middle of `[f, f + 1]` rounds to `f + 1`. -/
theorem roundHalfEven_up (q : α) (f : ℤ) (h1 : (f : α) + 1 / 2 < q) (h2 : q < (f : α) + 1) :
    roundHalfEven q = f + 1 := by
  have hf : ⌊q⌋ = f := Int.floor_eq_iff.mpr ⟨by linarith, h2⟩
  unfold roundHalfEven
  rw [hf, if_neg (by linarith), if_pos (by linarith)]

/-- The rounding into a format, for a number in the binade `[2 ^ e, 2 ^ (e + 1))` with
`e` not below the least exponent. -/
theorem roundBinary_binade (p : Nat) (emin e : ℤ) (x : α) (h1 : (2 : α) ^ e ≤ |x|)
    (h2 : |x| < (2 : α) ^ (e + 1)) (he : emin ≤ e) :
    roundBinary p emin x =
      (roundHalfEven (x / (2 : α) ^ (e - ((p : ℤ) - 1))) : α) *
        (2 : α) ^ (e - ((p : ℤ) - 1)) := by
  have hpos : 0 < |x| := lt_of_lt_of_le (zpow_pos (by norm_num) e) h1
  have hx : x ≠ 0 := abs_pos.mp hpos
  have hlog : Int.log 2 |x| = e := by
    apply le_antisymm
    · have := (Int.lt_zpow_iff_log_lt (R := α) (b := 2) (by norm_num) hpos).mp
        (by exact_mod_cast h2)
      omega
    · exact (Int.zpow_le_iff_le_log (R := α) (b := 2) (by norm_num) hpos).mp
        (by exact_mod_cast h1)
  unfold roundBinary
  rw [if_neg hx, hlog, max_eq_left he]


/-- A number of the binade `[2 ^ e, 2 ^ (e + 1))` that is a whole multiple of the spacing
of the format there is a number of the format: it rounds to itself. -/
theorem roundBinary_exact (p : Nat) (emin e n : ℤ) (x : α)
    (hx : x = (n : α) * (2 : α) ^ (e - ((p : ℤ) - 1))) (h1 : (2 : α) ^ e ≤ |x|)
    (h2 : |x| < (2 : α) ^ (e + 1)) (he : emin ≤ e) : roundBinary p emin x = x := by
  have hu : (2 : α) ^ (e - ((p : ℤ) - 1)) ≠ 0 := ne_of_gt (zpow_pos (by norm_num) _)
  have hq : x / (2 : α) ^ (e - ((p : ℤ) - 1)) = (n : α) := by
    rw [hx, mul_div_assoc, div_self hu, mul_one]
  rw [roundBinary_binade p emin e x h1 h2 he, hq, roundHalfEven_intCast, ← hx]

/-- The rounding of a number of the binade `[2 ^ e, 2 ^ (e + 1))` whose quotient by the
spacing lies above the middle of `[f, f + 1]`: the multiple `f + 1` of the spacing. -/
theorem roundBinary_up (p : Nat) (emin e f : ℤ) (x : α) (h1 : (2 : α) ^ e ≤ |x|)
    (h2 : |x| < (2 : α) ^ (e + 1)) (he : emin ≤ e)
    (hf1 : (f : α) + 1 / 2 < x / (2 : α) ^ (e - ((p : ℤ) - 1)))
    (hf2 : x / (2 : α) ^ (e - ((p : ℤ) - 1)) < (f : α) + 1) :
    roundBinary p emin x = ((f + 1 : ℤ) : α) * (2 : α) ^ (e - ((p : ℤ) - 1)) := by
  rw [roundBinary_binade p emin e x h1 h2 he, roundHalfEven_up _ f hf1 hf2]

/-- At 48 kHz the request `read(50.000004f)`, the `float` `50 + 2 ^ (-18)`, is converted
to the `float` `2400 + 2 ^ (-12)` samples: the `double` product and quotient are exact, and
`2400.00018...` rounds up to the next `float`. -/
theorem delaySamplesFloat_eq (d : DelayLine α) (hsr : d.m_sampleRate = 48000) :
    d.delaySamplesFloat (13107201 / 262144) = 9830401 / 4096 := by
  unfold DelayLine.delaySamplesFloat roundDouble roundFloat
  rw [hsr]
  rw [roundBinary_exact 53 (-1022) 21 (4915200375 * 1048576)
    ((13107201 / 262144 : α) * 48000) (by norm_num)
    (by rw [abs_of_pos (by norm_num)]; norm_num)
    (by rw [abs_of_pos (by norm_num)]; norm_num) (by norm_num)]
  rw [roundBinary_exact 53 (-1022) 11 (39321603 * 134217728)
    ((13107201 / 262144 : α) * 48000 / 1000) (by norm_num)
    (by rw [abs_of_pos (by norm_num)]; norm_num)
    (by rw [abs_of_pos (by norm_num)]; norm_num) (by norm_num)]
  rw [roundBinary_up 24 (-126) 11 9830400 ((13107201 / 262144 : α) * 48000 / 1000)
    (by rw [abs_of_pos (by norm_num)]; norm_num)
    (by rw [abs_of_pos (by norm_num)]; norm_num) (by norm_num) (by norm_num) (by norm_num)]
  norm_num

/-- On a line of 100804 samples with the write index 2400, the delay of `2400 + 2 ^ (-12)`
samples gives the `float` read position 100804, the capacity: the difference
`-2 ^ (-12)` is exact, and its sum with 100804 rounds up to 100804. -/
theorem readPosFloat_eq (d : DelayLine α) (hl : d.m_buffer.length = 100804)
    (hw : d.m_writeIndex = 2400) : d.readPosFloat (9830401 / 4096) = 100804 := by
  have hs : sizeMinusTwo 100804 = 100802 := by norm_num [sizeMinusTwo]
  have h1 : roundFloat ((100802 : ℕ) : α) = 100802 := by
    unfold roundFloat
    rw [roundBinary_exact 24 (-126) 16 (100802 * 128) ((100802 : ℕ) : α) (by norm_num)
      (by rw [abs_of_pos (by norm_num)]; norm_num)
      (by rw [abs_of_pos (by norm_num)]; norm_num) (by norm_num)]
    norm_num
  have h2 : roundFloat ((2400 : ℕ) : α) = 2400 := by
    unfold roundFloat
    rw [roundBinary_exact 24 (-126) 11 (2400 * 4096) ((2400 : ℕ) : α) (by norm_num)
      (by rw [abs_of_pos (by norm_num)]; norm_num)
      (by rw [abs_of_pos (by norm_num)]; norm_num) (by norm_num)]
    norm_num
  have h3 : roundFloat ((100804 : ℕ) : α) = 100804 := by
    unfold roundFloat
    rw [roundBinary_exact 24 (-126) 16 (100804 * 128) ((100804 : ℕ) : α) (by norm_num)
      (by rw [abs_of_pos (by norm_num)]; norm_num)
      (by rw [abs_of_pos (by norm_num)]; norm_num) (by norm_num)]
    norm_num
  have h4 : roundFloat ((2400 : α) - 9830401 / 4096) = -1 / 4096 := by
    unfold roundFloat
    rw [roundBinary_exact 24 (-126) (-12) (-8388608) ((2400 : α) - 9830401 / 4096)
      (by norm_num) (by norm_num [abs_of_neg]) (by norm_num [abs_of_neg]) (by norm_num)]
    norm_num
  have h5 : roundFloat ((-1 / 4096 : α) + 100804) = 100804 := by
    unfold roundFloat
    rw [roundBinary_up 24 (-126) 16 12902911 ((-1 / 4096 : α) + 100804)
      (by rw [abs_of_pos (by norm_num)]; norm_num)
      (by rw [abs_of_pos (by norm_num)]; norm_num) (by norm_num) (by norm_num) (by norm_num)]
    norm_num
  unfold DelayLine.readPosFloat
  simp only [hl, hw, hs, h1, h2, h3]
  rw [max_eq_right (by norm_num), min_eq_left (by norm_num), h4, if_pos (by norm_num), h5]

/-- The delay time `50 + 2 ^ (-18)` ms and the delay `2400 + 2 ^ (-12)` samples are `float`
values: they round to themselves. -/
theorem delay_arguments_float :
    roundFloat (13107201 / 262144 : α) = 13107201 / 262144 ∧
    roundFloat (9830401 / 4096 : α) = 9830401 / 4096 := by
  unfold roundFloat
  constructor
  · exact roundBinary_exact 24 (-126) 5 13107201 _ (by norm_num)
      (by rw [abs_of_pos (by norm_num)]; norm_num)
      (by rw [abs_of_pos (by norm_num)]; norm_num) (by norm_num)
  · exact roundBinary_exact 24 (-126) 11 9830401 _ (by norm_num)
      (by rw [abs_of_pos (by norm_num)]; norm_num)
      (by rw [abs_of_pos (by norm_num)]; norm_num) (by norm_num)

/-- The indices of the `float` read on a line at 48 kHz with 100804 samples and the write
index 2400, for the request `read(50.000004f)`: `index0` is the capacity, `index1` is 0 and
`frac` is 0. -/
theorem read_indices_float (d : DelayLine α) (hsr : d.m_sampleRate = 48000)
    (hl : d.m_buffer.length = 100804) (hw : d.m_writeIndex = 2400) :
    d.readPosFloat (d.delaySamplesFloat (13107201 / 262144)) = 100804 ∧
    d.index0Float (d.delaySamplesFloat (13107201 / 262144)) = 100804 ∧
    d.index1Float (d.delaySamplesFloat (13107201 / 262144)) = 0 ∧
    d.fracFloat (d.delaySamplesFloat (13107201 / 262144)) = 0 := by
  have hr := readPosFloat_eq d hl hw
  have hi : d.index0Float (9830401 / 4096) = 100804 := by
    unfold DelayLine.index0Float
    rw [hr]
    exact Nat.floor_ofNat 100804
  have h3 : roundFloat ((100804 : ℕ) : α) = 100804 := by
    unfold roundFloat
    rw [roundBinary_exact 24 (-126) 16 (100804 * 128) ((100804 : ℕ) : α) (by norm_num)
      (by rw [abs_of_pos (by norm_num)]; norm_num)
      (by rw [abs_of_pos (by norm_num)]; norm_num) (by norm_num)]
    norm_num
  rw [delaySamplesFloat_eq d hsr]
  refine ⟨hr, hi, ?_, ?_⟩
  · unfold DelayLine.index1Float
    rw [hi, hl, if_pos (by norm_num)]
  · unfold DelayLine.fracFloat
    rw [hi, hr, h3, sub_self]
    simp [roundFloat, roundBinary]

/-- A line prepared at 48 kHz for 2100 ms, after 2400 writes: 100804 samples, write index
2400. -/
theorem delayLine_prepared_shape (x : Nat → α) :
    ((((DelayLine.init : DelayLine α).setSampleRate 48000).setMaxDelayMs 2100).writeFrames
      x 2400).m_sampleRate = 48000 ∧
    ((((DelayLine.init : DelayLine α).setSampleRate 48000).setMaxDelayMs 2100).writeFrames
      x 2400).m_buffer.length = 100804 ∧
    ((((DelayLine.init : DelayLine α).setSampleRate 48000).setMaxDelayMs 2100).writeFrames
      x 2400).m_writeIndex = 2400 := by
  have hf : ⌊(48000 : α) * 2100 / 1000⌋₊ + 4 = 100804 := by
    have : (48000 : α) * 2100 / 1000 = ((100800 : ℕ) : α) := by norm_num
    rw [this, Nat.floor_natCast]
  have hp : ((DelayLine.init : DelayLine α).setSampleRate 48000).setMaxDelayMs 2100 =
      { m_sampleRate := 48000,
        m_buffer := List.replicate (⌊(48000 : α) * 2100 / 1000⌋₊ + 4) 0,
        m_writeIndex := 0 } :=
    delayLine_prepare_silent _ _ _
      (by simp [DelayLine.Silent, DelayLine.init])
  rw [hp, hf]
  obtain ⟨h1, h2, h3, -, -⟩ := delayLine_writeFrames_ring
    ({ m_sampleRate := 48000, m_buffer := List.replicate 100804 0, m_writeIndex := 0 } :
      DelayLine α) x 100804 (by norm_num) rfl rfl 2400
  rw [Nat.mod_eq_of_lt (by norm_num)] at h2
  exact ⟨h3, h1, h2⟩

/-- C19, the failing input.  A constructed line goes through `setSampleRate(48000)`,
`setMaxDelayMs(2100)` and 2400 calls of `write`: it has 100804 samples and the write index
2400, inside the buffer.  In `float` arithmetic `read(50.000004f)` converts the delay to
`2400 + 2 ^ (-12)` samples, gets the read position `-2 ^ (-12)`, and its sum with 100804
rounds to 100804: `index0` equals the capacity and `m_buffer[index0]` is past the end.  The
same holds for `readSamples` with the delay `2400 + 2 ^ (-12)`.  Both arguments are `float`
values. -/
theorem read_index_reaches_capacity :
    ((((DelayLine.init : DelayLine ℝ).setSampleRate 48000).setMaxDelayMs 2100).writeFrames
      (fun _ => 0) 2400).Allocated ∧
    ((((DelayLine.init : DelayLine ℝ).setSampleRate 48000).setMaxDelayMs 2100).writeFrames
      (fun _ => 0) 2400).index0Float
        (((((DelayLine.init : DelayLine ℝ).setSampleRate 48000).setMaxDelayMs 2100).writeFrames
          (fun _ => 0) 2400).delaySamplesFloat (13107201 / 262144)) =
      ((((DelayLine.init : DelayLine ℝ).setSampleRate 48000).setMaxDelayMs 2100).writeFrames
        (fun _ => 0) 2400).m_buffer.length ∧
    ((((DelayLine.init : DelayLine ℝ).setSampleRate 48000).setMaxDelayMs 2100).writeFrames
      (fun _ => 0) 2400).index0Float (9830401 / 4096) =
      ((((DelayLine.init : DelayLine ℝ).setSampleRate 48000).setMaxDelayMs 2100).writeFrames
        (fun _ => 0) 2400).m_buffer.length ∧
    ((((DelayLine.init : DelayLine ℝ).setSampleRate 48000).setMaxDelayMs 2100).writeFrames
      (fun _ => 0) 2400).m_buffer.length = 100804 ∧
    roundFloat (13107201 / 262144 : ℝ) = 13107201 / 262144 ∧
    roundFloat (9830401 / 4096 : ℝ) = 9830401 / 4096 := by
  obtain ⟨hsr, hl, hw⟩ := delayLine_prepared_shape (fun _ => (0 : ℝ))
  obtain ⟨-, hi, -, -⟩ := read_indices_float _ hsr hl hw
  have hi' := hi
  rw [delaySamplesFloat_eq _ hsr] at hi'
  refine ⟨⟨by rw [hl]; norm_num, by rw [hl, hw]; norm_num⟩, ?_, ?_, hl,
    delay_arguments_float⟩
  · rw [hi, hl]
  · rw [hi', hl]

/-- The left main line after `n` frames of `processStereo`: the rate and the capacity
stay, and a write index inside the buffer advances by `n` modulo the capacity. -/
theorem processStereo_delayL_shape (tanh : α → α) (s : DeliVerbDSP α)
    (inputL inputR : Nat → α) (n : Nat)
    (hw : s.m_delayL.m_writeIndex < s.m_delayL.m_buffer.length) :
    (s.processStereo tanh inputL inputR n).dsp.m_delayL.m_sampleRate =
      s.m_delayL.m_sampleRate ∧
    (s.processStereo tanh inputL inputR n).dsp.m_delayL.m_buffer.length =
      s.m_delayL.m_buffer.length ∧
    (s.processStereo tanh inputL inputR n).dsp.m_delayL.m_writeIndex =
      (s.m_delayL.m_writeIndex + n) % s.m_delayL.m_buffer.length := by
  induction n with
  | zero => exact ⟨rfl, rfl, (Nat.mod_eq_of_lt hw).symm⟩
  | succ k ih =>
    obtain ⟨h1, h2, h3⟩ := ih
    have hlt : (s.processStereo tanh inputL inputR k).dsp.m_delayL.m_writeIndex <
        (s.processStereo tanh inputL inputR k).dsp.m_delayL.m_buffer.length := by
      rw [h2, h3]
      exact Nat.mod_lt _ (by omega)
    rw [processStereo_succ]
    show (DeliVerbDSP.processStereoFrame tanh _ _ _).1.m_delayL.m_sampleRate = _ ∧
      (DeliVerbDSP.processStereoFrame tanh _ _ _).1.m_delayL.m_buffer.length = _ ∧
      (DeliVerbDSP.processStereoFrame tanh _ _ _).1.m_delayL.m_writeIndex = _
    rw [(processStereoFrame_writes tanh _ _ _).1, delayLine_write_eq _ _ hlt]
    refine ⟨h1, ?_, ?_⟩
    · simp only [List.length_set]
      exact h2
    · show ((s.processStereo tanh inputL inputR k).dsp.m_delayL.m_writeIndex + 1) %
        (s.processStereo tanh inputL inputR k).dsp.m_delayL.m_buffer.length = _
      rw [h2, h3, Nat.mod_add_mod, Nat.add_assoc]

/-- A constructed processor prepared at 48 kHz and given the delay time `50.000004f`,
after 2400 frames of silence: the delay time is kept, and the left main line runs at
48 kHz with 100804 samples and the write index 2400. -/
theorem read_processor (P : DeliVerbDSP ℝ)
    (hP : P = ((((DeliVerbDSP.init : DeliVerbDSP ℝ).setSampleRate
        ⟨Real.sin, Real.cos, Real.exp, Real.rpow, Real.sqrt, Real.pi⟩ 48000).setParameter
        ⟨Real.sin, Real.cos, Real.exp, Real.rpow, Real.sqrt, Real.pi⟩
        .kDelayTime (13107201 / 262144)).processStereo Real.tanh (fun _ => 0) (fun _ => 0)
        2400).dsp) :
    P.m_delayTime = 13107201 / 262144 ∧ P.m_delayL.m_sampleRate = 48000 ∧
    P.m_delayL.m_buffer.length = 100804 ∧ P.m_delayL.m_writeIndex = 2400 := by
  generalize hQ : (((DeliVerbDSP.init : DeliVerbDSP ℝ).setSampleRate
        ⟨Real.sin, Real.cos, Real.exp, Real.rpow, Real.sqrt, Real.pi⟩ 48000).setParameter
        ⟨Real.sin, Real.cos, Real.exp, Real.rpow, Real.sqrt, Real.pi⟩
        .kDelayTime (13107201 / 262144)) = Q at hP
  have hL : Q.m_delayL =
      ((DelayLine.init : DelayLine ℝ).setSampleRate 48000).setMaxDelayMs 2100 := by
    rw [← hQ, setParameter_delayL, (setSampleRate_delayLines _ _ _).1]
    rfl
  have hf : ⌊(48000 : ℝ) * 2100 / 1000⌋₊ = 100800 := by
    have : (48000 : ℝ) * 2100 / 1000 = ((100800 : ℕ) : ℝ) := by norm_num
    rw [this, Nat.floor_natCast]
  have hlen : Q.m_delayL.m_buffer.length = 100804 := by
    rw [hL, (delayLine_setMaxDelayMs_shape _ _).1]
    simp only [DelayLine.setSampleRate, hf]
  have hwi : Q.m_delayL.m_writeIndex = 0 := by
    rw [hL, (delayLine_setMaxDelayMs_shape _ _).2.1]
  have hrate : Q.m_delayL.m_sampleRate = 48000 := by
    rw [hL]
    rfl
  have htime : Q.m_delayTime = 13107201 / 262144 := by
    have := getParameter_setParameter
      ⟨Real.sin, Real.cos, Real.exp, Real.rpow, Real.sqrt, Real.pi⟩
      ((DeliVerbDSP.init : DeliVerbDSP ℝ).setSampleRate
        ⟨Real.sin, Real.cos, Real.exp, Real.rpow, Real.sqrt, Real.pi⟩ 48000)
      .kDelayTime .kDelayTime (13107201 / 262144)
    rw [hQ] at this
    simpa [DeliVerbDSP.getParameter] using this
  obtain ⟨h1, h2, h3⟩ := processStereo_delayL_shape Real.tanh Q (fun _ => 0) (fun _ => 0) 2400
    (by rw [hlen, hwi]; norm_num)
  have ht := (processStereo_keeps Real.tanh Q (fun _ => 0) (fun _ => 0) 2400).1 .kDelayTime
  simp only [DeliVerbDSP.getParameter] at ht
  rw [hP]
  refine ⟨by rw [ht, htime], by rw [h1, hrate], by rw [h2, hlen], ?_⟩
  rw [h3, hlen, hwi]

/-- C18, the failing input.  A constructed processor is prepared at 48 kHz, given the delay
time `50.000004f` (the `float` `50 + 2 ^ (-18)`) and renders 2400 frames of silence.  In the
next frame `m_delayL.read(m_delayTime)` computes in `float` arithmetic the read position
100804, the capacity, with `frac = 0` and `index1 = 0`: the code interpolates between the
slot past the end, with the weight 1, and slot 0, with the weight 0.  The read position of
the claim is `100804 - 3 / 16384`, inside `[0, cap)`, with the slots 100803 and 0 and
`frac = 16381 / 16384`. -/
theorem read_float_position_is_capacity :
    ((((DeliVerbDSP.init : DeliVerbDSP ℝ).setSampleRate
        ⟨Real.sin, Real.cos, Real.exp, Real.rpow, Real.sqrt, Real.pi⟩ 48000).setParameter
        ⟨Real.sin, Real.cos, Real.exp, Real.rpow, Real.sqrt, Real.pi⟩
        .kDelayTime (13107201 / 262144)).processStereo Real.tanh (fun _ => 0) (fun _ => 0)
        2400).dsp.m_delayL.m_buffer.length = 100804 ∧
    ∀ P : DeliVerbDSP ℝ,
      P = ((((DeliVerbDSP.init : DeliVerbDSP ℝ).setSampleRate
        ⟨Real.sin, Real.cos, Real.exp, Real.rpow, Real.sqrt, Real.pi⟩ 48000).setParameter
        ⟨Real.sin, Real.cos, Real.exp, Real.rpow, Real.sqrt, Real.pi⟩
        .kDelayTime (13107201 / 262144)).processStereo Real.tanh (fun _ => 0) (fun _ => 0)
        2400).dsp →
      (roundFloat P.m_delayTime = P.m_delayTime ∧
        P.m_delayL.readPosFloat (P.m_delayL.delaySamplesFloat P.m_delayTime) = 100804 ∧
        P.m_delayL.index0Float (P.m_delayL.delaySamplesFloat P.m_delayTime) = 100804 ∧
        P.m_delayL.index1Float (P.m_delayL.delaySamplesFloat P.m_delayTime) = 0 ∧
        P.m_delayL.fracFloat (P.m_delayL.delaySamplesFloat P.m_delayTime) = 0) ∧
      (P.m_delayL.specReadPos (P.m_delayTime * P.m_delayL.m_sampleRate / 1000) =
          100804 - 3 / 16384 ∧
        ⌊P.m_delayL.specReadPos (P.m_delayTime * P.m_delayL.m_sampleRate / 1000)⌋₊ = 100803 ∧
        (⌊P.m_delayL.specReadPos (P.m_delayTime * P.m_delayL.m_sampleRate / 1000)⌋₊ + 1) %
          P.m_delayL.m_buffer.length = 0 ∧
        P.m_delayL.specReadPos (P.m_delayTime * P.m_delayL.m_sampleRate / 1000) -
          (⌊P.m_delayL.specReadPos (P.m_delayTime * P.m_delayL.m_sampleRate / 1000)⌋₊ : ℝ) =
            16381 / 16384) := by
  refine ⟨(read_processor _ rfl).2.2.1, fun P hP => ?_⟩
  obtain ⟨ht, hsr, hl, hw⟩ := read_processor P hP
  clear hP
  have hspec : P.m_delayL.specReadPos (P.m_delayTime * P.m_delayL.m_sampleRate / 1000) =
      100804 - 3 / 16384 := by
    unfold DelayLine.specReadPos
    simp only [ht, hsr, hl, hw]
    norm_num
  have hfl : ⌊(100804 - 3 / 16384 : ℝ)⌋₊ = 100803 := by
    rw [Nat.floor_eq_iff (by norm_num)]
    constructor <;> norm_num
  rw [ht]
  refine ⟨⟨delay_arguments_float.1, read_indices_float _ hsr hl hw⟩, ?_⟩
  rw [← ht, hspec, hfl, hl]
  refine ⟨rfl, rfl, by norm_num, by norm_num⟩

end Properties

end DeliVerb
